import Mathlib

/-! Termio: a shallow embedding of `hnimtadd/termio` and its verified properties.

The development follows the Go sources package by package.  Machine integers
are natural numbers reduced modulo the word size at every operation that can
wrap; a Go panic (failed assertion, index out of range, nil dereference) is the
`none` of an `Option`.

* `terminal/utils/bits.go`   : `StaticBitSet`
* `terminal/set/set.go`      : `RefCountedSet`
* `terminal/stream/utf8.go`  : `UTF8Decoder`
* `terminal/parser/*.go`     : `Parser`
* `terminal/sgr/parser.go`   : `sgr.Parser`
* `terminal/tabstops`        : `tabstops.Tabstops`
* `terminal/core/mode.go`    : `core.ModeState`
* `terminal/page`, `terminal/pagelist`, `terminal/screen`, `terminal/terminal.go` :
  pages, pins, the page list, the screen and `terminal.Terminal`, over an
  explicit memory of cells, rows and list nodes (`Heap`); the outcome of a
  stateful call is a `Run` value
* `terminal/stream/stream.go` : `stream.Stream`, over a `stream.Handler` that
  tells which handler interfaces the handler object implements and what a
  call does to it
* `stream_handler.go`, `termio.go` : `termio.StreamHandler`, `termio.TerminalIO`
-/

namespace Termio

/-! ## Machine words -/

/-- Modulus of a Go `uint64`. -/
def word64 : Nat := 2 ^ 64

/-- Go `x << n` on `uint64` (the count is non-negative here). -/
def shl64 (x n : Nat) : Nat := (x <<< n) % word64

/-- Go `x - y` on `uint64`, wrapping. -/
def sub64 (x y : Nat) : Nat := (x + word64 - y % word64) % word64

/-- Go `^x` on `uint64`. -/
def not64 (x : Nat) : Nat := word64 - 1 - x % word64

/-- Go `bits.OnesCount64`: the number of one bits among the low 64 bits. -/
def OnesCount64 (x : Nat) : Nat :=
  ((List.range 64).filter (fun i => x.testBit i)).length

/-! ## terminal/utils/bits.go -/

/-- Number of bits in a `uint64`. -/
def bitSetSize : Int := 64

/-- The `StaticBitSet` struct.  `size` and `sliceSize` are lengths, hence
natural numbers; bit indices are Go `int`s. -/
structure StaticBitSet where
  bits : List Nat
  size : Nat
  sliceSize : Nat
  deriving DecidableEq, Repr

namespace StaticBitSet

/-- The method `init`: `sliceSize = (size + 63) / 64`, `bits` all zero. -/
def init (s : StaticBitSet) : StaticBitSet :=
  { s with sliceSize := (s.size + 63) / 64,
           bits := List.replicate ((s.size + 63) / 64) 0 }

/-- The method `addr`: Go `/` and `%` truncate toward zero. -/
def addr (idx : Int) : Int × Int := (Int.tdiv idx bitSetSize, Int.tmod idx bitSetSize)

/-- Read `bits[i]`; out of range is a panic. -/
def word (s : StaticBitSet) (i : Int) : Option Nat :=
  if i < 0 then none else s.bits[i.toNat]?

/-- Write `bits[i] = w`; out of range is a panic. -/
def setWord (s : StaticBitSet) (i : Int) (w : Nat) : Option StaticBitSet :=
  if i < 0 then none
  else if i.toNat < s.bits.length then some { s with bits := s.bits.set i.toNat w }
  else none

/-- Go shift `1 << off` on `uint64`; a negative count panics. -/
def oneShl (off : Int) : Option Nat :=
  if off < 0 then none else some (shl64 1 off.toNat)

end StaticBitSet

/-- The function `NewStaticBitSet`. -/
def NewStaticBitSet (size : Nat) : StaticBitSet :=
  StaticBitSet.init { bits := [], size := size, sliceSize := 0 }

/-- The function `NewStaticBitSetFull`. -/
def NewStaticBitSetFull (size : Nat) : StaticBitSet :=
  let s := StaticBitSet.init { bits := [], size := size, sliceSize := 0 }
  { s with bits := s.bits.map (fun _ => not64 0) }

namespace StaticBitSet

/-- The method `Clear`. -/
def Clear (s : StaticBitSet) : StaticBitSet := s.init

/-- The method `Set`. -/
def Set (s : StaticBitSet) (idx : Int) : Option StaticBitSet :=
  if ¬ (idx ≥ 0 ∧ idx < s.size) then none
  else
    let (i, offset) := addr idx
    do
      let w ← s.word i
      let m ← oneShl offset
      s.setWord i (w ||| m)

/-- The method `Unset`. -/
def Unset (s : StaticBitSet) (idx : Int) : Option StaticBitSet :=
  if ¬ (idx ≥ 0 ∧ idx < s.size) then none
  else
    let (i, offset) := addr idx
    do
      let w ← s.word i
      let m ← oneShl offset
      s.setWord i (w &&& not64 m)

/-- The method `IsSet`. -/
def IsSet (s : StaticBitSet) (idx : Int) : Option Bool :=
  if ¬ (idx ≥ 0 ∧ idx < s.size) then none
  else
    let (i, offset) := addr idx
    do
      let w ← s.word i
      let m ← oneShl offset
      pure (decide (w &&& m ≠ 0))

/-- The loop `for i := startAddr + 1; i < endAddr; i++ { bits[i] = ^uint64(0) }`. -/
def fillBetween (s : StaticBitSet) (startAddr endAddr : Int) : Option StaticBitSet :=
  (List.range (endAddr - (startAddr + 1)).toNat).foldlM
    (fun acc k => acc.setWord (startAddr + 1 + (k : Int)) (not64 0)) s

/-- The method `SetRange`, statement by statement. -/
def SetRange (s : StaticBitSet) (start endIdx : Int) : Option StaticBitSet :=
  if ¬ (0 ≤ start) then none
  else if ¬ (start ≤ endIdx) then none
  else if ¬ (endIdx ≤ s.size) then none
  else
    let (startAddr, startOffset) := addr start
    let (endAddr, endOffset) := addr (endIdx - 1)
    if startAddr = endAddr then do
      let mask1 := sub64 (← oneShl startOffset) 1
      let mask2 := not64 (sub64 (← oneShl (endOffset + 1)) 1)
      let w ← s.word startAddr
      let s1 ← s.setWord startAddr (w &&& not64 (mask1 &&& mask2))
      let w1 ← s1.word startAddr
      s1.setWord startAddr (w1 ||| (mask1 &&& mask2))
    else do
      let mask1 := sub64 (← oneShl startOffset) 1
      let w ← s.word startAddr
      let s1 ← s.setWord startAddr (w ||| not64 mask1)
      let mask2 := not64 (sub64 (← oneShl (endOffset + 1)) 1)
      let w1 ← s1.word endAddr
      let s2 ← s1.setWord endAddr (w1 ||| mask2)
      s2.fillBetween startAddr endAddr

/-- The method `Count`. -/
def Count (s : StaticBitSet) : Option Nat :=
  (List.range s.sliceSize).foldlM
    (fun total i => (s.bits[i]?).map (fun w => total + OnesCount64 w)) 0

end StaticBitSet


/-! ## terminal/set/set.go -/

/-- The interface `Hashable`: the methods `Hash` (a `uint64`) and `Equals`.
The method `Delete` is never called by the set. -/
class Hashable (α : Type) where
  Hash : α → Nat
  Equals : α → α → Bool

/-- The type `ID` (`uint64`). -/
abbrev ID : Type := Nat

/-- The struct `metadata`. -/
structure metadata where
  bucketID : Nat
  psl : Nat
  ref : Int
  deriving DecidableEq, Repr

/-- The struct `elem`; `data` is `none` for the nil interface of `elem{}`. -/
structure elem (α : Type) where
  data : Option α
  meta : metadata
  deriving DecidableEq, Repr

/-- The struct `RefCountedSet`.  `items` is a slice of pointers (`none` is the
nil pointer; every non-nil pointer is stored in one slot only, since the only
pointer written to a slot is the freshly allocated `newItem`).  `table` is the
Go map: a key that was never written reads as 0. -/
structure RefCountedSet (α : Type) where
  items : List (Option (elem α))
  table : Nat → ID
  maxPSL : Nat
  pslStats : List Int
  nextID : ID
  living : Int

/-- The function `NewRefCountedSet`, with `cap` the resolved capacity
(1000 when `opts.Cap` is nil). -/
def NewRefCountedSet (α : Type) (cap : Nat) : RefCountedSet α :=
  { items := List.replicate cap none,
    table := fun _ => 0,
    pslStats := List.replicate 32 0,
    maxPSL := 0,
    nextID := 1,
    living := 0 }

namespace RefCountedSet

variable {α : Type}

/-- Dereference `items[id]`: out of range and nil are panics. -/
def item (s : RefCountedSet α) (id : ID) : Option (elem α) :=
  (s.items[id]?).join

/-- Write through the pointer `items[id]`. -/
def setItem (s : RefCountedSet α) (id : ID) (e : elem α) : RefCountedSet α :=
  { s with items := s.items.set id (some e) }

/-- Assignment `table[p] = id`. -/
def setTable (s : RefCountedSet α) (p : Nat) (id : ID) : RefCountedSet α :=
  { s with table := Function.update s.table p id }

/-- Statement `s.pslStats[k] += d`; out of range is a panic. -/
def addStat (s : RefCountedSet α) (k : Nat) (d : Int) : Option (RefCountedSet α) :=
  (s.pslStats[k]?).map (fun v => { s with pslStats := s.pslStats.set k (v + d) })

/-- Probe position `(hash + i) % len(items)` in `uint64`; a zero length panics. -/
def probe (s : RefCountedSet α) (hash i : Nat) : Option Nat :=
  if s.items.length = 0 then none else some (((hash + i) % word64) % s.items.length)

/-- The loop of `Lookup`, from probe distance `i` with `fuel` iterations left
(`fuel = maxPSL + 1 - i`); result `(id, found)`. -/
def lookupLoop [Hashable α] (s : RefCountedSet α) (val : α) :
    Nat → Nat → Option (ID × Bool)
  | 0, _ => some (0, false)
  | fuel + 1, i => do
    let p ← s.probe (Hashable.Hash val) i
    let id := s.table p
    if id = 0 then pure (0, false)
    else
      let it ← s.item id
      if it.meta.psl < i then pure (0, false)
      else if it.meta.ref = 0 then lookupLoop s val fuel (i + 1)
      else if it.meta.psl = i then do
        let d ← it.data
        if Hashable.Equals d val then pure (id, true)
        else lookupLoop s val fuel (i + 1)
      else lookupLoop s val fuel (i + 1)

/-- The method `Lookup`. -/
def Lookup [Hashable α] (s : RefCountedSet α) (val : α) : Option (ID × Bool) :=
  lookupLoop s val (s.maxPSL + 1) 0

/-- Local variables of `Insert` while its loop runs.  `heldItem` is the pointer
`newItem` when `heldIsNew`, and the pointer `items[heldID]` otherwise. -/
structure InsertState (α : Type) where
  s : RefCountedSet α
  newItem : elem α
  heldID : Nat
  heldIsNew : Bool
  chosenID : Nat

namespace InsertState

/-- Read `*heldItem`. -/
def held (st : InsertState α) : Option (elem α) :=
  if st.heldIsNew then some st.newItem else st.s.item st.heldID

/-- Write `heldItem.meta = m`. -/
def setHeldMeta (st : InsertState α) (m : metadata) : Option (InsertState α) :=
  if st.heldIsNew then some { st with newItem := { st.newItem with meta := m } }
  else (st.s.item st.heldID).map
    (fun e => { st with s := st.s.setItem st.heldID { e with meta := m } })

end InsertState

/-- The loop of `Insert` (`for i := 0; i <= cap(items); i++`), from index `i`
with `fuel` iterations left. -/
def insertLoop (newID hash : Nat) :
    Nat → Nat → InsertState α → Option (InsertState α)
  | 0, _, st => some st
  | fuel + 1, i, st => do
    let p ← st.s.probe hash i
    let id := st.s.table p
    if id = 0 then
      -- empty bucket
      let st := { st with s := st.s.setTable p st.heldID }
      let h ← st.held
      let st ← st.setHeldMeta { h.meta with bucketID := p, psl := i }
      let s ← st.s.addStat i 1
      pure { st with s := { s with maxPSL := max s.maxPSL i } }
    else
      let it ← st.s.item id
      if it.meta.ref = 0 then
        -- reap the dead item
        let s ← st.s.addStat it.meta.psl (-1)
        let s := s.setItem id { data := none, meta := { bucketID := 0, psl := 0, ref := 0 } }
        let st := { st with s := s }
        let st := if id < newID then { st with chosenID := id } else st
        let st := { st with s := st.s.setTable p st.heldID }
        let h ← st.held
        let st ← st.setHeldMeta { h.meta with bucketID := p }
        let h ← st.held
        let s ← st.s.addStat h.meta.psl 1
        pure { st with s := { s with maxPSL := max s.maxPSL h.meta.psl } }
      else do
        let h ← st.held
        let st ←
          if it.meta.psl < h.meta.psl ∨ (it.meta.psl = h.meta.psl ∧ it.meta.ref < h.meta.ref) then do
            let s := st.s.setTable p st.heldID
            let s ← s.addStat h.meta.psl 1
            let s := { s with maxPSL := max s.maxPSL h.meta.psl }
            let s ← s.addStat it.meta.psl (-1)
            pure { st with s := s, heldID := id, heldIsNew := false }
          else pure st
        let h ← st.held
        let st ← st.setHeldMeta { h.meta with psl := h.meta.psl + 1 }
        insertLoop newID hash fuel (i + 1) st

/-- The method `Insert`. -/
def Insert [Hashable α] (s : RefCountedSet α) (newID : Nat) (value : α) :
    Option (RefCountedSet α × ID) := do
  let (_, found) ← s.Lookup value
  if found then none
  else
    let st : InsertState α :=
      { s := s,
        newItem := { data := some value, meta := { bucketID := 0, psl := 0, ref := 0 } },
        heldID := newID, heldIsNew := true, chosenID := newID }
    let st ← insertLoop newID (Hashable.Hash value) (s.items.length + 1) 0 st
    let s := st.s.setTable st.newItem.meta.bucketID st.chosenID
    if st.chosenID < s.items.length then
      pure (s.setItem st.chosenID st.newItem, st.chosenID)
    else none

/-- The back-shift loop of `DeleteItem`
(`for table[next] != 0 && items[table[next]].meta.psl > 0`).  Every iteration
lowers the `psl` of one stored item by one, so `fuel` = 1 + the sum of all
`psl` is never exhausted. -/
def shiftLoop : Nat → Nat → Nat → RefCountedSet α → Option (RefCountedSet α × Nat)
  | 0, _, _, _ => none
  | fuel + 1, prev, next, s =>
    if s.table next = 0 then some (s, prev)
    else do
      let it ← s.item (s.table next)
      if it.meta.psl > 0 then
        let s := s.setItem (s.table next)
          { it with meta := { it.meta with bucketID := prev, psl := it.meta.psl - 1 } }
        let s := s.setTable prev (s.table next)
        if s.items.length = 0 then none
        else shiftLoop fuel next (((next + 1) % word64) % s.items.length) s
      else some (s, prev)

/-- The loop `for s.maxPSL > 0 && s.pslStats[s.maxPSL] == 0 { s.maxPSL-- }`. -/
def shrinkLoop : Nat → RefCountedSet α → Option (RefCountedSet α)
  | 0, s => some s
  | fuel + 1, s =>
    if s.maxPSL > 0 then do
      let v ← s.pslStats[s.maxPSL]?
      if v = 0 then shrinkLoop fuel { s with maxPSL := s.maxPSL - 1 } else pure s
    else some s

/-- Sum of the `psl` fields of the stored items. -/
def pslSum (s : RefCountedSet α) : Nat :=
  (s.items.map (fun o => match o with | some e => e.meta.psl | none => 0)).sum

/-- The method `DeleteItem`. -/
def DeleteItem (s : RefCountedSet α) (id : ID) : Option (RefCountedSet α) := do
  let it ← s.item id
  if s.table it.meta.bucketID ≠ id then none
  else
    let s ← s.addStat it.meta.psl (-1)
    let s := s.setTable it.meta.bucketID 0
    let s := { s with items := s.items.set id none }
    let prev := it.meta.bucketID
    if s.items.length = 0 then none
    else
      let next := ((prev + 1) % word64) % s.items.length
      let (s, prev) ← shiftLoop (s.pslSum + 1) prev next s
      let s ← shrinkLoop s.maxPSL s
      let s := s.setTable prev 0
      pure (if it.meta.ref > 0 then { s with living := s.living - 1 } else s)

/-- The loop `checkLoop` of `Add`, trimming dead items from the end of the
list; `nextID` decreases at every iteration. -/
def trimLoop : Nat → RefCountedSet α → Option (RefCountedSet α)
  | 0, s => some s
  | fuel + 1, s =>
    if s.nextID > 1 then
      match s.items[s.nextID - 1]? with
      | none => none
      | some none => some s
      | some (some prev) =>
        if prev.meta.ref = 0 then do
          let s := { s with nextID := s.nextID - 1 }
          let s ← s.DeleteItem s.nextID
          trimLoop fuel s
        else some s
    else some s

/-- The method `Add`. -/
def Add [Hashable α] (s : RefCountedSet α) (value : α) : Option (RefCountedSet α × ID) := do
  let s ← trimLoop s.nextID s
  let (id, found) ← s.Lookup value
  if found then
    let it ← s.item id
    pure (s.setItem id { it with meta := { it.meta with ref := it.meta.ref + 1 } }, id)
  else
    let (s, id) ← s.Insert s.nextID value
    let it ← s.item id
    let s := s.setItem id { it with meta := { it.meta with ref := it.meta.ref + 1 } }
    if it.meta.ref + 1 ≠ 1 then none
    else
      let s := { s with living := s.living + 1 }
      pure (if id = s.nextID then { s with nextID := s.nextID + 1 } else s, id)

/-- The method `Release`. -/
def Release (s : RefCountedSet α) (id : ID) : Option (RefCountedSet α) :=
  if ¬ (id > 0) then none
  else do
    let it ← s.item id
    if ¬ (it.meta.ref > 0) then none
    else
      let s := s.setItem id { it with meta := { it.meta with ref := it.meta.ref - 1 } }
      pure (if it.meta.ref - 1 = 0 then { s with living := s.living - 1 } else s)

/-- The method `Use`. -/
def Use (s : RefCountedSet α) (id : ID) : Option (RefCountedSet α) :=
  if ¬ (id > 0) then none
  else do
    let it ← s.item id
    if ¬ (it.meta.ref > 0) then none
    else pure (s.setItem id { it with meta := { it.meta with ref := it.meta.ref + 1 } })

/-- The method `Count`. -/
def Count (s : RefCountedSet α) : Int := s.living

end RefCountedSet

/-- The test value type `TestSetHashable` of `set_test.go`: `Hash()` is `val`,
`Equals` compares `val`. -/
structure TestSetHashable where
  val : Nat
  deriving DecidableEq, Repr

instance : Hashable TestSetHashable where
  Hash t := t.val
  Equals t o := decide (o.val = t.val)

/-- The test helper `newTestHashable`. -/
def newTestHashable (val : Nat) : TestSetHashable := { val := val }

/-- Run a sequence of `Add` calls, collecting the returned ids. -/
def addAll {α : Type} [Hashable α] :
    RefCountedSet α → List α → Option (RefCountedSet α × List ID)
  | s, [] => some (s, [])
  | s, v :: vs => do
    let (s, id) ← s.Add v
    let (s, ids) ← addAll s vs
    pure (s, id :: ids)

/-- A set of capacity 8 after `Add` of the values 8, 1, 2, 9 (hashes 0, 1, 2, 1
modulo 8), with the ids returned. -/
def setAfterCollidingAdds : Option (RefCountedSet TestSetHashable × List ID) :=
  addAll (NewRefCountedSet TestSetHashable 8)
    [newTestHashable 8, newTestHashable 1, newTestHashable 2, newTestHashable 9]

/-- A set of capacity 8 after `Add` of the values 1, 2, 3, 4 (ids 1 to 4) and
`Release(3)`: four of eight slots used, id 3 dead. -/
def setWithDeadItem : Option (RefCountedSet TestSetHashable) := do
  let (s, _) ← addAll (NewRefCountedSet TestSetHashable 8)
    [newTestHashable 1, newTestHashable 2, newTestHashable 3, newTestHashable 4]
  s.Release 3

/-! ## terminal/stream/utf8.go -/

/-- Modulus of a Go `uint32`. -/
def word32 : Nat := 2 ^ 32

/-- The struct `UTF8Decoder` (`state : uint8`, `accumulator : uint32`). -/
structure UTF8Decoder where
  state : Nat
  accumulator : Nat
  deriving DecidableEq, Repr

/-- The constant `stateUTF8Accept`. -/
def stateUTF8Accept : Nat := 0

/-- The constant `stateUTF8Reject`. -/
def stateUTF8Reject : Nat := 12

/-- The function `NewUTF8Decoder`. -/
def NewUTF8Decoder : UTF8Decoder := { state := stateUTF8Accept, accumulator := 0 }

/-- The table `utf8d`: 256 character classes, then the 108 transition entries. -/
def utf8d : List Nat :=
  -- character classes of the bytes 0x00..0x7F: four source rows of 32 zeros
  List.replicate 128 0 ++
  -- 0x80..0x9F: sixteen 1, sixteen 9
  List.replicate 16 1 ++ List.replicate 16 9 ++
  -- 0xA0..0xBF: thirty-two 7
  List.replicate 32 7 ++
  -- 0xC0..0xDF: 8, 8, then thirty 2
  [8, 8] ++ List.replicate 30 2 ++
  -- 0xE0..0xFF
  [10, 3, 3, 3, 3, 3, 3, 3, 3, 3, 3, 3, 3, 4, 3, 3, 11, 6, 6, 6, 5] ++ List.replicate 11 8 ++
  -- transitions, as in the source
  [0, 12, 24, 36, 60, 96, 84, 12, 12, 12, 48, 72, 12, 12, 12, 12, 12, 12, 12, 12, 12, 12, 12, 12,
   12, 0, 12, 12, 12, 12, 12, 0, 12, 0, 12, 12, 12, 24, 12, 12, 12, 12, 12, 24, 12, 24, 12, 12,
   12, 12, 12, 12, 12, 12, 12, 24, 12, 12, 12, 12, 12, 24, 12, 12, 12, 12, 12, 12, 12, 24, 12, 12,
   12, 12, 12, 12, 12, 12, 12, 36, 12, 36, 12, 12, 12, 36, 12, 12, 12, 12, 12, 36, 12, 36, 12, 12,
   12, 36, 12, 12, 12, 12, 12, 12, 12, 12, 12, 12]

/-- The constant `ansi.C0.ESC`. -/
def C0_ESC : Nat := 0x1b

/-- The constant `ansi.C0.SI`. -/
def C0_SI : Nat := 0x0F

/-- Result of `Next`: `(cp, generated, consumed)`. -/
abbrev NextResult : Type := Nat × Bool × Bool

namespace UTF8Decoder

/-- The method `Next` for a byte `c`.  An index outside `utf8d` is a panic. -/
def Next (d : UTF8Decoder) (c : Nat) : Option (UTF8Decoder × NextResult) := do
  let typ ← utf8d.get? c
  let initial := d.state
  let acc :=
    if d.state ≠ stateUTF8Accept then
      ((d.accumulator <<< 6) % word32) ||| (c &&& 0x3F)
    else
      (0xFF >>> typ) &&& c
  let state ← utf8d.get? (256 + d.state + typ)
  if state = stateUTF8Accept then
    pure ({ state := state, accumulator := 0 }, (acc, true, true))
  else if state = stateUTF8Reject then
    pure ({ state := stateUTF8Accept, accumulator := 0 },
          (0xFFFD, true, decide (initial = stateUTF8Accept)))
  else
    pure ({ state := state, accumulator := acc }, (0, false, true))

/-- Feed the bytes one by one to `Next`, as the test loops do for bytes that
are consumed at once, keeping every result. -/
def feed : UTF8Decoder → List Nat → Option (UTF8Decoder × List NextResult)
  | d, [] => some (d, [])
  | d, c :: cs => do
    let (d, r) ← d.Next c
    let (d, rs) ← feed d cs
    pure (d, r :: rs)

/-- The method `DecodeUntilControlSeq`: the loop over `input`, with the
decoder, the buffer and the two counters as loop state. -/
def decodeLoop : List Nat → UTF8Decoder → List Nat → Nat → Nat →
    Option (UTF8Decoder × List Nat × Nat × Nat)
  | [], d, cpBuf, decoded, consumed => some (d, cpBuf, decoded, consumed)
  | c :: cs, d, cpBuf, decoded, consumed =>
    if c = C0_ESC then some (d, cpBuf, decoded, consumed)
    else do
      let (d, cp, generated, isConsumed) ← d.Next c
      let (cpBuf, decoded) ←
        if generated then
          (if decoded < cpBuf.length then some (cpBuf.set decoded cp, decoded + 1) else none)
        else some (cpBuf, decoded)
      if ¬ isConsumed then decodeLoop cs d cpBuf decoded consumed
      else decodeLoop cs d cpBuf decoded (consumed + 1)

/-- The method `DecodeUntilControlSeq`; the result carries the decoder and the
buffer after the call with `(decoded, consumed)`. -/
def DecodeUntilControlSeq (d : UTF8Decoder) (input : List Nat) (cpBuf : List Nat) :
    Option (UTF8Decoder × List Nat × Nat × Nat) :=
  decodeLoop input d cpBuf 0 0

/-- The decoder part of `Stream.nextUtf8`: call `Next`, and when the byte was
not consumed call `Next` again with the same byte (asserting that it is then
consumed).  Returns the codepoints handed to `handleCodepoint`. -/
def nextUtf8 (d : UTF8Decoder) (c : Nat) : Option (UTF8Decoder × List Nat) := do
  let (d, cp, generated, consumed) ← d.Next c
  let out := if generated then [cp] else []
  if ¬ consumed then
    let (d, cp, generated, consumed) ← d.Next c
    if ¬ consumed then none
    else pure (d, out ++ (if generated then [cp] else []))
  else pure (d, out)

/-- Scalar decoding of a byte slice: `nextUtf8` on every byte in turn.  Returns
the codepoints produced and the number of input bytes consumed. -/
def scalarDecode : UTF8Decoder → List Nat → Option (UTF8Decoder × List Nat × Nat)
  | d, [] => some (d, [], 0)
  | d, c :: cs => do
    let (d, out) ← nextUtf8 d c
    let (d, outs, n) ← scalarDecode d cs
    pure (d, out ++ outs, n + 1)

end UTF8Decoder

/-- The UTF-8 encoding of a scalar value (RFC 3629, as Go's `[]byte(string(c))`). -/
def utf8Encode (c : Nat) : List Nat :=
  if c < 0x80 then [c]
  else if c < 0x800 then [0xC0 + c / 64, 0x80 + c % 64]
  else if c < 0x10000 then [0xE0 + c / 4096, 0x80 + c / 64 % 64, 0x80 + c % 64]
  else [0xF0 + c / 262144, 0x80 + c / 4096 % 64, 0x80 + c / 64 % 64, 0x80 + c % 64]

/-- Unicode scalar values: U+0000..U+10FFFF without the surrogates. -/
def isScalarValue (c : Nat) : Prop := c < 0xD800 ∨ (0xE000 ≤ c ∧ c ≤ 0x10FFFF)

/-! ## terminal/utils/math.go -/

/-- The function `AddWithOverflow`. -/
def AddWithOverflow (a b : Int) : Int × Bool :=
  if (a > 0 ∧ b > 0 ∧ a > (1 <<< 16 : Nat) - 1 - b) ∨
     (a < 0 ∧ b < 0 ∧ a < -((1 <<< 16 : Nat) : Int) - b) then (0, true)
  else (a + b, false)

/-! ## terminal/parser/state.go, action.go, table.go -/

/-- The type `State` of the parser state machine. -/
inductive State where
  | StateGround
  | StateEscape
  | StateEscapeIntermediate
  | StateCSIEntry
  | StateCSIParam
  | StateCSIIntermediate
  | StateCsiIgnore
  | StateDCSEntry
  | StateDCSParam
  | StateDCSIntermediate
  | StateDCSPassthrough
  | StateDCSIgnore
  | StateOSCString
  | StateSosPmApcString
  deriving DecidableEq, Repr

/-- The type `ActionType`. -/
inductive ActionType where
  | ActionNone
  | ActionIgnore
  | ActionPrint
  | ActionExecute
  | ActionCollect
  | ActionParam
  | ActionESCDispatch
  | ActionCSIDispatch
  | ActionDCSHook
  | ActionDCSPut
  | ActionDCSUnHook
  | ActionOSCStart
  | ActionOSCPut
  | ActionOSCEnd
  deriving DecidableEq, Repr

open State ActionType

/-- The struct `Transition`. -/
structure Transition where
  state : State
  action : ActionType
  deriving DecidableEq, Repr

/-- The function `transition`. -/
def transition (state : State) (action : ActionType) : Transition :=
  { state := state, action := action }

/-- One call of `addRange(from, to, s0, s1, a)` made by `newParserTable`. -/
structure TableCall where
  lo : Nat
  hi : Nat
  s0 : State
  s1 : State
  a : ActionType
  deriving DecidableEq, Repr

/-- The method `addRange` as a recorded call. -/
def addRange (lo hi : Nat) (s0 s1 : State) (a : ActionType) : TableCall :=
  { lo := lo, hi := hi, s0 := s0, s1 := s1, a := a }

/-- The method `addSingle` as a recorded call: the range of one byte. -/
def addSingle (c : Nat) (s0 s1 : State) (a : ActionType) : TableCall :=
  { lo := c, hi := c, s0 := s0, s1 := s1, a := a }

/-- Bytes written by the loop of `addRange`: `from..to` when `from <= to`; when
`from > to` the `uint8` counter wraps and the loop writes `0..to`. -/
def TableCall.writes (r : TableCall) (c : Nat) (s : State) : Bool :=
  decide (r.s0 = s) && (if r.lo ≤ r.hi then decide (r.lo ≤ c) && decide (c ≤ r.hi)
                        else decide (c ≤ r.hi))

/-- The slice `anywhere` of `newParserTable`. -/
def anywhere : List State :=
  [StateGround, StateCSIEntry, StateCSIParam, StateCSIIntermediate, StateCsiIgnore,
   StateDCSEntry, StateDCSParam, StateDCSIntermediate, StateDCSPassthrough, StateDCSIgnore,
   StateOSCString, StateSosPmApcString]

/-- The body of the loop over `anywhere`. -/
def anywhereCalls (source : State) : List TableCall :=
  [ addSingle 0x18 source StateGround ActionExecute,
    addSingle 0x1A source StateGround ActionExecute,
    addRange 0x80 0x8F source StateGround ActionExecute,
    addRange 0x91 0x97 source StateGround ActionExecute,
    addSingle 0x99 source StateGround ActionExecute,
    addSingle 0x9A source StateGround ActionExecute,
    addSingle 0x9C source StateGround ActionNone,
    addSingle 0x98 source StateSosPmApcString ActionNone,
    addSingle 0x9E source StateSosPmApcString ActionNone,
    addSingle 0x9F source StateSosPmApcString ActionNone,
    addSingle 0x1B source StateEscape ActionNone,
    addSingle 0x90 source StateDCSEntry ActionNone,
    addSingle 0x9D source StateOSCString ActionNone,
    addSingle 0x9B source StateCSIEntry ActionNone ]

/-- The calls made by `newParserTable` after the loop over `anywhere`, in
source order. -/
def stateCalls : List TableCall :=
  -- ground
  [ addRange 0x00 0x17 StateGround StateGround ActionExecute,
    addSingle 0x19 StateGround StateGround ActionExecute,
    addRange 0x1C 0x1F StateGround StateGround ActionExecute,
    addRange 0x20 0x7F StateGround StateGround ActionPrint,
  -- escapeIntermediate
    addRange 0x30 0x7E StateEscapeIntermediate StateGround ActionESCDispatch,
    addRange 0x00 0x17 StateEscapeIntermediate StateEscapeIntermediate ActionExecute,
    addSingle 0x19 StateEscapeIntermediate StateEscapeIntermediate ActionExecute,
    addRange 0x1C 0x1F StateEscapeIntermediate StateEscapeIntermediate ActionExecute,
    addRange 0x20 0x2F StateEscapeIntermediate StateEscapeIntermediate ActionCollect,
    addSingle 0x7F StateEscapeIntermediate StateEscapeIntermediate ActionIgnore,
  -- sosPmApcString
    addSingle 0x9C StateSosPmApcString StateGround ActionNone,
    addRange 0x00 0x17 StateSosPmApcString StateSosPmApcString ActionIgnore,
    addSingle 0x19 StateSosPmApcString StateSosPmApcString ActionIgnore,
    addRange 0x1C 0x1F StateSosPmApcString StateSosPmApcString ActionIgnore,
    addRange 0x20 0x7F StateSosPmApcString StateSosPmApcString ActionIgnore,
  -- escape
    addRange 0x30 0x4F StateEscape StateGround ActionESCDispatch,
    addRange 0x51 0x57 StateEscape StateGround ActionESCDispatch,
    addSingle 0x59 StateEscape StateGround ActionESCDispatch,
    addSingle 0x5A StateEscape StateGround ActionESCDispatch,
    addSingle 0x5C StateEscape StateGround ActionESCDispatch,
    addRange 0x60 0x7E StateEscape StateGround ActionESCDispatch,
    addRange 0x20 0x2F StateEscape StateEscapeIntermediate ActionCollect,
    addSingle 0x58 StateEscape StateSosPmApcString ActionNone,
    addSingle 0x5E StateEscape StateSosPmApcString ActionNone,
    addSingle 0x5F StateEscape StateSosPmApcString ActionNone,
    addSingle 0x50 StateEscape StateDCSEntry ActionNone,
    addSingle 0x5D StateEscape StateOSCString ActionNone,
    addSingle 0x5B StateEscape StateCSIEntry ActionNone,
    addRange 0x00 0x17 StateEscape StateEscape ActionExecute,
    addSingle 0x19 StateEscape StateEscape ActionExecute,
    addRange 0x1C 0x1F StateEscape StateEscape ActionExecute,
    addSingle 0x7F StateEscape StateEscape ActionIgnore,
  -- dcsEntry
    addRange 0x20 0x2F StateDCSEntry StateDCSIntermediate ActionCollect,
    addSingle 0x3A StateDCSEntry StateDCSIgnore ActionNone,
    addRange 0x30 0x39 StateDCSEntry StateDCSParam ActionParam,
    addSingle 0x3B StateDCSEntry StateDCSParam ActionParam,
    addRange 0x3C 0x3F StateDCSEntry StateDCSParam ActionCollect,
    addRange 0x40 0x7E StateDCSEntry StateDCSPassthrough ActionNone,
    addRange 0x00 0x17 StateDCSEntry StateDCSEntry ActionIgnore,
    addSingle 0x19 StateDCSEntry StateDCSEntry ActionIgnore,
    addRange 0x1C 0x1F StateDCSEntry StateDCSEntry ActionIgnore,
    addSingle 0x7F StateDCSEntry StateDCSEntry ActionIgnore,
  -- dcsIntermediate
    addRange 0x30 0x3F StateDCSIntermediate StateDCSIgnore ActionNone,
    addRange 0x40 0x7E StateDCSIntermediate StateDCSPassthrough ActionNone,
    addRange 0x00 0x17 StateDCSIntermediate StateDCSIntermediate ActionIgnore,
    addSingle 0x19 StateDCSIntermediate StateDCSIntermediate ActionIgnore,
    addRange 0x1C 0x1F StateDCSIntermediate StateDCSIntermediate ActionIgnore,
    addRange 0x20 0x2F StateDCSIntermediate StateDCSIntermediate ActionCollect,
    addSingle 0x7F StateDCSIntermediate StateDCSIntermediate ActionIgnore,
  -- csiParam
    addRange 0x40 0x7E StateCSIParam StateGround ActionCSIDispatch,
    addSingle 0x3A StateCSIParam StateCsiIgnore ActionNone,
    addRange 0x3C 0x3F StateCSIParam StateCsiIgnore ActionNone,
    addRange 0x20 0x2F StateCSIParam StateCSIIntermediate ActionCollect,
    addRange 0x00 0x17 StateCSIParam StateCSIParam ActionExecute,
    addSingle 0x19 StateCSIParam StateCSIParam ActionExecute,
    addRange 0x1C 0x1F StateCSIParam StateCSIParam ActionExecute,
    addRange 0x30 0x39 StateCSIParam StateCSIParam ActionParam,
    addSingle 0x3B StateCSIParam StateCSIParam ActionParam,
    addSingle 0x7F StateCSIParam StateCSIParam ActionIgnore,
  -- dcsIgnore
    addSingle 0x9C StateDCSIgnore StateGround ActionNone,
    addRange 0x00 0x17 StateDCSIgnore StateDCSIgnore ActionIgnore,
    addSingle 0x19 StateDCSIgnore StateDCSIgnore ActionIgnore,
    addRange 0x1C 0x1F StateDCSIgnore StateDCSIgnore ActionIgnore,
    addRange 0x20 0x7F StateDCSIgnore StateDCSIgnore ActionIgnore,
  -- csiIgnore
    addRange 0x40 0x7E StateCsiIgnore StateGround ActionNone,
    addRange 0x00 0x17 StateCsiIgnore StateCsiIgnore ActionExecute,
    addSingle 0x19 StateCsiIgnore StateCsiIgnore ActionExecute,
    addRange 0x1C 0x1F StateCsiIgnore StateCsiIgnore ActionExecute,
    addRange 0x20 0x3F StateCsiIgnore StateCsiIgnore ActionIgnore,
    addSingle 0x7F StateCsiIgnore StateCsiIgnore ActionIgnore,
  -- oscString
    addSingle 0x9C StateOSCString StateGround ActionNone,
    addRange 0x00 0x17 StateOSCString StateOSCString ActionIgnore,
    addSingle 0x19 StateOSCString StateOSCString ActionIgnore,
    addRange 0x1C 0x1F StateOSCString StateOSCString ActionIgnore,
    addRange 0x20 0x7F StateOSCString StateOSCString ActionOSCPut,
  -- dcsParam
    addRange 0x20 0x2F StateDCSParam StateDCSIntermediate ActionCollect,
    addSingle 0x3A StateDCSParam StateDCSIgnore ActionNone,
    addRange 0x3C 0x3F StateDCSParam StateDCSIgnore ActionNone,
    addRange 0x40 0x7E StateDCSParam StateDCSPassthrough ActionNone,
    addRange 0x00 0x17 StateDCSParam StateDCSParam ActionIgnore,
    addSingle 0x19 StateDCSParam StateDCSParam ActionIgnore,
    addRange 0x1C 0x1F StateDCSParam StateDCSParam ActionIgnore,
    addRange 0x30 0x39 StateDCSParam StateDCSParam ActionParam,
    addSingle 0x3B StateDCSParam StateDCSParam ActionParam,
    addSingle 0x7F StateDCSParam StateDCSParam ActionIgnore,
  -- csiIntermediate
    addRange 0x40 0x7E StateCSIIntermediate StateGround ActionCSIDispatch,
    addRange 0x30 0x3F StateCSIIntermediate StateCsiIgnore ActionNone,
    addRange 0x00 0x17 StateCSIIntermediate StateCSIIntermediate ActionExecute,
    addSingle 0x19 StateCSIIntermediate StateCSIIntermediate ActionExecute,
    addRange 0x1C 0x1F StateCSIIntermediate StateCSIIntermediate ActionExecute,
    addRange 0x20 0x2F StateCSIIntermediate StateCSIIntermediate ActionCollect,
    addSingle 0x7F StateCSIIntermediate StateCSIIntermediate ActionIgnore,
  -- csiEntry
    addRange 0x40 0x7E StateCSIEntry StateGround ActionCSIDispatch,
    addRange 0x30 0x39 StateCSIEntry StateCSIParam ActionParam,
    addSingle 0x3B StateCSIEntry StateCSIParam ActionParam,
    addRange 0x3C 0x3F StateCSIEntry StateCSIParam ActionCollect,
    addSingle 0x3A StateCSIEntry StateCsiIgnore ActionNone,
    addRange 0x20 0x2F StateCSIEntry StateCSIIntermediate ActionCollect,
    addRange 0x00 0x17 StateCSIEntry StateCSIEntry ActionExecute,
    addSingle 0x19 StateCSIEntry StateCSIEntry ActionExecute,
    addRange 0x1C 0x1F StateCSIEntry StateCSIEntry ActionExecute,
    addSingle 0x7F StateCSIEntry StateCSIEntry ActionIgnore,
  -- dcsPassthrough
    addSingle 0x9C StateDCSPassthrough StateGround ActionNone,
    addRange 0x00 0x17 StateDCSPassthrough StateDCSPassthrough ActionDCSPut,
    addSingle 0x19 StateDCSPassthrough StateDCSPassthrough ActionDCSPut,
    addRange 0x1C 0x1F StateDCSPassthrough StateDCSPassthrough ActionDCSPut,
    addRange 0x20 0x7E StateDCSPassthrough StateDCSPassthrough ActionDCSPut,
    addSingle 0x7F StateDCSPassthrough StateDCSPassthrough ActionIgnore ]

/-- All calls of `newParserTable`, in execution order. -/
def tableCalls : List TableCall :=
  anywhere.flatMap anywhereCalls ++ stateCalls

/-- The value `newParserTable()[c][s]`: the transition written last for
`(c, s)`; a key never written reads as the zero `Transition`
(`StateGround`, `ActionNone`). -/
def parserTable (c : Nat) (s : State) : Transition :=
  match tableCalls.reverse.find? (fun r => r.writes c s) with
  | some r => transition r.s1 r.a
  | none => { state := StateGround, action := ActionNone }

/-! ## terminal/sequences and terminal/parser/parser.go -/

/-- The struct `csi.Command`. -/
structure CSICommand where
  Intermediates : List Nat
  Params : List Nat
  ParamsSet : StaticBitSet
  Final : Nat
  deriving DecidableEq, Repr

/-- The struct `esc.Command`. -/
structure ESCCommand where
  Intermediates : List Nat
  Final : Nat
  deriving DecidableEq, Repr

/-- The struct `dcs.DCS`. -/
structure DCS where
  Intermediates : List Nat
  Params : List Nat
  Final : Nat
  deriving DecidableEq, Repr

/-- Modelled from the spec: the package `terminal/sequences/osc` (types
`osc.Parser` and `osc.Command`) is imported by the parser but missing; the spec
says that the OSC exit action carries the accumulated OSC payload.  The command
is the payload. -/
structure OSCCommand where
  payload : List Nat
  deriving DecidableEq, Repr

/-- Modelled from the spec: the missing type `osc.Parser`, as the bytes put
since the last `Reset`. -/
structure OSCParser where
  buf : List Nat
  deriving DecidableEq, Repr

/-- The struct `Action`; nil pointers are `none`.  (`Typ` is the field `Type`.) -/
structure Action where
  Typ : ActionType
  PrintData : Nat
  ExecuteData : Nat
  CSIDispatchData : Option CSICommand
  ESCDispatchData : Option ESCCommand
  OSCDispatchData : Option OSCCommand
  DCSHookData : Option DCS
  DCSPutData : Nat
  APCPutData : Nat
  deriving DecidableEq, Repr

/-- The literal `Action{Type: t}`: every other field is zero. -/
def Action.ofType (t : ActionType) : Action :=
  { Typ := t, PrintData := 0, ExecuteData := 0, CSIDispatchData := none,
    ESCDispatchData := none, OSCDispatchData := none, DCSHookData := none,
    DCSPutData := 0, APCPutData := 0 }

/-- The constant `MaxParams`. -/
def MaxParams : Nat := 24

/-- The constant `MaxIntermediates`. -/
def MaxIntermediates : Nat := 4

/-- Modulus of a Go `uint16`. -/
def word16 : Nat := 2 ^ 16

/-- The struct `Parser`.  The arrays `intermediates` and `params` have the fixed
lengths 4 and 24 (see `Parser.WellFormed`); `oscParser` and `logger` are `none`
when nil, as `NewParser` leaves them; the field `table` is `parserTable`. -/
structure Parser where
  State : State
  intermediates : List Nat
  intermediatesIdx : Nat
  params : List Nat
  paramsIdx : Nat
  paramsSet : StaticBitSet
  paramAcc : Nat
  paramAccIdx : Int
  oscParser : Option OSCParser
  logger : Option Unit
  deriving DecidableEq, Repr

/-- The return value `[3]*Action` of `Parser.Next`. -/
abbrev Actions : Type := Option Action × Option Action × Option Action

/-- The function `NewParser`. -/
def NewParser : Parser :=
  { State := StateGround,
    intermediates := List.replicate MaxIntermediates 0,
    intermediatesIdx := 0,
    params := List.replicate MaxParams 0,
    paramsIdx := 0,
    paramAcc := 0,
    paramAccIdx := 0,
    paramsSet := NewStaticBitSet MaxParams,
    oscParser := none,
    logger := none }

namespace Parser

/-- The arrays of a `Parser` value have their declared lengths. -/
def WellFormed (p : Parser) : Prop :=
  p.intermediates.length = MaxIntermediates ∧ p.params.length = MaxParams

/-- A call `p.logger.Warn(...)`: a nil logger panics, otherwise nothing changes. -/
def warn (p : Parser) : Option Unit := p.logger

/-- Array store `a[i] = v`; out of range is a panic. -/
def store (a : List Nat) (i v : Nat) : Option (List Nat) :=
  if i < a.length then some (a.set i v) else none

/-- Slice expression `a[:n]`; `n` beyond the length is a panic. -/
def slice (a : List Nat) (n : Nat) : Option (List Nat) :=
  if n ≤ a.length then some (a.take n) else none

/-- The method `Collect`. -/
def Collect (p : Parser) (c : Nat) : Option Parser :=
  if p.intermediatesIdx > MaxIntermediates then do
    let _ ← p.warn
    pure p
  else do
    let a ← store p.intermediates p.intermediatesIdx c
    pure { p with intermediates := a, intermediatesIdx := p.intermediatesIdx + 1 }

/-- The method `Clear`. -/
def Clear (p : Parser) : Parser :=
  { p with paramsIdx := 0, paramAcc := 0, paramAccIdx := 0,
           paramsSet := p.paramsSet.Clear, intermediatesIdx := 0 }

/-- The method `doAction`; `c` is a byte. -/
def doAction (p : Parser) (actionType : ActionType) (c : Nat) :
    Option (Parser × Option Action) :=
  match actionType with
  | ActionIgnore | ActionNone => some (p, none)
  | ActionPrint => some (p, some { Action.ofType ActionPrint with PrintData := c })
  | ActionExecute => some (p, some { Action.ofType ActionExecute with ExecuteData := c })
  | ActionCollect => (p.Collect c).map (fun q => (q, none))
  | ActionParam =>
    if c = 0x3B ∨ c = 0x3A then
      if p.paramsIdx ≥ MaxParams then some (p, none)
      else do
        let params ← store p.params p.paramsIdx p.paramAcc
        let set ← if c = 0x3A then p.paramsSet.Set p.paramsIdx else some p.paramsSet
        pure ({ p with params := params, paramsSet := set, paramsIdx := p.paramsIdx + 1,
                       paramAcc := 0, paramAccIdx := 0 }, none)
    else
      -- `c - '0'` is computed in `uint8`, the accumulator in `uint16`
      let digit := (c + 256 - 0x30) % 256
      let acc :=
        if p.paramAccIdx > 0 then ((p.paramAcc * 10) % word16 + digit) % word16
        else digit
      let p := { p with paramAcc := acc }
      let (nextParamsIdx, overflow) := AddWithOverflow p.paramAccIdx 1
      if overflow then some (p, none)
      else some ({ p with paramAccIdx := nextParamsIdx }, none)
  | ActionESCDispatch => do
    let ims ← slice p.intermediates p.intermediatesIdx
    pure (p, some { Action.ofType ActionESCDispatch with
                    ESCDispatchData := some { Intermediates := ims, Final := c } })
  | ActionCSIDispatch =>
    if p.paramsIdx ≥ MaxParams then some (p, none)
    else do
      let p ←
        if p.paramAccIdx > 0 then do
          let params ← store p.params p.paramsIdx p.paramAcc
          pure { p with params := params, paramsIdx := p.paramsIdx + 1 }
        else pure p
      let ims ← slice p.intermediates p.intermediatesIdx
      let params ← slice p.params p.paramsIdx
      let action : Action :=
        { Action.ofType ActionCSIDispatch with
          CSIDispatchData := some { Intermediates := ims, Params := params,
                                    ParamsSet := p.paramsSet, Final := c } }
      let count ← p.paramsSet.Count
      if c ≠ 0x6D ∧ count > 0 then do
        let _ ← p.warn
        pure (p, none)
      else pure (p, some action)
  | ActionDCSPut => some (p, some { Action.ofType ActionDCSPut with DCSPutData := c })
  | ActionOSCPut => do
    let o ← p.oscParser
    pure ({ p with oscParser := some { buf := o.buf ++ [c] } }, none)
  | _ => do
    let _ ← p.warn
    pure (p, none)

/-- The method `Next`: exit action of the old state, transition action, entry
action of the new state; the state is updated last (the deferred assignment). -/
def Next (p : Parser) (c : Nat) : Option (Parser × Actions) := do
  let effect := parserTable c p.State
  let nextState := effect.state
  let action := effect.action
  -- exit action from the old state
  let exitAction : Option Action ←
    if p.State ≠ nextState then
      match p.State with
      | StateOSCString => do
        let o ← p.oscParser
        pure (some { Action.ofType ActionOSCEnd with
                     OSCDispatchData := some { payload := o.buf } })
      | StateDCSPassthrough => pure (some (Action.ofType ActionDCSUnHook))
      | _ => pure none
    else pure none
  -- transition action
  let (p1, transAction) ← p.doAction action c
  -- entry action
  let (p2, entryAction) ←
    if p1.State ≠ nextState then
      match nextState with
      | StateEscape | StateDCSEntry | StateCSIEntry => some (p1.Clear, none)
      | StateOSCString => do
        let _ ← p1.oscParser
        pure ({ p1 with oscParser := some { buf := [] } }, none)
      | StateDCSPassthrough => do
        let p2 ←
          if p1.paramsIdx > 0 then do
            let params ← store p1.params p1.paramsIdx p1.paramAcc
            pure { p1 with params := params, paramsIdx := p1.paramsIdx + 1 }
          else pure p1
        let ims ← slice p2.intermediates p2.intermediatesIdx
        let params ← slice p2.params p2.paramsIdx
        pure (p2, some { Action.ofType ActionDCSHook with
                         DCSHookData := some { Intermediates := ims, Params := params,
                                               Final := c } })
      | _ => some (p1, none)
    else some (p1, none)
  pure ({ p2 with State := nextState }, (exitAction, transAction, entryAction))

/-- Feed the bytes in order to `Next`, keeping the actions of every call. -/
def nextAll : Parser → List Nat → Option (Parser × List Actions)
  | p, [] => some (p, [])
  | p, c :: cs => do
    let (p, a) ← p.Next c
    let (p, as) ← nextAll p cs
    pure (p, a :: as)

end Parser

/-- Decimal value of a string of ASCII digits. -/
def decimalValue (ds : List Nat) : Nat :=
  ds.foldl (fun acc d => acc * 10 + (d - 0x30)) 0

/-- The parser after the parameter finalisation at the head of the
`ActionCSIDispatch` case of `doAction` (used to state its result). -/
def Parser.csiFinalised (p : Parser) : Parser :=
  if p.paramAccIdx > 0 then
    { p with params := p.params.set p.paramsIdx p.paramAcc, paramsIdx := p.paramsIdx + 1 }
  else p

/-- The bytes `d_1 ';' d_2 ';' ... d_k` of a parameter list. -/
def joinParams : List (List Nat) → List Nat
  | [] => []
  | [d] => d
  | d :: ds => d ++ [0x3B] ++ joinParams ds

/-- A non-empty string of ASCII decimal digits. -/
def isDigits (d : List Nat) : Prop := d ≠ [] ∧ ∀ x ∈ d, 0x30 ≤ x ∧ x ≤ 0x39


/-! ## terminal/color/color.go and terminal/sgr/parser.go -/

namespace color

/-- The struct `color.RGB`; each channel is a `uint8`. -/
structure RGB where
  R : Nat := 0
  G : Nat := 0
  B : Nat := 0
  deriving DecidableEq, Repr

end color

namespace sgr

/-- The type `AttributeType`, constants in `iota` order. -/
inductive AttributeType where
  | AttributeTypeUnset
  | AttributeTypeBold
  | AttributeTypeResetBold
  | AttributeTypeItalic
  | AttributeTypeResetItalic
  | AttributeTypeFaint
  | AttributeTypeResetFaint
  | AttributeTypeUnderline
  | AttributeTypeResetUnderline
  | AttributeTypeUnderlineColor
  | AttributeTypeResetUnderlineColor
  | AttributeTypeOverline
  | AttributeTypeResetOverline
  | AttributeTypeBlink
  | AttributeTypeResetBlink
  | AttributeTypeInverse
  | AttributeTypeResetInverse
  | AttributeTypeInvisible
  | AttributeTypeResetInvisible
  | AttributeTypeDirectColorFg
  | AttributeTypeDirectColorBg
  | AttributeTypeStrikethrough
  | AttributeTypeResetStrikethrough
  | AttributeTypeResetFg
  | AttributeTypeResetBg
  | AttributeTypeUnknown
  deriving DecidableEq, Repr

/-- The type `UnderlineType`, constants in `iota` order. -/
inductive UnderlineType where
  | UnderlineTypeNone
  | UnderlineTypeSingle
  | UnderlineTypeDouble
  | UnderlineTypeCurly
  | UnderlineTypeDotted
  | UnderlineTypedashed
  deriving DecidableEq, Repr

open AttributeType UnderlineType

/-- The struct `unknown`. -/
structure unknown where
  Full : List Nat := []
  Partial : List Nat := []
  deriving DecidableEq, Repr

/-- The struct `Attribute`; the defaults are the Go zero values.  The field
`Type` is spelled `Typ`. -/
structure Attribute where
  Typ : AttributeType := AttributeTypeUnset
  Underline : UnderlineType := UnderlineTypeNone
  UnderlineColor : color.RGB := {}
  Unknown : unknown := {}
  DirectColorFg : color.RGB := {}
  DirectColorBg : color.RGB := {}
  deriving DecidableEq, Repr

/-- The struct `sgr.Parser`.  `Params` holds `uint16` values; `ParamsSep` is the
bit set behind the pointer; `idx` never becomes negative. -/
structure Parser where
  Params : List Nat
  ParamsSep : StaticBitSet
  idx : Nat := 0
  deriving DecidableEq, Repr

/-- Go slice expression `a[lo:hi]`, for a slice whose capacity is its length;
bounds out of range panic. -/
def subslice (a : List Nat) (lo hi : Nat) : Option (List Nat) :=
  if lo ≤ hi ∧ hi ≤ a.length then some ((a.take hi).drop lo) else none

/-- The conversion `uint8(min(math.MaxUint8, v))` of a `uint16`. -/
def channel (v : Nat) : Nat := (min 255 v) % 256

namespace Parser

/-- The loop of `countColon`:
`for count, idx := 0, p.idx; idx < len(p.Params) && p.ParamsSep.IsSet(idx); ...`.
It returns the final value of the loop variable `count`. -/
def countColonLoop (p : Parser) : Nat → Nat → Nat → Option Nat
  | 0, _, _ => none
  | fuel + 1, count, idx =>
    if idx < p.Params.length then do
      let b ← p.ParamsSep.IsSet idx
      if b then countColonLoop p fuel (count + 1) (idx + 1) else pure count
    else pure count

/-- The method `countColon`.  The loop declares its own `count`, which shadows
the outer variable: the loop runs (and may panic in `IsSet`), and the outer
`count`, still 0, is returned. -/
def countColon (p : Parser) : Option Nat := do
  let count := 0
  let _ ← countColonLoop p (p.Params.length + 1) 0 p.idx
  pure count

/-- The method `consumeUnknownColon`. -/
def consumeUnknownColon (p : Parser) : Option Parser := do
  let count ← p.countColon
  pure { p with idx := p.idx + (count + 1) }

/-- The method `isColon`. -/
def isColon (p : Parser) : Option Bool :=
  if (p.idx : Int) ≥ (p.Params.length : Int) - 1 then some false
  else p.ParamsSep.IsSet p.idx

/-- The method `parseDirectColor`; the result `none` inside the pair is the
nil pointer. -/
def parseDirectColor (p : Parser) (slice : List Nat) (colon : Bool) :
    Option (Parser × Option color.RGB) :=
  if slice.length < 5 then some (p, none)
  else do
    let s1 ← slice[1]?
    if s1 ≠ 2 then none
    else if !colon then do
      let p := { p with idx := p.idx + 4 }
      let r ← slice[2]?
      let g ← slice[3]?
      let b ← slice[4]?
      pure (p, some { R := channel r, G := channel g, B := channel b })
    else do
      let count ← p.countColon
      match count with
      | 3 => do
        let p := { p with idx := p.idx + 4 }
        let r ← slice[2]?
        let g ← slice[3]?
        let b ← slice[4]?
        pure (p, some { R := channel r, G := channel g, B := channel b })
      | 4 => do
        let p := { p with idx := p.idx + 5 }
        let r ← slice[3]?
        let g ← slice[4]?
        let b ← slice[5]?
        pure (p, some { R := channel r, G := channel g, B := channel b })
      | _ => do
        let p ← p.consumeUnknownColon
        pure (p, none)

/-- The loop `for p.ParamsSep.IsSet(p.idx) { p.idx += 1 }`; it returns the
final index.  `IsSet` panics beyond the size of the set, so `size + 1` steps of
fuel are never used up. -/
def skipColons (sep : StaticBitSet) : Nat → Nat → Option Nat
  | 0, _ => none
  | fuel + 1, idx => do
    let b ← sep.IsSet idx
    if b then skipColons sep fuel (idx + 1) else pure idx

/-- Result of one call of the pull function: the parser, the attribute pointer
(`none` is nil) and the flag `ok`. -/
abbrev Pulled : Type := Parser × Option Attribute × Bool

/-- The final `return` of the pull function: the unknown attribute. -/
def unknownAttr (p : Parser) (slice : List Nat) : Pulled :=
  (p, some { Typ := AttributeTypeUnknown, Unknown := { Full := p.Params, Partial := slice } },
    true)

/-- An attribute that carries only its type. -/
def plain (p : Parser) (t : AttributeType) : Option Pulled :=
  some (p, some { Typ := t }, true)

/-- The `case 4` of the main switch when the parameter is followed by a colon. -/
def underlineColon (p : Parser) (slice : List Nat) : Option Pulled :=
  if ¬ slice.length > 2 then none
  else do
    let c ← p.isColon
    if c then do
      let p ← p.consumeUnknownColon
      pure (p, none, true)
    else do
      let p := { p with idx := p.idx + 1 }
      let s1 ← slice[1]?
      match s1 with
      | 0 => pure (p, some { Typ := AttributeTypeResetUnderline }, true)
      | 1 => pure (p, some { Typ := AttributeTypeUnderline, Underline := UnderlineTypeSingle }, true)
      | 2 => pure (p, some { Typ := AttributeTypeUnderline, Underline := UnderlineTypeDouble }, true)
      | 3 => pure (p, some { Typ := AttributeTypeUnderline, Underline := UnderlineTypeCurly }, true)
      | 4 => pure (p, some { Typ := AttributeTypeUnderline, Underline := UnderlineTypeDotted }, true)
      | 5 => pure (p, some { Typ := AttributeTypeUnderline, Underline := UnderlineTypedashed }, true)
      | _ => pure (p, some { Typ := AttributeTypeUnderline, Underline := UnderlineTypeSingle }, true)

/-- The cases 38, 48 and 58 of the main switch; `mk` builds the attribute from
the colour. -/
def directColor (p : Parser) (slice : List Nat) (colon : Bool)
    (mk : color.RGB → Attribute) : Option Pulled :=
  if slice.length ≥ 2 then do
    let s1 ← slice[1]?
    match s1 with
    | 2 => do
      let (p, color) ← p.parseDirectColor slice colon
      match color with
      | some c => pure (p, some (mk c), true)
      | none => pure (p, none, true)
    | _ => pure (p, none, true)
  else some (unknownAttr p slice)

/-- The main `switch slice[0]` of the pull function. -/
def dispatch (p : Parser) (slice : List Nat) (colon : Bool) (s0 : Nat) : Option Pulled :=
  match s0 with
  | 0 => plain p AttributeTypeUnset
  | 1 => plain p AttributeTypeBold
  | 2 => plain p AttributeTypeFaint
  | 3 => plain p AttributeTypeItalic
  | 4 =>
    if colon then underlineColon p slice
    else some (p, some { Typ := AttributeTypeUnderline, Underline := UnderlineTypeSingle }, true)
  | 5 => plain p AttributeTypeBlink
  | 6 => plain p AttributeTypeBlink
  | 7 => plain p AttributeTypeInverse
  | 8 => plain p AttributeTypeInvisible
  | 9 => plain p AttributeTypeStrikethrough
  | 21 => some (p, some { Typ := AttributeTypeUnderline, Underline := UnderlineTypeDouble }, true)
  | 22 => plain p AttributeTypeResetBold
  | 23 => plain p AttributeTypeResetItalic
  | 24 => plain p AttributeTypeResetUnderline
  | 25 => plain p AttributeTypeResetBlink
  | 27 => plain p AttributeTypeResetInverse
  | 28 => plain p AttributeTypeResetInvisible
  | 29 => plain p AttributeTypeResetStrikethrough
  | 38 => directColor p slice colon
      (fun c => { Typ := AttributeTypeDirectColorFg, DirectColorFg := c })
  | 48 => directColor p slice colon
      (fun c => { Typ := AttributeTypeDirectColorBg, DirectColorBg := c })
  | 49 => plain p AttributeTypeResetBg
  | 53 => plain p AttributeTypeOverline
  | 55 => plain p AttributeTypeResetOverline
  | 58 => directColor p slice colon
      (fun c => { Typ := AttributeTypeUnderlineColor, UnderlineColor := c })
  | 59 => plain p AttributeTypeResetUnderlineColor
  | _ => some (unknownAttr p slice)

/-- The method `next` resets the index; the closure it returns is `pull`. -/
def next (p : Parser) : Parser := { p with idx := 0 }

/-- One call of the closure returned by `next`. -/
def pull (p : Parser) : Option Pulled :=
  if p.idx ≥ p.Params.length then
    if p.idx = 0 then
      some ({ p with idx := p.idx + 1 }, some { Typ := AttributeTypeUnset }, false)
    else some (p, none, false)
  else do
    let slice := p.Params.drop p.idx
    let colon ← p.ParamsSep.IsSet p.idx
    let p := { p with idx := p.idx + 1 }
    let s0 ← slice[0]?
    if colon ∧ ¬ (s0 = 4 ∨ s0 = 38 ∨ s0 = 48) then do
      let start := p.idx
      let i ← skipColons p.ParamsSep (p.ParamsSep.size + 1) p.idx
      let p := { p with idx := i + 1 }
      let full ← subslice p.Params start p.idx
      let part ← subslice slice 0 (p.idx - start + 1)
      pure (p, some { Typ := AttributeTypeUnknown, Unknown := { Full := full, Partial := part } },
        true)
    else dispatch p slice colon s0

/-- The loop of `Iter`: the attributes are yielded (to a consumer that takes
them all) until a pull returns `ok = false`. -/
def iterLoop : Nat → Parser → Option (List (Option Attribute))
  | 0, _ => none
  | fuel + 1, p => do
    let (p, attr, ok) ← p.pull
    if ok then do
      let rest ← iterLoop fuel p
      pure (attr :: rest)
    else pure [attr]

/-- The method `Iter`, as the list of yielded attribute pointers.  Every pull
that returns `ok = true` advances the index, so `len(Params) + 2` pulls are
enough. -/
def Iter (p : Parser) : Option (List (Option Attribute)) :=
  iterLoop (p.Params.length + 2) p.next

end Parser

/-- A separator set of the given size with the listed bits set. -/
def sepWith (size : Nat) (bits : List Nat) : Option StaticBitSet :=
  bits.foldlM (fun s i => s.Set i) (NewStaticBitSet size)

end sgr

namespace sgr
open AttributeType UnderlineType

/-- The attribute that the specification assigns to the one-element parameter
vector `[p]`: the table of single codes, and `Unknown` (which in the code
carries the whole vector twice) for every other value. -/
def specSingle (p : Nat) : Attribute :=
  if p = 0 then { Typ := AttributeTypeUnset }
  else if p = 1 then { Typ := AttributeTypeBold }
  else if p = 2 then { Typ := AttributeTypeFaint }
  else if p = 3 then { Typ := AttributeTypeItalic }
  else if p = 4 then { Typ := AttributeTypeUnderline, Underline := UnderlineTypeSingle }
  else if p = 5 ∨ p = 6 then { Typ := AttributeTypeBlink }
  else if p = 7 then { Typ := AttributeTypeInverse }
  else if p = 8 then { Typ := AttributeTypeInvisible }
  else if p = 9 then { Typ := AttributeTypeStrikethrough }
  else if p = 21 then { Typ := AttributeTypeUnderline, Underline := UnderlineTypeDouble }
  else if p = 22 then { Typ := AttributeTypeResetBold }
  else if p = 23 then { Typ := AttributeTypeResetItalic }
  else if p = 24 then { Typ := AttributeTypeResetUnderline }
  else if p = 25 then { Typ := AttributeTypeResetBlink }
  else if p = 27 then { Typ := AttributeTypeResetInverse }
  else if p = 28 then { Typ := AttributeTypeResetInvisible }
  else if p = 29 then { Typ := AttributeTypeResetStrikethrough }
  else if p = 49 then { Typ := AttributeTypeResetBg }
  else if p = 53 then { Typ := AttributeTypeOverline }
  else if p = 55 then { Typ := AttributeTypeResetOverline }
  else if p = 59 then { Typ := AttributeTypeResetUnderlineColor }
  else { Typ := AttributeTypeUnknown, Unknown := { Full := [p], Partial := [p] } }

end sgr

namespace sgr
open AttributeType UnderlineType

/-- The direct-colour attribute that the specification assigns to the codes 38
(foreground), 48 (background) and 58 (underline colour). -/
def specDirect (c : Nat) (rgb : color.RGB) : Attribute :=
  if c = 38 then { Typ := AttributeTypeDirectColorFg, DirectColorFg := rgb }
  else if c = 48 then { Typ := AttributeTypeDirectColorBg, DirectColorBg := rgb }
  else { Typ := AttributeTypeUnderlineColor, UnderlineColor := rgb }

/-- The separator set of a five-parameter vector with the bits 0..3 set. -/
def sep5 : StaticBitSet := { bits := [15], size := 5, sliceSize := 1 }

/-- The separator set of a six-parameter vector with the bits 0..4 set. -/
def sep6 : StaticBitSet := { bits := [31], size := 6, sliceSize := 1 }

end sgr

/-! ## terminal/tabstops/tabstop.go -/

namespace tabstops

/-- Modelled from the spec: the package `terminal/size` is not among the
sources; its type `CellCountInt` (a column count) is taken to be an unsigned
integer, and no arithmetic on it wraps in the functions below. -/
abbrev CellCountInt : Type := Nat

/-- The constant `unitBits`: bits in a `Unit` (`uint8`). -/
def unitBits : Nat := 8

/-- The constant `preallocCols`. -/
def preallocCols : Nat := 512

/-- The constant `preallocCount`. -/
def preallocCount : Nat := preallocCols / unitBits

/-- The struct `Tabstops`; `prealloc` is the array of 64 units. -/
structure Tabstops where
  cols : CellCountInt
  prealloc : List Nat
  dynamic : List Nat
  deriving DecidableEq, Repr

/-- The array `masks`: `masks[i] = 1 << i` as a `uint8`. -/
def masks (i : Nat) : Nat := (1 <<< i) % 256

/-- The function `entry`. -/
def entry (col : CellCountInt) : Nat := col / unitBits

/-- The function `index`. -/
def index (col : CellCountInt) : Nat := col % unitBits

/-- Go `u &^ m` on `uint8`. -/
def andNot8 (u m : Nat) : Nat := u &&& (255 - m % 256)

namespace Tabstops

/-- Type invariant: the array has 64 units and every unit is a `uint8`. -/
def WellFormed (t : Tabstops) : Prop :=
  t.prealloc.length = preallocCount ∧ (∀ u ∈ t.prealloc, u < 256) ∧ ∀ u ∈ t.dynamic, u < 256

/-- The method `Set`. -/
def Set (t : Tabstops) (col : CellCountInt) : Tabstops :=
  let i := entry col
  let idx := index col
  if i < preallocCount then
    { t with prealloc := t.prealloc.set i (t.prealloc.getD i 0 ||| masks idx) }
  else
    let dynI := i - preallocCount
    if dynI < t.dynamic.length then
      { t with dynamic := t.dynamic.set dynI (t.dynamic.getD dynI 0 ||| masks idx) }
    else t

/-- The method `Unset`. -/
def Unset (t : Tabstops) (col : CellCountInt) : Tabstops :=
  let i := entry col
  let idx := index col
  if i < preallocCount then
    { t with prealloc := t.prealloc.set i (andNot8 (t.prealloc.getD i 0) (masks idx)) }
  else
    let dynI := i - preallocCount
    if dynI < t.dynamic.length then
      { t with dynamic := t.dynamic.set dynI (andNot8 (t.dynamic.getD dynI 0) (masks idx)) }
    else t

/-- The method `Get`; the failed assertion is `none`. -/
def Get (t : Tabstops) (col : CellCountInt) : Option Bool :=
  let i := entry col
  let idx := index col
  let mask := masks idx
  if i < preallocCount then
    some (t.prealloc.getD i 0 &&& mask == mask)
  else
    let dynI := i - preallocCount
    if dynI < t.dynamic.length then some (t.dynamic.getD dynI 0 &&& mask == mask)
    else none

/-- The method `Resize`: `make` gives `needed` zero units and `copy` fills the
front with the old ones. -/
def Resize (t : Tabstops) (cols : CellCountInt) : Tabstops :=
  let t := { t with cols := cols }
  if cols ≤ preallocCols then t
  else
    let needed := cols - preallocCols
    if needed < t.dynamic.length then t
    else { t with dynamic := t.dynamic ++ List.replicate (needed - t.dynamic.length) 0 }

/-- The method `Capacity`. -/
def Capacity (t : Tabstops) : Nat := (preallocCount + t.dynamic.length) * unitBits

end Tabstops

/-- A `Tabstops` value with all units zero and `n` units in the dynamic part. -/
def zeroTabstops (cols n : Nat) : Tabstops :=
  { cols := cols, prealloc := List.replicate 64 0, dynamic := List.replicate n 0 }

end tabstops

/-! ## terminal/core/mode.go -/

namespace core

/-- The struct `Mode`. -/
structure Mode where
  Name : String
  Value : Int
  Ansi : Bool
  Default : Bool
  deriving DecidableEq, Repr

/-- The function `entryForMode`. -/
def entryForMode (name : String) (value : Int) (ansi : Bool) (defaultMode : Bool) : Mode :=
  { Name := name, Value := value, Ansi := ansi, Default := defaultMode }

/-- KAM. -/
def ModeDisableKeyboard : Mode := entryForMode "disable Keyboard" 2 true false

/-- IRM. -/
def ModeInsert : Mode := entryForMode "insert" 4 true false

/-- SRM. -/
def ModeSendReceiveMode : Mode := entryForMode "send_receive_mode" 12 true true

/-- LNM. -/
def ModeLineFeed : Mode := entryForMode "line feed" 20 true false

/-- DECCWM. -/
def ModeWraparound : Mode := entryForMode "wraparound" 7 false true

/-- DECOM. -/
def ModeOrigin : Mode := entryForMode "origin" 6 false false

/-- The slice `entries`. -/
def entries : List Mode :=
  [ModeDisableKeyboard, ModeInsert, ModeSendReceiveMode, ModeLineFeed, ModeWraparound, ModeOrigin]

/-- The contents of a Go `map[Mode]bool`: the bindings, at most one per key. -/
abbrev ModeMap : Type := List (Mode × Bool)

namespace ModeMap

/-- Go `m[k]`: the bound value, `false` when the key is absent. -/
def get (m : ModeMap) (k : Mode) : Bool :=
  match m.find? (fun e => e.1 = k) with
  | some e => e.2
  | none => false

/-- Go `m[k] = v`. -/
def put (m : ModeMap) (k : Mode) (v : Bool) : ModeMap :=
  (k, v) :: m.filter (fun e => e.1 ≠ k)

/-- Go `maps.Copy(dst, src)`. -/
def copy (dst src : ModeMap) : ModeMap :=
  src.foldl (fun acc e => acc.put e.1 e.2) dst

end ModeMap

/-- A Go map value is a reference to a map object: the map objects, by address. -/
structure MapStore where
  maps : List ModeMap
  deriving DecidableEq, Repr

/-- The address of a map object. -/
abbrev MapRef : Type := Nat

namespace MapStore

/-- Go `make(map[Mode]bool)` and map literals: a new object. -/
def alloc (h : MapStore) (m : ModeMap) : MapStore × MapRef :=
  ({ maps := h.maps ++ [m] }, h.maps.length)

/-- The contents of the object at an address. -/
def read (h : MapStore) (r : MapRef) : Option ModeMap := h.maps[r]?

/-- Replace the contents of the object at an address. -/
def write (h : MapStore) (r : MapRef) (m : ModeMap) : Option MapStore :=
  if r < h.maps.length then some { maps := h.maps.set r m } else none

end MapStore

/-- The contents of the global `ModePacked` after package initialisation. -/
def packedDefaults : ModeMap :=
  entries.foldl (fun packed m => packed.put m m.Default) []

/-- The address of the global map `ModePacked`. -/
def ModePacked : MapRef := 0

/-- The store after package initialisation: only `ModePacked` exists. -/
def initStore : MapStore := { maps := [packedDefaults] }

/-- The struct `ModeState`: two map references. -/
structure ModeState where
  values : MapRef
  defaults : MapRef
  deriving DecidableEq, Repr

/-- The function `NewModeState`; a nil map argument is `none`. -/
def NewModeState (h : MapStore) (values : Option MapRef) (defaults : Option MapRef) :
    MapStore × ModeState :=
  let (h, v) := match values with
    | some v => (h, v)
    | none => h.alloc []
  let (h, d) := match defaults with
    | some d => (h, d)
    | none => h.alloc []
  (h, { values := v, defaults := d })

namespace ModeState

/-- The method `Set`: `s.values[m] = value`. -/
def Set (s : ModeState) (h : MapStore) (m : Mode) (value : Bool) : Option MapStore := do
  let vals ← h.read s.values
  h.write s.values (vals.put m value)

/-- The method `Get`: `s.values[m]`. -/
def Get (s : ModeState) (h : MapStore) (m : Mode) : Option Bool := do
  let vals ← h.read s.values
  pure (vals.get m)

/-- The method `Reset`: a new map object, filled from `s.defaults`. -/
def Reset (s : ModeState) (h : MapStore) : Option (MapStore × ModeState) := do
  let (h, v) := h.alloc []
  let s := { s with values := v }
  let vals ← h.read s.values
  let defs ← h.read s.defaults
  let h ← h.write s.values (vals.copy defs)
  pure (h, s)

end ModeState

/-- The field `Modes` as `NewTerminal` sets it:
`core.NewModeState(opts.Modes, opts.Modes)`. -/
def newTerminalModes (h : MapStore) (optsModes : Option MapRef) : MapStore × ModeState :=
  NewModeState h optsModes optsModes

/-- On a mode state `s` in the store `h`: set a mode, reset the mode state, and
read every mode of `entries`. -/
def setResetGetAll (hs : MapStore × ModeState) (m : Mode) (value : Bool) :
    Option (List Bool) := do
  let (h, s) := hs
  let h ← s.Set h m value
  let (h, s) ← s.Reset h
  entries.mapM (fun k => s.Get h k)

end core

/-! ## Outcomes of the stateful code -/

/-- Why a run stops without a result: `panic` is a Go panic (failed assertion,
nil dereference, index out of range, `panic("unimplemented")`); `outside` marks
a step that leaves the embedded part of the program (a branch whose callees are
not embedded, or unsigned arithmetic that would wrap, since the width of
`size.CellCountInt` is not in the sources). -/
inductive Fault where
  | panic
  | outside
  deriving DecidableEq, Repr

/-- A computation that returns normally with a value or stops with a fault. -/
abbrev Run (α : Type) : Type := Except Fault α

/-- Equality of outcomes is decidable. -/
instance instDecidableEqRun {ε α : Type} [DecidableEq ε] [DecidableEq α] :
    DecidableEq (Except ε α)
  | Except.ok a, Except.ok b =>
    if h : a = b then isTrue (by rw [h]) else isFalse (fun e => h (Except.ok.inj e))
  | Except.error a, Except.error b =>
    if h : a = b then isTrue (by rw [h]) else isFalse (fun e => h (Except.error.inj e))
  | Except.ok _, Except.error _ => isFalse (fun e => Except.noConfusion e)
  | Except.error _, Except.ok _ => isFalse (fun e => Except.noConfusion e)

/-- The function `utils.Assert`. -/
def Assert (c : Bool) : Run Unit := if c then pure () else throw Fault.panic

/-- A panic of the `Option` embeddings, as a fault. -/
def orPanic {α : Type} : Option α → Run α
  | some a => pure a
  | none => throw Fault.panic

/-- Unsigned `a - b` where the code relies on `b <= a`. -/
def usub (a b : Nat) : Run Nat := if b ≤ a then pure (a - b) else throw Fault.outside

/-! ## terminal/page/cell.go, wide.go, row.go, sematic_prompt.go -/

namespace page

/-- The type `Wide`. -/
inductive Wide where
  | WideNarrow
  | WideWide
  | WideSpacerTail
  | WideSpacerHead
  deriving DecidableEq, Repr

/-- The constant `ContentTagCP`. -/
def ContentTagCP : Int := 1

/-- The constant `ContentTagBGColorPalette`. -/
def ContentTagBGColorPalette : Int := 2

/-- The constant `ContentTagBGColorRGB`. -/
def ContentTagBGColorRGB : Int := 3

/-- The struct `page.Cell`; the defaults are the Go zero values. -/
structure Cell where
  ContentTag : Int := 0
  ContentCP : Nat := 0
  ContentColorPalette : Nat := 0
  ContentColorRGB : color.RGB := {}
  Wide : Wide := Wide.WideNarrow
  IsDirty : Bool := false
  StyleID : Nat := 0
  deriving DecidableEq, Repr

/-- The method `Cell.HasText`. -/
def Cell.HasText (c : Cell) : Bool :=
  if c.ContentTag = ContentTagCP then c.ContentCP != 0
  else false

/-- The type `SemanticPromptType`. -/
inductive SemanticPromptType where
  | SemanticPromptTypePrompt
  | SemanticPromptTypeContinuation
  | SemanticPromptTypeInput
  | SemanticPromptTypeOutput
  | SemanticPromptTypeUnknow
  deriving DecidableEq, Repr

/-- A Go slice of cell pointers: the address of its first element in the store
of pointer slots, its length and its capacity. -/
structure CellSlice where
  base : Nat := 0
  len : Nat := 0
  cap : Nat := 0
  deriving DecidableEq, Repr

/-- Go `s[lo:hi]`. -/
def CellSlice.sub (s : CellSlice) (lo hi : Nat) : Run CellSlice :=
  if lo ≤ hi ∧ hi ≤ s.cap then pure { base := s.base + lo, len := hi - lo, cap := s.cap - lo }
  else throw Fault.panic

/-- The struct `Row`. -/
structure Row where
  Cells : CellSlice := {}
  Wrap : Bool := false
  WrapContinuation : Bool := false
  Y : Nat := 0
  Styled : Bool := false
  SemanticPrompt : SemanticPromptType := SemanticPromptType.SemanticPromptTypePrompt
  deriving DecidableEq, Repr

end page

/-! ## terminal/style/style.go -/

namespace style

/-- The type `ColorType`. -/
inductive ColorType where
  | ColorTypeNone
  | ColorTypePalette
  | ColorTypeRGB
  deriving DecidableEq, Repr

/-- The struct `Color`; the field `Type` is spelled `Typ`. -/
structure Color where
  Typ : ColorType := ColorType.ColorTypeNone
  Palette : Nat := 0
  RGB : color.RGB := {}
  deriving DecidableEq, Repr

/-- The struct `Style`. -/
structure Style where
  ForegroundColor : Color := {}
  BackgroundColor : Color := {}
  UnderlineColor : Color := {}
  Bold : Bool := false
  Italic : Bool := false
  Faint : Bool := false
  Blink : Bool := false
  Inverse : Bool := false
  Invisible : Bool := false
  Strikethrough : Bool := false
  Overline : Bool := false
  Underline : sgr.UnderlineType := sgr.UnderlineType.UnderlineTypeNone
  deriving DecidableEq, Repr

/-- The method `BGCell`: the contents of the new cell, `none` for nil. -/
def Style.BGCell (s : Style) : Option page.Cell :=
  match s.BackgroundColor.Typ with
  | ColorType.ColorTypeNone => none
  | ColorType.ColorTypePalette =>
    some { ContentTag := page.ContentTagBGColorPalette,
           ContentColorPalette := s.BackgroundColor.Palette }
  | ColorType.ColorTypeRGB =>
    some { ContentTag := page.ContentTagBGColorRGB, ContentColorRGB := s.BackgroundColor.RGB }

/-- The method `IsDefault`. -/
def Style.IsDefault (s : Style) : Bool := decide (s = {})

/-- The methods `Hash` and `Equals` of `Style`, over the hash function of the
external library `hashstructure`: `Equals` compares the hashes. -/
def hashable (hash : Style → Nat) : Hashable Style :=
  { Hash := hash, Equals := fun a b => hash a == hash b }

end style

/-! ## terminal/page/page.go and terminal/datastruct/intrusive_linked_list.go -/

namespace page

/-- The struct `Size`. -/
structure Size where
  Cols : Nat := 0
  Rows : Nat := 0
  deriving DecidableEq, Repr

/-- The struct `Capacity`. -/
structure Capacity where
  Cols : Nat := 0
  Rows : Nat := 0
  Styles : Nat := 0
  deriving DecidableEq, Repr

/-- The struct `Adjustment`. -/
structure Adjustment where
  Cols : Nat := 0
  deriving DecidableEq, Repr

/-- The method `Capacity.Adjust`: the adjusted capacity, or `none` for
`ErrOutOfMemory` (the receiver is then unchanged). -/
def Capacity.Adjust (c : Capacity) (req : Adjustment) : Option Capacity :=
  if req.Cols > 0 ∧ req.Cols ≠ c.Cols then
    let totalCells := c.Cols * c.Rows
    let new_rows := totalCells / req.Cols
    if new_rows = 0 then none
    else some { c with Rows := new_rows, Cols := req.Cols }
  else some c

/-- The variable `StandardCapacity`. -/
def StandardCapacity : Capacity := { Cols := 215, Rows := 215, Styles := 128 }

/-- The struct `Page`.  `Rows` with `RowsLen` is the slice of row pointers (its
backing array belongs to the page alone); `Cells` is the slice of cell
pointers; the byte buffer `Memory`, which is never read, is left out. -/
structure Page where
  Rows : Nat → Nat := fun _ => 0
  RowsLen : Nat := 0
  Cells : CellSlice := {}
  Styles : RefCountedSet style.Style := NewRefCountedSet style.Style 0
  Dirty : StaticBitSet := NewStaticBitSet 0
  Size : Size := {}
  Capacity : Capacity := {}
  pauseIntegrityCheck : Int := 0

end page

namespace datastruct

/-- The struct `Node[*page.Page]`.  The page behind `Data` is held in the node:
no pointer to a page outlives the call that reads it from its node. -/
structure Node where
  Next : Option Nat := none
  Prev : Option Nat := none
  Data : page.Page := {}

/-- The struct `IntrusiveLinkedList[*page.Page]`. -/
structure IntrusiveLinkedList where
  First : Option Nat := none
  Last : Option Nat := none
  deriving DecidableEq, Repr

end datastruct

/-- The objects that the page list reaches through pointers, by address: cells,
the elements of the backing arrays of the `[]*Cell` slices (a slot holds a cell
address or nil), rows and list nodes.  An address at or above the allocation
mark has not been allocated. -/
structure Heap where
  cells : Nat → page.Cell := fun _ => {}
  nextCell : Nat := 0
  slots : Nat → Option Nat := fun _ => none
  nextSlot : Nat := 0
  rows : Nat → page.Row := fun _ => {}
  nextRow : Nat := 0
  nodes : Nat → datastruct.Node := fun _ => {}
  nextNode : Nat := 0

namespace Heap

/-- Dereference a cell pointer. -/
def cell (h : Heap) (p : Option Nat) : Run page.Cell :=
  match p with
  | some a => pure (h.cells a)
  | none => throw Fault.panic

/-- Write through a cell pointer. -/
def setCell (h : Heap) (p : Option Nat) (c : page.Cell) : Run Heap :=
  match p with
  | some a => pure { h with cells := Function.update h.cells a c }
  | none => throw Fault.panic

/-- Go `&Cell{...}`: a new cell object. -/
def newCell (h : Heap) (c : page.Cell) : Heap × Nat :=
  ({ h with cells := Function.update h.cells h.nextCell c, nextCell := h.nextCell + 1 },
    h.nextCell)

/-- Go `s[i]` on a slice of cell pointers. -/
def index (h : Heap) (s : page.CellSlice) (i : Nat) : Run (Option Nat) :=
  if i < s.len then pure (h.slots (s.base + i)) else throw Fault.panic

/-- Go `s[i] = p` on a slice of cell pointers. -/
def setIndex (h : Heap) (s : page.CellSlice) (i : Nat) (p : Option Nat) : Run Heap :=
  if i < s.len then pure { h with slots := Function.update h.slots (s.base + i) p }
  else throw Fault.panic

/-- Write a row object. -/
def setRow (h : Heap) (r : Nat) (row : page.Row) : Heap :=
  { h with rows := Function.update h.rows r row }

/-- Dereference a node pointer. -/
def node (h : Heap) (p : Option Nat) : Run datastruct.Node :=
  match p with
  | some a => pure (h.nodes a)
  | none => throw Fault.panic

/-- Write a node object. -/
def setNode (h : Heap) (a : Nat) (n : datastruct.Node) : Heap :=
  { h with nodes := Function.update h.nodes a n }

/-- Write the page of a node. -/
def setPage (h : Heap) (a : Nat) (p : page.Page) : Heap :=
  h.setNode a { h.nodes a with Data := p }

/-- Go `&Node{Data: data}`: a new node object. -/
def newNode (h : Heap) (data : page.Page) : Heap × Nat :=
  ({ h with nodes := Function.update h.nodes h.nextNode { Data := data },
            nextNode := h.nextNode + 1 }, h.nextNode)

end Heap

namespace page

/-- The function `InitPage`: `cap.Cols * cap.Rows` new zero cells, as many
pointer slots holding their addresses in order, `cap.Rows` new rows whose
`Cells` are the consecutive pieces of `cap.Cols` slots, and the page. -/
def InitPage (h : Heap) (cap : Capacity) : Heap × Page :=
  let n := cap.Cols * cap.Rows
  let cellBase := h.nextCell
  let slotBase := h.nextSlot
  let rowBase := h.nextRow
  let h : Heap :=
    { h with
      cells := fun a => if cellBase ≤ a ∧ a < cellBase + n then {} else h.cells a
      nextCell := cellBase + n
      slots := fun a =>
        if slotBase ≤ a ∧ a < slotBase + n then some (cellBase + (a - slotBase)) else h.slots a
      nextSlot := slotBase + n
      rows := fun r =>
        if rowBase ≤ r ∧ r < rowBase + cap.Rows then
          { Cells := { base := slotBase + (r - rowBase) * cap.Cols, len := cap.Cols,
                       cap := n - (r - rowBase) * cap.Cols } }
        else h.rows r
      nextRow := rowBase + cap.Rows }
  (h, { Rows := fun i => rowBase + i
        RowsLen := cap.Rows
        Cells := { base := slotBase, len := n, cap := n }
        Styles := NewRefCountedSet style.Style cap.Styles
        Size := { Cols := cap.Cols, Rows := cap.Rows }
        Capacity := cap
        Dirty := NewStaticBitSet cap.Rows })

namespace Page

/-- The method `AssertIntegrity`. -/
def AssertIntegrity (p : Page) : Run Unit := do
  Assert (p.Size.Rows != 0)
  Assert (p.Size.Cols != 0)

/-- Go `p.Rows[y]`. -/
def rowAt (p : Page) (y : Nat) : Run Nat :=
  if y < p.RowsLen then pure (p.Rows y) else throw Fault.panic

/-- The method `GetRow`. -/
def GetRow (p : Page) (y : Nat) : Run Nat := do
  Assert (decide (y < p.Size.Rows))
  p.rowAt y

/-- The method `GetCells`. -/
def GetCells (p : Page) (h : Heap) (row : Nat) : Run CellSlice :=
  (h.rows row).Cells.sub 0 p.Size.Cols

/-- The method `GetRowAndCell`: the row and the cell pointer. -/
def GetRowAndCell (p : Page) (h : Heap) (x y : Nat) : Run (Nat × Option Nat) := do
  Assert (decide (x < p.Size.Cols))
  Assert (decide (y < p.Size.Rows))
  let row ← p.rowAt y
  let cell ← h.index (h.rows row).Cells x
  pure (row, cell)

/-- The method `IsRowDirty`. -/
def IsRowDirty (p : Page) (y : Nat) : Run Bool := orPanic (p.Dirty.IsSet y)

end Page

/-- The function `hasTextAny`, from the cell with index `i` on. -/
def hasTextAnyFrom (h : Heap) (cells : CellSlice) : List Nat → Run Bool
  | [] => pure false
  | i :: rest => do
    let p ← h.index cells i
    let cell ← h.cell p
    if cell.HasText then pure true else hasTextAnyFrom h cells rest

/-- The function `hasTextAny`. -/
def hasTextAny (h : Heap) (cells : CellSlice) : Run Bool :=
  hasTextAnyFrom h cells (List.range cells.len)

/-- The bytes written by `fmt.Fprintf(w, "%c", cp)`: the UTF-8 encoding of the
code point, U+FFFD for a value that is not a scalar value. -/
def fmtChar (cp : Nat) : List Nat :=
  if cp < 0xD800 ∨ (0xE000 ≤ cp ∧ cp ≤ 0x10FFFF) then utf8Encode cp else utf8Encode 0xFFFD

/-- The struct `TrailingUtf8State`. -/
structure TrailingUtf8State where
  Rows : Nat := 0
  Cells : Nat := 0
  deriving DecidableEq, Repr

/-- The struct `page.EncodeUtf8Options`; a nil `EndY` is `none`. -/
structure EncodeUtf8Options where
  StartY : Nat := 0
  EndY : Option Nat := none
  Unwrap : Bool := false
  Preceding : TrailingUtf8State := {}
  deriving DecidableEq, Repr

/-- The loop `processCell` of `Page.EncodeUtf8` over the cells with the listed
indices: the count of pending blank cells and the bytes written so far. -/
def encodeCells (h : Heap) (cells : CellSlice) :
    List Nat → Nat × List Nat → Run (Nat × List Nat)
  | [], st => pure st
  | i :: rest, (blankCells, w) => do
    let p ← h.index cells i
    let cell ← h.cell p
    if cell.Wide = Wide.WideSpacerHead ∨ cell.Wide = Wide.WideSpacerTail then
      encodeCells h cells rest (blankCells, w)
    else if !cell.HasText then
      encodeCells h cells rest (blankCells + 1, w)
    else
      let w := if blankCells > 0 then w ++ List.replicate blankCells 0x20 else w
      let blankCells := 0
      if cell.ContentTag = ContentTagCP then
        encodeCells h cells rest (blankCells, w ++ fmtChar cell.ContentCP)
      else
        encodeCells h cells rest (blankCells, w)

/-- The row loop of `Page.EncodeUtf8` over the listed rows: the counts of
pending blank rows and blank cells and the bytes written so far. -/
def encodeRows (h : Heap) (p : Page) (unwrap : Bool) :
    List Nat → Nat × Nat × List Nat → Run (Nat × Nat × List Nat)
  | [], st => pure st
  | y :: rest, (blankRows, blankCells, w) => do
    let row ← p.GetRow y
    let cells ← p.GetCells h row
    let any ← hasTextAny h cells
    if !any then
      encodeRows h p unwrap rest (blankRows + 1, blankCells, w)
    else
      let w := w ++ List.replicate blankRows 0x0A
      let blankRows := 0
      let blankRows := if !(h.rows row).Wrap || !unwrap then blankRows + 1 else blankRows
      let blankCells := if !(h.rows row).WrapContinuation || !unwrap then 0 else blankCells
      let (blankCells, w) ← encodeCells h cells (List.range cells.len) (blankCells, w)
      encodeRows h p unwrap rest (blankRows, blankCells, w)

/-- The method `Page.EncodeUtf8` on a writer that never fails (a byte buffer);
the result is the content of the writer. -/
def Page.EncodeUtf8 (p : Page) (h : Heap) (w : List Nat) (opts : EncodeUtf8Options) :
    Run (List Nat) := do
  let blankRows := opts.Preceding.Rows
  let blankCells := opts.Preceding.Cells
  let startY := opts.StartY
  let endY := match opts.EndY with
    | some e => e
    | none => p.Size.Rows
  let (_, _, w) ← encodeRows h p opts.Unwrap (List.range' startY (endY - startY))
    (blankRows, blankCells, w)
  pure w

end page

/-! ## terminal/point/tag.go, terminal/pagelist/pin.go and pagelist.go -/

namespace point

/-- The type `Tag`. -/
inductive Tag where
  | TagViewPort
  | TagActive
  | TagScreen
  | TagHistory
  deriving DecidableEq, Repr

/-- The struct `Point`, with the coordinate pair inlined. -/
structure Point where
  Tag : Tag := Tag.TagViewPort
  X : Nat := 0
  Y : Nat := 0
  deriving DecidableEq, Repr

end point

namespace datastruct

namespace IntrusiveLinkedList

/-- The method `InsertAfter`. -/
def InsertAfter (l : IntrusiveLinkedList) (h : Heap) (node newNode : Nat) :
    Heap × IntrusiveLinkedList :=
  let h := h.setNode newNode { h.nodes newNode with Prev := some node }
  match (h.nodes node).Next with
  | some nextNode =>
    let h := h.setNode newNode { h.nodes newNode with Next := (h.nodes node).Next }
    let h := h.setNode nextNode { h.nodes nextNode with Prev := some newNode }
    let h := h.setNode node { h.nodes node with Next := some newNode }
    (h, l)
  | none =>
    let h := h.setNode newNode { h.nodes newNode with Next := none }
    let l := { l with Last := some newNode }
    let h := h.setNode node { h.nodes node with Next := some newNode }
    (h, l)

/-- The method `InsertBefore`. -/
def InsertBefore (l : IntrusiveLinkedList) (h : Heap) (node newNode : Nat) :
    Heap × IntrusiveLinkedList :=
  let h := h.setNode newNode { h.nodes newNode with Next := some node }
  match (h.nodes node).Prev with
  | some prevNode =>
    let h := h.setNode newNode { h.nodes newNode with Prev := (h.nodes node).Prev }
    let h := h.setNode prevNode { h.nodes prevNode with Next := some newNode }
    (h, l)
  | none =>
    let h := h.setNode newNode { h.nodes newNode with Prev := none }
    (h, { l with First := some newNode })

/-- The method `Prepend`. -/
def Prepend (l : IntrusiveLinkedList) (h : Heap) (newNode : Nat) :
    Heap × IntrusiveLinkedList :=
  match l.First with
  | some firstNode => l.InsertBefore h firstNode newNode
  | none =>
    let l := { l with First := some newNode, Last := some newNode }
    (h.setNode newNode { h.nodes newNode with Prev := none, Next := none }, l)

/-- The method `Append`. -/
def Append (l : IntrusiveLinkedList) (h : Heap) (newNode : Nat) :
    Heap × IntrusiveLinkedList :=
  match l.Last with
  | some lastNode => l.InsertAfter h lastNode newNode
  | none => l.Prepend h newNode

end IntrusiveLinkedList

end datastruct

namespace pagelist

/-- The struct `Pin`; a nil `Node` is `none`. -/
structure Pin where
  Node : Option Nat := none
  X : Nat := 0
  Y : Nat := 0
  deriving DecidableEq, Repr

namespace Pin

/-- The method `MarkDirty`. -/
def MarkDirty (p : Pin) (h : Heap) : Run Heap := do
  let n ← h.node p.Node
  let a ← orPanic p.Node
  let set ← orPanic (n.Data.Dirty.Set p.Y)
  pure (h.setPage a { n.Data with Dirty := set })

/-- The method `Equal`. -/
def Equal (p other : Pin) : Bool :=
  p.Node == other.Node && p.Y == other.Y && p.X == other.X

/-- The loop of `Before`: walk `Next` from `node` looking for `target`.  The
fuel is the number of allocated nodes; it runs out only in a cyclic list. -/
def beforeLoop (h : Heap) (target : Option Nat) : Nat → Option Nat → Run Bool
  | _, none => pure false
  | 0, some _ => throw Fault.outside
  | fuel + 1, some a =>
    if some a = target then pure true else beforeLoop h target fuel (h.nodes a).Next

/-- The method `Before`. -/
def Before (p other : Pin) (h : Heap) : Run Bool :=
  if p.Node = other.Node then
    if p.Y < other.Y then pure true
    else if p.Y > other.Y then pure false
    else pure (decide (p.X < other.X))
  else do
    let n ← h.node p.Node
    beforeLoop h other.Node (h.nextNode + 1) n.Next

/-- The method `RowAndCell`. -/
def RowAndCell (p : Pin) (h : Heap) : Run (Nat × Option Nat) := do
  let n ← h.node p.Node
  n.Data.GetRowAndCell h p.X p.Y

/-- The loop of `Up`: `for rem > node.Data.Size.Rows`. -/
def upLoop (h : Heap) : Nat → Option Nat → Nat → Run (Option (Option Nat × Nat))
  | 0, _, _ => throw Fault.outside
  | fuel + 1, node, rem => do
    let n ← h.node node
    if rem > n.Data.Size.Rows then
      let rem := rem - n.Data.Size.Rows
      match n.Prev with
      | none => pure none
      | some a => upLoop h fuel (some a) rem
    else pure (some (node, rem))

/-- The method `Up`; a nil result is `none`. -/
def Up (p : Pin) (h : Heap) (n : Nat) : Run (Option Pin) :=
  if n ≤ p.Y then pure (some { Node := p.Node, Y := p.Y - n, X := p.X })
  else do
    let pn ← h.node p.Node
    let rem := n - p.Y
    match ← upLoop h (h.nextNode + 1) pn.Prev rem with
    | none => pure none
    | some (node, rem) => do
      let nn ← h.node node
      let y ← usub nn.Data.Size.Rows rem
      pure (some { Node := node, Y := y, X := p.X })

/-- The loop of `Down`: `for rem > node.Data.Size.Rows`. -/
def downLoop (h : Heap) : Nat → Option Nat → Nat → Run (Option (Option Nat × Nat))
  | 0, _, _ => throw Fault.outside
  | fuel + 1, node, rem => do
    let n ← h.node node
    if rem > n.Data.Size.Rows then
      let rem := rem - n.Data.Size.Rows
      match n.Next with
      | none => pure none
      | some a => downLoop h fuel (some a) rem
    else pure (some (node, rem))

/-- The method `Down`; a nil result is `none`. -/
def Down (p : Pin) (h : Heap) (n : Nat) : Run (Option Pin) := do
  let pn ← h.node p.Node
  let availRows ← usub pn.Data.Size.Rows (p.Y + 1)
  if n ≤ availRows then pure (some { Node := p.Node, Y := p.Y + n, X := p.X })
  else
    let rem := n - availRows
    match ← downLoop h (h.nextNode + 1) pn.Next rem with
    | none => pure none
    | some (node, rem) => pure (some { Node := node, Y := rem - 1, X := p.X })

end Pin

/-- The type `direction`. -/
inductive direction where
  | directionLeftUp
  | directionRightDown
  deriving DecidableEq, Repr

/-- The type `LimitType`. -/
inductive LimitType where
  | LimitTypeNone
  | LimitTypeCount
  | LimitTypeRow
  deriving DecidableEq, Repr

/-- The struct `Limit`. -/
structure Limit where
  Typ : LimitType := LimitType.LimitTypeNone
  LimitCount : Nat := 0
  LimitRow : Pin := {}
  deriving DecidableEq, Repr

/-- The struct `PageIterator`; a nil `Row` is `none`. -/
structure PageIterator where
  Row : Option Pin := none
  Limit : Limit := {}
  Direction : direction := direction.directionLeftUp
  deriving DecidableEq, Repr

/-- The struct `Chunk`. -/
structure Chunk where
  Node : Option Nat := none
  StartY : Nat := 0
  EndY : Nat := 0
  deriving DecidableEq, Repr

/-- The method `Pin.PageIterator`; a nil `limit` is `none`. -/
def Pin.PageIterator (p : Pin) (h : Heap) (dir : direction) (limit : Option Pin) :
    Run PageIterator := do
  match limit with
  | some l =>
    match dir with
    | direction.directionLeftUp =>
      let b ← l.Before p h
      Assert (p.Equal l || b)
    | direction.directionRightDown =>
      let b ← p.Before l h
      Assert (p.Equal l || b)
  | none => pure ()
  let itLimit : Limit := match limit with
    | some l => { Typ := LimitType.LimitTypeRow, LimitRow := l }
    | none => { Typ := LimitType.LimitTypeNone }
  pure { Row := some p, Limit := itLimit, Direction := dir }

/-- The method `PageIterator.nextDown`: the iterator after the call and the
chunk (`none` for nil). -/
def PageIterator.nextDown (it : PageIterator) (h : Heap) :
    Run (PageIterator × Option Chunk) :=
  match it.Row with
  | none => pure (it, none)
  | some row =>
    match it.Limit.Typ with
    | LimitType.LimitTypeNone => do
      let n ← h.node row.Node
      pure ({ it with Row := some { Node := n.Next } },
        some { Node := row.Node, StartY := row.Y, EndY := n.Data.Size.Rows })
    | LimitType.LimitTypeCount => do
      Assert (decide (it.Limit.LimitCount > 0))
      let n ← h.node row.Node
      let left ← usub n.Data.Size.Rows row.Y
      let rem := min left it.Limit.LimitCount
      if rem < it.Limit.LimitCount then do
        let next ← row.Down h rem
        pure ({ it with Row := next,
                        Limit := { it.Limit with LimitCount := it.Limit.LimitCount - rem } },
          some { Node := row.Node, StartY := row.Y, EndY := row.Y + rem })
      else
        pure ({ it with Row := none },
          some { Node := row.Node, StartY := row.Y, EndY := row.Y + rem })
    | LimitType.LimitTypeRow =>
      if it.Limit.LimitRow.Node ≠ row.Node then do
        let n ← h.node row.Node
        pure ({ it with Row := some { Node := n.Next } },
          some { Node := row.Node, StartY := row.Y, EndY := n.Data.Size.Rows })
      else
        let it := { it with Row := none }
        if row.Y > it.Limit.LimitRow.Y then pure (it, none)
        else pure (it, some { Node := row.Node, StartY := row.Y, EndY := it.Limit.LimitRow.Y + 1 })

/-- The type `ViewportTag`. -/
inductive ViewportTag where
  | ViewportTagActive
  | ViewportTagTop
  | ViewportTagPin
  deriving DecidableEq, Repr

/-- The struct `PageList`.  `mem` holds the objects reached through its
pointers; `Pages` is `none` when the pointer is nil.  The pins behind
`ViewPortPin` and in `TrackedPins` are held by value: the code reads the
tracked pins only through `IntrusiveLinkedList.All`, whose iterator yields
nothing. -/
structure PageList where
  mem : Heap := {}
  Pages : Option datastruct.IntrusiveLinkedList := none
  PageSize : Nat := 0
  Cols : Nat := 0
  Rows : Nat := 0
  ViewPort : ViewportTag := ViewportTag.ViewportTagActive
  ViewPortPin : Pin := {}
  TrackedPins : List Pin := []
  MaxPagesSize : Nat := 0

/-- The struct `pagelist.EncodeUtf8Options`. -/
structure EncodeUtf8Options where
  Unwrap : Bool := false
  TopLeft : Pin := {}
  BottomRight : Option Pin := none
  deriving DecidableEq, Repr

set_option linter.dupNamespace false in
/-- The struct `pagelist.Cell`. -/
structure Cell where
  Node : Option Nat := none
  Row : Nat := 0
  Cell : Option Nat := none
  RowIdx : Nat := 0
  ColIdx : Nat := 0
  deriving DecidableEq, Repr

namespace PageList

/-- Dereference `p.Pages`. -/
def pages (p : PageList) : Run datastruct.IntrusiveLinkedList := orPanic p.Pages

/-- The loop `for rem > 0` of `InitPages`.  Every round takes at least one row
(the capacity has at least one row), so `rows` rounds are enough. -/
def initPagesLoop (cap : page.Capacity) :
    Nat → Nat → Heap × datastruct.IntrusiveLinkedList → Run (Heap × datastruct.IntrusiveLinkedList)
  | fuel, rem, (h, l) =>
    if rem > 0 then
      match fuel with
      | 0 => throw Fault.outside
      | fuel + 1 =>
        let (h, data) := page.InitPage h cap
        let (h, node) := h.newNode data
        let rows := min rem data.Capacity.Rows
        let h := h.setPage node { data with Size := { data.Size with Rows := rows } }
        let rem := rem - rows
        let (h, l) := l.Append h node
        initPagesLoop cap fuel rem (h, l)
    else pure (h, l)

/-- The method `InitPages`: the memory with the new pages and the list, `none`
for the nil result. -/
def InitPages (h : Heap) (cols rows : Nat) :
    Run (Heap × Option datastruct.IntrusiveLinkedList) :=
  match page.StandardCapacity.Adjust { Cols := cols } with
  | none => pure (h, none)
  | some cap => do
    let (h, l) ← initPagesLoop cap rows rows (h, {})
    Assert (l.First != none)
    pure (h, some l)

/-- The function `NewPageList`. -/
def NewPageList (cols rows : Nat) : Run PageList := do
  let p : PageList :=
    { Cols := cols, Rows := rows, PageSize := 0, ViewPort := ViewportTag.ViewportTagActive,
      ViewPortPin := {}, TrackedPins := [] }
  let (h, l) ← InitPages p.mem cols rows
  let p := { p with mem := h, Pages := l }
  let l ← p.pages
  pure { p with ViewPortPin := { p.ViewPortPin with Node := l.First } }

/-- The loop of `GetTopLeft` for the active tag:
`for ; it != nil; it = it.Prev`. -/
def topLeftLoop (h : Heap) : Nat → Option Nat → Nat → Run (Option Pin)
  | _, none, _ => pure none
  | 0, some _, _ => throw Fault.outside
  | fuel + 1, some a, rem =>
    let n := h.nodes a
    if rem ≤ n.Data.Size.Rows then
      pure (some { Node := some a, Y := n.Data.Size.Rows - rem })
    else topLeftLoop h fuel n.Prev (rem - n.Data.Size.Rows)

/-- The method `GetTopLeft` for the tags other than the viewport. -/
def getTopLeftPlain (p : PageList) (tag : point.Tag) : Run (Option Pin) := do
  match tag with
  | point.Tag.TagScreen | point.Tag.TagHistory =>
    let l ← p.pages
    pure (some { Node := l.First })
  | point.Tag.TagActive =>
    let l ← p.pages
    topLeftLoop p.mem (p.mem.nextNode + 1) l.First p.Rows
  | point.Tag.TagViewPort => pure none

/-- The method `GetTopLeft`; a nil result is `none`. -/
def GetTopLeft (p : PageList) (tag : point.Tag) : Run (Option Pin) :=
  match tag with
  | point.Tag.TagViewPort =>
    match p.ViewPort with
    | ViewportTag.ViewportTagActive => p.getTopLeftPlain point.Tag.TagActive
    | ViewportTag.ViewportTagTop => p.getTopLeftPlain point.Tag.TagScreen
    | ViewportTag.ViewportTagPin => pure (some p.ViewPortPin)
  | tag => p.getTopLeftPlain tag

/-- The method `GetBottomRight`; a nil result is `none`. -/
def GetBottomRight (p : PageList) (tag : point.Tag) : Run (Option Pin) := do
  match tag with
  | point.Tag.TagScreen | point.Tag.TagActive =>
    let l ← p.pages
    let n ← p.mem.node l.Last
    let y ← usub n.Data.Size.Rows 1
    let x ← usub n.Data.Size.Cols 1
    pure (some { Node := l.Last, Y := y, X := x })
  | point.Tag.TagViewPort =>
    let tl ← p.GetTopLeft point.Tag.TagViewPort
    let tl ← orPanic tl
    let n ← usub p.Rows 1
    tl.Down p.mem n
  | point.Tag.TagHistory =>
    let tl ← p.GetTopLeft point.Tag.TagActive
    let tl ← orPanic tl
    let tn ← p.mem.node tl.Node
    let n ← p.mem.node tn.Prev
    let y ← usub n.Data.Size.Rows 1
    let x ← usub n.Data.Size.Cols 1
    pure (some { Node := tn.Prev, Y := y, X := x })

/-- The method `TrackPin`: the list with the pin added, and the tracked pin. -/
def TrackPin (p : PageList) (pin : Pin) : PageList × Pin :=
  let tracked : Pin := { Node := pin.Node, X := pin.X, Y := pin.Y }
  ({ p with TrackedPins := p.TrackedPins ++ [tracked] }, tracked)

/-- The method `Pin`; a nil result is `none`. -/
def Pin (p : PageList) (pt : point.Point) : Run (Option Pin) := do
  let x := pt.X
  if x ≥ p.Cols then pure none
  else
    let tl ← p.GetTopLeft pt.Tag
    let tl ← orPanic tl
    match ← tl.Down p.mem pt.Y with
    | none => pure none
    | some pin => pure (some { pin with X := x })

/-- The method `GetCell`. -/
def GetCell (p : PageList) (pt : point.Point) : Run Cell := do
  let ptPin ← p.Pin pt
  let ptPin ← orPanic ptPin
  let n ← p.mem.node ptPin.Node
  let (row, cell) ← n.Data.GetRowAndCell p.mem ptPin.X ptPin.Y
  pure { ColIdx := ptPin.X, RowIdx := ptPin.Y, Row := row, Cell := cell, Node := ptPin.Node }

/-- The method `pagelist.Cell.IsDirty`. -/
def cellIsDirty (p : PageList) (c : Cell) : Run Bool := do
  let n ← p.mem.node c.Node
  n.Data.IsRowDirty c.RowIdx

/-- The method `CreatePage`. -/
def CreatePage (h : Heap) (cap : page.Capacity) : Heap × Nat :=
  let (h, data) := page.InitPage h cap
  h.newNode { data with Size := { data.Size with Rows := 0 } }

/-- The loop of `Grow` that decides between `prune` (`true`) and `skipPrune`:
`for ; page != nil; page = page.Prev` adding up the rows from the last page. -/
def pruneLoop (h : Heap) (limit : Nat) : Nat → Option Nat → Nat → Run Bool
  | _, none, _ => pure false
  | 0, some _, _ => throw Fault.outside
  | fuel + 1, some a, rows =>
    let rows := rows + (h.nodes a).Data.Size.Rows
    if rows > limit then pure true else pruneLoop h limit fuel (h.nodes a).Prev rows

/-- The capacity used for a page added by `Grow`: `layout.Adjust` with the
error ignored. -/
def growLayout (cols : Nat) : page.Capacity :=
  match page.StandardCapacity.Adjust { Cols := cols } with
  | some c => c
  | none => page.StandardCapacity

/-- The method `Grow`: the list after the call and the returned node (`none`
for nil). -/
def Grow (p : PageList) : Run (PageList × Option Nat) := do
  let l ← p.pages
  let h := p.mem
  let fast : Bool := match l.Last with
    | some a => decide ((h.nodes a).Data.Size.Rows < (h.nodes a).Data.Capacity.Rows)
    | none => false
  match l.Last, fast with
  | some a, true =>
    let data := (h.nodes a).Data
    let data := { data with Size := { data.Size with Rows := data.Size.Rows + 1 } }
    let h := h.setPage a data
    data.AssertIntegrity
    pure ({ p with mem := h }, none)
  | last, _ =>
    let prune ←
      if l.First ≠ none ∧ l.First ≠ l.Last ∧ p.PageSize + 1 > p.MaxPagesSize then
        pruneLoop h p.Rows (h.nextNode + 1) l.Last 0
      else pure false
    if prune then do
      let layout := growLayout p.Cols
      let first := l.First
      Assert (first != last)
      let f ← orPanic first
      let (h, data) := page.InitPage h layout
      let h := h.setPage f data
      let data := { data with Size := { data.Size with Rows := 1 } }
      let h := h.setPage f data
      let lastA ← orPanic last
      let (h, l) := l.InsertAfter h lastA f
      data.AssertIntegrity
      pure ({ p with mem := h, Pages := some l }, first)
    else do
      let layout := growLayout p.Cols
      let (h, nextNode) := CreatePage h layout
      let (h, l) := l.Append h nextNode
      let data := (h.nodes nextNode).Data
      let data := { data with Size := { data.Size with Rows := 1 } }
      let h := h.setPage nextNode data
      data.AssertIntegrity
      pure ({ p with mem := h, Pages := some l }, some nextNode)

/-- The loop of `EncodeUtf8` over the chunks of the iterator. -/
def encodeChunks (h : Heap) (unwrap : Bool) :
    Nat → PageIterator → List Nat → Run (List Nat)
  | 0, _, _ => throw Fault.outside
  | fuel + 1, it, w => do
    let next ← match it.Direction with
      | direction.directionLeftUp => throw Fault.outside
      | direction.directionRightDown => it.nextDown h
    match next with
    | (_, none) => pure w
    | (it, some chunk) => do
      let n ← h.node chunk.Node
      let w ← n.Data.EncodeUtf8 h w
        { Unwrap := unwrap, StartY := chunk.StartY, EndY := some chunk.EndY }
      encodeChunks h unwrap fuel it w

/-- The method `PageList.EncodeUtf8` on a writer that never fails: the content
of the writer.  Every chunk but the last moves the iterator to the next node,
so `nextNode + 2` rounds are used up only in a cyclic list. -/
def EncodeUtf8 (p : PageList) (w : List Nat) (opts : EncodeUtf8Options) : Run (List Nat) := do
  let it ← opts.TopLeft.PageIterator p.mem direction.directionRightDown opts.BottomRight
  encodeChunks p.mem opts.Unwrap (p.mem.nextNode + 2) it w

end PageList

end pagelist

/-! ## terminal/screen/cursor.go and screen.go -/

namespace screen

/-- The struct `Cursor`.  `PageCell` is a cell pointer (`none` is nil),
`PageRow` a row address.  The pin behind `PagePin` is held by value: it is
written only through the cursor. -/
structure Cursor where
  X : Nat := 0
  Y : Nat := 0
  PendingWrap : Bool := false
  PageCell : Option Nat := none
  PageRow : Nat := 0
  PagePin : pagelist.Pin := {}
  Style : style.Style := {}
  StyleID : Nat := 0
  deriving DecidableEq, Repr

/-- The struct `Screen`; the cursor behind `Cursor` is held by value. -/
structure Screen where
  Cursor : Cursor := {}
  Pages : pagelist.PageList := {}
  rows : Nat := 0
  cols : Nat := 0
  NoScrollback : Bool := false

namespace Screen

/-- The memory of the page list. -/
def mem (s : Screen) : Heap := s.Pages.mem

/-- Replace the memory of the page list. -/
def setMem (s : Screen) (h : Heap) : Screen := { s with Pages := { s.Pages with mem := h } }

/-- Replace the cursor. -/
def setCursor (s : Screen) (c : screen.Cursor) : Screen := { s with Cursor := c }

/-- The function `NewScreen`. -/
def NewScreen (cols rows : Nat) : Run Screen := do
  let pages ← pagelist.PageList.NewPageList cols rows
  let l ← pages.pages
  let (pages, pagePin) := pages.TrackPin { Node := l.First }
  let (row, cell) ← pagePin.RowAndCell pages.mem
  pure { Cursor := { X := 0, Y := 0, PageRow := row, PageCell := cell, PagePin := pagePin },
         Pages := pages, rows := rows, cols := cols }

/-- The method `AssertIntegrity`. -/
def AssertIntegrity (s : Screen) : Run Unit :=
  Assert (decide (s.Cursor.X < s.cols) && decide (s.Cursor.Y < s.rows))

/-- The method `CursorMarkDirty`. -/
def CursorMarkDirty (s : Screen) : Run Screen := do
  let h ← s.Cursor.PagePin.MarkDirty s.mem
  pure (s.setMem h)

/-- The method `SetCursorRight`. -/
def SetCursorRight (s : Screen) (n : Nat) : Run Screen := do
  Assert (decide (s.Cursor.X + n < s.Pages.Cols))
  let cell ← s.mem.index (s.mem.rows s.Cursor.PageRow).Cells (s.Cursor.X + n)
  let c := s.Cursor
  let s := s.setCursor
    { c with PageCell := cell, PagePin := { c.PagePin with X := c.PagePin.X + n }, X := c.X + n }
  s.AssertIntegrity
  pure s

/-- The method `SetCursorLeft`. -/
def SetCursorLeft (s : Screen) (n : Nat) : Run Screen := do
  Assert (decide (s.Cursor.X ≥ n))
  let cell ← s.mem.index (s.mem.rows s.Cursor.PageRow).Cells (s.Cursor.X - n)
  let c := s.Cursor
  let px ← usub c.PagePin.X n
  let s := s.setCursor { c with PageCell := cell, PagePin := { c.PagePin with X := px }, X := c.X - n }
  s.AssertIntegrity
  pure s

/-- The method `SetCursorHorizontalAbs`. -/
def SetCursorHorizontalAbs (s : Screen) (x : Nat) : Run Screen := do
  Assert (decide (x < s.cols))
  let c := s.Cursor
  let c := { c with PagePin := { c.PagePin with X := x } }
  let (_, cell) ← c.PagePin.RowAndCell s.mem
  let s := s.setCursor { c with PageCell := cell, X := x }
  s.AssertIntegrity
  pure s

/-- The method `blankCell`: the memory after the allocation and the pointer. -/
def blankCell (s : Screen) : Screen × Option Nat :=
  if s.Cursor.StyleID = 0 then
    let (h, a) := s.mem.newCell {}
    (s.setMem h, some a)
  else
    match s.Cursor.Style.BGCell with
    | some c =>
      let (h, a) := s.mem.newCell c
      (s.setMem h, some a)
    | none => (s, none)

/-- The first loop of `ClearCells`: release the styles of the cells with the
listed indices in the page of the node `a`. -/
def releaseStyles (row : Nat) (a : Nat) : List Nat → Heap → Run Heap
  | [], h => pure h
  | i :: rest, h => do
    let p ← h.index (h.rows row).Cells i
    let cell ← h.cell p
    if cell.StyleID = 0 then releaseStyles row a rest h
    else
      let data := (h.nodes a).Data
      let styles ← orPanic (data.Styles.Release cell.StyleID)
      releaseStyles row a rest (h.setPage a { data with Styles := styles })

/-- The second loop of `ClearCells`: `row.Cells[i] = s.blankCell()`. -/
def blankCells (row : Nat) : List Nat → Screen → Run Screen
  | [], s => pure s
  | i :: rest, s => do
    let (s, p) := s.blankCell
    let h ← s.mem.setIndex (s.mem.rows row).Cells i p
    blankCells row rest (s.setMem h)

/-- The method `Screen.ClearCells`; the page is given by its node. -/
def ClearCells (s : Screen) (pageNode : Option Nat) (row : Nat) (fromX toX : Nat) :
    Run Screen := do
  let a ← orPanic pageNode
  let pause := fun (s : Screen) =>
    let data := (s.mem.nodes a).Data
    s.setMem (s.mem.setPage a { data with pauseIntegrityCheck := data.pauseIntegrityCheck + 1 })
  let s := pause s
  let s ←
    if (s.mem.rows row).Styled then do
      let h ← releaseStyles row a (List.range' fromX (toX - fromX)) s.mem
      let d ← usub toX fromX
      let h := if d + 1 = s.Pages.Cols then h.setRow row { h.rows row with Styled := false } else h
      pure (s.setMem h)
    else pure s
  let s ← blankCells row (List.range' fromX (toX - fromX)) s
  let s := pause s
  (s.mem.nodes a).Data.AssertIntegrity
  s.AssertIntegrity
  pure s

end Screen

end screen

section

variable (styleHash : style.Style → Nat)

namespace screen

namespace Screen

/-- The method `ManualStyleUpdate`. -/
def ManualStyleUpdate (s : Screen) : Run Screen := do
  let a ← orPanic s.Cursor.PagePin.Node
  let s ←
    if s.Cursor.StyleID ≠ 0 then do
      let data := (s.mem.nodes a).Data
      let styles ← orPanic (data.Styles.Release s.Cursor.StyleID)
      pure (s.setMem (s.mem.setPage a { data with Styles := styles }))
    else pure s
  if s.Cursor.Style.IsDefault then
    pure (s.setCursor { s.Cursor with StyleID := 0 })
  else do
    let s := s.setCursor { s.Cursor with StyleID := 0 }
    let data := (s.mem.nodes a).Data
    let (styles, id) ← orPanic (@RefCountedSet.Add _ (style.hashable styleHash) data.Styles
      s.Cursor.Style)
    let s := s.setMem (s.mem.setPage a { data with Styles := styles })
    let s := s.setCursor { s.Cursor with StyleID := id }
    s.AssertIntegrity
    pure s

/-- The method `CursorChangePin`; a nil `newPin` is `none`.  `oldStyle` points
to the field `Cursor.Style`, so `*oldStyle` is read after the field has been
reset. -/
def CursorChangePin (s : Screen) (newPin : Option pagelist.Pin) : Run Screen := do
  let newPin ← orPanic newPin
  let s ←
    if !s.Cursor.PagePin.Equal newPin then do
      let h ← s.Cursor.PagePin.MarkDirty s.mem
      let h ← newPin.MarkDirty h
      pure (s.setMem h)
    else pure s
  if s.Cursor.PagePin.Node = newPin.Node then
    pure (s.setCursor { s.Cursor with PagePin := newPin })
  else do
    let oldStyle : Bool := s.Cursor.StyleID ≠ 0
    let s ←
      if oldStyle then
        ManualStyleUpdate styleHash (s.setCursor { s.Cursor with Style := {} })
      else pure s
    let s := s.setCursor { s.Cursor with PagePin := newPin }
    if oldStyle then
      ManualStyleUpdate styleHash (s.setCursor { s.Cursor with Style := s.Cursor.Style })
    else pure s

/-- Refresh the cached row and cell from a pin: `pageRAC := pin.RowAndCell()`
followed by the two assignments. -/
def cacheRowAndCell (s : Screen) (pin : pagelist.Pin) : Run Screen := do
  let (row, cell) ← pin.RowAndCell s.mem
  pure (s.setCursor { s.Cursor with PageRow := row, PageCell := cell })

/-- The method `SetCursorUp`. -/
def SetCursorUp (s : Screen) (n : Nat) : Run Screen := do
  Assert (decide (s.Cursor.Y ≥ n))
  let s := s.setCursor { s.Cursor with Y := s.Cursor.Y - n }
  let pagePin ← s.Cursor.PagePin.Up s.mem n
  let s ← CursorChangePin styleHash s pagePin
  let s ← s.cacheRowAndCell s.Cursor.PagePin
  s.AssertIntegrity
  pure s

/-- The method `SetCursorDown`. -/
def SetCursorDown (s : Screen) (n : Nat) : Run Screen := do
  Assert (decide (s.Cursor.Y + n < s.rows))
  let s := s.setCursor { s.Cursor with Y := s.Cursor.Y + n }
  let pagePin ← s.Cursor.PagePin.Down s.mem n
  let s ← CursorChangePin styleHash s pagePin
  let s ← s.cacheRowAndCell s.Cursor.PagePin
  s.AssertIntegrity
  pure s

/-- The loop `for i := range s.Pages.Cols { cells[i] = cell }`. -/
def fillRow (cells : page.CellSlice) (cell : Option Nat) : List Nat → Heap → Run Heap
  | [], h => pure h
  | i :: rest, h => do
    let h ← h.setIndex cells i cell
    fillRow cells cell rest h

/-- The tail of `SetCursorDownScroll` and `SetCursorScrollUp`: with a
non-default style, the first `count` cells of the cursor row are replaced by
one new background cell. -/
def styleNewRow (s : Screen) (count : Nat) : Run Screen :=
  if s.Cursor.StyleID ≠ 0 then
    match s.Cursor.Style.BGCell with
    | some c => do
      let (h, a) := s.mem.newCell c
      let h ← fillRow (h.rows s.Cursor.PageRow).Cells (some a) (List.range count) h
      pure (s.setMem h)
    | none => pure s
  else pure s

/-- The method `SetCursorDownScroll`.  With `NoScrollback` and more than one
row the code calls `PageList.EraseRow`, which is outside. -/
def SetCursorDownScroll (s : Screen) : Run Screen := do
  let last ← usub s.Pages.Rows 1
  Assert (decide (s.Cursor.Y = last))
  let s ←
    if s.NoScrollback then
      if s.Pages.Rows = 1 then do
        let a ← orPanic s.Cursor.PagePin.Node
        let s ← s.ClearCells s.Cursor.PagePin.Node s.Cursor.PageRow 0 s.Pages.Cols
        let data := (s.mem.nodes a).Data
        let dirty ← orPanic (data.Dirty.Set 0)
        pure (s.setMem (s.mem.setPage a { data with Dirty := dirty }))
      else throw Fault.outside
    else do
      let pin := s.Cursor.PagePin
      let (pages, _) ← s.Pages.Grow
      let s := { s with Pages := pages }
      let pin ←
        if pin.Node = s.Cursor.PagePin.Node then pin.Down s.mem 1
        else pure (some { s.Cursor.PagePin with X := s.Cursor.X })
      let s ← CursorChangePin styleHash s pin
      let pin ← orPanic pin
      let s ← s.cacheRowAndCell pin
      let s ← s.CursorMarkDirty
      if s.Cursor.Style.BackgroundColor.Typ ≠ style.ColorType.ColorTypeNone then do
        let n ← s.mem.node pin.Node
        s.ClearCells pin.Node s.Cursor.PageRow 0 n.Data.Size.Cols
      else pure s
  let s ← s.styleNewRow s.Pages.Cols
  s.AssertIntegrity
  pure s

/-- The method `SetCursorScrollUp`.  The branch for a cursor above the last row
(growing and rotating rows, `SetCursorScrollAboveRotate`) is outside. -/
def SetCursorScrollUp (s : Screen) : Run Screen := do
  let h ← s.Cursor.PagePin.MarkDirty s.mem
  let s := s.setMem h
  let last ← usub s.Pages.Rows 1
  if s.Cursor.Y = last then SetCursorDownScroll styleHash s
  else throw Fault.outside

/-- The method `CursorCellEndOfPrevious`: the cell pointer. -/
def CursorCellEndOfPrevious (s : Screen) : Run (Option Nat) := do
  Assert (decide (s.Cursor.X > 0))
  match ← s.Cursor.PagePin.Up s.mem 1 with
  | none => pure none
  | some pagePin => do
    let x ← usub s.Pages.Cols 1
    let (_, cell) ← ({ pagePin with X := x } : pagelist.Pin).RowAndCell s.mem
    pure cell

/-- The method `DumpString` on a byte buffer: the content of the buffer, or
`none` when the method returns an error. -/
def DumpString (s : Screen) (w : List Nat) (tl : point.Tag) : Run (Option (List Nat)) := do
  let tlPin ← s.Pages.GetTopLeft tl
  let brPin ← s.Pages.GetBottomRight tl
  match tlPin with
  | none => pure none
  | some tlPin => do
    let w ← s.Pages.EncodeUtf8 w { Unwrap := false, TopLeft := tlPin, BottomRight := brPin }
    pure (some w)

end Screen

end screen

end

/-! ## terminal/tabstops/tabstop.go: `Reset` and `NewTabstops` -/

namespace tabstops

/-- The constant `TABSTOP_INTERVAL`. -/
def TABSTOP_INTERVAL : Nat := 8

namespace Tabstops

/-- The loop `for i := interval; i < t.cols-1; i += interval { t.Set(i) }` of
`Reset`, with `limit = t.cols - 1`. -/
def resetLoop (interval limit : Nat) : Nat → Nat → Tabstops → Run Tabstops
  | fuel, i, t =>
    if i < limit then
      match fuel with
      | 0 => throw Fault.outside
      | fuel + 1 => resetLoop interval limit fuel (i + interval) (t.Set i)
    else pure t

/-- The method `Reset`. -/
def Reset (t : Tabstops) (interval : Nat) : Run Tabstops := do
  let t := { t with prealloc := t.prealloc.map (fun _ => 0),
                    dynamic := t.dynamic.map (fun _ => 0) }
  if interval > 0 then do
    let limit ← usub t.cols 1
    resetLoop interval limit t.cols interval t
  else pure t

end Tabstops

/-- The function `NewTabstops`. -/
def NewTabstops (cols : Nat) (interval : Nat) : Run Tabstops :=
  let t : Tabstops := { prealloc := List.replicate preallocCount 0, dynamic := [], cols := cols }
  (t.Resize cols).Reset interval

end tabstops

/-! ## terminal/terminal.go -/

namespace page

/-- The method `Page.SwapCells`: `panic("unimplemented")`. -/
def Page.SwapCells : Run Unit := throw Fault.panic

end page

namespace terminal

/-- The struct `Options`: `Cols` and `Rows` are non-negative and below `2^16`;
a nil `Modes` map or `Logger` is `none`. -/
structure Options where
  Cols : Nat := 0
  Rows : Nat := 0
  Modes : Option core.MapRef := none
  Logger : Option Unit := none
  deriving DecidableEq, Repr

/-- The struct `ScrollingRegion`. -/
structure ScrollingRegion where
  top : Nat := 0
  bottom : Nat := 0
  left : Nat := 0
  right : Nat := 0
  deriving DecidableEq, Repr

/-- The struct `Terminal`.  `maps` holds the map objects behind `Modes`; the
pixel sizes `width` and `height`, never read, are left out. -/
structure Terminal where
  Screen : screen.Screen := {}
  rows : Nat := 0
  cols : Nat := 0
  Modes : core.ModeState := { values := 0, defaults := 0 }
  maps : core.MapStore := { maps := [] }
  pwd : String := ""
  previousChar : Option Nat := none
  tabstops : tabstops.Tabstops := { cols := 0, prealloc := [], dynamic := [] }
  scrollingRegion : ScrollingRegion := {}
  logger : Option Unit := none

/-- The function `NewTerminal`, in the store `maps` of map objects. -/
def NewTerminal (maps : core.MapStore) (opts : Options) : Run Terminal := do
  let scr ← screen.Screen.NewScreen opts.Cols opts.Rows
  let (maps, modes) := core.newTerminalModes maps opts.Modes
  let tabs ← tabstops.NewTabstops opts.Cols tabstops.TABSTOP_INTERVAL
  let bottom ← usub opts.Rows 1
  let right ← usub opts.Cols 1
  pure { Screen := scr, rows := opts.Rows, cols := opts.Cols, Modes := modes, maps := maps,
         tabstops := tabs,
         scrollingRegion := { top := 0, bottom := bottom, left := 0, right := right },
         pwd := "", logger := opts.Logger }

namespace Terminal

/-- Go `t.Modes.Get(m)`. -/
def mode (t : Terminal) (m : core.Mode) : Run Bool := orPanic (t.Modes.Get t.maps m)

/-- Replace the cursor of the screen. -/
def setCursor (t : Terminal) (c : screen.Cursor) : Terminal :=
  { t with Screen := t.Screen.setCursor c }

/-- Go `t.logger.Warn(...)`: a nil logger panics. -/
def warn (t : Terminal) : Run Unit := orPanic t.logger

/-- The method `PlainString`: the bytes of the string. -/
def PlainString (t : Terminal) : Run (List Nat) := do
  match ← t.Screen.DumpString [] point.Tag.TagViewPort with
  | none => pure []
  | some w => pure w

/-- The method `isDirty`. -/
def isDirty (t : Terminal) (pt : point.Point) : Run Bool := do
  let c ← t.Screen.Pages.GetCell pt
  t.Screen.Pages.cellIsDirty c

end Terminal

end terminal

section

variable (styleHash : style.Style → Nat)

namespace terminal

namespace Terminal

/-- The method `Terminal.SetCursorDown`. -/
def SetCursorDown (t : Terminal) (offset : Nat) (_carriage : Bool) : Run Terminal := do
  let t := t.setCursor { t.Screen.Cursor with PendingWrap := false }
  let maxm ←
    if t.Screen.Cursor.Y ≤ t.scrollingRegion.bottom then
      usub t.scrollingRegion.bottom t.Screen.Cursor.Y
    else do
      let r ← usub t.rows 1
      usub r t.Screen.Cursor.Y
  let adjustedCount := min maxm (max offset 1)
  let scr ← t.Screen.SetCursorDown styleHash adjustedCount
  pure { t with Screen := scr }

/-- The method `Index`.  The branch for a scrolling region that is not the
whole screen calls `PageList.EraseRowsBounded`, which is outside. -/
def Index (t : Terminal) : Run Terminal := do
  let t := t.setCursor { t.Screen.Cursor with PendingWrap := false }
  if t.Screen.Cursor.Y < t.scrollingRegion.top ∨ t.Screen.Cursor.Y > t.scrollingRegion.bottom
  then do
    let r ← usub t.rows 1
    if t.Screen.Cursor.Y < r then do
      let scr ← t.Screen.SetCursorDown styleHash 1
      pure { t with Screen := scr }
    else pure t
  else if t.Screen.Cursor.Y = t.scrollingRegion.bottom ∧
      t.Screen.Cursor.X ≥ t.scrollingRegion.left ∧
      t.Screen.Cursor.X ≤ t.scrollingRegion.right then do
    let r ← usub t.cols 1
    if t.scrollingRegion.top = 0 ∧ t.scrollingRegion.left = 0 ∧ t.scrollingRegion.right = r
    then do
      let scr ← t.Screen.SetCursorScrollUp styleHash
      pure { t with Screen := scr }
    else throw Fault.outside
  else if t.Screen.Cursor.Y < t.scrollingRegion.bottom then
    SetCursorDown styleHash t 1 false
  else pure t

/-- The method `PrintWrap`. -/
def PrintWrap (t : Terminal) : Run Terminal := do
  let r ← usub t.cols 1
  let markWrap : Bool := t.Screen.Cursor.X = r
  let h := t.Screen.mem
  let row := t.Screen.Cursor.PageRow
  let h := if markWrap then h.setRow row { h.rows row with Wrap := true } else h
  let t := { t with Screen := t.Screen.setMem h }
  let oldPrompt := (h.rows row).SemanticPrompt
  let t ← Index styleHash t
  let scr ← t.Screen.SetCursorHorizontalAbs t.scrollingRegion.left
  let t := { t with Screen := scr }
  let h := t.Screen.mem
  let row := t.Screen.Cursor.PageRow
  let h :=
    if markWrap then
      h.setRow row { h.rows row with SemanticPrompt := oldPrompt, WrapContinuation := true }
    else h
  let t := { t with Screen := t.Screen.setMem h }
  t.Screen.AssertIntegrity
  pure t

/-- The assignment `headCell.Wide = pagepkg.WideNarrow` after
`CursorCellEndOfPrevious`, under the guard `cursor.Y > 0 && cursor.X <= 1`. -/
def clearPreviousHead (t : Terminal) : Run Terminal :=
  if t.Screen.Cursor.Y > 0 ∧ t.Screen.Cursor.X ≤ 1 then do
    let headCell ← t.Screen.CursorCellEndOfPrevious
    let c ← t.Screen.mem.cell headCell
    let h ← t.Screen.mem.setCell headCell { c with Wide := page.Wide.WideNarrow }
    pure { t with Screen := t.Screen.setMem h }
  else pure t

/-- The method `printCell`.  `cell` is the pointer read from the cursor at
entry; all later reads and writes of the cell go through it. -/
def printCell (t : Terminal) (c : Nat) (wide : page.Wide) : Run Terminal := do
  let cell := t.Screen.Cursor.PageCell
  let cur ← t.Screen.mem.cell cell
  let t ←
    if cur.Wide ≠ wide then
      match cur.Wide with
      | page.Wide.WideNarrow => pure t
      | page.Wide.WideWide => do
        let r ← usub t.cols 1
        if t.Screen.Cursor.X ≥ r then pure t
        else do
          let scr ← t.Screen.ClearCells t.Screen.Cursor.PagePin.Node t.Screen.Cursor.PageRow
            (t.Screen.Cursor.X + 1) (t.Screen.Cursor.X + 2)
          clearPreviousHead { t with Screen := scr }
      | page.Wide.WideSpacerTail => do
        Assert (decide (t.Screen.Cursor.X > 0))
        let h ← t.Screen.mem.setCell cell { cur with Wide := page.Wide.WideNarrow }
        let t := { t with Screen := t.Screen.setMem h }
        let scr ← t.Screen.ClearCells t.Screen.Cursor.PagePin.Node t.Screen.Cursor.PageRow
          (t.Screen.Cursor.X - 1) t.Screen.Cursor.X
        clearPreviousHead { t with Screen := scr }
      | page.Wide.WideSpacerHead => pure t
    else pure t
  let cur ← t.Screen.mem.cell cell
  let styleChanged : Bool := cur.StyleID ≠ t.Screen.Cursor.StyleID
  let a ← orPanic t.Screen.Cursor.PagePin.Node
  let t ←
    if styleChanged ∧ cur.StyleID ≠ 0 then do
      Assert (t.Screen.mem.rows t.Screen.Cursor.PageRow).Styled
      let data := (t.Screen.mem.nodes a).Data
      let styles ← orPanic (data.Styles.Release cur.StyleID)
      pure { t with Screen := t.Screen.setMem (t.Screen.mem.setPage a { data with Styles := styles }) }
    else pure t
  let cur ← t.Screen.mem.cell cell
  let cur := { cur with ContentTag := page.ContentTagCP, ContentCP := c,
                        StyleID := t.Screen.Cursor.StyleID, Wide := wide }
  let h ← t.Screen.mem.setCell cell cur
  let t := { t with Screen := t.Screen.setMem h }
  let t ←
    if styleChanged ∧ cur.StyleID ≠ 0 then do
      let data := (t.Screen.mem.nodes a).Data
      let styles ← orPanic (data.Styles.Use cur.StyleID)
      let h := t.Screen.mem.setPage a { data with Styles := styles }
      let row := t.Screen.Cursor.PageRow
      let h := h.setRow row { h.rows row with Styled := true }
      pure { t with Screen := t.Screen.setMem h }
    else pure t
  t.Screen.AssertIntegrity
  pure t

/-- The method `InsertBlanks`.  When cells have to be shifted (`amount > 0`) the
first round of the loop calls `Page.SwapCells`, which panics. -/
def InsertBlanks (t : Terminal) (repeated : Nat) : Run Terminal := do
  let t := t.setCursor { t.Screen.Cursor with PendingWrap := false }
  if t.Screen.Cursor.X < t.scrollingRegion.left ∨ t.Screen.Cursor.X > t.scrollingRegion.right
  then pure t
  else do
    let leftX := t.Screen.Cursor.X
    let pageNode := t.Screen.Cursor.PagePin.Node
    let cur ← t.Screen.mem.cell t.Screen.Cursor.PageCell
    let t ←
      if cur.Wide = page.Wide.WideSpacerTail then do
        Assert (decide (t.Screen.Cursor.X > 0))
        let scr ← t.Screen.ClearCells pageNode t.Screen.Cursor.PageRow (leftX - 1) leftX
        pure { t with Screen := scr }
      else pure t
    let d ← usub t.cols t.Screen.Cursor.X
    let rem := d + 1
    let adjustedCount := min repeated rem
    let amount := rem - adjustedCount
    let t ←
      if amount > 0 then do
        let x := leftX + (amount - 1)
        let cells := (t.Screen.mem.rows t.Screen.Cursor.PageRow).Cells
        let endP ← t.Screen.mem.index cells x
        let endC ← t.Screen.mem.cell endP
        let t ←
          if endC.Wide = page.Wide.WideWide then do
            let nextP ← t.Screen.mem.index cells (x + 1)
            let nextC ← t.Screen.mem.cell nextP
            Assert (decide (nextC.Wide = page.Wide.WideSpacerTail))
            let scr ← t.Screen.ClearCells pageNode t.Screen.Cursor.PageRow x (x + 1)
            pure { t with Screen := scr }
          else pure t
        let cells := (t.Screen.mem.rows t.Screen.Cursor.PageRow).Cells
        let _ ← t.Screen.mem.index cells x
        let _ ← t.Screen.mem.index cells (x + adjustedCount)
        page.Page.SwapCells
        pure t
      else pure t
    let scr ← t.Screen.ClearCells pageNode t.Screen.Cursor.PageRow leftX (leftX + adjustedCount)
    let scr ← scr.CursorMarkDirty
    pure { t with Screen := scr }

end Terminal

end terminal

end

section

variable (RuneWidth : Nat → Nat) (styleHash : style.Style → Nat)

namespace terminal

namespace Terminal

/-- The `case 2` of `Print`: a wide character.  The result says whether the
method returns at once (`true`), before the handling of the line end. -/
def printWide (t : Terminal) (c rightLimit : Nat) : Run (Terminal × Bool) := do
  let room ← usub rightLimit t.scrollingRegion.left
  if room > 1 then do
    let edge ← usub rightLimit 1
    let step : Run (Terminal × Bool) :=
      if t.Screen.Cursor.X = edge then do
        let wrap ← t.mode core.ModeWraparound
        if wrap then pure (t, true)
        else do
          let t ←
            if rightLimit = t.cols then printCell t c page.Wide.WideSpacerHead
            else printCell t c page.Wide.WideNarrow
          let t ← PrintWrap styleHash t
          pure (t, false)
      else pure (t, false)
    let (t, ret) ← step
    if ret then pure (t, true)
    else do
      let scr ← t.Screen.CursorMarkDirty
      let t ← printCell { t with Screen := scr } c page.Wide.WideWide
      let scr ← t.Screen.SetCursorRight 1
      let t ← printCell { t with Screen := scr } 0 page.Wide.WideSpacerTail
      pure (t, false)
  else do
    let scr ← t.Screen.CursorMarkDirty
    let t ← printCell { t with Screen := scr } c page.Wide.WideNarrow
    pure (t, false)

/-- The body of `Print`, before the deferred `AssertIntegrity`.  `RuneWidth` is
the function `RuneWidth` of the external library `go-runewidth`. -/
def printBody (t : Terminal) (c : Nat) : Run Terminal := do
  let rightLimit :=
    if t.Screen.Cursor.X > t.scrollingRegion.right then t.cols
    else t.scrollingRegion.right + 1
  let width := if c ≤ 0xFF then 1 else RuneWidth c
  Assert (decide (width ≤ 2))
  if width = 0 then do
    t.warn
    pure t
  else do
    let t := { t with previousChar := some c }
    let t ←
      if t.Screen.Cursor.PendingWrap then do
        let wrap ← t.mode core.ModeWraparound
        if wrap then PrintWrap styleHash t else pure t
      else pure t
    let ins ← t.mode core.ModeInsert
    let t ←
      if ins && decide (t.Screen.Cursor.X + width < t.cols) then InsertBlanks t width
      else pure t
    let (t, ret) ←
      if width = 1 then do
        let scr ← t.Screen.CursorMarkDirty
        let t ← printCell { t with Screen := scr } c page.Wide.WideNarrow
        pure (t, false)
      else if width = 2 then printWide styleHash t c rightLimit
      else pure (t, false)
    if ret then pure t
    else if t.Screen.Cursor.X + width = rightLimit then
      pure (t.setCursor { t.Screen.Cursor with PendingWrap := true })
    else do
      let scr ← t.Screen.SetCursorRight 1
      pure { t with Screen := scr }

/-- The method `Print`. -/
def Print (t : Terminal) (c : Nat) : Run Terminal := do
  let t ← printBody RuneWidth styleHash t c
  t.Screen.AssertIntegrity
  pure t

/-- Call `Print` on each code point of a list, in order. -/
def printAll (t : Terminal) : List Nat → Run Terminal
  | [] => pure t
  | c :: cs => do
    let t ← Print RuneWidth styleHash t c
    printAll t cs

end Terminal

end terminal

end

/-! ## Fresh terminals and observations -/

namespace terminal

/-- A fresh terminal as the tests build it:
`NewTerminal(Options{Cols, Rows, Modes: core.ModePacked, Logger})`. -/
def freshTerminal (cols rows : Nat) : Run Terminal :=
  NewTerminal core.initStore
    { Cols := cols, Rows := rows, Modes := some core.ModePacked, Logger := some () }

/-- The cursor position and `PendingWrap` of a terminal. -/
def Terminal.cursorState (t : Terminal) : Nat × Nat × Bool :=
  (t.Screen.Cursor.X, t.Screen.Cursor.Y, t.Screen.Cursor.PendingWrap)

/-- Go `t.isDirty(point.Point{Tag: point.TagScreen, Coordinate: {X: 0, Y: y}})`
for each listed row `y`. -/
def Terminal.dirtyRows (t : Terminal) (ys : List Nat) : Run (List Bool) :=
  ys.mapM (fun y => t.isDirty { Tag := point.Tag.TagScreen, X := 0, Y := y })

end terminal

/-! ## The states of a one-column terminal -/

namespace terminal

/-- Rows in a page of one column: the standard capacity adjusted to one column. -/
def oneColRows : Nat := 46225

/-- The cell that `printCell` writes for a narrow character with the default
style. -/
def written (c : Nat) : page.Cell :=
  { ContentTag := page.ContentTagCP, ContentCP := c, StyleID := 0, Wide := page.Wide.WideNarrow }

/-- The page of a one-column terminal with `sizeRows` rows in use. -/
def oneColPage (sizeRows : Nat) (dirty : StaticBitSet) : page.Page :=
  { Rows := fun i => i
    RowsLen := oneColRows
    Cells := { base := 0, len := oneColRows, cap := oneColRows }
    Styles := NewRefCountedSet style.Style 128
    Size := { Cols := 1, Rows := sizeRows }
    Capacity := { Cols := 1, Rows := oneColRows, Styles := 128 }
    Dirty := dirty }

/-- The memory of a one-column terminal with one page: cell `i` holds `s[i]`,
row `i` is the slot `i`, the rows below `wrapN` have `Wrap` set and the rows
from 1 to below `contN` have `WrapContinuation` set. -/
def oneColHeap (s : List Nat) (wrapN contN sizeRows : Nat) (dirty : StaticBitSet) : Heap :=
  { cells := fun a => match s.get? a with
      | some c => written c
      | none => {}
    nextCell := oneColRows
    slots := fun a => if a < oneColRows then some a else none
    nextSlot := oneColRows
    rows := fun i =>
      if i < oneColRows then
        { Cells := { base := i, len := 1, cap := oneColRows - i },
          Wrap := decide (i < wrapN),
          WrapContinuation := decide (1 ≤ i ∧ i < contN) }
      else {}
    nextRow := oneColRows
    nodes := Function.update (fun _ => {}) 0
      { Next := none, Prev := none, Data := oneColPage sizeRows dirty }
    nextNode := 1 }

/-- The page list of a one-column terminal of `r` rows with one page. -/
def oneColPages (r : Nat) (h : Heap) : pagelist.PageList :=
  { mem := h
    Pages := some { First := some 0, Last := some 0 }
    Cols := 1, Rows := r
    ViewPortPin := { Node := some 0 }
    TrackedPins := [{ Node := some 0 }] }

/-- The cursor of a one-column terminal on the page row `y`, screen row `sy`. -/
def oneColCursor (y sy : Nat) (pending : Bool) : screen.Cursor :=
  { X := 0, Y := sy, PendingWrap := pending, PageCell := some y, PageRow := y,
    PagePin := { Node := some 0, X := 0, Y := y } }

/-- The screen of a one-column terminal of `r` rows with one page. -/
def oneColScreen (r : Nat) (h : Heap) (cur : screen.Cursor) : screen.Screen :=
  { Cursor := cur, Pages := oneColPages r h, rows := r, cols := 1 }

/-- A one-column terminal of `r` rows created by `freshTerminal`, with the
screen `scr` and the last printed character `prev`. -/
def oneColState (r : Nat) (scr : screen.Screen) (prev : Option Nat) : Terminal :=
  { Screen := scr
    rows := r, cols := 1
    Modes := { values := core.ModePacked, defaults := core.ModePacked }
    maps := core.initStore
    previousChar := prev
    tabstops := { cols := 1, prealloc := List.replicate 64 0, dynamic := [] }
    scrollingRegion := { top := 0, bottom := r - 1, left := 0, right := 0 }
    logger := some () }

/-- The one-column terminal of `r` rows after the characters `s` have been
printed (not more than fill the first page), with the dirty bits `dirty`. -/
def oneColTerminal (r : Nat) (s : List Nat) (dirty : StaticBitSet) : Terminal :=
  oneColState r
    (oneColScreen r (oneColHeap s (s.length - 1) s.length (max r s.length) dirty)
      (oneColCursor (s.length - 1) (min (s.length - 1) (r - 1)) (decide (s ≠ []))))
    s.getLast?

/-- The dirty set of a page after `MarkDirty` of row `y`. -/
def markRow (d : StaticBitSet) (y : Nat) : StaticBitSet :=
  { d with bits := d.bits.set (y / 64) (d.bits.getD (y / 64) 0 ||| shl64 1 (y % 64)) }

/-- The dirty set of a one-column page is well formed: one bit per row of the
capacity. -/
def dirtyOK (d : StaticBitSet) : Prop := d.size = oneColRows ∧ d.bits.length = 723

/-- The lines of a dump: the characters joined by newline characters. -/
def joinLines : List Nat → List Nat
  | [] => []
  | [c] => [c]
  | c :: cs => c :: 0x0A :: joinLines cs

end terminal

/-! ## terminal/screen/screen.go: `SetCursorAbs` and `ClearRows` -/

section

variable (styleHash : style.Style → Nat)

namespace screen

namespace Screen

/-- The method `SetCursorAbs`.  `Up` and `Down` return a new pin; in the branch
that keeps the row `pagePin` is the pin of the cursor itself, so the assignment
`pagePin.X = x` writes to the cursor too. -/
def SetCursorAbs (s : Screen) (x y : Nat) : Run Screen := do
  Assert (decide (x < s.cols) && decide (y < s.rows))
  let (s, pagePin) ←
    if y < s.Cursor.Y then do
      let p ← s.Cursor.PagePin.Up s.mem (s.Cursor.Y - y)
      let p ← orPanic p
      pure (s, ({ p with X := x } : pagelist.Pin))
    else if y > s.Cursor.Y then do
      let p ← s.Cursor.PagePin.Down s.mem (y - s.Cursor.Y)
      let p ← orPanic p
      pure (s, ({ p with X := x } : pagelist.Pin))
    else
      let p : pagelist.Pin := { s.Cursor.PagePin with X := x }
      pure (s.setCursor { s.Cursor with PagePin := p }, p)
  let s := s.setCursor { s.Cursor with X := x, Y := y }
  let s ← CursorChangePin styleHash s (some pagePin)
  let s ← s.cacheRowAndCell s.Cursor.PagePin
  s.AssertIntegrity
  pure s

/-- The method `ClearRows`: its body is empty. -/
def ClearRows (s : Screen) (_tl : point.Point) (_bl : Option point.Point) : Screen := s

end Screen

end screen

end

/-! ## terminal/terminal.go: cursor movement and erasing -/

namespace csi

/-- The constant `EDModeBelow`. -/
def EDModeBelow : Nat := 0

/-- The constant `EDModeAbove`. -/
def EDModeAbove : Nat := 1

/-- The constant `EDModeComplete`. -/
def EDModeComplete : Nat := 2

/-- The constant `EDModeScrollback`. -/
def EDModeScrollback : Nat := 3

/-- The constant `ELModeRight`. -/
def ELModeRight : Nat := 0

/-- The constant `ELModeLeft`. -/
def ELModeLeft : Nat := 1

/-- The constant `ELModeAll`. -/
def ELModeAll : Nat := 2

end csi

section

variable (styleHash : style.Style → Nat)

namespace terminal

namespace Terminal

/-- The method `CarriageReturn`. -/
def CarriageReturn (t : Terminal) : Run Terminal := do
  let t := t.setCursor { t.Screen.Cursor with PendingWrap := false }
  let origin ← t.mode core.ModeOrigin
  let x :=
    if origin then t.scrollingRegion.left
    else if t.Screen.Cursor.X ≥ t.scrollingRegion.left then t.scrollingRegion.left
    else 0
  let scr ← t.Screen.SetCursorHorizontalAbs x
  pure { t with Screen := scr }

/-- The method `Terminal.SetCursorUp`. -/
def SetCursorUp (t : Terminal) (offset : Nat) (_carriage : Bool) : Run Terminal := do
  let t := t.setCursor { t.Screen.Cursor with PendingWrap := false }
  let maxm ←
    if t.Screen.Cursor.Y ≥ t.scrollingRegion.top then
      usub t.Screen.Cursor.Y t.scrollingRegion.top
    else pure t.Screen.Cursor.Y
  let adjustedCount := min maxm (max offset 1)
  let scr ← t.Screen.SetCursorUp styleHash adjustedCount
  pure { t with Screen := scr }

/-- The method `Terminal.SetCursorLeft`: a `switch` with the one case
`t.Modes.Get(core.ModeWraparound)`. -/
def SetCursorLeft (t : Terminal) (offset : Nat) : Run Terminal := do
  let wrap ← t.mode core.ModeWraparound
  if wrap then do
    let count := max offset 1
    let scr ← t.Screen.SetCursorLeft (min count t.Screen.Cursor.X)
    let t := { t with Screen := scr }
    pure (t.setCursor { t.Screen.Cursor with PendingWrap := false })
  else pure t

/-- The method `Terminal.SetCursorRight`; `uint16(maxm)` keeps the low 16 bits. -/
def SetCursorRight (t : Terminal) (offset : Nat) : Run Terminal := do
  let t := t.setCursor { t.Screen.Cursor with PendingWrap := false }
  let maxm ←
    if t.Screen.Cursor.X ≤ t.scrollingRegion.right then
      usub t.scrollingRegion.right t.Screen.Cursor.X
    else do
      let d ← usub t.cols t.Screen.Cursor.X
      usub d 1
  let offset := min (maxm % word16) (max offset 1)
  let scr ← t.Screen.SetCursorRight offset
  pure { t with Screen := scr }

/-- The method `Backspace`. -/
def Backspace (t : Terminal) : Run Terminal := t.SetCursorLeft 1

/-- The inner loop `for t.Screen.Cursor.X < t.cols` of `SetCursorTabRight`: the
terminal, and whether the method has returned.  Every round moves the cursor
one column to the right, so `cols` rounds are enough. -/
def tabRightLoop : Nat → Terminal → Run (Terminal × Bool)
  | fuel, t =>
    if t.Screen.Cursor.X < t.cols then
      match fuel with
      | 0 => throw Fault.outside
      | fuel + 1 => do
        let scr ← t.Screen.SetCursorRight 1
        let t := { t with Screen := scr }
        let stop ← orPanic (t.tabstops.Get t.Screen.Cursor.X)
        if stop then pure (t, true) else tabRightLoop fuel t
    else pure (t, false)

/-- The outer loop `for range repeated` of `SetCursorTabRight`. -/
def tabRightRounds : Nat → Terminal → Run Terminal
  | 0, t => pure t
  | n + 1, t => do
    let (t, returned) ← tabRightLoop t.cols t
    if returned then pure t else tabRightRounds n t

/-- The method `SetCursorTabRight`. -/
def SetCursorTabRight (t : Terminal) (repeated : Nat) : Run Terminal :=
  tabRightRounds repeated t

/-- The inner loop `for t.Screen.Cursor.X > leftLimit` of `SetCursorTabLeft`. -/
def tabLeftLoop (leftLimit : Nat) : Nat → Terminal → Run (Terminal × Bool)
  | fuel, t =>
    if t.Screen.Cursor.X > leftLimit then
      match fuel with
      | 0 => throw Fault.outside
      | fuel + 1 => do
        let scr ← t.Screen.SetCursorLeft 1
        let t := { t with Screen := scr }
        let stop ← orPanic (t.tabstops.Get t.Screen.Cursor.X)
        if stop then pure (t, true) else tabLeftLoop leftLimit fuel t
    else pure (t, false)

/-- The outer loop `for range repeated` of `SetCursorTabLeft`. -/
def tabLeftRounds (leftLimit : Nat) : Nat → Terminal → Run Terminal
  | 0, t => pure t
  | n + 1, t => do
    let (t, returned) ← tabLeftLoop leftLimit t.cols t
    if returned then pure t else tabLeftRounds leftLimit n t

/-- The method `SetCursorTabLeft`. -/
def SetCursorTabLeft (t : Terminal) (repeated : Nat) : Run Terminal := do
  let origin ← t.mode core.ModeOrigin
  let leftLimit := if origin then t.scrollingRegion.left else 0
  tabLeftRounds leftLimit repeated t

/-- The method `TabSet`. -/
def TabSet (t : Terminal) : Terminal :=
  { t with tabstops := t.tabstops.Set t.Screen.Cursor.X }

/-- The method `SetCursorPosition`. -/
def SetCursorPosition (t : Terminal) (row col : Nat) : Run Terminal := do
  let origin ← t.mode core.ModeOrigin
  let (xOffset, yOffset, xMax, yMax) :=
    if origin then
      (t.scrollingRegion.left, t.scrollingRegion.top, t.scrollingRegion.right + 1,
        t.scrollingRegion.bottom + 1)
    else (0, 0, t.cols, t.rows)
  let t := t.setCursor { t.Screen.Cursor with PendingWrap := false }
  let irow := if row = 0 then 1 else row
  let icol := if col = 0 then 1 else col
  let x1 ← usub (min xMax (icol + xOffset)) 1
  let x := max x1 0
  let y1 ← usub (min yMax (irow + yOffset)) 1
  let y := max y1 0
  let cursor := t.Screen.Cursor
  if y = cursor.Y then
    if x > cursor.X then do
      let scr ← t.Screen.SetCursorRight (x - cursor.X)
      pure { t with Screen := scr }
    else do
      let scr ← t.Screen.SetCursorLeft (cursor.X - x)
      pure { t with Screen := scr }
  else do
    let scr ← t.Screen.SetCursorAbs styleHash x y
    pure { t with Screen := scr }

/-- The method `EraseInLine`.  `cursor` is the pointer `t.Screen.Cursor`. -/
def EraseInLine (t : Terminal) (mode : Nat) : Run Terminal := do
  let cursor := t.Screen.Cursor
  let bounds : Run (Option (Nat × Nat)) :=
    if mode = csi.ELModeRight then do
      let start := cursor.X
      let start ←
        if start > 0 then do
          let c ← t.Screen.mem.cell cursor.PageCell
          pure (if c.Wide = page.Wide.WideSpacerTail then start - 1 else start)
        else pure start
      pure (some (start, t.cols))
    else if mode = csi.ELModeLeft then do
      let c ← t.Screen.mem.cell cursor.PageCell
      let start := if c.Wide = page.Wide.WideWide then 1 else 0
      pure (some (start, cursor.X + 1))
    else if mode = csi.ELModeAll then pure (some (0, t.cols))
    else do
      t.warn
      pure none
  match ← bounds with
  | none => pure t
  | some (start, stop) => do
    Assert (decide (stop > start))
    let t := t.setCursor { t.Screen.Cursor with PendingWrap := false }
    let scr ← t.Screen.CursorMarkDirty
    let scr ← scr.ClearCells cursor.PagePin.Node cursor.PageRow start stop
    pure { t with Screen := scr }

/-- The method `EraseInDisplay`. -/
def EraseInDisplay (t : Terminal) (mode : Nat) : Run Terminal :=
  if mode = csi.EDModeComplete then
    let scr := t.Screen.ClearRows { Tag := point.Tag.TagActive, X := 0, Y := 0 } none
    let t := { t with Screen := scr }
    pure (t.setCursor { t.Screen.Cursor with PendingWrap := false })
  else if mode = csi.EDModeBelow then do
    let t ← t.EraseInLine csi.ELModeRight
    let last ← usub t.rows 1
    let tl : point.Point := { Tag := point.Tag.TagActive, X := 0, Y := t.Screen.Cursor.Y + 1 }
    let t := if t.Screen.Cursor.Y < last then { t with Screen := t.Screen.ClearRows tl none } else t
    Assert (!t.Screen.Cursor.PendingWrap)
    pure t
  else if mode = csi.EDModeAbove then do
    let t ← t.EraseInLine csi.ELModeLeft
    let tl : point.Point := { Tag := point.Tag.TagActive, X := 0, Y := 0 }
    let bl : point.Point := { Tag := point.Tag.TagActive, X := 0, Y := t.Screen.Cursor.Y - 1 }
    let t :=
      if t.Screen.Cursor.Y > 0 then { t with Screen := t.Screen.ClearRows tl (some bl) } else t
    Assert (!t.Screen.Cursor.PendingWrap)
    pure t
  else do
    t.warn
    pure t

/-- The method `LineFeed`. -/
def LineFeed (t : Terminal) : Run Terminal := do
  let t ← Index styleHash t
  let lf ← t.mode core.ModeLineFeed
  if lf then t.CarriageReturn else pure t

/-- The method `FullReset`: `Screen.Reset` calls `PageList.Reset`, which is
`panic("unimplemented")`. -/
def FullReset (_t : Terminal) : Run Terminal := throw Fault.panic

end Terminal

end terminal

end

/-! ## Observations of the screen -/

namespace terminal

/-- The cell at column `x` of row `y` of the screen, found as
`Pages.GetCell(point.Point{Tag: point.TagScreen, ...})` finds it. -/
def Terminal.cellAt (t : Terminal) (x y : Nat) : Run page.Cell := do
  let c ← t.Screen.Pages.GetCell { Tag := point.Tag.TagScreen, X := x, Y := y }
  t.Screen.mem.cell c.Cell

/-- The row `y` of the screen, found in the same way. -/
def Terminal.rowAt (t : Terminal) (y : Nat) : Run page.Row := do
  let c ← t.Screen.Pages.GetCell { Tag := point.Tag.TagScreen, X := 0, Y := y }
  pure (t.Screen.mem.rows c.Row)

/-- The width that `go-runewidth` gives to U+4E2D (an East Asian wide
character) is 2; the other code points used below are narrow. -/
def wideAt4E2D (c : Nat) : Nat := if c = 0x4E2D then 2 else 1

end terminal

namespace terminal

/-- Go `t.Modes.Set(m, v)` on the mode state of a terminal. -/
def Terminal.setMode (t : Terminal) (m : core.Mode) (v : Bool) : Run Terminal := do
  let maps ← orPanic (t.Modes.Set t.maps m v)
  pure { t with maps := maps }

/-- The width and the code point of a cell. -/
def cellShape (c : page.Cell) : page.Wide × Nat := (c.Wide, c.ContentCP)

end terminal

namespace terminal

/-- The shapes of the cells at the listed positions `(x, y)` of the screen. -/
def Terminal.shapesAt (t : Terminal) (ps : List (Nat × Nat)) : Run (List (page.Wide × Nat)) :=
  ps.mapM (fun p => (t.cellAt p.1 p.2).map cellShape)

end terminal

namespace terminal

/-- A fresh terminal of the given size after `Print` of the listed code points,
with the widths of `wideAt4E2D`; the style hash is never called, a constant
stands for it. -/
def printed (cols rows : Nat) (s : List Nat) : Run Terminal :=
  (freshTerminal cols rows).bind (fun t => Terminal.printAll wideAt4E2D (fun _ => 0) t s)

/-- The cursor and the viewport dump of a terminal. -/
def Terminal.cursorAndDump (t : Terminal) : Run ((Nat × Nat × Bool) × List Nat) :=
  t.PlainString.map (fun w => (t.cursorState, w))

end terminal

/-! ## Terminals whose active area lies in one page -/

namespace terminal

/-- A terminal whose active area (the last `rows` rows of the screen) lies in
the page of the node `a`, from row `base` of that page on: the sizes of the
terminal, the screen and the page list agree, the page has `base + rows` rows
in use and a cell slot for every column of each of them, its dirty set has a
bit for every row, and the cursor with its pin and its cached row is inside the
active area. -/
structure Terminal.ActiveInPage (t : Terminal) (a base : Nat) : Prop where
  cols_pos : 1 ≤ t.cols
  rows_pos : 1 ≤ t.rows
  screen_cols : t.Screen.cols = t.cols
  screen_rows : t.Screen.rows = t.rows
  pages_cols : t.Screen.Pages.Cols = t.cols
  size_cols : (t.Screen.Pages.mem.nodes a).Data.Size.Cols = t.cols
  size_rows : (t.Screen.Pages.mem.nodes a).Data.Size.Rows = base + t.rows
  rows_len : base + t.rows ≤ (t.Screen.Pages.mem.nodes a).Data.RowsLen
  row_cells : ∀ y < base + t.rows,
    t.cols ≤ (t.Screen.Pages.mem.rows ((t.Screen.Pages.mem.nodes a).Data.Rows y)).Cells.len
  dirty_size : base + t.rows ≤ (t.Screen.Pages.mem.nodes a).Data.Dirty.size
  dirty_bits : (t.Screen.Pages.mem.nodes a).Data.Dirty.size
    ≤ 64 * (t.Screen.Pages.mem.nodes a).Data.Dirty.bits.length
  cursor_x : t.Screen.Cursor.X < t.cols
  cursor_y : t.Screen.Cursor.Y < t.rows
  cursor_pin : t.Screen.Cursor.PagePin
    = { Node := some a, X := t.Screen.Cursor.X, Y := base + t.Screen.Cursor.Y }
  cursor_row : t.Screen.Cursor.PageRow
    = (t.Screen.Pages.mem.nodes a).Data.Rows (base + t.Screen.Cursor.Y)

/-- The terminal that `freshTerminal` returns (the zero terminal if it fails). -/
def freshOr (cols rows : Nat) : Terminal :=
  match freshTerminal cols rows with
  | Except.ok t => t
  | Except.error _ => {}

/-- The memory after `MarkDirty` of row `y` of the page of node `a`. -/
def dirtied (h : Heap) (a y : Nat) : Heap :=
  h.setPage a { (h.nodes a).Data with Dirty := markRow (h.nodes a).Data.Dirty y }

end terminal

/-! ## terminal/ansi/c0.go and terminal/core/mode.go: `ModeFromInt` -/

/-- The constant `ansi.C0.NUL`. -/
def C0_NUL : Nat := 0x00

/-- The constant `ansi.C0.ENQ`. -/
def C0_ENQ : Nat := 0x05

/-- The constant `ansi.C0.BEL`. -/
def C0_BEL : Nat := 0x07

/-- The constant `ansi.C0.BS`. -/
def C0_BS : Nat := 0x08

/-- The constant `ansi.C0.HT`. -/
def C0_HT : Nat := 0x09

/-- The constant `ansi.C0.LF`. -/
def C0_LF : Nat := 0x0A

/-- The constant `ansi.C0.VT`. -/
def C0_VT : Nat := 0x0B

/-- The constant `ansi.C0.FF`. -/
def C0_FF : Nat := 0x0C

/-- The constant `ansi.C0.CR`. -/
def C0_CR : Nat := 0x0D

/-- The constant `ansi.C0.SO`. -/
def C0_SO : Nat := 0x0E

namespace core

/-- The function `ModeFromInt`; a nil result is `none`. -/
def ModeFromInt (input : Int) (ansi : Bool) : Option Mode :=
  entries.find? (fun e => decide (e.Value = input) && e.Ansi == ansi)

end core

/-! ## terminal/stream/stream.go -/

namespace stream

/-- The constant `MaxCodePoints`. -/
def MaxCodePoints : Nat := 4096

/-- The constant `debug`. -/
def debug : Bool := true

/-- A call of a method of the handler, with its arguments: the methods of the
interfaces `handler.EditorHandler`, `FormatEffectorHandler`, `PrintHandler`,
`SGRHandler`, `VT100Handler` and of the three DCS interfaces that the stream
calls. -/
inductive Call where
  | Print (c : Nat)
  | Backspace
  | SetCursorTabRight (repeated : Nat)
  | LineFeed
  | CarriageReturn
  | SetCursorUp (offset : Nat) (carriage : Bool)
  | SetCursorDown (offset : Nat) (carriage : Bool)
  | SetCursorLeft (offset : Nat)
  | SetCursorRight (offset : Nat)
  | SetCursorCol (col : Nat)
  | SetCursorPosition (row col : Nat)
  | EraseInDisplay (mode : Nat)
  | EraseInLine (mode : Nat)
  | InsertLines (repeated : Nat)
  | DeleteLines (repeated : Nat)
  | DeleteChars (repeated : Nat)
  | InsertBlanks (repeated : Nat)
  | SetGraphicsRendition (attr : sgr.Attribute)
  | SetMode (mode : core.Mode) (value : Bool)
  | Index
  | NextLine
  | TabSet
  | ReverseIndex
  | FullReset
  | DCSHook (d : Option DCS)
  | DCSPut (c : Nat)
  | DCSUnhook
  deriving DecidableEq, Repr

/-- The value behind `Stream.handler` (Go `any`), seen from the stream: whether
it is nil, which interfaces its dynamic type implements (the results of the
type assertions), and what a method call does to the state `σ` of the handler
object. -/
structure Handler (σ : Type) where
  isNil : Bool
  editor : Bool
  formatEffector : Bool
  printer : Bool
  sgr : Bool
  vt100 : Bool
  dcsHook : Bool
  dcsPut : Bool
  dcsUnhook : Bool
  call : Call → σ → Run σ

/-- The struct `Stream`: `handler` is the state of the handler object, `parser`
and `utf8Decoder` are the objects behind the pointers, a nil `logger` is
`none`; the field `debug`, never read, is left out. -/
structure Stream (σ : Type) where
  handler : σ
  parser : Parser
  utf8Decoder : UTF8Decoder
  logger : Option Unit

/-- The function `NewStream`. -/
def NewStream {σ : Type} (handler : σ) (logger : Option Unit) : Stream σ :=
  { handler := handler, parser := NewParser, utf8Decoder := NewUTF8Decoder, logger := logger }

/-- The `switch len(c.Params)` of the cases of `csiDispatch` that take one
number: 1 for no parameter, the parameter for one, `none` for the default
branch (a warning and `return`). -/
def oneParam (params : List Nat) : Option Nat :=
  match params with
  | [] => some 1
  | [p] => some p
  | _ => none

section

variable {σ : Type} (H : Handler σ)

namespace Stream

/-- A call `s.logger.Debug(...)` or `s.logger.Warn(...)`: a nil logger panics. -/
def log (s : Stream σ) : Run Unit := orPanic s.logger

/-- A call of a handler method. -/
def invoke (s : Stream σ) (c : Call) : Run (Stream σ) := do
  let h ← H.call c s.handler
  pure { s with handler := h }

/-- The method `print`. -/
def print (s : Stream σ) (c : Nat) : Run (Stream σ) :=
  if H.printer then s.invoke H (Call.Print c)
  else do
    s.log
    pure s

/-- The method `execute`. -/
def execute (s : Stream σ) (c : Nat) : Run (Stream σ) :=
  let viaEditor := fun (k : Call) =>
    if H.editor then s.invoke H k
    else do
      s.log
      pure s
  if H.isNil then do
    s.log
    pure s
  else if c = C0_BS then viaEditor Call.Backspace
  else if c = C0_HT then viaEditor (Call.SetCursorTabRight 1)
  else if c = C0_LF ∨ c = C0_VT ∨ c = C0_FF then viaEditor Call.LineFeed
  else if c = C0_CR then viaEditor Call.CarriageReturn
  else do
    s.log
    pure s

/-- The shape shared by the cases `A`/`k`, `B`, `C`, `D`/`j`, `E`, `F`,
`G`/backquote and `L` of `csiDispatch`: without intermediates and with an
`EditorHandler`, the handler method `k` is called with the number of
`oneParam`; every other branch logs a warning and returns. -/
def csiCount (s : Stream σ) (c : CSICommand) (k : Nat → Call) : Run (Stream σ) :=
  if c.Intermediates.length = 0 then
    if ¬ H.editor then do
      s.log
      pure s
    else
      match oneParam c.Params with
      | some n => s.invoke H (k n)
      | none => do
        s.log
        pure s
  else do
    s.log
    pure s

/-- The cases `M` and `P` of `csiDispatch`: with one parameter the code reads
`c.Params[1]`, out of range; in the default branch it warns and goes on with
`repeated = 0`. -/
def csiDelete (s : Stream σ) (c : CSICommand) (k : Nat → Call) : Run (Stream σ) :=
  if c.Intermediates.length = 0 then
    if ¬ H.editor then do
      s.log
      pure s
    else
      match c.Params with
      | [] => s.invoke H (k 1)
      | [_] => throw Fault.panic
      | _ => do
        s.log
        s.invoke H (k 0)
  else do
    s.log
    pure s

/-- The cases `J` and `K` of `csiDispatch`: at most one intermediate; the mode
is 0 without a parameter (`EDModeBelow`, `ELModeRight`), else the parameter
converted to `uint8`. -/
def csiErase (s : Stream σ) (c : CSICommand) (k : Nat → Call) : Run (Stream σ) :=
  if c.Intermediates.length = 0 ∨ c.Intermediates.length = 1 then
    if ¬ H.editor then do
      s.log
      pure s
    else
      match c.Params with
      | [] => s.invoke H (k 0)
      | [p] => s.invoke H (k (p % 256))
      | _ => do
        s.log
        pure s
  else do
    s.log
    pure s

/-- The loop `for modeInt := range c.Params` of the cases `h` and `l`: `range`
over a slice with one variable yields the indices. -/
def csiModes (ansiMode value : Bool) : List Nat → Stream σ → Run (Stream σ)
  | [], s => pure s
  | i :: rest, s => do
    let s ←
      match core.ModeFromInt i ansiMode with
      | some m => s.invoke H (Call.SetMode m value)
      | none => do
        s.log
        pure s
    csiModes ansiMode value rest s

/-- The cases `h` and `l` of `csiDispatch`. -/
def csiSetMode (s : Stream σ) (c : CSICommand) (value : Bool) : Run (Stream σ) :=
  if ¬ H.vt100 then do
    s.log
    pure s
  else do
    let ansiMode : Bool ←
      if c.Intermediates.length = 0 then pure true
      else if c.Intermediates.length = 1 ∧ c.Intermediates.head? = some 0x3F then pure false
      else do
        s.log
        pure false
    csiModes H ansiMode value (List.range c.Params.length) s

/-- The loop of the case `m` of `csiDispatch` over the attributes yielded by
`p.Iter()`. -/
def csiAttributes : List (Option sgr.Attribute) → Stream σ → Run (Stream σ)
  | [], s => pure s
  | none :: rest, s => csiAttributes rest s
  | some a :: rest, s => do
    let s ← s.invoke H (Call.SetGraphicsRendition a)
    csiAttributes rest s

/-- The method `csiDispatch`; the argument is a pointer, nil is `none`. -/
def csiDispatch (s : Stream σ) (cmd : Option CSICommand) : Run (Stream σ) := do
  let c ← orPanic cmd
  let f := c.Final
  if f = 0x41 ∨ f = 0x6B then s.csiCount H c (fun n => Call.SetCursorUp n false)
  else if f = 0x42 then s.csiCount H c (fun n => Call.SetCursorDown n false)
  else if f = 0x43 then s.csiCount H c Call.SetCursorLeft
  else if f = 0x44 ∨ f = 0x6A then s.csiCount H c Call.SetCursorRight
  else if f = 0x45 then s.csiCount H c (fun n => Call.SetCursorDown n true)
  else if f = 0x46 then s.csiCount H c (fun n => Call.SetCursorUp n true)
  else if f = 0x47 ∨ f = 0x60 then s.csiCount H c Call.SetCursorCol
  else if f = 0x48 ∨ f = 0x66 then
    if ¬ H.editor then do
      s.log
      pure s
    else
      match c.Params with
      | [] => s.invoke H (Call.SetCursorPosition 0 0)
      | [r] => s.invoke H (Call.SetCursorPosition r 0)
      | [r, k] => s.invoke H (Call.SetCursorPosition r k)
      | _ => do
        s.log
        pure s
  else if f = 0x49 then
    if c.Intermediates.length = 0 then do
      if ¬ H.editor then s.log
      match oneParam c.Params with
      | some n => if H.editor then s.invoke H (Call.SetCursorTabRight n) else throw Fault.panic
      | none => do
        s.log
        pure s
    else do
      s.log
      pure s
  else if f = 0x4A then s.csiErase H c Call.EraseInDisplay
  else if f = 0x4B then s.csiErase H c Call.EraseInLine
  else if f = 0x4C then s.csiCount H c Call.InsertLines
  else if f = 0x4D then s.csiDelete H c Call.DeleteLines
  else if f = 0x50 then s.csiDelete H c Call.DeleteChars
  else if f = 0x53 then pure s
  else if f = 0x6D then
    if c.Intermediates.length = 0 then
      if ¬ H.sgr then do
        s.log
        pure s
      else do
        let attrs ← orPanic (sgr.Parser.Iter { Params := c.Params, ParamsSep := c.ParamsSet })
        csiAttributes H attrs s
    else do
      s.log
      pure s
  else if f = 0x68 then s.csiSetMode H c true
  else if f = 0x6C then s.csiSetMode H c false
  else if f = 0x40 then
    if ¬ H.editor then do
      s.log
      pure s
    else
      match c.Params with
      | [] => s.invoke H (Call.InsertBlanks 1)
      | [p] => s.invoke H (Call.InsertBlanks p)
      | _ => do
        s.log
        pure s
  else pure s

/-- The shape shared by the cases `D`, `E`, `H`, `M` and `c` of `escDispatch`. -/
def escCall (s : Stream σ) (c : ESCCommand) (k : Call) : Run (Stream σ) :=
  if ¬ H.formatEffector then do
    s.log
    pure s
  else if c.Intermediates.length = 0 then s.invoke H k
  else do
    s.log
    pure s

/-- The method `escDispatch`; the argument is a pointer, nil is `none`. -/
def escDispatch (s : Stream σ) (cmd : Option ESCCommand) : Run (Stream σ) := do
  let c ← orPanic cmd
  let f := c.Final
  if f = 0x44 then s.escCall H c Call.Index
  else if f = 0x45 then s.escCall H c Call.NextLine
  else if f = 0x48 then s.escCall H c Call.TabSet
  else if f = 0x4D then s.escCall H c Call.ReverseIndex
  else if f = 0x63 then s.escCall H c Call.FullReset
  else pure s

/-- The method `oscDispatch`. -/
def oscDispatch (s : Stream σ) : Run (Stream σ) := do
  s.log
  pure s

/-- One round of the loop over the three actions in `nextNonUtf8`. -/
def doAction (s : Stream σ) (action : Option Action) : Run (Stream σ) := do
  s.log
  match action with
  | none => pure s
  | some a =>
    match a.Typ with
    | ActionPrint => if H.printer then s.invoke H (Call.Print a.PrintData) else pure s
    | ActionExecute => s.execute H a.ExecuteData
    | ActionCSIDispatch => s.csiDispatch H a.CSIDispatchData
    | ActionESCDispatch => s.escDispatch H a.ESCDispatchData
    | ActionOSCEnd =>
      match a.OSCDispatchData with
      | some _ => s.oscDispatch
      | none => do
        s.log
        pure s
    | ActionDCSHook =>
      match a.DCSHookData with
      | some _ => do
        s.log
        pure s
      | none => if H.dcsHook then s.invoke H (Call.DCSHook a.DCSHookData) else pure s
    | ActionDCSPut => if H.dcsPut then s.invoke H (Call.DCSPut a.DCSPutData) else pure s
    | ActionDCSUnHook => if H.dcsUnhook then s.invoke H Call.DCSUnhook else pure s
    | _ => pure s

/-- The method `nextNonUtf8`. -/
def nextNonUtf8 (s : Stream σ) (c : Nat) : Run (Stream σ) := do
  Assert (decide (s.parser.State ≠ StateGround) || decide (c = C0_ESC))
  s.log
  let (p, a1, a2, a3) ← orPanic (s.parser.Next c)
  let s := { s with parser := p }
  let s ← s.doAction H a1
  let s ← s.doAction H a2
  s.doAction H a3

/-- The method `handleCodepoint`; `uint8(cp)` keeps the low 8 bits. -/
def handleCodepoint (s : Stream σ) (cp : Nat) : Run (Stream σ) :=
  if cp ≤ C0_SI then s.execute H (cp % 256)
  else if cp = C0_ESC then s.nextNonUtf8 H (cp % 256)
  else s.print H cp

/-- The method `nextUtf8`. -/
def nextUtf8 (s : Stream σ) (c : Nat) : Run (Stream σ) := do
  Assert (decide (s.parser.State = StateGround))
  s.log
  let (d, cp, generated, consumed) ← orPanic (s.utf8Decoder.Next c)
  let s := { s with utf8Decoder := d }
  let s ← if generated then s.handleCodepoint H cp else pure s
  if !consumed then do
    let (d, cp, generated, consumed) ← orPanic (s.utf8Decoder.Next c)
    let s := { s with utf8Decoder := d }
    Assert consumed
    if generated then s.handleCodepoint H cp else pure s
  else pure s

/-- The method `Next`. -/
def Next (s : Stream σ) (c : Nat) : Run (Stream σ) :=
  if s.parser.State = StateGround then s.nextUtf8 H c else s.nextNonUtf8 H c

/-- The loop of `consumeUntilGround` over the bytes not yet read, with the
offset reached; when the bytes run out the offset is `len(input)`. -/
def consumeUntilGroundLoop : List Nat → Stream σ → Nat → Run (Stream σ × Nat)
  | rest, s, offset =>
    if s.parser.State ≠ StateGround then
      match rest with
      | [] => pure (s, offset)
      | c :: cs => do
        let s ← s.nextNonUtf8 H c
        consumeUntilGroundLoop cs s (offset + 1)
    else pure (s, offset)

/-- The method `consumeUntilGround`. -/
def consumeUntilGround (s : Stream σ) (input : List Nat) : Run (Stream σ × Nat) :=
  consumeUntilGroundLoop H input s 0

/-- The loop `for input[offset] == ansi.C0.ESC` of `consumeAllEscapes`.  Every
round reads at least the escape byte, so `len(input)` rounds are enough. -/
def consumeAllEscapesLoop (input : List Nat) : Nat → Stream σ → Nat → Run (Stream σ × Nat)
  | fuel, s, offset => do
    let c ← orPanic (input.get? offset)
    if c = C0_ESC then
      match fuel with
      | 0 => throw Fault.outside
      | fuel + 1 => do
        let s := { s with parser := ({ s.parser with State := StateEscape } : Parser).Clear }
        let offset := offset + 1
        let (s, n) ← s.consumeUntilGround H (input.drop offset)
        let offset := offset + n
        if offset ≥ input.length then pure (s, input.length)
        else consumeAllEscapesLoop input fuel s offset
    else pure (s, offset)

/-- The method `consumeAllEscapes`. -/
def consumeAllEscapes (s : Stream σ) (input : List Nat) : Run (Stream σ × Nat) :=
  consumeAllEscapesLoop H input input.length s 0

/-- The first loop of `nextSliceCapped`: `for s.utf8Decoder.state != 0`, over
the bytes not yet read. -/
def pendingLoop : List Nat → Stream σ → Nat → Run (Stream σ × Nat)
  | rest, s, offset =>
    if s.utf8Decoder.state ≠ 0 then
      match rest with
      | [] => pure (s, offset)
      | c :: cs => do
        let s ← s.nextUtf8 H c
        pendingLoop cs s (offset + 1)
    else pure (s, offset)

/-- The loop `for cp := range slices.Values(cpBuf[:decoded])` of
`nextSliceCapped`. -/
def dispatchDecoded : List Nat → Stream σ → Run (Stream σ)
  | [], s => pure s
  | cp :: rest, s => do
    let s ← if cp ≤ C0_SI then s.execute H (cp % 256) else s.print H cp
    dispatchDecoded rest s

/-- The loop `for c := range slices.Values(rem)` of `nextSliceCapped`. -/
def scalarLoop : List Nat → Stream σ → Run (Stream σ)
  | [], s => pure s
  | c :: rest, s => do
    let s ← s.nextUtf8 H c
    scalarLoop rest s

/-- The main loop of `nextSliceCapped`:
`for (s.parser.State == parser.StateGround) && (offset < len(input))`.  A
round may leave the offset where it was; the rounds are bounded by the fuel,
and running out of it is outside the model. -/
def groundLoop (input : List Nat) :
    Nat → Stream σ → Nat → List Nat → Run (Stream σ × List Nat)
  | fuel, s, offset, cpBuf =>
    if s.parser.State = StateGround ∧ offset < input.length then
      match fuel with
      | 0 => throw Fault.outside
      | fuel + 1 => do
        let (d, cpBuf, decoded, consumed) ←
          orPanic (s.utf8Decoder.DecodeUntilControlSeq (input.drop offset) cpBuf)
        let s := { s with utf8Decoder := d }
        let s ← dispatchDecoded H (cpBuf.take decoded) s
        let offset := offset + consumed
        if offset ≥ input.length then pure (s, cpBuf)
        else do
          let c ← orPanic (input.get? offset)
          let s ← if c ≠ C0_ESC then scalarLoop H (input.drop offset) s else pure s
          let (s, n) ← s.consumeAllEscapes H (input.drop offset)
          groundLoop input fuel s (offset + n) cpBuf
    else pure (s, cpBuf)

/-- The method `nextSliceCapped`: the stream and the buffer `cpBuf` after the
call. -/
def nextSliceCapped (s : Stream σ) (input cpBuf : List Nat) : Run (Stream σ × List Nat) := do
  Assert (decide (input.length < cpBuf.length))
  let (s, offset) ← pendingLoop H input s 0
  if offset ≥ input.length then pure (s, cpBuf)
  else do
    let (s, n) ← s.consumeUntilGround H (input.drop offset)
    let offset := offset + n
    if offset ≥ input.length then pure (s, cpBuf)
    else do
      let (s, n) ← s.consumeAllEscapes H (input.drop offset)
      let offset := offset + n
      groundLoop H input (input.length + 1) s offset cpBuf

/-- The loop `for c := range slices.Values(input) { s.Next(c) }` of
`NextSlice`. -/
def nextEach : List Nat → Stream σ → Run (Stream σ)
  | [], s => pure s
  | c :: rest, s => do
    let s ← s.Next H c
    nextEach rest s

/-- The chunk loop of `NextSlice`; every round but the last takes
`len(cpBuf) > 0` bytes, so `len(input)` further rounds are enough. -/
def chunkLoop (input : List Nat) : Nat → Stream σ → Nat → List Nat → Run (Stream σ)
  | fuel, s, i, cpBuf => do
    let bufLen := min cpBuf.length (input.length - i)
    let (s, cpBuf) ← s.nextSliceCapped H ((input.drop i).take bufLen) cpBuf
    let i := i + bufLen
    if i ≥ input.length then pure s
    else
      match fuel with
      | 0 => throw Fault.outside
      | fuel + 1 => chunkLoop input fuel s i cpBuf

/-- The method `NextSlice`. -/
def NextSlice (s : Stream σ) (input : List Nat) : Run (Stream σ) := do
  let s ← if debug then nextEach H input s else pure s
  let cpBuf := List.replicate MaxCodePoints 0
  chunkLoop H input input.length s 0 cpBuf

end Stream

end

/-- A handler object that implements every interface the stream asks for and
only records the calls it receives, in order. -/
def recorder : Handler (List Call) :=
  { isNil := false, editor := true, formatEffector := true, printer := true, sgr := true,
    vt100 := true, dcsHook := true, dcsPut := true, dcsUnhook := true,
    call := fun c calls => pure (calls ++ [c]) }

/-- Go `stream.NewStream(h, logger).NextSlice(input)` for a recording handler
`h` and a logger that is not nil: the calls the handler received. -/
def recorded (input : List Nat) : Run (List Call) :=
  ((NewStream [] (some ())).NextSlice recorder input).map (fun s => s.handler)

end stream
/-! ## stream_handler.go and termio.go -/

section

variable (RuneWidth : Nat → Nat) (styleHash : style.Style → Nat)

namespace termio

/-- The struct `StreamHandler`: the terminal behind the pointer and the logger
(nil is `none`).  The fields `rows`, `cols`, the colours and `dcs` are read by
no method that the stream can reach and are left out. -/
structure StreamHandler where
  terminal : terminal.Terminal
  logger : Option Unit := none

/-- The methods of `*StreamHandler`, by the call received.  `SetMode` ends in
`panic("unimplemented")` whatever `Modes.Set` did.  The methods `DeleteChars`,
`DeleteLines`, `InsertLines`, `ReverseIndex` and `SetGraphicsRendition` of the
terminal are outside; so are the DCS calls, which the stream never makes
because `*StreamHandler` implements none of the DCS interfaces. -/
def StreamHandler.call (c : stream.Call) (s : StreamHandler) : Run StreamHandler :=
  let via := fun (r : Run terminal.Terminal) => do
    let t ← r
    pure { s with terminal := t }
  match c with
  | stream.Call.Print cp => via (s.terminal.Print RuneWidth styleHash cp)
  | stream.Call.Backspace => via s.terminal.Backspace
  | stream.Call.SetCursorTabRight n => via (s.terminal.SetCursorTabRight n)
  | stream.Call.LineFeed => via (s.terminal.LineFeed styleHash)
  | stream.Call.CarriageReturn => via s.terminal.CarriageReturn
  | stream.Call.SetCursorUp n carriage => via (s.terminal.SetCursorUp styleHash n carriage)
  | stream.Call.SetCursorDown n carriage => via (s.terminal.SetCursorDown styleHash n carriage)
  | stream.Call.SetCursorLeft n => via (s.terminal.SetCursorLeft n)
  | stream.Call.SetCursorRight n => via (s.terminal.SetCursorRight n)
  | stream.Call.SetCursorCol col =>
    via (s.terminal.SetCursorPosition styleHash ((s.terminal.Screen.Cursor.Y + 1) % word16) col)
  | stream.Call.SetCursorPosition row col => via (s.terminal.SetCursorPosition styleHash row col)
  | stream.Call.EraseInDisplay mode => via (s.terminal.EraseInDisplay mode)
  | stream.Call.EraseInLine mode => via (s.terminal.EraseInLine mode)
  | stream.Call.InsertBlanks n => via (s.terminal.InsertBlanks n)
  | stream.Call.SetGraphicsRendition attr =>
    if attr.Typ = sgr.AttributeType.AttributeTypeUnknown then do
      orPanic s.logger
      pure s
    else throw Fault.outside
  | stream.Call.SetMode _ _ => throw Fault.panic
  | stream.Call.Index => via (s.terminal.Index styleHash)
  | stream.Call.NextLine => via ((s.terminal.Index styleHash).bind (fun t => t.CarriageReturn))
  | stream.Call.TabSet => via (pure s.terminal.TabSet)
  | stream.Call.FullReset => via s.terminal.FullReset
  | _ => throw Fault.outside

/-- The handler that `NewTerminalIO` gives to the stream, a `*StreamHandler`
that is not nil.  The declaration `var _ streamHandler = (*StreamHandler)(nil)`
makes it implement `handler.EditorHandler`, `FormatEffectorHandler`,
`PrintHandler`, `SGRHandler` and `VT100Handler` (the declaration of
`handler.PrintHandler` is not in `handlers.go`; the stream calls its method
`Print(uint32)`).  It implements none of `dcs.HookHandler`, `dcs.PutHandler`,
`dcs.UnhookHandler`: its methods are named `DcsHook` and `DcsUnhook`, and its
`DCSPut` returns nothing. -/
def streamHandler : stream.Handler StreamHandler :=
  { isNil := false, editor := true, formatEffector := true, printer := true, sgr := true,
    vt100 := true, dcsHook := false, dcsPut := false, dcsUnhook := false,
    call := StreamHandler.call RuneWidth styleHash }

/-- The struct `TerminalIO`.  The field `terminal` points to the terminal of
the stream handler and is read from there. -/
structure TerminalIO where
  terminalStream : stream.Stream StreamHandler
  logger : Option Unit := none

/-- The struct `Options`; `Rows` and `Cols` are non-negative and below `2^16`,
a nil `Logger` is `none`. -/
structure Options where
  Rows : Nat := 0
  Cols : Nat := 0
  Logger : Option Unit := none
  deriving DecidableEq, Repr

/-- The function `NewTerminalIO`.  The struct literal it returns sets `terminal`
and `terminalStream` only: `logger` keeps its zero value, nil. -/
def NewTerminalIO (opts : Options) : Run TerminalIO := do
  let term ← terminal.NewTerminal core.initStore
    { Rows := opts.Rows, Cols := opts.Cols, Modes := some core.ModePacked, Logger := opts.Logger }
  let handler : StreamHandler := { terminal := term, logger := opts.Logger }
  pure { terminalStream := stream.NewStream handler opts.Logger }

namespace TerminalIO

/-- The method `ProcessOutput`.  The second component tells whether the error
returned is not nil.  When `NextSlice` panics, the deferred function recovers
and first calls `t.logger.Error`, which panics again on a nil logger; that
panic leaves `ProcessOutput`.  The state a trapped panic leaves behind is not
modelled (`none`). -/
def ProcessOutput (t : TerminalIO) (buf : List Nat) : Run (Option TerminalIO × Bool) :=
  match t.terminalStream.NextSlice (streamHandler RuneWidth styleHash) buf with
  | Except.ok s => pure (some { t with terminalStream := s }, false)
  | Except.error Fault.panic => do
    orPanic t.logger
    pure (none, true)
  | Except.error Fault.outside => throw Fault.outside

/-- The method `DumpString`. -/
def DumpString (t : TerminalIO) : Run (List Nat) := t.terminalStream.handler.terminal.PlainString

end TerminalIO

end termio

end

namespace termio

/-- Go `t := NewTerminalIO(opts); err := t.ProcessOutput(buf)`: whether `err`
is not nil and, when the call changed the state without panic, the cursor and
`t.DumpString()` after it.  Every rune has width 1; the style hash is never
called, a constant stands for it. -/
def session (opts : Options) (buf : List Nat) :
    Run (Bool × Option ((Nat × Nat × Bool) × List Nat)) := do
  let t ← NewTerminalIO opts
  let (t, failed) ← t.ProcessOutput (fun _ => 1) (fun _ => 0) buf
  match t with
  | none => pure (failed, none)
  | some t => do
    let w ← t.DumpString
    pure (failed, some (t.terminalStream.handler.terminal.cursorState, w))

end termio

/-! ## terminal/screen/screen.go: `SetAttribute` -/

section

variable (styleHash : style.Style → Nat)

namespace screen

namespace Screen

open sgr.AttributeType in
/-- The method `SetAttribute`.  `AttributeTypeResetFaint` has no case in the
`switch`: the style is left as it is and `ManualStyleUpdate` runs. -/
def SetAttribute (s : Screen) (attr : sgr.Attribute) : Run Screen :=
  let st := s.Cursor.Style
  let update := fun (st : style.Style) =>
    ManualStyleUpdate styleHash (s.setCursor { s.Cursor with Style := st })
  match attr.Typ with
  | AttributeTypeUnset => update {}
  | AttributeTypeBold => update { st with Bold := true }
  | AttributeTypeResetBold => update { st with Bold := false, Faint := false }
  | AttributeTypeItalic => update { st with Italic := true }
  | AttributeTypeResetItalic => update { st with Italic := false }
  | AttributeTypeFaint => update { st with Faint := true }
  | AttributeTypeResetFaint => update st
  | AttributeTypeUnderline => update { st with Underline := attr.Underline }
  | AttributeTypeResetUnderline =>
    update { st with Underline := sgr.UnderlineType.UnderlineTypeNone }
  | AttributeTypeUnderlineColor =>
    update { st with UnderlineColor :=
      { Typ := style.ColorType.ColorTypeRGB, RGB := attr.UnderlineColor } }
  | AttributeTypeResetUnderlineColor =>
    update { st with UnderlineColor := { Typ := style.ColorType.ColorTypeNone } }
  | AttributeTypeOverline => update { st with Overline := true }
  | AttributeTypeResetOverline => update { st with Overline := false }
  | AttributeTypeBlink => update { st with Blink := true }
  | AttributeTypeResetBlink => update { st with Blink := false }
  | AttributeTypeInverse => update { st with Inverse := true }
  | AttributeTypeResetInverse => update { st with Inverse := false }
  | AttributeTypeInvisible => update { st with Invisible := true }
  | AttributeTypeResetInvisible => update { st with Invisible := false }
  | AttributeTypeStrikethrough => update { st with Strikethrough := true }
  | AttributeTypeResetStrikethrough => update { st with Strikethrough := false }
  | AttributeTypeDirectColorFg =>
    update { st with ForegroundColor :=
      { Typ := style.ColorType.ColorTypeRGB, RGB := attr.DirectColorFg } }
  | AttributeTypeDirectColorBg =>
    update { st with BackgroundColor :=
      { Typ := style.ColorType.ColorTypeRGB, RGB := attr.DirectColorBg } }
  | AttributeTypeResetFg =>
    update { st with ForegroundColor := { Typ := style.ColorType.ColorTypeNone } }
  | AttributeTypeResetBg =>
    update { st with BackgroundColor := { Typ := style.ColorType.ColorTypeNone } }
  | AttributeTypeUnknown => pure s

/-- Call `SetAttribute` with each attribute of a list, in order. -/
def setAttributes (s : Screen) : List sgr.Attribute → Run Screen
  | [] => pure s
  | a :: rest => do
    let s ← SetAttribute styleHash s a
    setAttributes s rest

end Screen

end screen

end
/-! ## terminal/utils/slice.go, page.go and pagelist.go: `EraseRow` -/

namespace datastruct

/-- The method `IntrusiveLinkedList.All`: the iterator it returns calls `yield`
for no element, so a `range` over it visits nothing.  The elements of the list
are given by position; the result lists the positions visited. -/
def IntrusiveLinkedList.All (_n : Nat) : List Nat := []

end datastruct

namespace page

/-- The function `utils.RotateOnce` on the part `[lo, hi)` of an array of row
pointers: every element moves one place down and the first goes last. -/
def rotateOnce (rows : Nat → Nat) (lo hi : Nat) : Nat → Nat :=
  fun i => if lo ≤ i ∧ i + 1 < hi then rows (i + 1) else if i + 1 = hi then rows lo else rows i

namespace Page

/-- Go `utils.RotateOnce(p.Rows[lo:hi])`: the slice expression panics unless
`lo <= hi <= cap`, and `items[0]` panics on an empty slice. -/
def rotateRows (p : Page) (lo hi : Nat) : Run Page :=
  if lo ≤ hi ∧ hi ≤ p.RowsLen then
    if lo < hi then pure { p with Rows := rotateOnce p.Rows lo hi }
    else throw Fault.panic
  else throw Fault.panic

/-- The method `CloneRowFrom`: its body is empty. -/
def CloneRowFrom (h : Heap) (_src : Page) (_dstRow _srcRow : Nat) : Heap := h

/-- The method `MoveCells`: `panic("unimplemented")`. -/
def MoveCells : Run Unit := throw Fault.panic

/-- The method `ClonePartialRowFrom`: `panic("unimplemented")`. -/
def ClonePartialRowFrom : Run Unit := throw Fault.panic

/-- The first loop of `Page.ClearCells`: release the styles of the listed
cells in the page of the node `a`. -/
def releaseCells (a : Nat) (cells : CellSlice) : List Nat → Heap → Run Heap
  | [], h => pure h
  | i :: rest, h => do
    let p ← h.index cells i
    let cell ← h.cell p
    if cell.StyleID = 0 then releaseCells a cells rest h
    else
      let data := (h.nodes a).Data
      let styles ← orPanic (data.Styles.Release cell.StyleID)
      releaseCells a cells rest (h.setPage a { data with Styles := styles })

/-- The second loop of `Page.ClearCells`: `*cell = Cell{}`. -/
def zeroCells (cells : CellSlice) : List Nat → Heap → Run Heap
  | [], h => pure h
  | i :: rest, h => do
    let p ← h.index cells i
    let h ← h.setCell p {}
    zeroCells cells rest h

/-- The method `Page.ClearCells` of the page in the node `a`. -/
def ClearCells (h : Heap) (a : Nat) (row : Nat) (left endX : Nat) : Run Heap := do
  let cells ← (h.rows row).Cells.sub left endX
  let h ←
    if (h.rows row).Styled then do
      let h ← releaseCells a cells (List.range cells.len) h
      pure (if cells.len = (h.nodes a).Data.Size.Cols then
        h.setRow row { h.rows row with Styled := false } else h)
    else pure h
  let h ← zeroCells cells (List.range cells.len) h
  (h.nodes a).Data.AssertIntegrity
  pure h

end Page

end page

namespace pagelist

namespace PageList

/-- A loop `for p := range p.TrackedPins.All() { ... }` that rewrites the pins
it visits with `f`. -/
def updateTracked (p : PageList) (f : pagelist.Pin → pagelist.Pin) : PageList :=
  let visited := datastruct.IntrusiveLinkedList.All p.TrackedPins.length
  { p with TrackedPins :=
      p.TrackedPins.enum.map (fun ip => if ip.1 ∈ visited then f ip.2 else ip.2) }

/-- The method `UntrackPin`; the pin is given by its position in the list of
tracked pins (it is never the viewport pin, which is not in that list). -/
def UntrackPin (p : PageList) (i : Nat) : PageList :=
  { p with TrackedPins := p.TrackedPins.eraseIdx i }

/-- The loop `for next := node.Next; next != nil; { ... }` of `EraseRow`, entered
with `next` not nil.  No statement assigns `next`, so the loop is left only by
a panic; a run that uses up the fuel is outside.  `rows` is the slice of row
pointers of the page in the node `rows`. -/
def eraseRowLoop (next : Nat) : Nat → PageList → Nat → Nat → Run PageList
  | 0, _, _, _ => throw Fault.outside
  | fuel + 1, p, node, rows => do
    let h := p.mem
    let nextRows ← orPanic (h.nodes node).Next
    let last ← usub (h.nodes node).Data.Size.Rows 1
    let dstRow ← (h.nodes rows).Data.rowAt last
    let srcRow ← (h.nodes nextRows).Data.rowAt 0
    let h := page.Page.CloneRowFrom h (h.nodes next).Data dstRow srcRow
    let node := next
    let rows := nextRows
    let data ← (h.nodes rows).Data.rotateRows 0 (h.nodes node).Data.Size.Rows
    let h := h.setPage rows data
    let dirty ← orPanic ((h.nodes node).Data.Dirty.SetRange 0 (h.nodes node).Data.Size.Rows)
    let h := h.setPage node { (h.nodes node).Data with Dirty := dirty }
    let p := { p with mem := h }
    let p := p.updateTracked (fun t =>
      if t.Node ≠ some node then t
      else if t.Y = 0 then
        { t with Node := (h.nodes node).Prev,
                 Y := match (h.nodes node).Prev with
                   | some b => (h.nodes b).Data.Size.Rows - 1
                   | none => 0 }
      else { t with Y := t.Y - 1 })
    eraseRowLoop next fuel p node rows

/-- The method `EraseRow`. -/
def EraseRow (p : PageList) (pt : point.Point) : Run PageList := do
  let pin ← p.Pin pt
  let pin ← orPanic pin
  let node ← orPanic pin.Node
  let h := p.mem
  let data ← (h.nodes node).Data.rotateRows pin.Y (h.nodes node).Data.Size.Rows
  let h := h.setPage node data
  let p := { p with mem := h }
  let p := p.updateTracked (fun t =>
    if t.Node = some node ∧ t.Y ≥ pin.Y then { t with Y := t.Y - 1 } else t)
  let h := p.mem
  let dirty ← orPanic ((h.nodes node).Data.Dirty.SetRange pin.Y (h.nodes node).Data.Size.Rows)
  let h := h.setPage node { (h.nodes node).Data with Dirty := dirty }
  let p := { p with mem := h }
  match (h.nodes node).Next with
  | some next => eraseRowLoop next (h.nextNode + 1) p node node
  | none => do
    let last ← usub (h.nodes node).Data.Size.Rows 1
    let row ← (h.nodes node).Data.rowAt last
    let h ← page.Page.ClearCells h node row 0 (h.nodes node).Data.Size.Cols
    pure { p with mem := h }

/-- The nodes met from `node` on through `Next`, each with the `Size.Rows` of
its page; the walk stops after `fuel` nodes. -/
def walk (h : Heap) : Nat → Option Nat → List (Nat × Nat)
  | _, none => []
  | 0, some _ => []
  | fuel + 1, some a => (a, (h.nodes a).Data.Size.Rows) :: walk h fuel (h.nodes a).Next

/-- The pages reachable from `First` through `Next`: node and `Size.Rows`. -/
def reach (p : PageList) : Run (List (Nat × Nat)) := do
  let l ← p.pages
  pure (walk p.mem (p.mem.nextNode + 1) l.First)

/-- Call `Grow` the given number of times. -/
def growTimes : Nat → PageList → Run PageList
  | 0, p => pure p
  | n + 1, p => do
    let (p, _) ← p.Grow
    growTimes n p

end PageList

end pagelist

/-! ## terminal/terminal.go: `InsertLines` and `DeleteLines` -/

section

variable (styleHash : style.Style → Nat)

namespace terminal

namespace Terminal

/-- The method `rowWillBeShifted`: its body is a comment. -/
def rowWillBeShifted (t : Terminal) : Terminal := t

/-- The part of the loops of `InsertLines` and `DeleteLines` that moves the row
at `srcP` to the row at `dstP`: across pages `ClonePartialRowFrom`, in one page
the exchange of the two rows (the destination takes `Cells`, `SemanticPrompt`,
`WrapContinuation` and `Wrap` of the source, the source becomes the old
destination) or, with left and right margins, `MoveCells`. -/
def shiftRow (t : Terminal) (leftRight : Bool) (srcP dstP : pagelist.Pin) (srcRow dstRow : Nat) :
    Run Terminal := do
  let t := t.rowWillBeShifted.rowWillBeShifted
  if !leftRight then t.warn
  if srcP.Node ≠ dstP.Node then do
    page.Page.ClonePartialRowFrom
    pure t
  else if !leftRight then do
    let h := t.Screen.mem
    let dst := h.rows dstRow
    let src := h.rows srcRow
    let h := h.setRow dstRow
      { dst with Cells := src.Cells, SemanticPrompt := src.SemanticPrompt,
                 WrapContinuation := src.WrapContinuation, Wrap := src.Wrap }
    let h := h.setRow srcRow dst
    let a ← orPanic dstP.Node
    (h.nodes a).Data.AssertIntegrity
    pure { t with Screen := t.Screen.setMem h }
  else do
    page.Page.MoveCells
    pure t

/-- The loop `for y := rem; y > 0; y--` of `InsertLines`; `curP` is not moved
by the loop. -/
def insertLinesLoop (leftRight : Bool) (adjustedCount : Nat) (curP : pagelist.Pin) :
    Nat → Terminal → Run Terminal
  | 0, t => pure t
  | y + 1, t => do
    let (curRow, _) ← curP.RowAndCell t.Screen.mem
    let h ← curP.MarkDirty t.Screen.mem
    let t := { t with Screen := t.Screen.setMem h }
    let t ←
      if y + 1 > adjustedCount then do
        let offP ← curP.Up t.Screen.mem adjustedCount
        let offP ← orPanic offP
        let (offRow, _) ← offP.RowAndCell t.Screen.mem
        t.shiftRow leftRight offP curP offRow curRow
      else do
        let scr ← t.Screen.ClearCells curP.Node curRow t.scrollingRegion.left
          (t.scrollingRegion.right + 1)
        pure { t with Screen := scr }
    insertLinesLoop leftRight adjustedCount curP y t

/-- The deferred function of `InsertLines` and `DeleteLines`:
`SetCursorAbs(startY, startY)` and the reset of `PendingWrap`. -/
def restoreRow (t : Terminal) (startY : Nat) : Run Terminal := do
  let scr ← t.Screen.SetCursorAbs styleHash startY startY
  let t := { t with Screen := scr }
  pure (t.setCursor { t.Screen.Cursor with PendingWrap := false })

/-- The method `InsertLines`. -/
def InsertLines (t : Terminal) (repeated : Nat) : Run Terminal :=
  if repeated = 0 then pure t
  else if t.Screen.Cursor.Y < t.scrollingRegion.top ∨
      t.Screen.Cursor.Y > t.scrollingRegion.bottom ∨
      t.Screen.Cursor.X < t.scrollingRegion.left ∨
      t.Screen.Cursor.X > t.scrollingRegion.right then pure t
  else do
    let startY := t.Screen.Cursor.Y
    let r ← usub t.cols 1
    let leftRight : Bool := t.scrollingRegion.left > 0 ∨ t.scrollingRegion.right < r
    let d ← usub t.rows t.Screen.Cursor.Y
    let rem := d + 1
    let adjustedCount := min repeated rem
    let below ← t.Screen.Cursor.PagePin.Down t.Screen.mem (rem - 1)
    let below ← orPanic below
    let i := t.Screen.Pages.TrackedPins.length
    let (pages, curP) := t.Screen.Pages.TrackPin below
    let t := { t with Screen := { t.Screen with Pages := pages } }
    let t ← insertLinesLoop leftRight adjustedCount curP rem t
    let t := { t with Screen := { t.Screen with Pages := t.Screen.Pages.UntrackPin i } }
    restoreRow styleHash t startY

/-- The loop `for y := 0; y < rem; { ... }` of `DeleteLines`; `todo` rounds are
left, `curP` is nil (`none`) once `Down(1)` has returned nil. -/
def deleteLinesLoop (leftRight : Bool) (adjustedCount rem : Nat) :
    Nat → Option pagelist.Pin → Terminal → Run Terminal
  | 0, _, t => pure t
  | todo + 1, curP, t => do
    let y := rem - (todo + 1)
    let curP ← orPanic curP
    let (curRow, _) ← curP.RowAndCell t.Screen.mem
    let h ← curP.MarkDirty t.Screen.mem
    let t := { t with Screen := t.Screen.setMem h }
    let t ←
      if y < adjustedCount then do
        let offP ← curP.Down t.Screen.mem adjustedCount
        let offP ← orPanic offP
        let (offRow, _) ← offP.RowAndCell t.Screen.mem
        t.shiftRow leftRight offP curP offRow curRow
      else do
        let scr ← t.Screen.ClearCells curP.Node curRow t.scrollingRegion.left
          (t.scrollingRegion.right + 1)
        pure { t with Screen := scr }
    let next ← curP.Down t.Screen.mem 1
    deleteLinesLoop leftRight adjustedCount rem todo next t

/-- The method `DeleteLines`. -/
def DeleteLines (t : Terminal) (repeated : Nat) : Run Terminal :=
  if repeated = 0 then pure t
  else if t.Screen.Cursor.Y < t.scrollingRegion.top ∨
      t.Screen.Cursor.Y > t.scrollingRegion.bottom ∨
      t.Screen.Cursor.X < t.scrollingRegion.left ∨
      t.Screen.Cursor.X > t.scrollingRegion.right then pure t
  else do
    let startY := t.Screen.Cursor.Y
    let leftRight : Bool := t.scrollingRegion.left > 0 ∨ t.scrollingRegion.right < t.cols
    let d ← usub t.rows t.Screen.Cursor.Y
    let rem := d + 1
    let adjustedCount := min repeated rem
    let t ← deleteLinesLoop leftRight adjustedCount rem rem (some t.Screen.Cursor.PagePin) t
    restoreRow styleHash t startY

end Terminal

end terminal

end
/-! ## Observations of screens, page lists and terminals -/

namespace screen

/-- Go `s := NewScreen(80, 24)`, `s.SetAttribute` for each listed attribute,
then `s.ClearCells(page, row, fromX, toX)` on the page and row of the cursor:
for each listed column the pointer left in `row.Cells` (`none` for nil) with
the cell behind it.  The style hash is a constant. -/
def clearedCells (attrs : List sgr.Attribute) (fromX toX : Nat) (xs : List Nat) :
    Run (List (Option page.Cell)) := do
  let s ← Screen.NewScreen 80 24
  let s ← Screen.setAttributes (fun _ => 0) s attrs
  let s ← s.ClearCells s.Cursor.PagePin.Node s.Cursor.PageRow fromX toX
  xs.mapM (fun x => do
    let p ← s.mem.index (s.mem.rows s.Cursor.PageRow).Cells x
    pure (p.map s.mem.cells))

/-- The same calls followed by `s.DumpString(w, point.TagScreen)`. -/
def clearedDump (attrs : List sgr.Attribute) (fromX toX : Nat) : Run (Option (List Nat)) := do
  let s ← Screen.NewScreen 80 24
  let s ← Screen.setAttributes (fun _ => 0) s attrs
  let s ← s.ClearCells s.Cursor.PagePin.Node s.Cursor.PageRow fromX toX
  s.DumpString [] point.Tag.TagScreen

end screen

namespace terminal

/-- A fresh terminal of 80 columns and 24 rows after `Screen.SetAttribute` for
each listed attribute and `Print` of the listed code points (every rune has
width 1, the style hash is a constant). -/
def styledPrint (attrs : List sgr.Attribute) (s : List Nat) : Run Terminal := do
  let t ← freshTerminal 80 24
  let scr ← screen.Screen.setAttributes (fun _ => 0) t.Screen attrs
  Terminal.printAll (fun _ => 1) (fun _ => 0) { t with Screen := scr } s

/-- Whether the row `y` of the screen is `Styled`, and the `StyleID` of the
cells in the listed columns of that row. -/
def Terminal.styledAt (t : Terminal) (y : Nat) (xs : List Nat) : Run (Bool × List Nat) := do
  let r ← t.rowAt y
  let ids ← xs.mapM (fun x => (t.cellAt x y).map (fun c => c.StyleID))
  pure (r.Styled, ids)

/-- The pointer in the cursor's cached row at column `Cursor.X`, next to the
cursor's cached cell pointer. -/
def Terminal.cachedCell (t : Terminal) : Run (Option Nat × Option Nat) := do
  let p ← t.Screen.mem.index (t.Screen.mem.rows t.Screen.Cursor.PageRow).Cells t.Screen.Cursor.X
  pure (p, t.Screen.Cursor.PageCell)

/-- A fresh terminal with `a` printed at the start of row `y` and `b` at the
start of row `y + 1` (the cursor is moved with `SetCursorPosition`), then
`Pages.EncodeUtf8` without unwrapping from the pin `(top, 0, ty)` to the pin
`(bottom, 0, by)`. -/
def twoRowsEncoded (cols rows y : Nat) (top ty bottom by_ : Nat) : Run (List Nat) := do
  let t ← freshTerminal cols rows
  let t ← Terminal.SetCursorPosition (fun _ => 0) t (y + 1) 1
  let t ← Terminal.printAll (fun _ => 1) (fun _ => 0) t [0x61]
  let t ← Terminal.SetCursorPosition (fun _ => 0) t (y + 2) 1
  let t ← Terminal.printAll (fun _ => 1) (fun _ => 0) t [0x62]
  t.Screen.Pages.EncodeUtf8 []
    { Unwrap := false, TopLeft := { Node := some top, Y := ty },
      BottomRight := some { Node := some bottom, Y := by_ } }

end terminal

/-! ## Chains of pages -/

namespace pagelist

/-- Whether the listed nodes follow one another in the page list: `Next` of each
is the node listed after it, and `Prev` of that node points back. -/
def linked (h : Heap) : List Nat → Bool
  | [] => true
  | [_] => true
  | a :: b :: rest =>
    decide ((h.nodes a).Next = some b) && decide ((h.nodes b).Prev = some a) &&
      linked h (b :: rest)

/-- The sum of `Size.Rows` over the pages of the listed nodes. -/
def rowsOf (h : Heap) (ns : List Nat) : Nat :=
  (ns.map (fun c => (h.nodes c).Data.Size.Rows)).sum

/-- The memory of the page list built by `NewPageList(cols, rows)`, empty when
the call does not return. -/
def memOf (cols rows : Nat) : Heap :=
  match PageList.NewPageList cols rows with
  | Except.ok p => p.mem
  | Except.error _ => {}

end pagelist

/-! ## Style sets that hold at most one item -/

namespace RefCountedSet

/-- A set of capacity 128 in which the items other than `items[1]` are nil:
`cell` is what `items[1]` points to (`none` for nil), with probe length 0 and
its bucket the only one in use. -/
structure Single {α : Type} (S : RefCountedSet α) (cell : Option (elem α)) : Prop where
  items : S.items = none :: cell :: List.replicate 126 none
  table : ∀ p, S.table p = match cell with
    | some e => if p = e.meta.bucketID then 1 else 0
    | none => 0
  maxPSL : S.maxPSL = 0
  pslStats : S.pslStats = (if cell.isSome then 1 else 0) :: List.replicate 31 0
  nextID : S.nextID = if cell.isSome then 2 else 1
  living : S.living = match cell with
    | some e => e.meta.ref
    | none => 0
  psl : ∀ e, cell = some e → e.meta.psl = 0
  bucket : ∀ e, cell = some e → e.meta.bucketID < 128
  ref : ∀ e, cell = some e → e.meta.ref = 0 ∨ e.meta.ref = 1

end RefCountedSet

namespace screen

/-- A screen whose cursor is inside the screen, on a page (node `a`) whose style
set holds at most one item: either the cursor has `StyleID = 0` and the item,
if any, has no reference left, or the cursor has `StyleID = 1` and the item
has one reference. -/
structure Screen.StylesSingle (s : Screen) (a : Nat) : Prop where
  node : s.Cursor.PagePin.Node = some a
  x : s.Cursor.X < s.cols
  y : s.Cursor.Y < s.rows
  shape :
    (s.Cursor.StyleID = 0 ∧ ∃ cell, (s.mem.nodes a).Data.Styles.Single cell ∧
      ∀ e, cell = some e → e.meta.ref = 0) ∨
    (s.Cursor.StyleID = 1 ∧ ∃ e, (s.mem.nodes a).Data.Styles.Single (some e) ∧ e.meta.ref = 1)

/-- The screen built by `NewScreen(cols, rows)`, an empty screen when the call
does not return. -/
def screenOf (cols rows : Nat) : Screen :=
  match Screen.NewScreen cols rows with
  | Except.ok s => s
  | Except.error _ => {}

end screen

/-! # Theorems -/

/-- C1 (code evaluated at the failing input): on an empty 64-bit set `SetRange(0, 1)`
leaves every bit clear, so `Count()` is 0 and not `1 - 0`; on an empty 128-bit
set `SetRange(0, 65)` gives `Count() = 127` and not `65`. -/
theorem C1_SetRange_count_mismatch :
    ((NewStaticBitSet 64).SetRange 0 1).bind StaticBitSet.Count = some 0 ∧
    ((NewStaticBitSet 64).SetRange 0 1).bind (fun s => s.IsSet 0) = some false ∧
    ((NewStaticBitSet 128).SetRange 0 65).bind StaticBitSet.Count = some 127 := by
  decide

/-- C2 (code evaluated at the failing input): in the set reached by `Add` of
1, 2, 3, 4 and `Release(3)` (capacity 8), the first `Add(9)` returns id 3 with
reference count 1 and leaves bucket 2 holding id 5, whose slot is nil; the
second `Add(9)` then panics instead of returning id 3 again. -/
theorem C2_second_Add_panics :
    (setWithDeadItem.bind (fun s => s.Add (newTestHashable 9))).map
        (fun r => (r.2, (r.1.item r.2).map (fun e => e.meta.ref), r.1.table 2, (r.1.items[5]?).map Option.isSome))
      = some (3, some 1, 5, some false) ∧
    ((setWithDeadItem.bind (fun s => s.Add (newTestHashable 9))).bind
        (fun r => r.1.Add (newTestHashable 9))).isSome = false := by
  decide

/-- C3 (code evaluated at the failing input): the set reached by `Add` of
1, 2, 3, 4, `Release(3)`, `Add(9)` (capacity 8, `Count() = 4`) is reachable and
has free capacity, yet `Add(10)` panics in it, so there is no id to release and
no `Count()` afterwards. -/
theorem C3_Add_panics_in_reachable_set :
    ((setWithDeadItem.bind (fun s => s.Add (newTestHashable 9))).map
        (fun r => (r.1.Count, r.1.nextID, r.1.items.length))) = some (4, 5, 8) ∧
    ((setWithDeadItem.bind (fun s => s.Add (newTestHashable 9))).bind
        (fun r => r.1.Add (newTestHashable 10))).isSome = false := by
  decide

/-- C4 (code evaluated at the failing input): after `Add` of the pairwise
unequal values 8, 1, 2, 9 into a set of capacity 8 the ids returned are
1, 2, 3, 4, but `Lookup(8)` and `Lookup(2)` report not found, and bucket 0,
which held id 1 (the value 8), holds id 4. -/
theorem C4_Lookup_misses_added_values :
    setAfterCollidingAdds.map (fun r => r.2) = some [1, 2, 3, 4] ∧
    setAfterCollidingAdds.bind (fun r => r.1.Lookup (newTestHashable 8)) = some (0, false) ∧
    setAfterCollidingAdds.bind (fun r => r.1.Lookup (newTestHashable 2)) = some (0, false) ∧
    setAfterCollidingAdds.map (fun r => r.1.table 0) = some 4 ∧
    ((addAll (NewRefCountedSet TestSetHashable 8) [newTestHashable 8]).map
        (fun r => r.1.table 0)) = some 1 := by
  decide

namespace UTF8Decoder

theorem Next_accept_acc (a c : Nat) :
    Next { state := 0, accumulator := a } c = Next { state := 0, accumulator := 0 } c := by
  simp [Next, stateUTF8Accept]

set_option maxRecDepth 100000 in
theorem Next_ascii : ∀ c < 128,
    Next { state := 0, accumulator := 0 } c
      = some ({ state := 0, accumulator := 0 }, ((c, true, true) : NextResult)) := by
  decide!

set_option maxRecDepth 100000 in
theorem Next_lead2 : ∀ b < 30,
    Next { state := 0, accumulator := 0 } (0xC2 + b)
      = some ({ state := 24, accumulator := b + 2 }, ((0, false, true) : NextResult)) := by
  decide!

set_option maxRecDepth 100000 in
theorem Next_lead3 : ∀ t < 16,
    Next { state := 0, accumulator := 0 } (0xE0 + t)
      = some ({ state := if t = 0 then 48 else if t = 13 then 60 else 36, accumulator := t },
              ((0, false, true) : NextResult)) := by
  decide!

set_option maxRecDepth 100000 in
theorem Next_lead4 : ∀ t < 5,
    Next { state := 0, accumulator := 0 } (0xF0 + t)
      = some ({ state := if t = 0 then 72 else if t = 4 then 96 else 84, accumulator := t },
              ((0, false, true) : NextResult)) := by
  decide!

theorem cont_acc (a x : Nat) (ha : a < 2 ^ 26) (hx : x < 64) :
    ((a <<< 6) % word32) ||| ((0x80 + x) &&& 0x3F) = a * 64 + x := by
  have h1 : (0x80 + x) &&& 0x3F = x := by
    have := Nat.and_pow_two_sub_one_eq_mod (0x80 + x) 6
    norm_num at this
    rw [this]; omega
  have h2 : (a <<< 6) % word32 = 2 ^ 6 * a := by
    rw [Nat.shiftLeft_eq, Nat.mod_eq_of_lt]
    · ring
    · unfold word32; omega
  rw [h1, h2, ← Nat.mul_add_lt_is_or (by omega : x < 2 ^ 6)]
  omega

theorem Next_cont (s a x s' : Nat) (hs : s ≠ 0) (ha : a < 2 ^ 26) (hx : x < 64)
    (h : (utf8d.get? (0x80 + x)).bind (fun typ => utf8d.get? (256 + s + typ)) = some s') :
    Next { state := s, accumulator := a } (0x80 + x)
      = some (if s' = 0 then
                ({ state := 0, accumulator := 0 }, ((a * 64 + x, true, true) : NextResult))
              else if s' = 12 then
                ({ state := 0, accumulator := 0 }, ((0xFFFD, true, false) : NextResult))
              else
                ({ state := s', accumulator := a * 64 + x }, ((0, false, true) : NextResult))) := by
  cases h1 : utf8d.get? (0x80 + x) with
  | none => rw [h1] at h; simp only [Option.none_bind] at h; cases h
  | some typ =>
    rw [h1] at h
    simp only [Option.some_bind] at h
    have hacc := cont_acc a x ha hx
    unfold Next
    simp only [h1, h, Option.bind_eq_bind, Option.some_bind, hacc, stateUTF8Accept, stateUTF8Reject]
    split_ifs with h0 h12 <;> simp_all [pure]

set_option maxRecDepth 100000 in
theorem trans24 : ∀ x < 64,
    (utf8d.get? (0x80 + x)).bind (fun typ => utf8d.get? (256 + 24 + typ)) = some 0 := by
  decide!

set_option maxRecDepth 100000 in
theorem trans36 : ∀ x < 64,
    (utf8d.get? (0x80 + x)).bind (fun typ => utf8d.get? (256 + 36 + typ)) = some 24 := by
  decide!

set_option maxRecDepth 100000 in
theorem trans48 : ∀ x < 32,
    (utf8d.get? (0x80 + (x + 32))).bind (fun typ => utf8d.get? (256 + 48 + typ)) = some 24 := by
  decide!

set_option maxRecDepth 100000 in
theorem trans60 : ∀ x < 32,
    (utf8d.get? (0x80 + x)).bind (fun typ => utf8d.get? (256 + 60 + typ)) = some 24 := by
  decide!

set_option maxRecDepth 100000 in
theorem trans72 : ∀ x < 48,
    (utf8d.get? (0x80 + (x + 16))).bind (fun typ => utf8d.get? (256 + 72 + typ)) = some 36 := by
  decide!

set_option maxRecDepth 100000 in
theorem trans84 : ∀ x < 64,
    (utf8d.get? (0x80 + x)).bind (fun typ => utf8d.get? (256 + 84 + typ)) = some 36 := by
  decide!

set_option maxRecDepth 100000 in
theorem trans96 : ∀ x < 16,
    (utf8d.get? (0x80 + x)).bind (fun typ => utf8d.get? (256 + 96 + typ)) = some 36 := by
  decide!

/-- Last continuation byte: from state 24 the codepoint is emitted. -/
theorem Next_last (a x : Nat) (ha : a < 2 ^ 26) (hx : x < 64) :
    Next { state := 24, accumulator := a } (0x80 + x)
      = some ({ state := 0, accumulator := 0 }, ((a * 64 + x, true, true) : NextResult)) := by
  rw [Next_cont 24 a x 0 (by decide) ha hx (trans24 x hx)]; rfl

/-- Middle continuation byte: from `s` to the intermediate state `s'`. -/
theorem Next_mid (s a x s' : Nat) (hs : s ≠ 0) (ha : a < 2 ^ 26) (hx : x < 64)
    (h0 : s' ≠ 0) (h12 : s' ≠ 12)
    (h : (utf8d.get? (0x80 + x)).bind (fun typ => utf8d.get? (256 + s + typ)) = some s') :
    Next { state := s, accumulator := a } (0x80 + x)
      = some ({ state := s', accumulator := a * 64 + x }, ((0, false, true) : NextResult)) := by
  rw [Next_cont s a x s' hs ha hx h]; simp [h0, h12]

theorem feed_one (d : UTF8Decoder) (c : Nat) (d' : UTF8Decoder) (r : NextResult)
    (h : d.Next c = some (d', r)) : feed d [c] = some (d', [r]) := by
  simp [feed, h]

theorem feed_cons (d : UTF8Decoder) (c : Nat) (cs : List Nat) (d' : UTF8Decoder)
    (r : NextResult) (h : d.Next c = some (d', r)) :
    feed d (c :: cs) = (feed d' cs).map (fun q => (q.1, r :: q.2)) := by
  simp only [feed, h, Option.bind_eq_bind, Option.some_bind]
  cases feed d' cs <;> rfl

theorem feed_encode1 (a c : Nat) (hc : c < 0x80) :
    feed { state := 0, accumulator := a } (utf8Encode c)
      = some ({ state := 0, accumulator := 0 }, [((c, true, true) : NextResult)]) := by
  have : utf8Encode c = [c] := by simp [utf8Encode, hc]
  rw [this]
  exact feed_one _ _ _ _ (by rw [Next_accept_acc]; exact Next_ascii c hc)

theorem feed_encode2 (a c : Nat) (h1 : 0x80 ≤ c) (h2 : c < 0x800) :
    feed { state := 0, accumulator := a } (utf8Encode c)
      = some ({ state := 0, accumulator := 0 },
              [((0, false, true) : NextResult), (c, true, true)]) := by
  have he : utf8Encode c = [0xC2 + (c / 64 - 2), 0x80 + c % 64] := by
    simp only [utf8Encode]
    rw [if_neg (by omega), if_pos h2]
    congr 1; omega
  rw [he, feed_cons _ _ _ _ _ (by rw [Next_accept_acc]; exact Next_lead2 (c / 64 - 2) (by omega)),
    feed_one _ _ _ _ (Next_last _ _ (by omega) (by omega))]
  have hv : (c / 64 - 2 + 2) * 64 + c % 64 = c := by omega
  simp only [Option.map_some', hv]

theorem feed_encode3 (a c : Nat) (h1 : 0x800 ≤ c) (h2 : c < 0x10000)
    (hs : c < 0xD800 ∨ 0xE000 ≤ c) :
    feed { state := 0, accumulator := a } (utf8Encode c)
      = some ({ state := 0, accumulator := 0 },
              [((0, false, true) : NextResult), (0, false, true), (c, true, true)]) := by
  have he : utf8Encode c = [0xE0 + c / 4096, 0x80 + c / 64 % 64, 0x80 + c % 64] := by
    simp only [utf8Encode]
    rw [if_neg (by omega), if_neg (by omega), if_pos h2]
  have ht : c / 4096 < 16 := by omega
  have hm : c / 64 % 64 < 64 := by omega
  have hv : (c / 4096 * 64 + c / 64 % 64) * 64 + c % 64 = c := by omega
  have hmid : Next { state := if c / 4096 = 0 then 48 else if c / 4096 = 13 then 60 else 36,
                     accumulator := c / 4096 } (0x80 + c / 64 % 64)
      = some ({ state := 24, accumulator := c / 4096 * 64 + c / 64 % 64 },
              ((0, false, true) : NextResult)) := by
    by_cases t0 : c / 4096 = 0
    · rw [if_pos t0]
      refine Next_mid 48 _ _ 24 (by decide) (by omega) hm (by decide) (by decide) ?_
      have := trans48 (c / 64 % 64 - 32) (by omega)
      rwa [show c / 64 % 64 - 32 + 32 = c / 64 % 64 by omega] at this
    · rw [if_neg t0]
      by_cases t13 : c / 4096 = 13
      · rw [if_pos t13]
        exact Next_mid 60 _ _ 24 (by decide) (by omega) hm (by decide) (by decide)
          (trans60 _ (by omega))
      · rw [if_neg t13]
        exact Next_mid 36 _ _ 24 (by decide) (by omega) hm (by decide) (by decide)
          (trans36 _ hm)
  rw [he, feed_cons _ _ _ _ _ (by rw [Next_accept_acc]; exact Next_lead3 (c / 4096) ht),
    feed_cons _ _ _ _ _ hmid,
    feed_one _ _ _ _ (Next_last _ _ (by omega) (by omega))]
  simp only [Option.map_some', hv]

theorem feed_encode4 (a c : Nat) (h1 : 0x10000 ≤ c) (h2 : c ≤ 0x10FFFF) :
    feed { state := 0, accumulator := a } (utf8Encode c)
      = some ({ state := 0, accumulator := 0 },
              [((0, false, true) : NextResult), (0, false, true), (0, false, true),
               (c, true, true)]) := by
  have he : utf8Encode c
      = [0xF0 + c / 262144, 0x80 + c / 4096 % 64, 0x80 + c / 64 % 64, 0x80 + c % 64] := by
    simp only [utf8Encode]
    rw [if_neg (by omega), if_neg (by omega), if_neg (by omega)]
  have ht : c / 262144 < 5 := by omega
  have hu : c / 4096 % 64 < 64 := by omega
  have hm : c / 64 % 64 < 64 := by omega
  have hv : ((c / 262144 * 64 + c / 4096 % 64) * 64 + c / 64 % 64) * 64 + c % 64 = c := by
    omega
  have hmid : Next { state := if c / 262144 = 0 then 72 else if c / 262144 = 4 then 96 else 84,
                     accumulator := c / 262144 } (0x80 + c / 4096 % 64)
      = some ({ state := 36, accumulator := c / 262144 * 64 + c / 4096 % 64 },
              ((0, false, true) : NextResult)) := by
    by_cases t0 : c / 262144 = 0
    · rw [if_pos t0]
      refine Next_mid 72 _ _ 36 (by decide) (by omega) hu (by decide) (by decide) ?_
      have := trans72 (c / 4096 % 64 - 16) (by omega)
      rwa [show c / 4096 % 64 - 16 + 16 = c / 4096 % 64 by omega] at this
    · rw [if_neg t0]
      by_cases t4 : c / 262144 = 4
      · rw [if_pos t4]
        exact Next_mid 96 _ _ 36 (by decide) (by omega) hu (by decide) (by decide)
          (trans96 _ (by omega))
      · rw [if_neg t4]
        exact Next_mid 84 _ _ 36 (by decide) (by omega) hu (by decide) (by decide)
          (trans84 _ hu)
  rw [he, feed_cons _ _ _ _ _ (by rw [Next_accept_acc]; exact Next_lead4 (c / 262144) ht),
    feed_cons _ _ _ _ _ hmid,
    feed_cons _ _ _ _ _ (Next_mid 36 _ _ 24 (by decide) (by omega) hm (by decide) (by decide)
      (trans36 _ hm)),
    feed_one _ _ _ _ (Next_last _ _ (by omega) (by omega))]
  simp only [Option.map_some', hv]

set_option maxRecDepth 100000 in
theorem Next_accept_consumes : ∀ c < 256,
    (Next { state := 0, accumulator := 0 } c).map (fun r => r.2.2.2) = some true := by
  decide!

theorem Next_not_consumed_resets (d d' : UTF8Decoder) (c cp : Nat) (g : Bool)
    (h : d.Next c = some (d', ((cp, g, false) : NextResult))) :
    d' = { state := 0, accumulator := 0 } := by
  unfold Next at h
  cases h1 : utf8d.get? c with
  | none =>
    rw [h1] at h
    simp only [Option.bind_eq_bind, Option.none_bind] at h
    cases h
  | some typ =>
    rw [h1] at h
    simp only [Option.bind_eq_bind, Option.some_bind] at h
    cases h2 : utf8d.get? (256 + d.state + typ) with
    | none =>
      rw [h2] at h
      simp only [Option.none_bind] at h
      cases h
    | some st =>
      rw [h2] at h
      simp only [Option.some_bind, stateUTF8Accept, stateUTF8Reject, pure] at h
      split_ifs at h <;> simp only [Option.some.injEq, Prod.mk.injEq] at h <;>
        first
        | exact absurd h.2.2.2 (by decide)
        | exact h.1.symm

end UTF8Decoder

/-- C5: for every Unicode scalar value `c` and every decoder in the Accept state
(whatever its accumulator), feeding the bytes of the UTF-8 encoding of `c` one by
one to `Next` succeeds, every byte is consumed, no non-final byte generates a
codepoint, the final byte generates exactly `c`, and the decoder ends in the
Accept state with accumulator 0. -/
theorem C5_wellformed_utf8_decodes (c a : Nat) (hc : isScalarValue c) :
    UTF8Decoder.feed { state := stateUTF8Accept, accumulator := a } (utf8Encode c)
      = some ({ state := stateUTF8Accept, accumulator := 0 },
              List.replicate ((utf8Encode c).length - 1) ((0, false, true) : NextResult)
                ++ [(c, true, true)]) := by
  unfold isScalarValue at hc
  unfold stateUTF8Accept
  by_cases h1 : c < 0x80
  · rw [UTF8Decoder.feed_encode1 a c h1]; simp [utf8Encode, h1]
  · by_cases h2 : c < 0x800
    · rw [UTF8Decoder.feed_encode2 a c (by omega) h2]; simp [utf8Encode, h1, h2]
    · by_cases h3 : c < 0x10000
      · rw [UTF8Decoder.feed_encode3 a c (by omega) h3 (by omega)]
        simp [utf8Encode, h1, h2, h3, List.replicate]
      · rw [UTF8Decoder.feed_encode4 a c (by omega) (by omega)]
        simp [utf8Encode, h1, h2, h3, List.replicate]

/-- Witness of C5 at U+1F604 (the bytes F0 9F 98 84 of the decoder test). -/
theorem C5_wellformed_utf8_decodes_witness :
    isScalarValue 0x1F604 ∧
    UTF8Decoder.feed { state := stateUTF8Accept, accumulator := 0 } (utf8Encode 0x1F604)
      = some ({ state := stateUTF8Accept, accumulator := 0 },
              List.replicate ((utf8Encode 0x1F604).length - 1) ((0, false, true) : NextResult)
                ++ [(0x1F604, true, true)]) :=
  ⟨Or.inr (by decide), C5_wellformed_utf8_decodes 0x1F604 0 (Or.inr (by decide))⟩

/-- C6: for every decoder `d` and byte `c`: when the state that `Next` reads from
`utf8d` is the reject state, `Next` generates U+FFFD, leaves the decoder in the
Accept state with accumulator 0, and reports the byte consumed exactly when `d`
was in the Accept state; and whenever `Next` reports `c` as not consumed, the
next call with the same byte succeeds and reports it consumed. -/
theorem C6_reject_emits_replacement (d : UTF8Decoder) (c : Nat) (hc : c < 256) :
    (∀ typ, utf8d.get? c = some typ →
        utf8d.get? (256 + d.state + typ) = some stateUTF8Reject →
        d.Next c = some ({ state := stateUTF8Accept, accumulator := 0 },
                         ((0xFFFD, true, decide (d.state = stateUTF8Accept)) : NextResult))) ∧
    (∀ d' cp g, d.Next c = some (d', ((cp, g, false) : NextResult)) →
        ∃ d'' cp' g', d'.Next c = some (d'', ((cp', g', true) : NextResult))) := by
  constructor
  · intro typ h1 h2
    unfold UTF8Decoder.Next
    simp only [h1, h2, Option.bind_eq_bind, Option.some_bind]
    simp [stateUTF8Reject, stateUTF8Accept, pure]
  · intro d' cp g h
    rw [UTF8Decoder.Next_not_consumed_resets d d' c cp g h]
    have hcons := UTF8Decoder.Next_accept_consumes c hc
    cases hn : UTF8Decoder.Next { state := 0, accumulator := 0 } c with
    | none => rw [hn] at hcons; simp at hcons
    | some r =>
      obtain ⟨d'', cp', g', k⟩ := r
      rw [hn] at hcons
      simp only [Option.map_some', Option.some.injEq] at hcons
      subst hcons
      exact ⟨d'', cp', g', rfl⟩

/-- Witness of C6: the decoder in state 24 (after the lead byte C2) fed the byte
0x41 reads the reject state, emits U+FFFD without consuming the byte, and the
byte fed again is consumed. -/
theorem C6_reject_emits_replacement_witness :
    (0x41 < 256) ∧
    UTF8Decoder.Next { state := 24, accumulator := 2 } 0x41
      = some ({ state := stateUTF8Accept, accumulator := 0 },
              ((0xFFFD, true, false) : NextResult)) ∧
    (∃ d'' cp' g', UTF8Decoder.Next { state := stateUTF8Accept, accumulator := 0 } 0x41
      = some (d'', ((cp', g', true) : NextResult))) :=
  have h := C6_reject_emits_replacement { state := 24, accumulator := 2 } 0x41 (by decide)
  have h1 := h.1 0 (by decide) (by decide)
  ⟨by decide, h1, h.2 _ 0xFFFD true h1⟩

/-- C7 (code evaluated at the failing input): on the input C2 41 (no ESC, buffer
of length 3) `DecodeUntilControlSeq` on a fresh decoder writes the single
codepoint U+FFFD and returns `consumed = 1`, because the byte 0x41 that `Next`
did not consume is skipped; scalar decoding with the byte fed again produces
U+FFFD, U+0041 and consumes both bytes. -/
theorem C7_bulk_decode_drops_unconsumed_byte :
    (UTF8Decoder.DecodeUntilControlSeq NewUTF8Decoder [0xC2, 0x41] [0, 0, 0]).map
        (fun r => (r.2.1.take r.2.2.1, r.2.2.1, r.2.2.2)) = some ([0xFFFD], 1, 1) ∧
    (UTF8Decoder.scalarDecode NewUTF8Decoder [0xC2, 0x41]).map (fun r => r.2)
        = some ([0xFFFD, 0x41], 2) := by
  decide

namespace StaticBitSet

theorem count_fold_zero (n : Nat) (l : List Nat) (t : Nat) (hl : ∀ i ∈ l, i < n) :
    l.foldlM (fun total i => ((List.replicate n 0)[i]?).map (fun w => total + OnesCount64 w)) t
      = some t := by
  induction l generalizing t with
  | nil => rfl
  | cons a l ih =>
    have ha : a < n := hl a (List.mem_cons_self a l)
    have h0 : OnesCount64 0 = 0 := by decide
    have hget : (List.replicate n 0)[a]? = some 0 := by
      simp [List.getElem?_replicate, ha]
    simp only [List.foldlM_cons, hget, Option.map_some', Option.bind_eq_bind,
      Option.some_bind, h0, Nat.add_zero]
    exact ih t (fun i hi => hl i (List.mem_cons_of_mem a hi))

theorem Count_Clear (s : StaticBitSet) : s.Clear.Count = some 0 := by
  unfold Clear Count init
  exact count_fold_zero _ _ 0 (fun i hi => List.mem_range.mp hi)

end StaticBitSet

namespace Parser

set_option maxRecDepth 100000 in
theorem table_escape_collect : ∀ i < 16,
    parserTable (0x20 + i) StateEscape = transition StateEscapeIntermediate ActionCollect := by
  decide!

set_option maxRecDepth 100000 in
theorem table_escape_final : ∀ f < 79,
    parserTable (0x30 + f) StateEscapeIntermediate = transition StateGround ActionESCDispatch := by
  decide!

set_option maxRecDepth 100000 in
theorem table_csi_collect : ∀ i < 16,
    parserTable (0x20 + i) StateCSIEntry = transition StateCSIIntermediate ActionCollect := by
  decide!

set_option maxRecDepth 100000 in
theorem table_csi_intermediate_final : ∀ f < 63,
    parserTable (0x40 + f) StateCSIIntermediate = transition StateGround ActionCSIDispatch := by
  decide!

theorem table_ground_esc : parserTable 0x1B StateGround = transition StateEscape ActionNone := by
  decide!

theorem table_ground_csi : parserTable 0x9B StateGround = transition StateCSIEntry ActionNone := by
  decide!

theorem nextAll_cons (p p' : Parser) (c : Nat) (cs : List Nat) (a : Actions)
    (h : p.Next c = some (p', a)) :
    nextAll p (c :: cs) = (nextAll p' cs).map (fun q => (q.1, a :: q.2)) := by
  simp only [nextAll, h, Option.bind_eq_bind, Option.some_bind]
  cases nextAll p' cs <;> rfl

theorem Next_ground_esc (p : Parser) (hg : p.State = StateGround) :
    p.Next 0x1B = some ({ p.Clear with State := StateEscape }, (none, none, none)) := by
  unfold Next
  rw [hg, table_ground_esc]
  simp [transition, doAction, hg, Clear]

theorem table_escape_bracket :
    parserTable 0x5B StateEscape = transition StateCSIEntry ActionNone := by
  decide!

theorem Next_ground_csi (p : Parser) (hg : p.State = StateGround) :
    p.Next 0x9B = some ({ p.Clear with State := StateCSIEntry }, (none, none, none)) := by
  unfold Next
  rw [hg, table_ground_csi]
  simp [transition, doAction, hg, Clear]

theorem Next_escape_bracket (p : Parser) (hg : p.State = StateEscape) :
    p.Next 0x5B = some ({ p.Clear with State := StateCSIEntry }, (none, none, none)) := by
  unfold Next
  rw [hg, table_escape_bracket]
  simp [transition, doAction, hg, Clear]

/-- A `Collect` transition out of a state without exit action into a state
without entry action, with room in `intermediates`. -/
theorem Next_collect (p : Parser) (c : Nat) (s' : Termio.State)
    (htab : parserTable c p.State = transition s' ActionCollect)
    (hs : p.State = StateEscape ∨ p.State = StateCSIEntry)
    (hs' : s' = StateEscapeIntermediate ∨ s' = StateCSIIntermediate)
    (hidx : p.intermediatesIdx < p.intermediates.length)
    (hidx' : p.intermediatesIdx ≤ MaxIntermediates) :
    p.Next c = some ({ p with intermediates := p.intermediates.set p.intermediatesIdx c,
                              intermediatesIdx := p.intermediatesIdx + 1,
                              State := s' }, (none, none, none)) := by
  unfold Next
  rw [htab]
  have h1 : ¬ (p.intermediatesIdx > MaxIntermediates) := by omega
  rcases hs with hs | hs <;> rcases hs' with hs' | hs' <;>
    simp [transition, doAction, Collect, store, hs, hs', h1, hidx]

/-- The action built by `doAction` for `ActionESCDispatch`. -/
theorem Next_esc_dispatch (p : Parser) (c : Nat)
    (htab : parserTable c p.State = transition StateGround ActionESCDispatch)
    (hs : p.State = StateEscapeIntermediate ∨ p.State = StateEscape)
    (hidx : p.intermediatesIdx ≤ p.intermediates.length) :
    p.Next c = some ({ p with State := StateGround },
      (none,
       some { Action.ofType ActionESCDispatch with
              ESCDispatchData := some { Intermediates := p.intermediates.take p.intermediatesIdx,
                                        Final := c } },
       none)) := by
  unfold Next
  rw [htab]
  rcases hs with hs | hs <;> simp [transition, doAction, slice, hs, hidx]

/-- The action built by `doAction` for `ActionCSIDispatch` when no separator
bit is set. -/
theorem Next_csi_dispatch (p : Parser) (c : Nat)
    (htab : parserTable c p.State = transition StateGround ActionCSIDispatch)
    (hs : p.State = StateCSIEntry ∨ p.State = StateCSIParam ∨ p.State = StateCSIIntermediate)
    (hidx : p.intermediatesIdx ≤ p.intermediates.length)
    (hpar : p.paramsIdx < MaxParams) (hlen : p.params.length = MaxParams)
    (hcount : p.paramsSet.Count = some 0) :
    p.Next c = some ({ csiFinalised p with State := StateGround },
      (none,
       some { Action.ofType ActionCSIDispatch with
              CSIDispatchData := some
                { Intermediates := p.intermediates.take p.intermediatesIdx,
                  Params := (csiFinalised p).params.take (csiFinalised p).paramsIdx,
                  ParamsSet := p.paramsSet, Final := c } },
       none)) := by
  unfold Next
  rw [htab]
  have h1 : ¬ (p.paramsIdx ≥ MaxParams) := by omega
  have h2 : p.paramsIdx < p.params.length := by omega
  have h3 : p.paramsIdx + 1 ≤ p.params.length := by omega
  have h4 : p.paramsIdx ≤ p.params.length := by omega
  by_cases hacc : p.paramAccIdx > 0 <;>
    rcases hs with hs | hs | hs <;>
    simp [transition, doAction, slice, store, csiFinalised, hs, hidx, h1, h2, h3, h4, hacc,
      hcount]

end Parser

/-- C8: a parser in Ground (with arrays of the declared lengths) fed ESC, an
intermediate byte `i` in 0x20..0x2F and a final byte `f` in 0x30..0x7E returns no
action on the first two bytes and on the last byte exactly one action, in the
transition slot: an ESC dispatch with `Intermediates = [i]` and `Final = f`; it
ends in Ground.  Fed 0x9B, `i` and a final byte `f` in 0x40..0x7E it returns in
the same way a CSI dispatch with `Intermediates = [i]`, no params, a cleared
separator set and `Final = f`. -/
theorem C8_esc_and_csi_dispatch_with_intermediate (p : Parser) (i f : Nat)
    (hg : p.State = StateGround) (hwf : p.WellFormed)
    (hi : 0x20 ≤ i ∧ i ≤ 0x2F) (hf : f ≤ 0x7E) :
    (0x30 ≤ f →
      (p.nextAll [0x1B, i, f]).map (fun r => (r.1.State, r.2))
        = some (StateGround,
            [(none, none, none), (none, none, none),
             (none,
              some { Action.ofType ActionESCDispatch with
                     ESCDispatchData := some { Intermediates := [i], Final := f } },
              none)])) ∧
    (0x40 ≤ f →
      (p.nextAll [0x9B, i, f]).map (fun r => (r.1.State, r.2))
        = some (StateGround,
            [(none, none, none), (none, none, none),
             (none,
              some { Action.ofType ActionCSIDispatch with
                     CSIDispatchData := some { Intermediates := [i], Params := [],
                                               ParamsSet := p.paramsSet.Clear, Final := f } },
              none)])) := by
  obtain ⟨hl1, hl2⟩ := hwf
  have hti := Parser.table_escape_collect (i - 0x20) (by omega)
  have htc := Parser.table_csi_collect (i - 0x20) (by omega)
  rw [show 0x20 + (i - 0x20) = i by omega] at hti htc
  have htake : ∀ l : List Nat, l.length = MaxIntermediates → (l.set 0 i).take 1 = [i] := by
    intro l hl
    match l, hl with
    | _ :: _, _ => rfl
  constructor
  · intro hf0
    have htf := Parser.table_escape_final (f - 0x30) (by omega)
    rw [show 0x30 + (f - 0x30) = f by omega] at htf
    rw [Parser.nextAll_cons _ _ _ _ _ (Parser.Next_ground_esc p hg),
      Parser.nextAll_cons _ _ _ _ _
        (Parser.Next_collect _ i StateEscapeIntermediate hti (Or.inl rfl) (Or.inl rfl)
          (by simp [Parser.Clear, hl1, MaxIntermediates]) (by simp [Parser.Clear])),
      Parser.nextAll_cons _ _ _ _ _
        (Parser.Next_esc_dispatch _ f htf (Or.inl rfl)
          (by simp [Parser.Clear, hl1, MaxIntermediates]))]
    simp [Parser.nextAll, Parser.Clear, htake _ hl1]
  · intro hf0
    have htf := Parser.table_csi_intermediate_final (f - 0x40) (by omega)
    rw [show 0x40 + (f - 0x40) = f by omega] at htf
    rw [Parser.nextAll_cons _ _ _ _ _ (Parser.Next_ground_csi p hg),
      Parser.nextAll_cons _ _ _ _ _
        (Parser.Next_collect _ i StateCSIIntermediate htc (Or.inr rfl) (Or.inr rfl)
          (by simp [Parser.Clear, hl1, MaxIntermediates]) (by simp [Parser.Clear])),
      Parser.nextAll_cons _ _ _ _ _
        (Parser.Next_csi_dispatch _ f htf (Or.inr (Or.inr rfl))
          (by simp [Parser.Clear, hl1, MaxIntermediates])
          (by simp [Parser.Clear, MaxParams]) (by simpa [Parser.Clear] using hl2)
          (by simpa [Parser.Clear] using StaticBitSet.Count_Clear p.paramsSet))]
    simp [Parser.nextAll, Parser.Clear, Parser.csiFinalised, htake _ hl1]


namespace Parser

set_option maxRecDepth 100000 in
theorem table_csi_entry_digit : ∀ x < 10,
    parserTable (0x30 + x) StateCSIEntry = transition StateCSIParam ActionParam := by
  decide!

set_option maxRecDepth 100000 in
theorem table_csi_param_digit : ∀ x < 10,
    parserTable (0x30 + x) StateCSIParam = transition StateCSIParam ActionParam := by
  decide!

set_option maxRecDepth 100000 in
theorem table_csi_param_final : ∀ f < 63,
    parserTable (0x40 + f) StateCSIParam = transition StateGround ActionCSIDispatch := by
  decide!

theorem table_csi_param_semicolon :
    parserTable 0x3B StateCSIParam = transition StateCSIParam ActionParam := by
  decide!

/-- A digit in `CSIEntry` or `CSIParam`. -/
theorem Next_digit (p : Parser) (x : Nat)
    (hs : p.State = StateCSIEntry ∨ p.State = StateCSIParam)
    (hx : 0x30 ≤ x ∧ x ≤ 0x39) (hk : 0 ≤ p.paramAccIdx) :
    p.Next x = some ({ p with
        State := StateCSIParam,
        paramAcc := if p.paramAccIdx > 0 then ((p.paramAcc * 10) % word16 + (x - 0x30)) % word16
                    else x - 0x30,
        paramAccIdx := if p.paramAccIdx ≥ 65535 then p.paramAccIdx else p.paramAccIdx + 1 },
      (none, none, none)) := by
  have ht : parserTable x p.State = transition StateCSIParam ActionParam := by
    rcases hs with hs | hs
    · have := table_csi_entry_digit (x - 0x30) (by omega)
      rw [hs]
      rwa [show 0x30 + (x - 0x30) = x by omega] at this
    · have := table_csi_param_digit (x - 0x30) (by omega)
      rw [hs]
      rwa [show 0x30 + (x - 0x30) = x by omega] at this
  unfold Next
  rw [ht]
  have hd : (x + 208) % 256 = x - 0x30 := by omega
  have h1 : ¬ (x = 0x3B ∨ x = 0x3A) := by omega
  by_cases hov : p.paramAccIdx ≥ 65535
  · have h2 : (65534 : Int) < p.paramAccIdx := by omega
    have h3 : (0 : Int) < p.paramAccIdx := by omega
    rcases hs with hs | hs <;>
      simp [transition, doAction, AddWithOverflow, hs, h1, hd, hov, h2, h3]
  · have h2 : ¬ ((65534 : Int) < p.paramAccIdx) := by omega
    rcases hs with hs | hs <;>
      simp [transition, doAction, AddWithOverflow, hs, h1, hd, hov, h2]

/-- The separator `;` in `CSIParam` with a free parameter slot. -/
theorem Next_semicolon (p : Parser) (hs : p.State = StateCSIParam)
    (hpar : p.paramsIdx < MaxParams) (hlen : p.params.length = MaxParams) :
    p.Next 0x3B = some ({ p with
        params := p.params.set p.paramsIdx p.paramAcc,
        paramsIdx := p.paramsIdx + 1, paramAcc := 0, paramAccIdx := 0 },
      (none, none, none)) := by
  unfold Next
  rw [hs, table_csi_param_semicolon]
  have h1 : ¬ (p.paramsIdx ≥ MaxParams) := by omega
  have h2 : p.paramsIdx < p.params.length := by omega
  simp [transition, doAction, store, hs, h1, h2]

theorem nextAll_append (p : Parser) (a b : List Nat) :
    nextAll p (a ++ b) = (nextAll p a).bind (fun r =>
      (nextAll r.1 b).map (fun q => (q.1, r.2 ++ q.2))) := by
  induction a generalizing p with
  | nil =>
    simp only [List.nil_append, nextAll, Option.some_bind]
    cases nextAll p b <;> simp
  | cons c cs ih =>
    cases h : p.Next c with
    | none => simp [nextAll, h]
    | some r =>
      obtain ⟨p1, a1⟩ := r
      rw [List.cons_append, nextAll_cons _ _ _ _ _ h, nextAll_cons _ _ _ _ _ h, ih p1]
      cases nextAll p1 cs with
      | none => simp
      | some r2 =>
        simp only [Option.some_bind, Option.map_some']
        cases nextAll r2.1 b <;> simp

/-- Digits after the first one of a parameter: the accumulator follows the
decimal value modulo 2^16 and `paramAccIdx` stays positive. -/
theorem nextAll_digits_pos (d : List Nat) : ∀ (p : Parser) (A : Nat),
    p.State = StateCSIParam → 0 < p.paramAccIdx → p.paramAcc = A % word16 →
    (∀ x ∈ d, 0x30 ≤ x ∧ x ≤ 0x39) →
    ∃ k : Int, 0 < k ∧
      nextAll p d = some ({ p with
          paramAcc := (d.foldl (fun acc x => acc * 10 + (x - 0x30)) A) % word16,
          paramAccIdx := k },
        List.replicate d.length (none, none, none)) := by
  induction d with
  | nil =>
    intro p A _ hk hA _
    refine ⟨p.paramAccIdx, hk, ?_⟩
    simp only [nextAll, List.foldl_nil, List.length_nil, List.replicate_zero, ← hA]
  | cons x d ih =>
    intro p A hs hk hA hd
    have hx := hd x (List.mem_cons_self x d)
    have hN := Next_digit p x (Or.inr hs) hx (le_of_lt hk)
    have hacc : (if p.paramAccIdx > 0 then ((p.paramAcc * 10) % word16 + (x - 0x30)) % word16
        else x - 0x30) = (A * 10 + (x - 0x30)) % word16 := by
      rw [if_pos hk, hA]; unfold word16; omega
    have hidx : (0 : Int) < (if p.paramAccIdx ≥ 65535 then p.paramAccIdx
        else p.paramAccIdx + 1) := by
      split_ifs <;> omega
    rw [hacc] at hN
    obtain ⟨k, hk', hrun⟩ := ih
      { p with State := StateCSIParam, paramAcc := (A * 10 + (x - 0x30)) % word16,
               paramAccIdx := if p.paramAccIdx ≥ 65535 then p.paramAccIdx
                              else p.paramAccIdx + 1 }
      (A * 10 + (x - 0x30)) rfl hidx rfl
      (fun y hy => hd y (List.mem_cons_of_mem x hy))
    refine ⟨k, hk', ?_⟩
    rw [nextAll_cons _ _ _ _ _ hN, hrun]
    simp [List.replicate_succ, hs]

/-- A whole parameter `d` (non-empty digit string) read from a state with an
empty accumulator. -/
theorem nextAll_digits (d : List Nat) (p : Parser)
    (hs : p.State = StateCSIEntry ∨ p.State = StateCSIParam)
    (hk : p.paramAccIdx = 0) (hd : isDigits d) :
    ∃ k : Int, 0 < k ∧
      nextAll p d = some ({ p with
          State := StateCSIParam,
          paramAcc := decimalValue d % word16,
          paramAccIdx := k },
        List.replicate d.length (none, none, none)) := by
  obtain ⟨hne, hall⟩ := hd
  match d, hne with
  | x :: d, _ =>
    have hx := hall x (List.mem_cons_self x d)
    have hN := Next_digit p x hs hx (by omega)
    have hacc : (if p.paramAccIdx > 0 then ((p.paramAcc * 10) % word16 + (x - 0x30)) % word16
        else x - 0x30) = (x - 0x30) % word16 := by
      rw [if_neg (by omega)]; unfold word16; omega
    have hidx : (if p.paramAccIdx ≥ 65535 then p.paramAccIdx else p.paramAccIdx + 1)
        = (1 : Int) := by
      rw [if_neg (by omega), hk]; rfl
    rw [hacc, hidx] at hN
    obtain ⟨k, hk', hrun⟩ := nextAll_digits_pos d
      { p with State := StateCSIParam, paramAcc := (x - 0x30) % word16, paramAccIdx := 1 }
      (x - 0x30) rfl (by show (0 : Int) < 1; decide) rfl
      (fun y hy => hall y (List.mem_cons_of_mem x hy))
    refine ⟨k, hk', ?_⟩
    rw [nextAll_cons _ _ _ _ _ hN, hrun]
    simp [List.replicate_succ, decimalValue]

theorem take_set_succ (l : List Nat) : ∀ (i v : Nat), i < l.length →
    (l.set i v).take (i + 1) = l.take i ++ [v] := by
  induction l with
  | nil => intro i v h; simp at h
  | cons a l ih =>
    intro i v h
    cases i with
    | zero => simp
    | succ i =>
      simp only [List.set_cons_succ, List.take_succ_cons, List.cons_append, List.cons.injEq,
        true_and]
      exact ih i v (by simpa using h)

/-- The parameter bytes `d_1 ; ... ; d_k` followed by a final byte, read from
`CSIEntry` or `CSIParam` with an empty accumulator and `k` free slots. -/
theorem nextAll_params (ds : List (List Nat)) : ∀ (p : Parser) (f : Nat),
    ds ≠ [] → (∀ d ∈ ds, isDigits d) →
    (p.State = StateCSIEntry ∨ p.State = StateCSIParam) →
    p.paramAccIdx = 0 →
    p.paramsIdx + ds.length ≤ MaxParams → p.params.length = MaxParams →
    p.intermediatesIdx ≤ p.intermediates.length →
    p.paramsSet.Count = some 0 →
    0x40 ≤ f ∧ f ≤ 0x7E →
    (nextAll p (joinParams ds ++ [f])).map (fun r => (r.1.State, r.2))
      = some (StateGround,
          List.replicate (joinParams ds).length (none, none, none) ++
          [(none,
            some { Action.ofType ActionCSIDispatch with
                   CSIDispatchData := some
                     { Intermediates := p.intermediates.take p.intermediatesIdx,
                       Params := p.params.take p.paramsIdx
                                   ++ ds.map (fun d => decimalValue d % word16),
                       ParamsSet := p.paramsSet, Final := f } },
            none)]) := by
  induction ds with
  | nil => intro p f h; exact absurd rfl h
  | cons d rest ih =>
    intro p f _ hall hs hk hroom hlen hims hcount hf
    obtain ⟨k, hkpos, hrun⟩ := nextAll_digits d p hs hk (hall d (List.mem_cons_self d rest))
    have htf := table_csi_param_final (f - 0x40) (by omega)
    rw [show 0x40 + (f - 0x40) = f by omega] at htf
    simp only [List.length_cons] at hroom
    cases rest with
    | nil =>
      have hfin := Next_csi_dispatch
        { p with State := StateCSIParam, paramAcc := decimalValue d % word16, paramAccIdx := k }
        f htf (Or.inr (Or.inl rfl)) hims (by show p.paramsIdx < MaxParams; omega) hlen hcount
      simp only [joinParams]
      rw [nextAll_append, hrun]
      simp only [Option.some_bind]
      rw [nextAll_cons _ _ _ _ _ hfin]
      have hlt : p.paramsIdx < p.params.length := by omega
      simp [nextAll, csiFinalised, hkpos, take_set_succ _ _ _ hlt]
    | cons d2 rest2 =>
      have hsemi := Next_semicolon
        { p with State := StateCSIParam, paramAcc := decimalValue d % word16, paramAccIdx := k }
        rfl (by show p.paramsIdx < MaxParams; simp only [List.length_cons] at hroom; omega) hlen
      have hlt : p.paramsIdx < p.params.length := by
        simp only [List.length_cons] at hroom; omega
      have hih := ih
        { p with State := StateCSIParam,
                 params := p.params.set p.paramsIdx (decimalValue d % word16),
                 paramsIdx := p.paramsIdx + 1, paramAcc := 0, paramAccIdx := 0 }
        f (by simp) (fun e he => hall e (List.mem_cons_of_mem d he)) (Or.inr rfl) rfl
        (by show p.paramsIdx + 1 + (d2 :: rest2).length ≤ MaxParams; omega)
        (by show (p.params.set _ _).length = MaxParams; simpa using hlen)
        hims hcount hf
      simp only [joinParams]
      rw [List.append_assoc, List.append_assoc, nextAll_append, hrun]
      simp only [Option.some_bind, List.singleton_append]
      rw [nextAll_cons _ _ _ _ _ hsemi]
      simp only [Option.map_map]
      simp only [take_set_succ _ _ _ hlt] at hih
      cases hrest : nextAll
        { p with State := StateCSIParam,
                 params := p.params.set p.paramsIdx (decimalValue d % word16),
                 paramsIdx := p.paramsIdx + 1, paramAcc := 0, paramAccIdx := 0 }
        (joinParams (d2 :: rest2) ++ [f]) with
      | none => rw [hrest] at hih; simp at hih
      | some r =>
        rw [hrest] at hih
        simp only [Option.map_some', Option.some.injEq, Prod.mk.injEq] at hih
        simp only [hrest, Option.map_some', hih.1, hih.2]
        simp [List.replicate_add, List.replicate_succ]
        exact ⟨hih.1, by rw [hih.2]; simp⟩

end Parser
/-- C9: a parser in Ground (with arrays of the declared lengths) fed ESC `[`,
then 1 to 24 non-empty decimal digit strings separated by `;`, then a final byte
`f` in 0x40..0x7E, returns no action before the final byte and on the final byte
exactly a CSI dispatch whose `Params` are the decimal values of the strings
reduced modulo 2^16, in order (so of length `k`), with `Final = f`, no
intermediates and a separator set in which no bit is set; it ends in Ground. -/
theorem C9_csi_params_decimal_mod_2_16 (p : Parser) (ds : List (List Nat)) (f : Nat)
    (hg : p.State = StateGround) (hwf : p.WellFormed)
    (h1 : 1 ≤ ds.length) (h24 : ds.length ≤ 24)
    (hd : ∀ d ∈ ds, isDigits d) (hf : 0x40 ≤ f ∧ f ≤ 0x7E) :
    (p.nextAll ([0x1B, 0x5B] ++ joinParams ds ++ [f])).map (fun r => (r.1.State, r.2))
      = some (StateGround,
          List.replicate (2 + (joinParams ds).length) (none, none, none) ++
          [(none,
            some { Action.ofType ActionCSIDispatch with
                   CSIDispatchData := some
                     { Intermediates := [],
                       Params := ds.map (fun d => decimalValue d % 2 ^ 16),
                       ParamsSet := p.paramsSet.Clear, Final := f } },
            none)]) ∧
    p.paramsSet.Clear.Count = some 0 ∧
    (ds.map (fun d => decimalValue d % 2 ^ 16)).length = ds.length := by
  obtain ⟨hl1, hl2⟩ := hwf
  refine ⟨?_, StaticBitSet.Count_Clear _, by simp⟩
  have hne : ds ≠ [] := by
    intro h; rw [h] at h1; simp at h1
  have hmain := Parser.nextAll_params ds
    { ({ p.Clear with State := StateEscape } : Parser).Clear with State := StateCSIEntry } f
    hne hd (Or.inl rfl) rfl
    (by show 0 + ds.length ≤ MaxParams; unfold MaxParams; omega)
    (by simpa [Parser.Clear] using hl2)
    (by simp [Parser.Clear])
    (by simpa [Parser.Clear, StaticBitSet.Clear, StaticBitSet.init] using
      StaticBitSet.Count_Clear p.paramsSet)
    hf
  rw [List.append_assoc, List.cons_append, List.cons_append, List.nil_append,
    Parser.nextAll_cons _ _ _ _ _ (Parser.Next_ground_esc p hg),
    Parser.nextAll_cons _ _ _ _ _ (Parser.Next_escape_bracket _ rfl)]
  cases hrest : Parser.nextAll
      { ({ p.Clear with State := StateEscape } : Parser).Clear with State := StateCSIEntry }
      (joinParams ds ++ [f]) with
  | none => rw [hrest] at hmain; simp at hmain
  | some r =>
    rw [hrest] at hmain
    simp only [Option.map_some', Option.some.injEq, Prod.mk.injEq] at hmain
    simp only [Option.map_some', hmain.1, hmain.2]
    simp [Parser.Clear, StaticBitSet.Clear, StaticBitSet.init, word16, List.replicate_add,
      List.replicate_succ]

/-- Witness of C8 at the inputs of the parser test: `ESC ( B` and `CSI ( B` on a
new parser. -/
theorem C8_esc_and_csi_dispatch_with_intermediate_witness :
    NewParser.State = StateGround ∧ NewParser.WellFormed ∧
    (0x20 ≤ 0x28 ∧ 0x28 ≤ 0x2F) ∧ 0x42 ≤ 0x7E ∧ 0x30 ≤ 0x42 ∧ 0x40 ≤ 0x42 ∧
    (NewParser.nextAll [0x1B, 0x28, 0x42]).map (fun r => (r.1.State, r.2))
      = some (StateGround,
          [(none, none, none), (none, none, none),
           (none,
            some { Action.ofType ActionESCDispatch with
                   ESCDispatchData := some { Intermediates := [0x28], Final := 0x42 } },
            none)]) ∧
    (NewParser.nextAll [0x9B, 0x28, 0x42]).map (fun r => (r.1.State, r.2))
      = some (StateGround,
          [(none, none, none), (none, none, none),
           (none,
            some { Action.ofType ActionCSIDispatch with
                   CSIDispatchData := some { Intermediates := [0x28], Params := [],
                                             ParamsSet := NewParser.paramsSet.Clear,
                                             Final := 0x42 } },
            none)]) :=
  have h := C8_esc_and_csi_dispatch_with_intermediate NewParser 0x28 0x42 rfl ⟨rfl, rfl⟩
    ⟨by decide, by decide⟩ (by decide)
  ⟨rfl, ⟨rfl, rfl⟩, ⟨by decide, by decide⟩, by decide, by decide, by decide,
   h.1 (by decide), h.2 (by decide)⟩

/-- Witness of C9 at `ESC [ 4 ; 65537 H` on a new parser: the parameters are
4 and 65537 mod 2^16 = 1. -/
theorem C9_csi_params_decimal_mod_2_16_witness :
    NewParser.State = StateGround ∧ NewParser.WellFormed ∧
    isDigits [0x34] ∧ isDigits [0x36, 0x35, 0x35, 0x33, 0x37] ∧
    (0x40 ≤ 0x48 ∧ 0x48 ≤ 0x7E) ∧
    (NewParser.nextAll
        ([0x1B, 0x5B] ++ joinParams [[0x34], [0x36, 0x35, 0x35, 0x33, 0x37]] ++ [0x48])).map
        (fun r => (r.1.State, r.2))
      = some (StateGround,
          List.replicate (2 + (joinParams [[0x34], [0x36, 0x35, 0x35, 0x33, 0x37]]).length)
            (none, none, none) ++
          [(none,
            some { Action.ofType ActionCSIDispatch with
                   CSIDispatchData := some
                     { Intermediates := [],
                       Params := [[0x34], [0x36, 0x35, 0x35, 0x33, 0x37]].map
                                   (fun d => decimalValue d % 2 ^ 16),
                       ParamsSet := NewParser.paramsSet.Clear, Final := 0x48 } },
            none)]) ∧
    [[0x34], [0x36, 0x35, 0x35, 0x33, 0x37]].map (fun d => decimalValue d % 2 ^ 16) = [4, 1] :=
  have d1 : isDigits [0x34] := ⟨by decide, by decide⟩
  have d2 : isDigits [0x36, 0x35, 0x35, 0x33, 0x37] := ⟨by decide, by decide⟩
  have h := C9_csi_params_decimal_mod_2_16 NewParser [[0x34], [0x36, 0x35, 0x35, 0x33, 0x37]]
    0x48 rfl ⟨rfl, rfl⟩ (by decide) (by decide)
    (by intro d hd
        simp only [List.mem_cons, List.mem_singleton, List.not_mem_nil, or_false] at hd
        rcases hd with rfl | rfl
        · exact d1
        · exact d2)
    ⟨by decide, by decide⟩
  ⟨rfl, ⟨rfl, rfl⟩, d1, d2, ⟨by decide, by decide⟩, h.1, by decide⟩

/-- C10 (code evaluated at the failing input): a new parser fed
`ESC [ 4 : 3 m` returns no action on any of the six bytes, because the table
sends `:` (0x3A) from `CSIParam` to `CsiIgnore` with `ActionNone`; in no state
does the table give `ActionParam` for `:`, so `doAction` never sets a separator
bit.  With `;` in place of `:` the dispatch with `Params = [4, 3]` is emitted. -/
theorem C10_colon_never_reaches_param :
    (NewParser.nextAll [0x1B, 0x5B, 0x34, 0x3A, 0x33, 0x6D]).map (fun r => (r.1.State, r.2))
      = some (StateGround, List.replicate 6 (none, none, none)) ∧
    parserTable 0x3A StateCSIParam = transition StateCsiIgnore ActionNone ∧
    (∀ s ∈ [StateGround, StateEscape, StateEscapeIntermediate, StateCSIEntry, StateCSIParam,
            StateCSIIntermediate, StateCsiIgnore, StateDCSEntry, StateDCSParam,
            StateDCSIntermediate, StateDCSPassthrough, StateDCSIgnore, StateOSCString,
            StateSosPmApcString], (parserTable 0x3A s).action ≠ ActionParam) ∧
    ((NewParser.nextAll [0x1B, 0x5B, 0x34, 0x3B, 0x33, 0x6D]).bind
        (fun r => r.2.getLast?)).map
        (fun a => a.2.1.bind (fun act => act.CSIDispatchData.map (fun c => (c.Params, c.Final))))
      = some (some ([4, 3], 0x6D)) := by
  decide!

/-- C11 (code evaluated at the failing input): a new parser fed ESC and five
intermediate bytes 0x20 accepts the first four (`intermediatesIdx = 4`, all four
kept) and panics on the fifth: `Collect` tests `intermediatesIdx >
MaxIntermediates`, so with index 4 it stores into `intermediates[4]`, outside the
array of length 4.  The same happens after CSI (0x9B). -/
theorem C11_fifth_intermediate_panics :
    (NewParser.nextAll [0x1B, 0x20, 0x21, 0x22, 0x23]).map
        (fun r => (r.1.intermediates, r.1.intermediatesIdx, r.1.State))
      = some ([0x20, 0x21, 0x22, 0x23], 4, StateEscapeIntermediate) ∧
    (NewParser.nextAll [0x1B, 0x20, 0x21, 0x22, 0x23, 0x24]).isSome = false ∧
    (NewParser.nextAll [0x9B, 0x20, 0x21, 0x22, 0x23, 0x24]).isSome = false := by
  decide!

/-- C12 (code evaluated at the failing input): in the states Escape and
EscapeIntermediate the table has no entry for 0x1B (the slice `anywhere` lists
only the other twelve states), so `Next(0x1B)` reads the zero `Transition` and
leaves the parser in Ground: after `ESC ESC` the byte `[` is printed as text,
and after `ESC ( ESC` the collected intermediate is not cleared. -/
theorem C12_esc_in_escape_goes_to_ground :
    parserTable 0x1B StateEscape = { state := StateGround, action := ActionNone } ∧
    parserTable 0x1B StateEscapeIntermediate
      = { state := StateGround, action := ActionNone } ∧
    (NewParser.nextAll [0x1B, 0x1B]).map (fun r => r.1.State) = some StateGround ∧
    (NewParser.nextAll [0x1B, 0x1B, 0x5B]).map (fun r => (r.1.State, r.2.getLast?))
      = some (StateGround,
          some (none, some { Action.ofType ActionPrint with PrintData := 0x5B }, none)) ∧
    (NewParser.nextAll [0x1B, 0x28, 0x1B]).map (fun r => (r.1.State, r.1.intermediatesIdx))
      = some (StateGround, 1) ∧
    (∀ s ∈ anywhere, parserTable 0x1B s = { state := StateEscape, action := ActionNone }) := by
  decide!

namespace sgr
open AttributeType UnderlineType

/-- The main switch on a single parameter without colon agrees with the table. -/
theorem dispatch_single (q : Parser) (p : Nat) (hq : q.Params = [p]) :
    Parser.dispatch q [p] false p = some (q, some (specSingle p), true) := by
  unfold Parser.dispatch
  split <;> simp [specSingle, Parser.plain, Parser.directColor, Parser.unknownAttr, hq]
  split_ifs <;> first | rfl | (exfalso; simp_all)

/-- C13: for a one-element parameter vector `[p]` whose separator bit 0 is clear,
the first pull after `next` yields the attribute of the table `specSingle`
(Unset 0, Bold 1, Faint 2, Italic 3, Underline Single 4, Blink 5 and 6, Inverse 7,
Invisible 8, Strikethrough 9, Underline Double 21, ResetBold 22, ResetItalic 23,
ResetUnderline 24, ResetBlink 25, ResetInverse 27, ResetInvisible 28,
ResetStrikethrough 29, ResetBg 49, Overline 53, ResetOverline 55,
ResetUnderlineColor 59, Unknown otherwise) with `ok = true`, and `Iter` yields
that attribute and then nil; for the empty vector the first pull yields Unset
(with `ok = false`) and `Iter` yields just that. -/
theorem C13_single_param_attribute (p i : Nat) (sep : StaticBitSet)
    (h : sep.IsSet 0 = some false) :
    Parser.pull (Parser.next { Params := [p], ParamsSep := sep, idx := i })
      = some ({ Params := [p], ParamsSep := sep, idx := 1 }, some (specSingle p), true) ∧
    Parser.Iter { Params := [p], ParamsSep := sep, idx := i }
      = some [some (specSingle p), none] ∧
    Parser.pull (Parser.next { Params := [], ParamsSep := sep, idx := i })
      = some ({ Params := [], ParamsSep := sep, idx := 1 },
          some { Typ := AttributeTypeUnset }, false) ∧
    Parser.Iter { Params := [], ParamsSep := sep, idx := i }
      = some [some { Typ := AttributeTypeUnset }] := by
  have h1 : Parser.pull (Parser.next { Params := [p], ParamsSep := sep, idx := i })
      = some ({ Params := [p], ParamsSep := sep, idx := 1 }, some (specSingle p), true) := by
    simp [Parser.pull, Parser.next, h, dispatch_single]
  have h2 : Parser.pull { Params := [p], ParamsSep := sep, idx := 1 }
      = some ({ Params := [p], ParamsSep := sep, idx := 1 }, none, false) := by
    simp [Parser.pull]
  have h3 : Parser.pull (Parser.next { Params := [], ParamsSep := sep, idx := i })
      = some ({ Params := [], ParamsSep := sep, idx := 1 },
          some { Typ := AttributeTypeUnset }, false) := by
    simp [Parser.pull, Parser.next]
  refine ⟨h1, ?_, h3, ?_⟩
  · simp [Parser.Iter, Parser.iterLoop, h1, h2]
  · simp [Parser.Iter, Parser.iterLoop, h3]

/-- C13 at `p = 21` with the separator set of the tests. -/
theorem C13_single_param_attribute_witness :
    (NewStaticBitSet 1).IsSet 0 = some false ∧
    Parser.pull (Parser.next { Params := [21], ParamsSep := NewStaticBitSet 1, idx := 0 })
      = some ({ Params := [21], ParamsSep := NewStaticBitSet 1, idx := 1 },
          some { Typ := AttributeTypeUnderline, Underline := UnderlineTypeDouble }, true) :=
  ⟨by decide, (C13_single_param_attribute 21 0 (NewStaticBitSet 1) (by decide)).1⟩

end sgr

namespace sgr
open AttributeType UnderlineType

/-- The channel conversion is truncation to 255. -/
theorem channel_eq (v : Nat) : channel v = min v 255 := by
  unfold channel
  omega

/-- The case 38 of the main switch. -/
theorem dispatch_38 (p : Parser) (slice : List Nat) (colon : Bool) :
    Parser.dispatch p slice colon 38 = Parser.directColor p slice colon
      (fun c => { Typ := AttributeTypeDirectColorFg, DirectColorFg := c }) := rfl

/-- The case 48 of the main switch. -/
theorem dispatch_48 (p : Parser) (slice : List Nat) (colon : Bool) :
    Parser.dispatch p slice colon 48 = Parser.directColor p slice colon
      (fun c => { Typ := AttributeTypeDirectColorBg, DirectColorBg := c }) := rfl

/-- The case 58 of the main switch. -/
theorem dispatch_58 (p : Parser) (slice : List Nat) (colon : Bool) :
    Parser.dispatch p slice colon 58 = Parser.directColor p slice colon
      (fun c => { Typ := AttributeTypeUnderlineColor, UnderlineColor := c }) := rfl

/-- The first pull on a non-empty vector when the colon switch is passed. -/
theorem pull_first (s0 i : Nat) (rest : List Nat) (sep : StaticBitSet) (colon : Bool)
    (h : sep.IsSet 0 = some colon) (hc : colon = false ∨ s0 = 4 ∨ s0 = 38 ∨ s0 = 48) :
    Parser.pull (Parser.next { Params := s0 :: rest, ParamsSep := sep, idx := i })
      = Parser.dispatch { Params := s0 :: rest, ParamsSep := sep, idx := 1 } (s0 :: rest) colon s0 := by
  have hcond : ¬ (colon = true ∧ ¬ (s0 = 4 ∨ s0 = 38 ∨ s0 = 48)) := by
    rcases hc with rfl | h4
    · simp
    · simp [h4]
  simp only [Parser.pull, Parser.next]
  simp [h]
  intro a b c d
  exact absurd ⟨a, fun hh => by rcases hh with h4 | h4 | h4 <;> contradiction⟩ hcond

/-- The direct-colour case, once `parseDirectColor` is known. -/
theorem directColor_two (p q : Parser) (c : Nat) (rest : List Nat) (colon : Bool)
    (mk : color.RGB → Attribute) (r : Option color.RGB)
    (h : Parser.parseDirectColor p (c :: 2 :: rest) colon = some (q, r)) :
    Parser.directColor p (c :: 2 :: rest) colon mk = some (q, r.map mk, true) := by
  unfold Parser.directColor
  cases r <;> simp [h]

/-- C14: for `c` in {38, 48, 58} and all values `r g b`, the vector
`[c, 2, r, g, b]` (followed by any further parameters) with separator bit 0
clear yields, at the first pull, the direct-colour attribute of `c` with RGB
`(min r 255, min g 255, min b 255)` and leaves the index at 5; a vector
`c :: 2 :: rest` with fewer than five entries yields nil for that code. -/
theorem C14_direct_color_semicolon (c r g b i : Nat) (rest : List Nat) (sep : StaticBitSet)
    (hc : c = 38 ∨ c = 48 ∨ c = 58) (h : sep.IsSet 0 = some false) :
    Parser.pull (Parser.next { Params := c :: 2 :: r :: g :: b :: rest, ParamsSep := sep, idx := i })
      = some ({ Params := c :: 2 :: r :: g :: b :: rest, ParamsSep := sep, idx := 5 },
          some (specDirect c { R := min r 255, G := min g 255, B := min b 255 }), true) ∧
    (rest.length < 3 →
      Parser.pull (Parser.next { Params := c :: 2 :: rest, ParamsSep := sep, idx := i })
        = some ({ Params := c :: 2 :: rest, ParamsSep := sep, idx := 1 }, none, true)) := by
  constructor
  · have hp : Parser.parseDirectColor
        { Params := c :: 2 :: r :: g :: b :: rest, ParamsSep := sep, idx := 1 }
        (c :: 2 :: r :: g :: b :: rest) false
        = some ({ Params := c :: 2 :: r :: g :: b :: rest, ParamsSep := sep, idx := 5 },
            some { R := min r 255, G := min g 255, B := min b 255 }) := by
      have hl : ¬ (c :: 2 :: r :: g :: b :: rest).length < 5 := by simp
      unfold Parser.parseDirectColor
      rw [if_neg hl]
      simp [channel_eq]
    rw [pull_first c i _ sep false h (Or.inl rfl)]
    rcases hc with rfl | rfl | rfl
    · rw [dispatch_38, directColor_two _ _ _ _ _ _ _ hp]; rfl
    · rw [dispatch_48, directColor_two _ _ _ _ _ _ _ hp]; rfl
    · rw [dispatch_58, directColor_two _ _ _ _ _ _ _ hp]; rfl
  · intro hl
    have hl5 : (c :: 2 :: rest).length < 5 := by simp; omega
    have hp : Parser.parseDirectColor { Params := c :: 2 :: rest, ParamsSep := sep, idx := 1 }
        (c :: 2 :: rest) false
        = some ({ Params := c :: 2 :: rest, ParamsSep := sep, idx := 1 }, none) := by
      unfold Parser.parseDirectColor
      rw [if_pos hl5]
    rw [pull_first c i _ sep false h (Or.inl rfl)]
    rcases hc with rfl | rfl | rfl
    · rw [dispatch_38, directColor_two _ _ _ _ _ _ _ hp]; rfl
    · rw [dispatch_48, directColor_two _ _ _ _ _ _ _ hp]; rfl
    · rw [dispatch_58, directColor_two _ _ _ _ _ _ _ hp]; rfl

/-- C14 at `[38, 2, 40, 300, 52]` and `[38, 2, 40, 44]`. -/
theorem C14_direct_color_semicolon_witness :
    Parser.pull (Parser.next { Params := [38, 2, 40, 300, 52], ParamsSep := NewStaticBitSet 5, idx := 0 })
      = some ({ Params := [38, 2, 40, 300, 52], ParamsSep := NewStaticBitSet 5, idx := 5 },
          some { Typ := AttributeTypeDirectColorFg, DirectColorFg := { R := 40, G := 255, B := 52 } },
          true) ∧
    Parser.pull (Parser.next { Params := [38, 2, 40, 44], ParamsSep := NewStaticBitSet 5, idx := 0 })
      = some ({ Params := [38, 2, 40, 44], ParamsSep := NewStaticBitSet 5, idx := 1 }, none, true) :=
  ⟨(C14_direct_color_semicolon 38 40 300 52 0 [] (NewStaticBitSet 5) (by decide) (by decide)).1,
   (C14_direct_color_semicolon 38 40 300 52 0 [40, 44] (NewStaticBitSet 5) (by decide)
      (by decide)).2 (by decide)⟩

/-- C15 (code evaluated at the failing inputs): with colon separators the
direct-colour forms are not recognised.  For 38 and 48 `countColon` returns 0
although its loop counts 3 separators (the loop counts in a variable that
shadows the returned one), so `parseDirectColor` takes the ill-formed branch
and the pull yields nil with the index at 2, for `[c, 2, r, g, b]` (bits 0..3)
and for `[c, 2, cs, r, g, b]` (bits 0..4) alike; `Iter` then goes on inside the
colour components.  For 58 the colon switch of the pull function
(`case 4, 38, 48`) takes the default branch and the pull yields Unknown. -/
theorem C15_colon_direct_color_not_parsed :
    sepWith 5 [0, 1, 2, 3] = some sep5 ∧ sepWith 6 [0, 1, 2, 3, 4] = some sep6 ∧
    (∀ r g b i : Nat,
      Parser.countColonLoop { Params := [38, 2, r, g, b], ParamsSep := sep5, idx := 1 } 6 0 1
        = some 3 ∧
      Parser.countColon { Params := [38, 2, r, g, b], ParamsSep := sep5, idx := 1 } = some 0 ∧
      Parser.pull (Parser.next { Params := [38, 2, r, g, b], ParamsSep := sep5, idx := i })
        = some ({ Params := [38, 2, r, g, b], ParamsSep := sep5, idx := 2 }, none, true) ∧
      Parser.pull (Parser.next { Params := [48, 2, r, g, b], ParamsSep := sep5, idx := i })
        = some ({ Params := [48, 2, r, g, b], ParamsSep := sep5, idx := 2 }, none, true) ∧
      Parser.pull (Parser.next { Params := [58, 2, r, g, b], ParamsSep := sep5, idx := i })
        = some ({ Params := [58, 2, r, g, b], ParamsSep := sep5, idx := 5 },
            some { Typ := AttributeTypeUnknown,
                   Unknown := { Full := [2, r, g, b], Partial := [58, 2, r, g, b] } }, true)) ∧
    (∀ cs r g b i : Nat,
      Parser.pull (Parser.next { Params := [38, 2, cs, r, g, b], ParamsSep := sep6, idx := i })
        = some ({ Params := [38, 2, cs, r, g, b], ParamsSep := sep6, idx := 2 }, none, true) ∧
      Parser.pull (Parser.next { Params := [48, 2, cs, r, g, b], ParamsSep := sep6, idx := i })
        = some ({ Params := [48, 2, cs, r, g, b], ParamsSep := sep6, idx := 2 }, none, true) ∧
      Parser.pull (Parser.next { Params := [58, 2, cs, r, g, b], ParamsSep := sep6, idx := i })
        = some ({ Params := [58, 2, cs, r, g, b], ParamsSep := sep6, idx := 6 },
            some { Typ := AttributeTypeUnknown,
                   Unknown := { Full := [2, cs, r, g, b], Partial := [58, 2, cs, r, g, b] } },
            true)) ∧
    (Parser.Iter { Params := [38, 2, 10, 20, 30], ParamsSep := sep5, idx := 0 }).map
        (fun l => l.map (fun a => a.map (fun x => x.Typ)))
      = some [none, some AttributeTypeUnknown, none] := by
  have a0 : sep5.IsSet 0 = some true := by decide
  have a1 : sep5.IsSet 1 = some true := by decide
  have a2 : sep5.IsSet 2 = some true := by decide
  have a3 : sep5.IsSet 3 = some true := by decide
  have a4 : sep5.IsSet 4 = some false := by decide
  have b0 : sep6.IsSet 0 = some true := by decide
  have b1 : sep6.IsSet 1 = some true := by decide
  have b2 : sep6.IsSet 2 = some true := by decide
  have b3 : sep6.IsSet 3 = some true := by decide
  have b4 : sep6.IsSet 4 = some true := by decide
  have b5 : sep6.IsSet 5 = some false := by decide
  have s5 : sep5.size = 5 := rfl
  have s6 : sep6.size = 6 := rfl
  have p5 : ∀ c r g b : Nat,
      Parser.parseDirectColor { Params := [c, 2, r, g, b], ParamsSep := sep5, idx := 1 }
        [c, 2, r, g, b] true
      = some ({ Params := [c, 2, r, g, b], ParamsSep := sep5, idx := 2 }, none) := by
    intro c r g b
    simp [Parser.parseDirectColor, Parser.countColon, Parser.countColonLoop,
      Parser.consumeUnknownColon, a1, a2, a3, a4]
  have p6 : ∀ c cs r g b : Nat,
      Parser.parseDirectColor { Params := [c, 2, cs, r, g, b], ParamsSep := sep6, idx := 1 }
        [c, 2, cs, r, g, b] true
      = some ({ Params := [c, 2, cs, r, g, b], ParamsSep := sep6, idx := 2 }, none) := by
    intro c cs r g b
    simp [Parser.parseDirectColor, Parser.countColon, Parser.countColonLoop,
      Parser.consumeUnknownColon, b1, b2, b3, b4, b5]
  refine ⟨by decide, by decide, ?_, ?_, by decide!⟩
  · intro r g b i
    refine ⟨?_, ?_, ?_, ?_, ?_⟩
    · simp [Parser.countColonLoop, a1, a2, a3, a4]
    · simp [Parser.countColon, Parser.countColonLoop, a1, a2, a3, a4]
    · rw [pull_first 38 i _ sep5 true a0 (by decide), dispatch_38,
        directColor_two _ _ _ _ _ _ _ (p5 38 r g b)]
      rfl
    · rw [pull_first 48 i _ sep5 true a0 (by decide), dispatch_48,
        directColor_two _ _ _ _ _ _ _ (p5 48 r g b)]
      rfl
    · simp [Parser.pull, Parser.next, Parser.skipColons, subslice, a0, a1, a2, a3, a4, s5]
  · intro cs r g b i
    refine ⟨?_, ?_, ?_⟩
    · rw [pull_first 38 i _ sep6 true b0 (by decide), dispatch_38,
        directColor_two _ _ _ _ _ _ _ (p6 38 cs r g b)]
      rfl
    · rw [pull_first 48 i _ sep6 true b0 (by decide), dispatch_48,
        directColor_two _ _ _ _ _ _ _ (p6 48 cs r g b)]
      rfl
    · simp [Parser.pull, Parser.next, Parser.skipColons, subslice, b0, b1, b2, b3, b4, b5, s6]

end sgr

namespace tabstops

/-- Bit facts of one `uint8` unit, by enumeration. -/
theorem unit_bits : ∀ u < 256, ∀ i < 8,
    ((u ||| masks i) &&& masks i == masks i) = true ∧
    ((andNot8 u (masks i)) &&& masks i == masks i) = false ∧
    (u ||| masks i) < 256 ∧ andNot8 u (masks i) < 256 ∧
    ∀ j < 8, j ≠ i →
      ((u ||| masks i) &&& masks j == masks j) = (u &&& masks j == masks j) ∧
      ((andNot8 u (masks i)) &&& masks j == masks j) = (u &&& masks j == masks j) := by
  decide!

/-- Reading a list after one write. -/
theorem getD_set (l : List Nat) (i j v : Nat) (hi : i < l.length) :
    (l.set i v).getD j 0 = if j = i then v else l.getD j 0 := by
  simp only [List.getD_eq_getElem?_getD, List.getElem?_set]
  by_cases h : i = j
  · subst h; simp [hi]
  · have h2 : ¬ j = i := fun e => h e.symm
    simp [h, h2]

end tabstops

namespace tabstops

/-- Every unit read from a well-formed array is a `uint8`. -/
theorem getD_lt (l : List Nat) (h : ∀ u ∈ l, u < 256) (i : Nat) : l.getD i 0 < 256 := by
  rw [List.getD_eq_getElem?_getD]
  by_cases hi : i < l.length
  · rw [List.getElem?_eq_getElem hi]
    exact h _ (List.getElem_mem hi)
  · rw [List.getElem?_eq_none (by omega)]
    decide

/-- Two different columns of the same unit have different bit indices. -/
theorem index_ne (c d : Nat) (hne : d ≠ c) (he : entry d = entry c) : index d ≠ index c := by
  unfold entry index unitBits at *
  omega

/-- C16: for every well-formed `Tabstops` value and every column `c` below
`Capacity()` (all `c < 512`, and the columns of the dynamic part after a
`Resize`), `Get(c)` is true after `Set(c)` and false after `Unset(c)`, and for
every other column `d` neither `Set(c)` nor `Unset(c)` changes `Get(d)`; and
`Resize(cols)` gives a well-formed value whose capacity is at least `cols`. -/
theorem C16_tabstops_set_unset_get (t : Tabstops) (c d cols : Nat) (hwf : t.WellFormed)
    (hc : c < t.Capacity) :
    (t.Set c).Get c = some true ∧ (t.Unset c).Get c = some false ∧
    (d ≠ c → (t.Set c).Get d = t.Get d ∧ (t.Unset c).Get d = t.Get d) ∧
    (t.Set c).WellFormed ∧ (t.Unset c).WellFormed ∧
    (t.Resize cols).WellFormed ∧ cols ≤ (t.Resize cols).Capacity := by
  obtain ⟨hl, hp, hd⟩ := hwf
  have hidx : index c < 8 := Nat.mod_lt _ (by decide)
  have hidx' : index d < 8 := Nat.mod_lt _ (by decide)
  have hmem : ∀ (l : List Nat) (i v : Nat), (∀ u ∈ l, u < 256) → v < 256 →
      ∀ u ∈ l.set i v, u < 256 := by
    intro l i v hl hv u hu
    rcases List.mem_or_eq_of_mem_set hu with h | h
    · exact hl u h
    · rw [h]; exact hv
  have hres : (t.Resize cols).WellFormed ∧ cols ≤ (t.Resize cols).Capacity := by
    unfold Tabstops.Resize Tabstops.WellFormed Tabstops.Capacity
    simp only [preallocCols, preallocCount, unitBits]
    split_ifs with h1 h2
    · have h3 : @LE.le Nat _ cols 512 := h1
      exact ⟨⟨hl, hp, hd⟩, by show cols ≤ (512 / 8 + t.dynamic.length) * 8; omega⟩
    · have h3 : @LT.lt Nat _ (cols - 512) t.dynamic.length := h2
      exact ⟨⟨hl, hp, hd⟩, by show cols ≤ (512 / 8 + t.dynamic.length) * 8; omega⟩
    · have h3 : ¬ @LE.le Nat _ cols 512 := h1
      have h4 : ¬ @LT.lt Nat _ (cols - 512) t.dynamic.length := h2
      refine ⟨⟨hl, hp, ?_⟩, by
        show cols ≤ (512 / 8 + (t.dynamic ++ List.replicate (cols - 512 - t.dynamic.length) 0).length) * 8
        rw [List.length_append, List.length_replicate]
        omega⟩
      intro u hu
      rcases List.mem_append.mp hu with h | h
      · exact hd u h
      · rw [List.eq_of_mem_replicate h]; decide
  by_cases h64 : entry c < preallocCount
  · have hu := getD_lt t.prealloc hp (entry c)
    obtain ⟨b1, b2, b6, b7, b3⟩ := unit_bits _ hu _ hidx
    have hlen : entry c < t.prealloc.length := by rw [hl]; exact h64
    refine ⟨?_, ?_, ?_, ?_, ?_, hres.1, hres.2⟩
    · simp only [Tabstops.Set, Tabstops.Get, h64, getD_set _ _ _ _ hlen, b1, if_true]
    · simp only [Tabstops.Unset, Tabstops.Get, h64, getD_set _ _ _ _ hlen, b2, if_true]
    · intro hne
      by_cases h64' : entry d < preallocCount
      · by_cases he : entry d = entry c
        · obtain ⟨b4, b5⟩ := b3 _ hidx' (index_ne c d hne he)
          rw [he] at h64'
          simp only [Tabstops.Set, Tabstops.Unset, Tabstops.Get, h64, getD_set _ _ _ _ hlen, he,
            b4, b5, if_true, and_self]
        · simp only [Tabstops.Set, Tabstops.Unset, Tabstops.Get, h64, h64',
            getD_set _ _ _ _ hlen, he, if_true, if_false, and_self]
      · simp only [Tabstops.Set, Tabstops.Unset, Tabstops.Get, h64, h64', if_true, if_false,
          and_self]
    · simp only [Tabstops.Set, h64, if_true]
      exact ⟨by simp [hl], hmem _ _ _ hp b6, hd⟩
    · simp only [Tabstops.Unset, h64, if_true]
      exact ⟨by simp [hl], hmem _ _ _ hp b7, hd⟩
  · have hdyn : entry c - preallocCount < t.dynamic.length := by
      unfold Tabstops.Capacity entry preallocCount preallocCols unitBits at *
      omega
    have hu := getD_lt t.dynamic hd (entry c - preallocCount)
    obtain ⟨b1, b2, b6, b7, b3⟩ := unit_bits _ hu _ hidx
    refine ⟨?_, ?_, ?_, ?_, ?_, hres.1, hres.2⟩
    · simp only [Tabstops.Set, Tabstops.Get, h64, hdyn, getD_set _ _ _ _ hdyn, b1, if_true,
        if_false, List.length_set]
    · simp only [Tabstops.Unset, Tabstops.Get, h64, hdyn, getD_set _ _ _ _ hdyn, b2, if_true,
        if_false, List.length_set]
    · intro hne
      by_cases h64' : entry d < preallocCount
      · simp only [Tabstops.Set, Tabstops.Unset, Tabstops.Get, h64, h64', hdyn, if_true, if_false,
          and_self]
      · by_cases he : entry d = entry c
        · obtain ⟨b4, b5⟩ := b3 _ hidx' (index_ne c d hne he)
          simp only [Tabstops.Set, Tabstops.Unset, Tabstops.Get, h64, hdyn,
            getD_set _ _ _ _ hdyn, he, b4, b5, if_true, if_false, List.length_set, and_self]
        · have he' : ¬ entry d - preallocCount = entry c - preallocCount := by omega
          simp only [Tabstops.Set, Tabstops.Unset, Tabstops.Get, h64, h64', hdyn,
            getD_set _ _ _ _ hdyn, he', if_true, if_false, List.length_set, and_self]
    · simp only [Tabstops.Set, h64, hdyn, if_true, if_false]
      exact ⟨hl, hp, hmem _ _ _ hd b6⟩
    · simp only [Tabstops.Unset, h64, hdyn, if_true, if_false]
      exact ⟨hl, hp, hmem _ _ _ hd b7⟩

/-- C16 at the columns 517 (set) and 516 (other) of a value with 514 columns. -/
theorem C16_tabstops_set_unset_get_witness :
    (zeroTabstops 514 2).WellFormed ∧ 517 < (zeroTabstops 514 2).Capacity ∧
    ((zeroTabstops 514 2).Set 517).Get 517 = some true ∧
    ((zeroTabstops 514 2).Unset 517).Get 517 = some false ∧
    ((zeroTabstops 514 2).Set 517).Get 516 = (zeroTabstops 514 2).Get 516 :=
  have hw : (zeroTabstops 514 2).WellFormed :=
    ⟨by simp [zeroTabstops, preallocCount, preallocCols, unitBits],
      fun u hu => by rw [List.eq_of_mem_replicate hu]; decide,
      fun u hu => by rw [List.eq_of_mem_replicate hu]; decide⟩
  have hc : 517 < (zeroTabstops 514 2).Capacity := by
    simp [zeroTabstops, Tabstops.Capacity, preallocCount, preallocCols, unitBits]
  have h := C16_tabstops_set_unset_get (zeroTabstops 514 2) 517 516 514 hw hc
  ⟨hw, hc, h.1, h.2.1, (h.2.2.1 (by decide)).1⟩

end tabstops

namespace core

/-- C17 (code evaluated at the failing input): `NewTerminal` passes the same map
object as values and as defaults, so `Set` writes into the defaults and `Reset`
copies the changed value back.  With `Options.Modes = ModePacked` (defaults, in
the order of `entries`: off, off, on, off, on, off), after
`Set(ModeWraparound, false)` and `Reset()` the mode Wraparound reads off, and
after `Set(ModeInsert, true)` and `Reset()` the mode Insert reads on; the global
map `ModePacked` itself is changed by the `Set`.  A mode state whose values are
a separate map object does return to the defaults. -/
theorem C17_reset_keeps_changed_mode :
    entries.map (fun m => m.Default) = [false, false, true, false, true, false] ∧
    (newTerminalModes initStore (some ModePacked)).2
      = { values := ModePacked, defaults := ModePacked } ∧
    setResetGetAll (newTerminalModes initStore (some ModePacked)) ModeWraparound false
      = some [false, false, true, false, false, false] ∧
    setResetGetAll (newTerminalModes initStore (some ModePacked)) ModeInsert true
      = some [false, true, true, false, true, false] ∧
    ((((newTerminalModes initStore (some ModePacked)).2.Set initStore ModeWraparound false).bind
        (fun h => h.read ModePacked)).map (fun m => m.get ModeWraparound)) = some false ∧
    setResetGetAll (NewModeState (initStore.alloc packedDefaults).1
        (some (initStore.alloc packedDefaults).2) (some ModePacked)) ModeWraparound false
      = some [false, false, true, false, true, false] := by
  decide!

end core

namespace terminal

/-- C18 (code evaluated at the failing input): a fresh terminal of 500 columns
and 100 rows (Wraparound on) has two pages, of 92 and 8 rows.  After
`Print('a')` the cursor is at (1, 0) without pending wrap and row 0 alone is
dirty, as claimed, but `GetTopLeft` of the viewport is nil (the loop for the
active area starts at the first page and walks `Prev`), `GetBottomRight` calls
`Down` on that nil pin, and `PlainString()` panics instead of returning "a".
On the one-page terminal of the test (40 by 40, "hello") the same calls give
cursor (5, 0) and the string "hello".  (`RuneWidth` and the style hash are never
called on these inputs; constant functions stand for them.) -/
theorem C18_plain_string_panics_on_two_pages :
    (freshTerminal 500 100).map
        (fun t => (t.Screen.Pages.Pages, (t.Screen.mem.nodes 0).Data.Size.Rows,
          (t.Screen.mem.nodes 1).Data.Size.Rows, (t.Screen.mem.nodes 0).Next))
      = Except.ok (some { First := some 0, Last := some 1 }, 92, 8, some 1) ∧
    ((freshTerminal 500 100).bind
        (fun t => Terminal.printAll (fun _ => 1) (fun _ => 0) t [0x61])).map
          Terminal.cursorState = Except.ok (1, 0, false) ∧
    ((freshTerminal 500 100).bind
        (fun t => Terminal.printAll (fun _ => 1) (fun _ => 0) t [0x61])).bind
          (fun t => t.dirtyRows [0, 1, 2, 99]) = Except.ok [true, false, false, false] ∧
    ((freshTerminal 500 100).bind
        (fun t => Terminal.printAll (fun _ => 1) (fun _ => 0) t [0x61])).bind
          (fun t => t.Screen.Pages.GetTopLeft point.Tag.TagViewPort) = Except.ok none ∧
    ((freshTerminal 500 100).bind
        (fun t => Terminal.printAll (fun _ => 1) (fun _ => 0) t [0x61])).bind
          Terminal.PlainString = Except.error Fault.panic ∧
    ((freshTerminal 40 40).bind
        (fun t => Terminal.printAll (fun _ => 1) (fun _ => 0) t
          [0x68, 0x65, 0x6C, 0x6C, 0x6F])).bind
          (fun t => (t.PlainString).map (fun w => (t.cursorState, w)))
      = Except.ok ((5, 0, false), [0x68, 0x65, 0x6C, 0x6C, 0x6F]) := by
  decide!

/-- C19 (code evaluated at the failing input): a fresh terminal of 50 columns
and 925 rows (Wraparound on) has two pages, of 924 rows and 1 row.  Printing
`2 * 50` printable characters leaves the cursor at (49, 1) with pending wrap, as
claimed, but `PlainString()` panics (nil top-left pin of the viewport, as for
C18) instead of returning the two chunks joined by a newline.  On the one-page
terminal of the test (5 columns, 40 rows, "helloworldabc12") the same calls give
cursor (4, 2), pending wrap and "hello\nworld\nabc12". -/
theorem C19_wrapped_dump_panics_on_two_pages :
    (freshTerminal 50 925).map
        (fun t => (t.Screen.Pages.Pages, (t.Screen.mem.nodes 0).Data.Size.Rows,
          (t.Screen.mem.nodes 1).Data.Size.Rows))
      = Except.ok (some { First := some 0, Last := some 1 }, 924, 1) ∧
    ((freshTerminal 50 925).bind
        (fun t => Terminal.printAll (fun _ => 1) (fun _ => 0) t
          (List.replicate 50 0x61 ++ List.replicate 50 0x62))).map
          Terminal.cursorState = Except.ok (49, 1, true) ∧
    ((freshTerminal 50 925).bind
        (fun t => Terminal.printAll (fun _ => 1) (fun _ => 0) t
          (List.replicate 50 0x61 ++ List.replicate 50 0x62))).bind
          Terminal.PlainString = Except.error Fault.panic ∧
    ((freshTerminal 5 40).bind
        (fun t => Terminal.printAll (fun _ => 1) (fun _ => 0) t
          [0x68, 0x65, 0x6C, 0x6C, 0x6F, 0x77, 0x6F, 0x72, 0x6C, 0x64, 0x61, 0x62, 0x63, 0x31,
            0x32])).bind
          (fun t => (t.PlainString).map (fun w => (t.cursorState, w)))
      = Except.ok ((4, 2, true),
          [0x68, 0x65, 0x6C, 0x6C, 0x6F, 0x0A, 0x77, 0x6F, 0x72, 0x6C, 0x64, 0x0A, 0x61, 0x62,
            0x63, 0x31, 0x32]) := by
  decide!

end terminal

/-! ## C20: the one-column terminal -/

namespace terminal

/-- The word address of a row bit. -/
theorem addr_natCast (y : Nat) :
    StaticBitSet.addr (y : Int) = (((y / 64 : Nat) : Int), ((y % 64 : Nat) : Int)) := by
  unfold StaticBitSet.addr bitSetSize
  have h1 : Int.tdiv (y : Int) 64 = ((y / 64 : Nat) : Int) := by
    rw [Int.tdiv_eq_ediv (Int.ofNat_nonneg y)]
    all_goals omega
  have h2 : Int.tmod (y : Int) 64 = ((y % 64 : Nat) : Int) := by
    have h64 : (0 : Int) ≤ 64 := by decide
    rw [Int.tmod_eq_emod (Int.ofNat_nonneg y) h64]
    omega
  rw [h1, h2]

/-- `Set` on a well-formed dirty set. -/
theorem dirty_Set (d : StaticBitSet) (y : Nat) (hd : dirtyOK d) (hy : y < oneColRows) :
    d.Set (y : Int) = some (markRow d y) ∧ dirtyOK (markRow d y) := by
  obtain ⟨h1, h2⟩ := hd
  have hy2 : y / 64 < d.bits.length := by
    rw [h2]; unfold oneColRows at hy; omega
  have hlt : (y : Int) < (d.size : Int) := by rw [h1]; exact_mod_cast hy
  have hnn : (0 : Int) ≤ (y : Int) := Int.ofNat_nonneg y
  constructor
  · unfold StaticBitSet.Set
    rw [if_neg (by simp [hnn, hlt]), addr_natCast]
    have n1 : ¬ (((y / 64 : Nat) : Int) < 0) := by omega
    have n2 : ¬ (((y % 64 : Nat) : Int) < 0) := by omega
    simp only [StaticBitSet.word, StaticBitSet.oneShl, StaticBitSet.setWord, n1, n2, if_false,
      Int.toNat_ofNat, hy2, if_true, markRow, List.getD_eq_getElem?_getD,
      List.getElem?_eq_getElem hy2, Option.some_bind, Option.bind_eq_bind, Option.getD_some]
  · exact ⟨h1, by simp [markRow, h2]⟩

/-- Sequencing after a normal return. -/
theorem ok_bind {α β : Type} (a : α) (f : α → Run β) : (Except.ok a >>= f) = f a := rfl

/-- Sequencing after a fault. -/
theorem error_bind {α β : Type} (e : Fault) (f : α → Run β) :
    ((Except.error e : Run α) >>= f) = Except.error e := rfl

/-- A normal return. -/
theorem pure_ok {α : Type} (a : α) : (pure a : Run α) = Except.ok a := rfl

/-- An assertion that holds. -/
theorem Assert_true : Assert true = Except.ok () := rfl

/-- A non-nil pointer. -/
theorem orPanic_some {α : Type} (a : α) : orPanic (some a) = Except.ok a := rfl

/-- Unsigned subtraction without wrap. -/
theorem usub_ok (a b : Nat) (h : b ≤ a) : usub a b = Except.ok (a - b) := by
  unfold usub
  rw [if_pos h]
  rfl

/-- `MarkDirty` of a row of the one-column page. -/
theorem markDirty_oneCol (s : List Nat) (wrapN contN size x y : Nat) (d : StaticBitSet)
    (hd : dirtyOK d) (hy : y < oneColRows) :
    pagelist.Pin.MarkDirty { Node := some 0, X := x, Y := y } (oneColHeap s wrapN contN size d)
      = Except.ok (oneColHeap s wrapN contN size (markRow d y)) := by
  unfold pagelist.Pin.MarkDirty
  simp only [Heap.node, oneColHeap, Function.update_same, oneColPage, (dirty_Set d y hd hy).1,
    ok_bind, pure_ok, orPanic_some, Heap.setPage, Heap.setNode, Function.update_idem]

/-- The row and cell of a pin on the one-column page. -/
theorem rowAndCell_oneCol (s : List Nat) (wrapN contN size y : Nat) (d : StaticBitSet)
    (hy : y < size) (hs : size ≤ oneColRows) :
    pagelist.Pin.RowAndCell { Node := some 0, X := 0, Y := y } (oneColHeap s wrapN contN size d)
      = Except.ok (y, some y) := by
  have hy2 : y < oneColRows := by omega
  unfold pagelist.Pin.RowAndCell page.Page.GetRowAndCell
  simp only [Heap.node, oneColHeap, Function.update_same, oneColPage, ok_bind, pure_ok,
    page.Page.rowAt, Heap.index, hy, hy2, decide_True, Assert_true, if_true, Nat.lt_one_iff,
    Nat.add_zero, show (0 : Nat) < 1 from Nat.zero_lt_one]

/-- `CursorMarkDirty` on the one-column screen. -/
theorem cursorMarkDirty_oneCol (r : Nat) (s : List Nat) (wrapN contN size y sy : Nat) (p : Bool)
    (d : StaticBitSet) (hd : dirtyOK d) (hy : y < oneColRows) :
    (oneColScreen r (oneColHeap s wrapN contN size d) (oneColCursor y sy p)).CursorMarkDirty
      = Except.ok (oneColScreen r (oneColHeap s wrapN contN size (markRow d y))
          (oneColCursor y sy p)) := by
  unfold screen.Screen.CursorMarkDirty
  simp only [oneColScreen, oneColCursor, screen.Screen.mem, oneColPages,
    markDirty_oneCol s wrapN contN size 0 y d hd hy, ok_bind, pure_ok, screen.Screen.setMem]

/-- `SetCursorHorizontalAbs(0)` on the one-column screen. -/
theorem setCursorHorizontalAbs_oneCol (r : Nat) (s : List Nat) (wrapN contN size y sy : Nat)
    (p : Bool) (d : StaticBitSet) (hy : y < size) (hs : size ≤ oneColRows) (hsy : sy < r) :
    (oneColScreen r (oneColHeap s wrapN contN size d) (oneColCursor y sy p)).SetCursorHorizontalAbs 0
      = Except.ok (oneColScreen r (oneColHeap s wrapN contN size d) (oneColCursor y sy p)) := by
  unfold screen.Screen.SetCursorHorizontalAbs screen.Screen.AssertIntegrity
  simp only [oneColScreen, oneColCursor, screen.Screen.mem, oneColPages,
    rowAndCell_oneCol s wrapN contN size y d hy hs, ok_bind, pure_ok, screen.Screen.setCursor,
    decide_True, Assert_true, hsy, Bool.and_self, show (0 : Nat) < 1 from Nat.zero_lt_one]

/-- `Down(1)` inside the one-column page. -/
theorem down_oneCol (s : List Nat) (wrapN contN size y : Nat) (d : StaticBitSet)
    (hy : y + 1 < size) :
    pagelist.Pin.Down { Node := some 0, X := 0, Y := y } (oneColHeap s wrapN contN size d) 1
      = Except.ok (some { Node := some 0, X := 0, Y := y + 1 }) := by
  have h1 : y + 1 ≤ size := by omega
  have h2 : 1 ≤ size - (y + 1) := by omega
  unfold pagelist.Pin.Down
  simp only [Heap.node, oneColHeap, Function.update_same, oneColPage, ok_bind, pure_ok,
    usub_ok _ _ h1, h2, if_true]

/-- `CursorChangePin` to the next row of the one-column page. -/
theorem changePin_oneCol (styleHash : style.Style → Nat) (r : Nat) (s : List Nat)
    (wrapN contN size y sy : Nat) (p : Bool) (d : StaticBitSet) (hd : dirtyOK d)
    (hy : y + 1 < oneColRows) :
    screen.Screen.CursorChangePin styleHash
        (oneColScreen r (oneColHeap s wrapN contN size d) (oneColCursor y sy p))
        (some { Node := some 0, X := 0, Y := y + 1 })
      = Except.ok (oneColScreen r (oneColHeap s wrapN contN size (markRow (markRow d y) (y + 1)))
          { oneColCursor y sy p with PagePin := { Node := some 0, X := 0, Y := y + 1 } }) := by
  have hy1 : y < oneColRows := by omega
  have hd1 := (dirty_Set d y hd hy1).2
  unfold screen.Screen.CursorChangePin
  have hne : (pagelist.Pin.Equal { Node := some 0, X := 0, Y := y }
      { Node := some 0, X := 0, Y := y + 1 }) = false := by
    simp [pagelist.Pin.Equal]
  simp only [oneColScreen, oneColCursor, screen.Screen.mem, oneColPages, orPanic_some, ok_bind,
    pure_ok, hne, Bool.not_false, if_true, markDirty_oneCol s wrapN contN size 0 y d hd hy1,
    markDirty_oneCol s wrapN contN size 0 (y + 1) (markRow d y) hd1 hy, screen.Screen.setMem,
    screen.Screen.setCursor]

/-- The refresh of the cached row and cell on the one-column screen. -/
theorem cache_oneCol (r : Nat) (s : List Nat) (wrapN contN size y : Nat) (d : StaticBitSet)
    (cur : screen.Cursor) (hy : y < size) (hs : size ≤ oneColRows) :
    (oneColScreen r (oneColHeap s wrapN contN size d) cur).cacheRowAndCell
        { Node := some 0, X := 0, Y := y }
      = Except.ok (oneColScreen r (oneColHeap s wrapN contN size d)
          { cur with PageRow := y, PageCell := some y }) := by
  unfold screen.Screen.cacheRowAndCell
  simp only [oneColScreen, screen.Screen.mem, oneColPages,
    rowAndCell_oneCol s wrapN contN size y d hy hs, ok_bind, pure_ok, screen.Screen.setCursor]

/-- `Screen.SetCursorDown(1)` inside the one-column page. -/
theorem screenSetCursorDown_oneCol (styleHash : style.Style → Nat) (r : Nat) (s : List Nat)
    (wrapN contN size y sy : Nat) (p : Bool) (d : StaticBitSet) (hd : dirtyOK d)
    (hy : y + 1 < size) (hs : size ≤ oneColRows) (hsy : sy + 1 < r) :
    screen.Screen.SetCursorDown styleHash
        (oneColScreen r (oneColHeap s wrapN contN size d) (oneColCursor y sy p)) 1
      = Except.ok (oneColScreen r (oneColHeap s wrapN contN size (markRow (markRow d y) (y + 1)))
          (oneColCursor (y + 1) (sy + 1) p)) := by
  have hy2 : y + 1 < oneColRows := by omega
  have hc := changePin_oneCol styleHash r s wrapN contN size y (sy + 1) p d hd hy2
  have hk := cache_oneCol r s wrapN contN size (y + 1) (markRow (markRow d y) (y + 1))
    { oneColCursor y (sy + 1) p with PagePin := { Node := some 0, X := 0, Y := y + 1 } } hy hs
  unfold screen.Screen.SetCursorDown screen.Screen.AssertIntegrity
  simp only [oneColScreen, oneColCursor, screen.Screen.mem, oneColPages, ok_bind, pure_ok,
    screen.Screen.setCursor, decide_True, Assert_true, hsy, Bool.and_self,
    show (0 : Nat) < 1 from Nat.zero_lt_one, down_oneCol s wrapN contN size y d hy] at hc hk ⊢
  simp only [hc, ok_bind, hk, decide_True, hsy, Assert_true, Bool.and_self,
    show (0 : Nat) < 1 from Nat.zero_lt_one]

/-- The fast path of `Grow` on the one-column page list. -/
theorem grow_oneCol (r : Nat) (s : List Nat) (wrapN contN size : Nat) (d : StaticBitSet)
    (hs : size < oneColRows) :
    (oneColPages r (oneColHeap s wrapN contN size d)).Grow
      = Except.ok (oneColPages r (oneColHeap s wrapN contN (size + 1) d), none) := by
  unfold pagelist.PageList.Grow page.Page.AssertIntegrity
  simp only [oneColPages, pagelist.PageList.pages, orPanic_some, ok_bind, pure_ok, oneColHeap,
    Function.update_same, oneColPage, hs, decide_True, Heap.setPage, Heap.setNode,
    Function.update_idem, Assert_true]
  rfl

/-- `SetCursorDownScroll` on the one-column screen with the cursor on the last
screen row and room in the page: the page grows by one row and the cursor
moves onto it. -/
theorem downScroll_oneCol (styleHash : style.Style → Nat) (r : Nat) (s : List Nat)
    (wrapN contN size y : Nat) (p : Bool) (d : StaticBitSet) (hd : dirtyOK d)
    (hr : 1 ≤ r) (hy : y < size) (hs : size < oneColRows) :
    screen.Screen.SetCursorDownScroll styleHash
        (oneColScreen r (oneColHeap s wrapN contN size d) (oneColCursor y (r - 1) p))
      = Except.ok (oneColScreen r
          (oneColHeap s wrapN contN (size + 1)
            (markRow (markRow (markRow d y) (y + 1)) (y + 1)))
          (oneColCursor (y + 1) (r - 1) p)) := by
  have hy2 : y + 1 < oneColRows := by omega
  have hy3 : y + 1 < size + 1 := by omega
  have hs1 : size + 1 ≤ oneColRows := by omega
  have hd1 := (dirty_Set d y hd (by omega)).2
  have hd2 := (dirty_Set (markRow d y) (y + 1) hd1 hy2).2
  have hg := grow_oneCol r s wrapN contN size d hs
  have hc := changePin_oneCol styleHash r s wrapN contN (size + 1) y (r - 1) p d hd hy2
  have hk := cache_oneCol r s wrapN contN (size + 1) (y + 1) (markRow (markRow d y) (y + 1))
    { oneColCursor y (r - 1) p with PagePin := { Node := some 0, X := 0, Y := y + 1 } } hy3 hs1
  have hm := cursorMarkDirty_oneCol r s wrapN contN (size + 1) (y + 1) (r - 1) p
    (markRow (markRow d y) (y + 1)) hd2 hy2
  have hr1 : r - 1 < r := by omega
  unfold screen.Screen.SetCursorDownScroll screen.Screen.AssertIntegrity screen.Screen.styleNewRow
  simp only [oneColScreen, oneColCursor, screen.Screen.mem, oneColPages, ok_bind, pure_ok,
    screen.Screen.setCursor, decide_True, Assert_true, Bool.and_self, usub_ok _ _ hr,
    show (0 : Nat) < 1 from Nat.zero_lt_one, orPanic_some] at hg hc hk hm ⊢
  simp only [hg, ok_bind, if_true, Bool.false_eq_true, if_false,
    down_oneCol s wrapN contN (size + 1) y d hy3, hc, orPanic_some, hk, hm, ne_eq,
    not_true_eq_false, decide_True, hr1, Assert_true, Bool.and_self,
    show (0 : Nat) < 1 from Nat.zero_lt_one]

/-- `SetCursorScrollUp` on the one-column screen with the cursor on the last
screen row. -/
theorem scrollUp_oneCol (styleHash : style.Style → Nat) (r : Nat) (s : List Nat)
    (wrapN contN size y : Nat) (p : Bool) (d : StaticBitSet) (hd : dirtyOK d)
    (hr : 1 ≤ r) (hy : y < size) (hs : size < oneColRows) :
    screen.Screen.SetCursorScrollUp styleHash
        (oneColScreen r (oneColHeap s wrapN contN size d) (oneColCursor y (r - 1) p))
      = Except.ok (oneColScreen r
          (oneColHeap s wrapN contN (size + 1)
            (markRow (markRow (markRow (markRow d y) y) (y + 1)) (y + 1)))
          (oneColCursor (y + 1) (r - 1) p)) := by
  have hy1 : y < oneColRows := by omega
  have hd1 := (dirty_Set d y hd hy1).2
  have hm := markDirty_oneCol s wrapN contN size 0 y d hd hy1
  have hds := downScroll_oneCol styleHash r s wrapN contN size y p (markRow d y) hd1 hr hy hs
  unfold screen.Screen.SetCursorScrollUp
  simp only [oneColScreen, oneColCursor, screen.Screen.mem, oneColPages, ok_bind, pure_ok,
    screen.Screen.setMem, usub_ok _ _ hr] at hm hds ⊢
  simp only [hm, ok_bind, if_true, hds]

/-- The dirty sets reached from a well-formed one by marking rows. -/
theorem dirtyOK_mark (d : StaticBitSet) (y : Nat) (hd : dirtyOK d) (hy : y < oneColRows) :
    dirtyOK (markRow d y) := (dirty_Set d y hd hy).2

/-- `Index` on the one-column terminal: the cursor goes to the next page row;
the screen row grows up to the last row, after which the page grows. -/
theorem index_oneCol (styleHash : style.Style → Nat) (r : Nat) (s : List Nat)
    (wrapN contN j : Nat) (p : Bool) (d : StaticBitSet) (prev : Option Nat) (hd : dirtyOK d)
    (hr : 1 ≤ r) (hj1 : 1 ≤ j) (hj : j < oneColRows) (hr2 : r ≤ oneColRows) :
    ∃ d', dirtyOK d' ∧
      Terminal.Index styleHash
          (oneColState r (oneColScreen r (oneColHeap s wrapN contN (max r j) d)
            (oneColCursor (j - 1) (min (j - 1) (r - 1)) p)) prev)
        = Except.ok (oneColState r (oneColScreen r (oneColHeap s wrapN contN (max r (j + 1)) d')
            (oneColCursor j (min j (r - 1)) false)) prev) := by
  have hjj : j - 1 + 1 = j := by omega
  by_cases hlt : j < r
  · -- the cursor is above the last screen row
    have hmin : min (j - 1) (r - 1) = j - 1 := by omega
    have hmin2 : min j (r - 1) = j := by omega
    have hmax : max r j = r := by omega
    have hmax2 : max r (j + 1) = r := by omega
    have hsd := screenSetCursorDown_oneCol styleHash r s wrapN contN r (j - 1) (j - 1) false d hd
      (by omega) hr2 (by omega)
    refine ⟨markRow (markRow d (j - 1)) (j - 1 + 1),
      dirtyOK_mark _ _ (dirtyOK_mark _ _ hd (by omega)) (by omega), ?_⟩
    rw [hmin, hmin2, hmax, hmax2]
    rw [hjj] at hsd ⊢
    unfold Terminal.Index Terminal.SetCursorDown
    have c1 : ¬ (j - 1 > r - 1) := by omega
    have c2 : ¬ (j - 1 = r - 1) := by omega
    have c3 : j - 1 < r - 1 := by omega
    have c4 : j - 1 ≤ r - 1 := by omega
    have c5 : min (r - 1 - (j - 1)) (max 1 1) = 1 := by
      have : max 1 1 = 1 := rfl
      omega
    simp only [oneColState, Terminal.setCursor, oneColScreen, oneColCursor,
      screen.Screen.setCursor, Nat.not_lt_zero, c1, false_or, if_false, c2, false_and, c3,
      if_true, c4, usub_ok _ _ c4, ok_bind, pure_ok, c5] at hsd ⊢
    simp only [hsd, ok_bind]
  · -- the cursor is on the last screen row: the page grows
    have hmin : min (j - 1) (r - 1) = r - 1 := by omega
    have hmin2 : min j (r - 1) = r - 1 := by omega
    have hmax : max r j = j := by omega
    have hmax2 : max r (j + 1) = j + 1 := by omega
    have hsu := scrollUp_oneCol styleHash r s wrapN contN j (j - 1) false d hd hr (by omega) hj
    rw [hjj] at hsu
    refine ⟨markRow (markRow (markRow (markRow d (j - 1)) (j - 1)) j) j,
      dirtyOK_mark _ _ (dirtyOK_mark _ _ (dirtyOK_mark _ _ (dirtyOK_mark _ _ hd
        (by omega)) (by omega)) (by omega)) (by omega), ?_⟩
    rw [hmin, hmin2, hmax, hmax2]
    unfold Terminal.Index
    have c1 : ¬ (r - 1 > r - 1) := by omega
    simp only [oneColState, Terminal.setCursor, oneColScreen, oneColCursor,
      screen.Screen.setCursor, Nat.not_lt_zero, c1, false_or, if_false, true_and, ge_iff_le,
      le_refl, and_self, if_true, usub_ok 1 1 (le_refl 1), ok_bind, pure_ok, Nat.sub_self]
      at hsu ⊢
    simp only [hsu, ok_bind]

/-- The semantic prompt of every row of the one-column memory is the zero
value. -/
theorem rows_prompt (s : List Nat) (wrapN contN size y : Nat) (d : StaticBitSet) :
    ((oneColHeap s wrapN contN size d).rows y).SemanticPrompt
      = page.SemanticPromptType.SemanticPromptTypePrompt := by
  unfold oneColHeap
  by_cases h : y < oneColRows
  · simp only [h, if_true]
  · simp only [h, if_false]

/-- Marking the wrap of the row `y` in the one-column memory. -/
theorem setRow_wrap (s : List Nat) (contN size y : Nat) (d : StaticBitSet)
    (hy : y < oneColRows) :
    (oneColHeap s y contN size d).setRow y
        { (oneColHeap s y contN size d).rows y with Wrap := true }
      = oneColHeap s (y + 1) contN size d := by
  unfold oneColHeap Heap.setRow
  simp only [Heap.mk.injEq, true_and, and_true]
  funext i
  by_cases hi : i = y
  · subst hi
    simp [hy]
  · rw [Function.update_noteq hi]
    by_cases h2 : i < oneColRows
    · have e : decide (i < y) = decide (i < y + 1) := by
        apply decide_eq_decide.mpr
        omega
      simp only [h2, if_true, e]
    · simp only [h2, if_false]

/-- Marking the wrap continuation of the row `y` in the one-column memory. -/
theorem setRow_cont (s : List Nat) (wrapN size y : Nat) (d : StaticBitSet)
    (hy : y < oneColRows) (hy1 : 1 ≤ y) :
    (oneColHeap s wrapN y size d).setRow y
        { (oneColHeap s wrapN y size d).rows y with
          SemanticPrompt := page.SemanticPromptType.SemanticPromptTypePrompt,
          WrapContinuation := true }
      = oneColHeap s wrapN (y + 1) size d := by
  unfold oneColHeap Heap.setRow
  simp only [Heap.mk.injEq, true_and, and_true]
  funext i
  by_cases hi : i = y
  · subst hi
    simp [hy, hy1]
  · rw [Function.update_noteq hi]
    by_cases h2 : i < oneColRows
    · have e : decide (1 ≤ i ∧ i < y) = decide (1 ≤ i ∧ i < y + 1) := by
        apply decide_eq_decide.mpr
        omega
      simp only [h2, if_true, e]
    · simp only [h2, if_false]

/-- `PrintWrap` on the one-column terminal with `j` rows written. -/
theorem printWrap_oneCol (styleHash : style.Style → Nat) (r : Nat) (s : List Nat)
    (j : Nat) (p : Bool) (d : StaticBitSet) (prev : Option Nat) (hd : dirtyOK d)
    (hr : 1 ≤ r) (hj1 : 1 ≤ j) (hj : j < oneColRows) (hr2 : r ≤ oneColRows) :
    ∃ d', dirtyOK d' ∧
      Terminal.PrintWrap styleHash
          (oneColState r (oneColScreen r (oneColHeap s (j - 1) j (max r j) d)
            (oneColCursor (j - 1) (min (j - 1) (r - 1)) p)) prev)
        = Except.ok (oneColState r (oneColScreen r (oneColHeap s j (j + 1) (max r (j + 1)) d')
            (oneColCursor j (min j (r - 1)) false)) prev) := by
  obtain ⟨d', hd', hi⟩ := index_oneCol styleHash r s j j j p d prev hd hr hj1 hj hr2
  refine ⟨d', hd', ?_⟩
  have hw := setRow_wrap s j (max r j) (j - 1) d (by omega)
  have hc := setRow_cont s j (max r (j + 1)) j d' hj hj1
  have hjj : j - 1 + 1 = j := by omega
  rw [hjj] at hw
  have hh := setCursorHorizontalAbs_oneCol r s j j (max r (j + 1)) j (min j (r - 1)) false d'
    (by omega) (by omega) (by omega)
  unfold Terminal.PrintWrap
  have hjlt : j - 1 < oneColRows := by omega
  have hr1 : min j (r - 1) < r := by omega
  dsimp only at hw hc
  simp only [oneColState, oneColScreen, oneColCursor, screen.Screen.mem, oneColPages,
    usub_ok 1 1 (le_refl 1), Nat.sub_self, ok_bind, pure_ok, decide_True, if_true,
    screen.Screen.setMem] at hi hh ⊢
  simp only [hw]
  simp only [rows_prompt, hi, ok_bind, hh, hc, screen.Screen.AssertIntegrity, decide_True,
    hr1, Assert_true, Bool.and_self, show (0 : Nat) < 1 from Nat.zero_lt_one]

/-- The modes of the one-column terminal: Wraparound is on. -/
theorem mode_wraparound :
    core.ModeState.Get { values := core.ModePacked, defaults := core.ModePacked } core.initStore
      core.ModeWraparound = some true := by
  decide!

/-- The modes of the one-column terminal: Insert is off. -/
theorem mode_insert :
    core.ModeState.Get { values := core.ModePacked, defaults := core.ModePacked } core.initStore
      core.ModeInsert = some false := by
  decide!

/-- The cell after the written ones is blank. -/
theorem cells_blank (s : List Nat) (wrapN contN size : Nat) (d : StaticBitSet) :
    (oneColHeap s wrapN contN size d).cells s.length = {} := by
  unfold oneColHeap
  have h : s.get? s.length = none := List.get?_eq_none.mpr (le_refl _)
  simp only [h]

/-- Writing the next cell of the one-column memory. -/
theorem setCell_written (s : List Nat) (wrapN contN size c : Nat) (d : StaticBitSet) :
    ({ oneColHeap s wrapN contN size d with
        cells := Function.update (oneColHeap s wrapN contN size d).cells s.length (written c) }
      : Heap) = oneColHeap (s ++ [c]) wrapN contN size d := by
  unfold oneColHeap
  simp only [Heap.mk.injEq, true_and, and_true]
  funext a
  by_cases ha : a = s.length
  · subst ha
    have h : (s ++ [c]).get? s.length = some c := by
      rw [List.get?_eq_getElem?, List.getElem?_append_right (le_refl _)]
      simp
    simp only [Function.update_same, h]
  · rw [Function.update_noteq ha]
    have h : (s ++ [c]).get? a = s.get? a := by
      rw [List.get?_eq_getElem?, List.get?_eq_getElem?]
      by_cases hlt : a < s.length
      · rw [List.getElem?_append_left hlt]
      · have h1 : s.length < a := by omega
        have h2 : (s ++ [c]).length ≤ a := by
          rw [List.length_append, List.length_singleton]
          omega
        rw [List.getElem?_eq_none h2, List.getElem?_eq_none (show s.length ≤ a by omega)]
    rw [h]

/-- `printCell` of a narrow character on the blank cell after the written ones. -/
theorem printCell_oneCol (r : Nat) (s : List Nat) (wrapN contN size sy c : Nat) (p : Bool)
    (d : StaticBitSet) (prev : Option Nat) (hsy : sy < r) :
    Terminal.printCell
        (oneColState r (oneColScreen r (oneColHeap s wrapN contN size d)
          (oneColCursor s.length sy p)) prev) c page.Wide.WideNarrow
      = Except.ok (oneColState r (oneColScreen r (oneColHeap (s ++ [c]) wrapN contN size d)
          (oneColCursor s.length sy p)) prev) := by
  have hw := setCell_written s wrapN contN size c d
  have hb := cells_blank s wrapN contN size d
  unfold Terminal.printCell
  simp only [oneColState, oneColScreen, oneColCursor, screen.Screen.mem, oneColPages, Heap.cell,
    pure_ok, ok_bind, hb, ne_eq, not_true_eq_false, if_false, decide_False, orPanic_some,
    Bool.false_eq_true, false_and, Heap.setCell, screen.Screen.setMem,
    screen.Screen.AssertIntegrity, decide_True, hsy, Assert_true, Bool.and_self,
    show (0 : Nat) < 1 from Nat.zero_lt_one]
  unfold written at hw
  dsimp only at hw
  simp only [hw]

/-- No row is a wrap continuation below the thresholds 0 and 1 alike. -/
theorem heap_cont_zero (s : List Nat) (wrapN size : Nat) (d : StaticBitSet) :
    oneColHeap s wrapN 0 size d = oneColHeap s wrapN 1 size d := by
  unfold oneColHeap
  simp only [Heap.mk.injEq, true_and, and_true]
  funext i
  have e : decide (1 ≤ i ∧ i < 0) = decide (1 ≤ i ∧ i < 1) := by
    apply decide_eq_decide.mpr
    omega
  rw [e]

/-- `Print` of the first character on the fresh one-column terminal. -/
theorem print_first (RuneWidth : Nat → Nat) (styleHash : style.Style → Nat) (r c : Nat)
    (d : StaticBitSet) (hd : dirtyOK d) (hr : 1 ≤ r) (hc : c ≤ 0xFF) :
    Terminal.Print RuneWidth styleHash (oneColTerminal r [] d) c
      = Except.ok (oneColTerminal r [c] (markRow d 0)) := by
  have hm := cursorMarkDirty_oneCol r [] 0 0 (max r 0) 0 0 false d hd (by decide)
  have hp := printCell_oneCol r [] 0 0 (max r 0) 0 c false (markRow d 0) (some c) (by omega)
  have hmax : max r 1 = max r 0 := by omega
  unfold Terminal.Print Terminal.printBody oneColTerminal
  simp only [List.length_nil, Nat.zero_sub, Nat.zero_min, List.length_singleton, Nat.sub_self,
    ne_eq, not_true_eq_false, decide_False, List.append_nil, List.nil_append, hmax,
    ← heap_cont_zero] at hp ⊢
  simp only [oneColState, oneColScreen, oneColCursor, Terminal.mode, mode_insert, mode_wraparound,
    orPanic_some, ok_bind, pure_ok, gt_iff_lt, lt_self_iff_false, if_false, hc, if_true,
    Nat.one_le_ofNat, decide_True, Assert_true, one_ne_zero, Bool.false_eq_true, Bool.false_and,
    Terminal.setCursor, screen.Screen.setCursor, zero_add, reduceCtorEq] at hm hp ⊢
  have hr0 : 0 < r := by omega
  simp only [hm, ok_bind, hp, screen.Screen.AssertIntegrity, decide_True, hr0, Assert_true,
    Bool.and_self, show (0 : Nat) < 1 from Nat.zero_lt_one, List.getLast?_singleton,
    not_false_eq_true, List.cons_ne_self, ↓reduceIte]

/-- `Print` of a further character on the one-column terminal: the pending wrap
moves the cursor to the next page row (growing the page once the screen is
full) and the character is written there. -/
theorem print_next (RuneWidth : Nat → Nat) (styleHash : style.Style → Nat) (r c : Nat)
    (s : List Nat) (d : StaticBitSet) (hd : dirtyOK d) (hr : 1 ≤ r) (hr2 : r ≤ oneColRows)
    (hc : c ≤ 0xFF) (hs : s ≠ []) (hl : s.length < oneColRows) :
    ∃ d', dirtyOK d' ∧
      Terminal.Print RuneWidth styleHash (oneColTerminal r s d) c
        = Except.ok (oneColTerminal r (s ++ [c]) d') := by
  have hj1 : 1 ≤ s.length := by
    cases s with
    | nil => exact absurd rfl hs
    | cons a t => simp
  obtain ⟨d1, hd1, hw⟩ := printWrap_oneCol styleHash r s s.length true d (some c) hd hr hj1 hl hr2
  have hd2 := dirtyOK_mark d1 s.length hd1 hl
  refine ⟨markRow d1 s.length, hd2, ?_⟩
  have hm := cursorMarkDirty_oneCol r s s.length (s.length + 1) (max r (s.length + 1)) s.length
    (min s.length (r - 1)) false d1 hd1 hl
  have hp := printCell_oneCol r s s.length (s.length + 1) (max r (s.length + 1))
    (min s.length (r - 1)) c false (markRow d1 s.length) (some c) (by omega)
  have hne : (s ++ [c]) ≠ [] := by simp
  have hlen : (s ++ [c]).length - 1 = s.length := by
    rw [List.length_append, List.length_singleton]; omega
  have hlen2 : (s ++ [c]).length = s.length + 1 := by
    rw [List.length_append, List.length_singleton]
  have hr0 : min s.length (r - 1) < r := by omega
  unfold Terminal.Print Terminal.printBody oneColTerminal
  have hlast : (s ++ [c]).getLast? = some c := by simp
  simp only [hlen, hlen2, hs, hne, ne_eq, not_false_eq_true, decide_True, hlast]
  simp only [oneColState, oneColScreen, oneColCursor, Terminal.mode, mode_insert, mode_wraparound,
    orPanic_some, ok_bind, pure_ok, gt_iff_lt, lt_self_iff_false, if_false, hc, if_true,
    Nat.one_le_ofNat, decide_True, Assert_true, one_ne_zero, Bool.false_eq_true, Bool.false_and,
    Terminal.setCursor, screen.Screen.setCursor, zero_add, reduceCtorEq, ↓reduceIte]
    at hw hm hp ⊢
  simp only [hw, ok_bind, hm, hp, screen.Screen.AssertIntegrity, decide_True, hr0, Assert_true,
    Bool.and_self, show (0 : Nat) < 1 from Nat.zero_lt_one, ↓reduceIte, mode_insert,
    orPanic_some, pure_ok, lt_self_iff_false, decide_False, Bool.false_and, Bool.and_false,
    Bool.false_eq_true, zero_add, if_false, Nat.add_sub_cancel]

/-- The tab stops of a fresh one-column terminal. -/
theorem tabs_oneCol :
    tabstops.NewTabstops 1 tabstops.TABSTOP_INTERVAL
      = Except.ok { cols := 1, prealloc := List.replicate 64 0, dynamic := [] } := by
  decide!

/-- The loop of `InitPages` stops when no row remains. -/
theorem initPagesLoop_zero (cap : page.Capacity) (fuel : Nat)
    (hl : Heap × datastruct.IntrusiveLinkedList) :
    pagelist.PageList.initPagesLoop cap fuel 0 hl = Except.ok hl := by
  unfold pagelist.PageList.initPagesLoop
  simp only [gt_iff_lt, lt_self_iff_false, if_false]
  rfl

/-- The capacity of a one-column page. -/
theorem adjust_oneCol :
    page.StandardCapacity.Adjust { Cols := 1 }
      = some { Cols := 1, Rows := oneColRows, Styles := 128 } := by
  decide!

/-- The method `InitPages` for one column: one page holds all the rows. -/
theorem initPages_oneCol (r : Nat) (hr : 1 ≤ r) (hr2 : r ≤ oneColRows) :
    pagelist.PageList.InitPages {} 1 r
      = Except.ok (oneColHeap [] 0 0 r (NewStaticBitSet oneColRows),
          some { First := some 0, Last := some 0 }) := by
  obtain ⟨r', rfl⟩ : ∃ r', r = r' + 1 := ⟨r - 1, by omega⟩
  unfold pagelist.PageList.InitPages
  rw [adjust_oneCol]
  unfold pagelist.PageList.initPagesLoop
  simp only [gt_iff_lt, Nat.zero_lt_succ, if_true, page.InitPage, Heap.newNode, Heap.setPage,
    Heap.setNode, datastruct.IntrusiveLinkedList.Append, datastruct.IntrusiveLinkedList.Prepend,
    min_eq_left hr2, Nat.sub_self, initPagesLoop_zero, ok_bind, pure_ok, Assert_true]
  simp only [Function.update_same, Function.update_idem, zero_add, one_mul, mul_one,
    Nat.sub_zero, zero_le, true_and, ite_self,
    show ((some 0 : Option Nat) != none) = true from rfl, Assert_true, ok_bind]
  unfold oneColHeap oneColPage
  simp only [Except.ok.injEq, Prod.mk.injEq, Heap.mk.injEq, and_true, true_and,
    List.get?_nil, decide_False, and_false, Nat.not_lt_zero]

/-- The fresh one-column terminal is the one-column state with nothing written. -/
theorem fresh_oneCol (r : Nat) (hr : 1 ≤ r) (hr2 : r ≤ oneColRows) :
    freshTerminal 1 r = Except.ok (oneColTerminal r [] (NewStaticBitSet oneColRows)) := by
  have hrc := rowAndCell_oneCol [] 0 0 r 0 (NewStaticBitSet oneColRows) (by omega) hr2
  unfold freshTerminal NewTerminal screen.Screen.NewScreen pagelist.PageList.NewPageList
  simp only [initPages_oneCol r hr hr2, ok_bind, pure_ok, pagelist.PageList.pages, orPanic_some,
    pagelist.PageList.TrackPin, List.nil_append, hrc, tabs_oneCol, usub_ok r 1 hr,
    usub_ok 1 1 (le_refl 1), core.newTerminalModes, core.NewModeState]
  unfold oneColTerminal oneColState oneColScreen oneColPages oneColCursor
  simp only [List.length_nil, Nat.zero_sub, Nat.zero_min, Nat.max_zero, ne_eq, not_true_eq_false,
    decide_False, List.getLast?_nil, Nat.sub_self]

/-- Printing a list of characters on the one-column terminal appends them to
the written cells. -/
theorem printAll_oneCol (RuneWidth : Nat → Nat) (styleHash : style.Style → Nat) (r : Nat)
    (hr : 1 ≤ r) (hr2 : r ≤ oneColRows) (t : List Nat) :
    ∀ (s : List Nat) (d : StaticBitSet), dirtyOK d → s.length + t.length ≤ oneColRows →
      (∀ c ∈ t, c ≤ 0xFF) →
      ∃ d', dirtyOK d' ∧
        Terminal.printAll RuneWidth styleHash (oneColTerminal r s d) t
          = Except.ok (oneColTerminal r (s ++ t) d') := by
  induction t with
  | nil =>
    intro s d hd _ _
    exact ⟨d, hd, by rw [List.append_nil]; rfl⟩
  | cons c cs ih =>
    intro s d hd hl hc
    have hc0 : c ≤ 0xFF := hc c (List.mem_cons_self c cs)
    have hcs : ∀ x ∈ cs, x ≤ 0xFF := fun x hx => hc x (List.mem_cons_of_mem c hx)
    rw [List.length_cons] at hl
    have hstep : ∃ d1, dirtyOK d1 ∧
        Terminal.Print RuneWidth styleHash (oneColTerminal r s d) c
          = Except.ok (oneColTerminal r (s ++ [c]) d1) := by
      by_cases hs : s = []
      · subst hs
        exact ⟨markRow d 0, dirtyOK_mark d 0 hd (by decide),
          print_first RuneWidth styleHash r c d hd hr hc0⟩
      · exact print_next RuneWidth styleHash r c s d hd hr hr2 hc0 hs (by omega)
    obtain ⟨d1, hd1, hp⟩ := hstep
    have hl2 : (s ++ [c]).length + cs.length ≤ oneColRows := by
      rw [List.length_append, List.length_singleton]; omega
    obtain ⟨d2, hd2, hq⟩ := ih (s ++ [c]) d1 hd1 hl2 hcs
    refine ⟨d2, hd2, ?_⟩
    unfold Terminal.printAll
    rw [hp, ok_bind, hq, List.append_assoc, List.singleton_append]

/-- The bytes written for an ASCII character. -/
theorem fmtChar_ascii (c : Nat) (hc : c < 0x80) : page.fmtChar c = [c] := by
  unfold page.fmtChar utf8Encode
  have h1 : c < 0xD800 ∨ (0xE000 ≤ c ∧ c ≤ 0x10FFFF) := Or.inl (by omega)
  rw [if_pos h1, if_pos hc]

/-- Joining a character with a non-empty rest. -/
theorem joinLines_cons (c : Nat) (t : List Nat) (ht : t ≠ []) :
    joinLines (c :: t) = c :: 0x0A :: joinLines t := by
  cases t with
  | nil => exact absurd rfl ht
  | cons a b => rfl

/-- One round of the row loop of `Page.EncodeUtf8` on a written row of the
one-column page. -/
theorem encodeRows_step (s : List Nat) (wrapN contN size y c br bc : Nat) (d : StaticBitSet)
    (w rest : List Nat) (hy : y < size) (hs : size ≤ oneColRows) (hg : s.get? y = some c)
    (hc0 : c ≠ 0) (hc : c < 0x80) :
    page.encodeRows (oneColHeap s wrapN contN size d) (oneColPage size d) false (y :: rest)
        (br, bc, w)
      = page.encodeRows (oneColHeap s wrapN contN size d) (oneColPage size d) false rest
          (1, 0, w ++ List.replicate br 0x0A ++ [c]) := by
  have hy2 : y < oneColRows := by omega
  have hcap : 1 ≤ oneColRows - y := by omega
  have hb : (c != 0) = true := by simp [hc0]
  rw [page.encodeRows]
  simp only [page.Page.GetRow, page.Page.rowAt, page.Page.GetCells, oneColPage, oneColHeap, hy, hy2,
    decide_True, Assert_true, ok_bind, pure_ok, if_true, page.CellSlice.sub, zero_le, true_and,
    hcap, Nat.add_zero, Nat.sub_zero, page.hasTextAny, show List.range 1 = [0] from rfl, page.hasTextAnyFrom,
    Heap.index, Heap.cell, show (0 : Nat) < 1 from Nat.zero_lt_one, hg, written,
    page.Cell.HasText, hb, Bool.not_true,
    Bool.false_eq_true, if_false, Bool.not_false, Bool.or_true, page.encodeCells,
    fmtChar_ascii c hc, reduceCtorEq, false_or, or_self, lt_self_iff_false, gt_iff_lt, zero_add,
    ↓reduceIte]

/-- The row loop of `Page.EncodeUtf8` over written rows of the one-column page:
the characters of the rows, joined by newlines. -/
theorem encodeRows_oneCol (s : List Nat) (wrapN contN size : Nat) (d : StaticBitSet)
    (hs : size ≤ oneColRows) (t : List Nat) :
    ∀ (y br bc : Nat) (w rest : List Nat), s.drop y = t ++ rest → y + t.length ≤ size →
      (∀ c ∈ t, c ≠ 0 ∧ c < 0x80) → t ≠ [] →
      page.encodeRows (oneColHeap s wrapN contN size d) (oneColPage size d) false
          (List.range' y t.length) (br, bc, w)
        = Except.ok (1, 0, w ++ List.replicate br 0x0A ++ joinLines t) := by
  induction t with
  | nil => intro y br bc w rest _ _ _ h; exact absurd rfl h
  | cons c cs ih =>
    intro y br bc w rest hdrop hlen hc _
    have hg : s.get? y = some c := by
      have h1 : (s.drop y).head? = some c := by rw [hdrop]; rfl
      rw [List.head?_drop] at h1
      rw [List.get?_eq_getElem?]
      exact h1
    have hdrop2 : s.drop (y + 1) = cs ++ rest := by
      rw [← List.tail_drop, hdrop]
      rfl
    rw [List.length_cons] at hlen
    have hcc := hc c (List.mem_cons_self c cs)
    rw [List.length_cons, List.range'_succ,
      encodeRows_step s wrapN contN size y c br bc d w _ (by omega) hs hg hcc.1 hcc.2]
    cases cs with
    | nil =>
      rw [List.length_nil, List.range'_zero, page.encodeRows]
      rfl
    | cons a b =>
      rw [ih (y + 1) 1 0 _ rest hdrop2 (by omega)
        (fun x hx => hc x (List.mem_cons_of_mem c hx)) (List.cons_ne_nil a b),
        joinLines_cons c (a :: b) (List.cons_ne_nil a b)]
      simp only [List.replicate_one, List.append_assoc, List.singleton_append, List.cons_append,
        List.nil_append]

/-- `GetTopLeft` of the viewport on the one-column page list: `Rows` rows above
the end of the page. -/
theorem topLeft_oneCol (r : Nat) (s : List Nat) (wrapN contN size : Nat) (d : StaticBitSet)
    (hr : r ≤ size) :
    (oneColPages r (oneColHeap s wrapN contN size d)).GetTopLeft point.Tag.TagViewPort
      = Except.ok (some { Node := some 0, X := 0, Y := size - r }) := by
  unfold pagelist.PageList.GetTopLeft pagelist.PageList.getTopLeftPlain
  simp only [oneColPages, pagelist.PageList.pages, orPanic_some, ok_bind, pure_ok, oneColHeap,
    pagelist.PageList.topLeftLoop, Function.update_same, oneColPage, hr, if_true]

/-- `Down(n)` inside the one-column page. -/
theorem downN_oneCol (s : List Nat) (wrapN contN size y n : Nat) (d : StaticBitSet)
    (hy : y + n + 1 ≤ size) :
    pagelist.Pin.Down { Node := some 0, X := 0, Y := y } (oneColHeap s wrapN contN size d) n
      = Except.ok (some { Node := some 0, X := 0, Y := y + n }) := by
  have h1 : y + 1 ≤ size := by omega
  have h2 : n ≤ size - (y + 1) := by omega
  unfold pagelist.Pin.Down
  simp only [Heap.node, oneColHeap, Function.update_same, oneColPage, ok_bind, pure_ok,
    usub_ok _ _ h1, h2, if_true]

/-- `GetBottomRight` of the viewport on the one-column page list. -/
theorem bottomRight_oneCol (r : Nat) (s : List Nat) (wrapN contN size : Nat) (d : StaticBitSet)
    (hr1 : 1 ≤ r) (hr : r ≤ size) :
    (oneColPages r (oneColHeap s wrapN contN size d)).GetBottomRight point.Tag.TagViewPort
      = Except.ok (some { Node := some 0, X := 0, Y := size - r + (r - 1) }) := by
  have ht := topLeft_oneCol r s wrapN contN size d hr
  have hd := downN_oneCol s wrapN contN size (size - r) (r - 1) d (by omega)
  unfold pagelist.PageList.GetBottomRight
  simp only [ht, ok_bind, orPanic_some]
  simp only [oneColPages, usub_ok r 1 hr1, ok_bind, hd]

/-- The iterator from a pin down to a pin of the same column and node. -/
theorem pageIterator_oneCol (h : Heap) (y k : Nat) :
    pagelist.Pin.PageIterator { Node := some 0, X := 0, Y := y } h
        pagelist.direction.directionRightDown (some { Node := some 0, X := 0, Y := y + k })
      = Except.ok { Row := some { Node := some 0, X := 0, Y := y },
                    Limit := { Typ := pagelist.LimitType.LimitTypeRow,
                               LimitRow := { Node := some 0, X := 0, Y := y + k } },
                    Direction := pagelist.direction.directionRightDown } := by
  unfold pagelist.Pin.PageIterator pagelist.Pin.Before
  by_cases hk : k = 0
  · subst hk
    simp only [pagelist.Pin.Equal, if_true, Nat.add_zero, lt_self_iff_false, if_false, gt_iff_lt,
      beq_self_eq_true, Bool.and_self, Bool.true_or, Assert_true, ok_bind, pure_ok,
      decide_False]
  · have hlt : y < y + k := by omega
    simp only [pagelist.Pin.Equal, if_true, hlt, ok_bind, pure_ok, Bool.or_true, Assert_true]

/-- `PageList.EncodeUtf8` between the corners of the viewport of the one-column
page list. -/
theorem encodeUtf8_oneCol (rows r : Nat) (s : List Nat) (wrapN contN : Nat) (d : StaticBitSet)
    (hr1 : 1 ≤ r) (hr : r ≤ s.length) (hl : s.length ≤ oneColRows)
    (hc : ∀ c ∈ s, c ≠ 0 ∧ c < 0x80) :
    (oneColPages rows (oneColHeap s wrapN contN s.length d)).EncodeUtf8 []
        { Unwrap := false, TopLeft := { Node := some 0, X := 0, Y := s.length - r },
          BottomRight := some { Node := some 0, X := 0, Y := s.length - r + (r - 1) } }
      = Except.ok (joinLines (s.drop (s.length - r))) := by
  have hlen : (s.drop (s.length - r)).length = r := by rw [List.length_drop]; omega
  have hne : s.drop (s.length - r) ≠ [] := by
    intro h
    rw [h] at hlen
    simp at hlen
    omega
  have he := encodeRows_oneCol s wrapN contN s.length d hl (s.drop (s.length - r))
    (s.length - r) 0 0 [] [] (List.append_nil _).symm (by omega)
    (fun c hx => hc c (List.mem_of_mem_drop hx)) hne
  rw [hlen] at he
  have hcnt : s.length - r + (r - 1) + 1 - (s.length - r) = r := by omega
  have hgt : ¬ (s.length - r > s.length - r + (r - 1)) := by omega
  have hnode : (oneColHeap s wrapN contN s.length d).nodes 0
      = { Next := none, Prev := none, Data := oneColPage s.length d } := by
    unfold oneColHeap
    simp only [Function.update_same]
  have hnext : (oneColHeap s wrapN contN s.length d).nextNode + 2 = 1 + 1 + 1 := rfl
  unfold pagelist.PageList.EncodeUtf8
  simp only [oneColPages, pageIterator_oneCol, ok_bind]
  rw [hnext, pagelist.PageList.encodeChunks]
  simp only [pagelist.PageIterator.nextDown, ne_eq, not_true_eq_false, if_false, hgt, ok_bind,
    pure_ok, Heap.node, hnode, page.Page.EncodeUtf8, hcnt, he, List.nil_append,
    List.replicate_zero]
  rw [pagelist.PageList.encodeChunks]
  simp only [pagelist.PageIterator.nextDown, ok_bind, pure_ok]

/-- The viewport dump of the one-column terminal: the last `r` characters,
joined by newlines. -/
theorem plainString_oneCol (r : Nat) (s : List Nat) (d : StaticBitSet)
    (hr1 : 1 ≤ r) (hr : r ≤ s.length) (hl : s.length ≤ oneColRows)
    (hc : ∀ c ∈ s, c ≠ 0 ∧ c < 0x80) :
    Terminal.PlainString (oneColTerminal r s d)
      = Except.ok (joinLines (s.drop (s.length - r))) := by
  unfold Terminal.PlainString screen.Screen.DumpString oneColTerminal oneColState oneColScreen
  simp only [max_eq_right hr, topLeft_oneCol r s _ _ s.length d hr,
    bottomRight_oneCol r s _ _ s.length d hr1 hr, ok_bind, pure_ok,
    encodeUtf8_oneCol r r s _ _ d hr1 hr hl hc]

/-- The dump of the whole screen of the one-column terminal, history included:
all the characters, joined by newlines. -/
theorem screenDump_oneCol (r : Nat) (s : List Nat) (d : StaticBitSet)
    (hr : r ≤ s.length) (hs : 1 ≤ s.length) (hl : s.length ≤ oneColRows)
    (hc : ∀ c ∈ s, c ≠ 0 ∧ c < 0x80) :
    (oneColTerminal r s d).Screen.DumpString [] point.Tag.TagScreen
      = Except.ok (some (joinLines s)) := by
  have he := encodeUtf8_oneCol r s.length s (s.length - 1) s.length d hs (le_refl _) hl hc
  rw [Nat.sub_self, Nat.zero_add, List.drop_zero] at he
  unfold screen.Screen.DumpString pagelist.PageList.GetTopLeft pagelist.PageList.getTopLeftPlain
    pagelist.PageList.GetBottomRight oneColTerminal oneColState oneColScreen
  simp only [max_eq_right hr, oneColPages, pagelist.PageList.pages, orPanic_some, ok_bind, pure_ok,
    Heap.node, oneColHeap, Function.update_same, oneColPage, usub_ok _ _ hs,
    usub_ok 1 1 (le_refl 1), Nat.sub_self] at he ⊢
  simp only [he, ok_bind]

/-- The dirty set of a new one-column page. -/
theorem dirtyOK_new : dirtyOK (NewStaticBitSet oneColRows) := by
  refine ⟨rfl, ?_⟩
  simp only [NewStaticBitSet, StaticBitSet.init, List.length_replicate, oneColRows]

/-- C20: on every fresh terminal of 1 column and `r ≥ 1` rows (Wraparound is on
there), `Print` on each of `k > r` printable ASCII characters (`k` at most
46225, the rows that the first page can hold) returns, leaves the cursor at
`(0, r - 1)` with the wrap pending, and `PlainString()` is then the last `r`
characters joined by newlines, while the dump of the whole screen still holds
all `k` characters: the earlier ones are in the history. -/
theorem C20_one_column_scroll (RuneWidth : Nat → Nat) (styleHash : style.Style → Nat)
    (r : Nat) (s : List Nat) (hr : 1 ≤ r) (hk : r < s.length) (hl : s.length ≤ 46225)
    (hc : ∀ c ∈ s, 0x20 ≤ c ∧ c ≤ 0x7E) :
    ∃ t0 t, freshTerminal 1 r = Except.ok t0 ∧
      t0.mode core.ModeWraparound = Except.ok true ∧
      Terminal.printAll RuneWidth styleHash t0 s = Except.ok t ∧
      t.cursorState = (0, r - 1, true) ∧
      t.PlainString = Except.ok (joinLines (s.drop (s.length - r))) ∧
      t.Screen.DumpString [] point.Tag.TagScreen = Except.ok (some (joinLines s)) := by
  have hr2 : r ≤ oneColRows := by unfold oneColRows; omega
  have hl2 : s.length ≤ oneColRows := hl
  have hc1 : ∀ c ∈ s, c ≤ 0xFF := fun c hx => by have := hc c hx; omega
  have hc2 : ∀ c ∈ s, c ≠ 0 ∧ c < 0x80 := fun c hx => by have := hc c hx; omega
  obtain ⟨d, _, hp⟩ := printAll_oneCol RuneWidth styleHash r hr hr2 s [] (NewStaticBitSet oneColRows)
    dirtyOK_new (by rw [List.length_nil, Nat.zero_add]; exact hl2) hc1
  rw [List.nil_append] at hp
  have hne : s ≠ [] := by
    intro h
    rw [h] at hk
    exact Nat.not_lt_zero _ hk
  refine ⟨oneColTerminal r [] (NewStaticBitSet oneColRows), oneColTerminal r s d,
    fresh_oneCol r hr hr2, ?_, hp, ?_, plainString_oneCol r s d hr (by omega) hl2 hc2,
    screenDump_oneCol r s d (by omega) (by omega) hl2 hc2⟩
  · unfold Terminal.mode oneColTerminal oneColState
    simp only [mode_wraparound, orPanic_some]
  · unfold Terminal.cursorState oneColTerminal oneColState oneColScreen oneColCursor
    have hmin : min (s.length - 1) (r - 1) = r - 1 := by omega
    simp only [hmin, hne, ne_eq, not_false_eq_true, decide_True]

/-- C20 at a terminal of 1 column and 2 rows and the characters `abc`. -/
theorem C20_one_column_scroll_witness :
    1 ≤ 2 ∧ 2 < [0x61, 0x62, 0x63].length ∧ [0x61, 0x62, 0x63].length ≤ 46225 ∧
    (∀ c ∈ [0x61, 0x62, 0x63], 0x20 ≤ c ∧ c ≤ 0x7E) ∧
    ∃ t0 t, freshTerminal 1 2 = Except.ok t0 ∧
      t0.mode core.ModeWraparound = Except.ok true ∧
      Terminal.printAll (fun _ => 1) (fun _ => 0) t0 [0x61, 0x62, 0x63] = Except.ok t ∧
      t.cursorState = (0, 2 - 1, true) ∧
      t.PlainString = Except.ok (joinLines ([0x61, 0x62, 0x63].drop ([0x61, 0x62, 0x63].length - 2))) ∧
      t.Screen.DumpString [] point.Tag.TagScreen = Except.ok (some (joinLines [0x61, 0x62, 0x63])) :=
  ⟨by decide, by decide, by decide, by decide,
    C20_one_column_scroll (fun _ => 1) (fun _ => 0) 2 [0x61, 0x62, 0x63]
      (by decide) (by decide) (by decide) (by decide)⟩

end terminal

/-! ## C21, C22, C28, C29, C30: wide characters, tab stops and erasing -/

namespace terminal

/-- C21 (code evaluated at the failing input): on a fresh terminal of 5 columns
and 5 rows (Wraparound on), after `Print` of a, b, c, d the cursor is at (4, 0);
`Print(U+4E2D)` (width 2) then returns at once: in the branch for a wide
character at the last column the code tests `if t.Modes.Get(core.ModeWraparound)
{ return }`, whose comment describes the case that wraparound is NOT enabled.
The cursor stays at (4, 0), the cells at (4, 0), (0, 1) and (1, 1) are blank
and narrow (no SpacerHead, Wide or SpacerTail), row 0 is not wrapped and the
dump is "abcd".  With Wraparound off the same call does what the claim
describes: SpacerHead at column 4, row 0 wrapped, Wide and SpacerTail at
columns 0 and 1 of row 1. -/
theorem C21_wide_at_last_column_is_dropped :
    (printed 5 5 [0x61, 0x62, 0x63, 0x64, 0x4E2D]).bind
      Terminal.cursorAndDump
      = Except.ok ((4, 0, false), [0x61, 0x62, 0x63, 0x64]) ∧
    (printed 5 5 [0x61, 0x62, 0x63, 0x64, 0x4E2D]).bind
      (fun t => t.shapesAt [(4, 0), (0, 1), (1, 1)])
      = Except.ok [(page.Wide.WideNarrow, 0), (page.Wide.WideNarrow, 0),
          (page.Wide.WideNarrow, 0)] ∧
    (printed 5 5 [0x61, 0x62, 0x63, 0x64, 0x4E2D]).bind
      (fun t => (t.rowAt 0).map (fun r => r.Wrap)) = Except.ok false ∧
    ((printed 5 5 [0x61, 0x62, 0x63, 0x64]).bind (fun t =>
          (t.setMode core.ModeWraparound false).bind (fun t =>
            Terminal.printAll wideAt4E2D (fun _ => 0) t [0x4E2D]))).bind
      (fun t => (t.shapesAt [(4, 0), (0, 1), (1, 1)]).map (fun l => (t.cursorState, l)))
      = Except.ok ((2, 1, false), [(page.Wide.WideSpacerHead, 0x4E2D),
          (page.Wide.WideWide, 0x4E2D), (page.Wide.WideSpacerTail, 0)]) ∧
    ((printed 5 5 [0x61, 0x62, 0x63, 0x64]).bind (fun t =>
          (t.setMode core.ModeWraparound false).bind (fun t =>
            Terminal.printAll wideAt4E2D (fun _ => 0) t [0x4E2D]))).bind
      (fun t => (t.rowAt 0).map (fun r => r.Wrap)) = Except.ok true := by
  decide!

/-- C22 (code evaluated at the failing inputs): after the wide cell and its
spacer tail the cursor is on the tail, at column `x + 1`, and the code then
tests `t.Screen.Cursor.X + width == rightLimit` with `width = 2`.  On a
terminal of 5 columns with the cursor at column 3 (`x + 2 = cols`) the test
fails and `Screen.SetCursorRight(1)` panics on its assertion
`X + n < Pages.Cols`; the same happens on 2 columns at column 0.  On 6 columns
at column 3 (`x + 2 < cols`) the test holds and the cursor is left on column 4
with pending wrap set, not on column 5 with pending wrap clear.  On 10 columns
at column 3 the cells are Wide and SpacerTail and the cursor ends at column 5. -/
theorem C22_wide_at_line_end_panics :
    (printed 5 5 [0x61, 0x62, 0x63]).map
          Terminal.cursorState = Except.ok (3, 0, false) ∧
    (printed 5 5 [0x61, 0x62, 0x63, 0x4E2D]).map
          Terminal.cursorState = Except.error Fault.panic ∧
    (printed 2 5 [0x4E2D]).map
          Terminal.cursorState = Except.error Fault.panic ∧
    (printed 6 5 [0x61, 0x62, 0x63, 0x4E2D]).map
          Terminal.cursorState = Except.ok (4, 0, true) ∧
    (printed 10 5 [0x61, 0x62, 0x63, 0x4E2D]).bind
      (fun t => (t.shapesAt [(3, 0), (4, 0)]).map (fun l => (t.cursorState, l)))
      = Except.ok ((5, 0, false), [(page.Wide.WideWide, 0x4E2D),
          (page.Wide.WideSpacerTail, 0)]) := by
  decide!

/-- C28 (code evaluated at the failing inputs): on a fresh terminal of 80
columns and 24 rows (tab stops at 8, 16, ..., 72), `SetCursorTabRight(2)` from
column 0 ends at column 8, as `SetCursorTabRight(1)` does: the `return` at the
first tab stop leaves the method, not the inner loop.  From column 72 no tab
stop follows; the inner loop runs while `X < cols`, so at column 79 it calls
`Screen.SetCursorRight(1)`, whose assertion `X + n < Pages.Cols` fails:
`SetCursorTabRight(1)` panics instead of stopping at column 79. -/
theorem C28_tab_right_stops_early_or_panics :
    ((freshTerminal 80 24).bind (fun t => t.SetCursorTabRight 1)).map Terminal.cursorState
      = Except.ok (8, 0, false) ∧
    ((freshTerminal 80 24).bind (fun t => t.SetCursorTabRight 2)).map Terminal.cursorState
      = Except.ok (8, 0, false) ∧
    ((freshTerminal 80 24).bind (fun t => t.SetCursorRight 72)).map
        (fun t => (t.cursorState, [8, 16, 72, 73, 79].map t.tabstops.Get))
      = Except.ok ((72, 0, false), [some true, some true, some true, some false, some false]) ∧
    (((freshTerminal 80 24).bind (fun t => t.SetCursorRight 72)).bind
        (fun t => t.SetCursorTabRight 1)).map Terminal.cursorState
      = Except.error Fault.panic := by
  decide!

/-- C29 (code evaluated at the failing input): `Terminal.SetCursorDown` and
`Terminal.SetCursorUp` never read their parameter `carriage`.  On a fresh
terminal of 5 columns and 5 rows with the cursor at column 2 after "ab",
`SetCursorDown(1, true)` ends at (2, 1) and a following `SetCursorUp(1, true)`
at (2, 0), where `CarriageReturn` would choose column 0; the rows move as
claimed. -/
theorem C29_carriage_is_ignored :
    (printed 5 5 [0x61, 0x62]).map Terminal.cursorState
      = Except.ok (2, 0, false) ∧
    ((printed 5 5 [0x61, 0x62]).bind
          (fun t => t.SetCursorDown (fun _ => 0) 1 true)).map Terminal.cursorState
      = Except.ok (2, 1, false) ∧
    (((printed 5 5 [0x61, 0x62]).bind
          (fun t => t.SetCursorDown (fun _ => 0) 1 true)).bind
          (fun t => t.SetCursorUp (fun _ => 0) 1 true)).map Terminal.cursorState
      = Except.ok (2, 0, false) ∧
    ((printed 5 5 [0x61, 0x62]).bind
          (fun t => t.CarriageReturn)).map Terminal.cursorState
      = Except.ok (0, 0, false) ∧
    (∀ (h : style.Style → Nat) (t : Terminal) (n : Nat),
      t.SetCursorDown h n true = t.SetCursorDown h n false ∧
      t.SetCursorUp h n true = t.SetCursorUp h n false) := by
  refine ⟨by decide!, by decide!, by decide!, by decide!, fun h t n => ⟨rfl, rfl⟩⟩

/-- C30 (code evaluated at the failing inputs): `Screen.ClearRows` has an empty
body.  On a fresh terminal of 5 columns and 5 rows after `Print('a')`,
`EraseInDisplay(EDModeComplete)` leaves the cell and `PlainString()` is still
"a".  After `Print('a')`, `LineFeed()`, `Print('b')` (dump "a\n b") and
`SetCursorPosition(1, 1)`, `EraseInDisplay(EDModeBelow)` erases row 0 from the
cursor on but leaves row 1: the cell at column 1 of row 1 still holds `b` and
the dump is "\n b". -/
theorem C30_erase_in_display_keeps_rows :
    ((printed 5 5 [0x61]).bind (fun t => t.EraseInDisplay csi.EDModeComplete)).bind
        Terminal.cursorAndDump = Except.ok ((1, 0, false), [0x61]) ∧
    (((printed 5 5 [0x61]).bind (fun t => t.LineFeed (fun _ => 0))).bind
        (fun t => Terminal.printAll wideAt4E2D (fun _ => 0) t [0x62])).bind
        Terminal.cursorAndDump = Except.ok ((2, 1, false), [0x61, 0x0A, 0x20, 0x62]) ∧
    (((((printed 5 5 [0x61]).bind (fun t => t.LineFeed (fun _ => 0))).bind
        (fun t => Terminal.printAll wideAt4E2D (fun _ => 0) t [0x62])).bind
        (fun t => t.SetCursorPosition (fun _ => 0) 1 1)).bind
        (fun t => t.EraseInDisplay csi.EDModeBelow)).bind
        Terminal.cursorAndDump = Except.ok ((0, 0, false), [0x0A, 0x20, 0x62]) ∧
    (((((printed 5 5 [0x61]).bind (fun t => t.LineFeed (fun _ => 0))).bind
        (fun t => Terminal.printAll wideAt4E2D (fun _ => 0) t [0x62])).bind
        (fun t => t.SetCursorPosition (fun _ => 0) 1 1)).bind
        (fun t => t.EraseInDisplay csi.EDModeBelow)).bind
        (fun t => t.shapesAt [(0, 0), (1, 1)])
      = Except.ok [(page.Wide.WideNarrow, 0), (page.Wide.WideNarrow, 0x62)] ∧
    (∀ (s : screen.Screen) (tl : point.Point) (bl : Option point.Point),
      s.ClearRows tl bl = s) := by
  refine ⟨by decide!, by decide!, by decide!, by decide!, fun s tl bl => rfl⟩

end terminal

/-! ## C27: `SetCursorPosition` inside one page -/

namespace terminal

/-- `Set` of a bit that the set has room for. -/
theorem set_markRow (d : StaticBitSet) (y : Nat) (hy : y < d.size)
    (hb : d.size ≤ 64 * d.bits.length) : d.Set (y : Int) = some (markRow d y) := by
  have hy2 : y / 64 < d.bits.length := by omega
  have hlt : (y : Int) < (d.size : Int) := by exact_mod_cast hy
  have hnn : (0 : Int) ≤ (y : Int) := Int.ofNat_nonneg y
  unfold StaticBitSet.Set
  rw [if_neg (by simp [hnn, hlt]), addr_natCast]
  have n1 : ¬ (((y / 64 : Nat) : Int) < 0) := by omega
  have n2 : ¬ (((y % 64 : Nat) : Int) < 0) := by omega
  simp only [StaticBitSet.word, StaticBitSet.oneShl, StaticBitSet.setWord, n1, n2, if_false,
    Int.toNat_ofNat, hy2, if_true, markRow, List.getD_eq_getElem?_getD,
    List.getElem?_eq_getElem hy2, Option.some_bind, Option.bind_eq_bind, Option.getD_some]

/-- The size and the length of a dirty set after `markRow`. -/
theorem markRow_size (d : StaticBitSet) (y : Nat) :
    (markRow d y).size = d.size ∧ (markRow d y).bits.length = d.bits.length := by
  simp [markRow]

/-- `MarkDirty` of a row whose bit the dirty set of the page has. -/
theorem markDirty_page (h : Heap) (a x y : Nat) (hy : y < (h.nodes a).Data.Dirty.size)
    (hb : (h.nodes a).Data.Dirty.size ≤ 64 * (h.nodes a).Data.Dirty.bits.length) :
    pagelist.Pin.MarkDirty { Node := some a, X := x, Y := y } h = Except.ok (dirtied h a y) := by
  unfold pagelist.Pin.MarkDirty
  simp only [Heap.node, ok_bind, pure_ok, orPanic_some, set_markRow _ y hy hb, dirtied]

/-- The dirty set of the page after `MarkDirty`. -/
theorem dirtied_dirty (h : Heap) (a y : Nat) :
    ((dirtied h a y).nodes a).Data.Dirty = markRow (h.nodes a).Data.Dirty y := by
  simp only [dirtied, Heap.setPage, Heap.setNode, Function.update_same]

/-- The size of the page after `MarkDirty`. -/
theorem dirtied_size (h : Heap) (a y : Nat) :
    ((dirtied h a y).nodes a).Data.Size = (h.nodes a).Data.Size := by
  simp only [dirtied, Heap.setPage, Heap.setNode, Function.update_same]

/-- The row table of the page after `MarkDirty`. -/
theorem dirtied_rowTable (h : Heap) (a y : Nat) :
    ((dirtied h a y).nodes a).Data.Rows = (h.nodes a).Data.Rows ∧
    ((dirtied h a y).nodes a).Data.RowsLen = (h.nodes a).Data.RowsLen := by
  simp only [dirtied, Heap.setPage, Heap.setNode, Function.update_same, and_self]

/-- The rows and the cell slots after `MarkDirty`. -/
theorem dirtied_rows (h : Heap) (a y : Nat) :
    (dirtied h a y).rows = h.rows ∧ (dirtied h a y).slots = h.slots := ⟨rfl, rfl⟩

/-- `GetRowAndCell` inside the rows in use of a page. -/
theorem getRowAndCell_page (h : Heap) (a x y : Nat) (hx : x < (h.nodes a).Data.Size.Cols)
    (hy : y < (h.nodes a).Data.Size.Rows)
    (hl : (h.nodes a).Data.Size.Rows ≤ (h.nodes a).Data.RowsLen)
    (hc : x < (h.rows ((h.nodes a).Data.Rows y)).Cells.len) :
    (h.nodes a).Data.GetRowAndCell h x y
      = Except.ok ((h.nodes a).Data.Rows y,
          h.slots ((h.rows ((h.nodes a).Data.Rows y)).Cells.base + x)) := by
  have hy2 : y < (h.nodes a).Data.RowsLen := by omega
  unfold page.Page.GetRowAndCell
  simp only [ok_bind, pure_ok, page.Page.rowAt, Heap.index, hx, hy, hy2, hc,
    decide_True, Assert_true, if_true]

/-- `RowAndCell` of a pin inside the rows in use of a page. -/
theorem rowAndCell_page (h : Heap) (a x y : Nat) (hx : x < (h.nodes a).Data.Size.Cols)
    (hy : y < (h.nodes a).Data.Size.Rows)
    (hl : (h.nodes a).Data.Size.Rows ≤ (h.nodes a).Data.RowsLen)
    (hc : x < (h.rows ((h.nodes a).Data.Rows y)).Cells.len) :
    pagelist.Pin.RowAndCell { Node := some a, X := x, Y := y } h
      = Except.ok ((h.nodes a).Data.Rows y,
          h.slots ((h.rows ((h.nodes a).Data.Rows y)).Cells.base + x)) := by
  have hy2 : y < (h.nodes a).Data.RowsLen := by omega
  unfold pagelist.Pin.RowAndCell page.Page.GetRowAndCell
  simp only [Heap.node, ok_bind, pure_ok, page.Page.rowAt, Heap.index, hx, hy, hy2, hc,
    decide_True, Assert_true, if_true]

/-- `CursorChangePin` to another row of the page of the cursor. -/
theorem changePin_page (styleHash : style.Style → Nat) (s : screen.Screen) (a x0 y0 x1 y1 : Nat)
    (hp : s.Cursor.PagePin = { Node := some a, X := x0, Y := y0 }) (hne : y0 ≠ y1)
    (h0 : y0 < (s.Pages.mem.nodes a).Data.Dirty.size)
    (h1 : y1 < (s.Pages.mem.nodes a).Data.Dirty.size)
    (hb : (s.Pages.mem.nodes a).Data.Dirty.size
      ≤ 64 * (s.Pages.mem.nodes a).Data.Dirty.bits.length) :
    screen.Screen.CursorChangePin styleHash s (some { Node := some a, X := x1, Y := y1 })
      = Except.ok ((s.setMem (dirtied (dirtied s.Pages.mem a y0) a y1)).setCursor
          { s.Cursor with PagePin := { Node := some a, X := x1, Y := y1 } }) := by
  have hq : (pagelist.Pin.Equal { Node := some a, X := x0, Y := y0 }
      { Node := some a, X := x1, Y := y1 }) = false := by
    simp [pagelist.Pin.Equal, hne]
  have m0 := markDirty_page s.Pages.mem a x0 y0 h0 hb
  have m1 := markDirty_page (dirtied s.Pages.mem a y0) a x1 y1
    (by rw [dirtied_dirty, (markRow_size _ _).1]; exact h1)
    (by rw [dirtied_dirty, (markRow_size _ _).1, (markRow_size _ _).2]; exact hb)
  unfold screen.Screen.CursorChangePin
  simp only [orPanic_some, ok_bind, pure_ok, hp, hq, Bool.not_false, if_true, screen.Screen.mem,
    m0, m1, screen.Screen.setMem, screen.Screen.setCursor]

/-- `Up` inside a page. -/
theorem up_page (h : Heap) (a x y n : Nat) (hn : n ≤ y) :
    pagelist.Pin.Up { Node := some a, X := x, Y := y } h n
      = Except.ok (some { Node := some a, X := x, Y := y - n }) := by
  unfold pagelist.Pin.Up
  simp only [hn, if_true, pure_ok]

/-- `Down` inside the rows in use of a page. -/
theorem down_page (h : Heap) (a x y n : Nat) (hn : y + n + 1 ≤ (h.nodes a).Data.Size.Rows) :
    pagelist.Pin.Down { Node := some a, X := x, Y := y } h n
      = Except.ok (some { Node := some a, X := x, Y := y + n }) := by
  have h1 : y + 1 ≤ (h.nodes a).Data.Size.Rows := by omega
  have h2 : n ≤ (h.nodes a).Data.Size.Rows - (y + 1) := by omega
  unfold pagelist.Pin.Down
  simp only [Heap.node, ok_bind, pure_ok, usub_ok _ _ h1, h2, if_true]

/-- C27: for every terminal whose active area lies in one page (the page of the
node `a`, from its row `base` on) with Origin mode off, and for all `row` and
`col` (the `uint16` values included), `SetCursorPosition(row, col)` returns and
leaves the cursor at `x = min(max(col, 1), cols) - 1`,
`y = min(max(row, 1), rows) - 1` with pending wrap clear; the terminal keeps its
size and its shape, so the pin of the cursor is at column `x` of row `base + y`
of the page, and the cached row and cell of the cursor are the row and the cell
that `GetRowAndCell` finds at that position. -/
theorem C27_set_cursor_position (styleHash : style.Style → Nat) (t : Terminal)
    (a base row col : Nat) (hw : t.ActiveInPage a base)
    (ho : t.mode core.ModeOrigin = Except.ok false) :
    ∃ t', t.SetCursorPosition styleHash row col = Except.ok t' ∧
      t'.cursorState = (min (max col 1) t.cols - 1, min (max row 1) t.rows - 1, false) ∧
      t'.cols = t.cols ∧ t'.rows = t.rows ∧ t'.ActiveInPage a base ∧
      (t'.Screen.Pages.mem.nodes a).Data.GetRowAndCell t'.Screen.Pages.mem
          (min (max col 1) t.cols - 1) (base + (min (max row 1) t.rows - 1))
        = Except.ok (t'.Screen.Cursor.PageRow, t'.Screen.Cursor.PageCell) := by
  obtain ⟨h1, h2, h3, h4, h5, h6, h7, h8, h9, h10, h11, h12, h13, h14, h15⟩ := hw
  have hxv : min t.cols ((if col = 0 then 1 else col) + 0) = min (max col 1) t.cols - 1 + 1 := by
    split_ifs <;> omega
  have hyv : min t.rows ((if row = 0 then 1 else row) + 0) = min (max row 1) t.rows - 1 + 1 := by
    split_ifs <;> omega
  have hx : min (max col 1) t.cols - 1 < t.cols := by omega
  have hy : min (max row 1) t.rows - 1 < t.rows := by omega
  generalize min (max col 1) t.cols - 1 = x at hxv hx ⊢
  generalize min (max row 1) t.rows - 1 = y at hyv hy ⊢
  unfold Terminal.SetCursorPosition
  simp only [Terminal.mode] at ho
  simp only [Terminal.setCursor, screen.Screen.setCursor, Terminal.mode, ho, ok_bind, pure_ok,
    Bool.false_eq_true, if_false, hxv, hyv, usub_ok _ 1 (Nat.le_add_left 1 _),
    Nat.add_sub_cancel, Nat.max_zero, ↓reduceIte]
  by_cases hyc : y = t.Screen.Cursor.Y
  · rw [if_pos hyc]
    by_cases hxc : x > t.Screen.Cursor.X
    · rw [if_pos hxc]
      have e : t.Screen.Cursor.X + (x - t.Screen.Cursor.X) = x := by omega
      have hlen := h9 (base + t.Screen.Cursor.Y) (by omega)
      have hlen2 : x < (t.Screen.Pages.mem.rows ((t.Screen.Pages.mem.nodes a).Data.Rows
          (base + t.Screen.Cursor.Y))).Cells.len := by omega
      unfold screen.Screen.SetCursorRight screen.Screen.AssertIntegrity
      simp only [screen.Screen.setCursor, screen.Screen.mem, h3, h4, h5, h14, h15, e, hx, hy, hyc ▸ hy,
        Heap.index, hlen2, decide_True, Assert_true, ok_bind, pure_ok, if_true, Bool.and_self]
      refine ⟨_, rfl, ?_, rfl, rfl, ?_, ?_⟩
      · simp only [Terminal.cursorState, hyc]
      · exact ⟨h1, h2, rfl, rfl, h5, h6, h7, h8, h9, h10, h11, hx, h13, rfl, rfl⟩
      · rw [hyc]
        exact getRowAndCell_page _ a x _ (by rw [h6]; exact hx) (by rw [h7]; omega)
          (by rw [h7]; exact h8) hlen2
    · rw [if_neg hxc]
      have e : t.Screen.Cursor.X - (t.Screen.Cursor.X - x) = x := by omega
      have e2 : t.Screen.Cursor.X - x ≤ t.Screen.Cursor.X := by omega
      have hlen := h9 (base + t.Screen.Cursor.Y) (by omega)
      have hlen2 : x < (t.Screen.Pages.mem.rows ((t.Screen.Pages.mem.nodes a).Data.Rows
          (base + t.Screen.Cursor.Y))).Cells.len := by omega
      unfold screen.Screen.SetCursorLeft screen.Screen.AssertIntegrity
      simp only [screen.Screen.setCursor, screen.Screen.mem, h3, h4, h5, h14, h15, e, e2, hx, hy,
        hyc ▸ hy, Heap.index, hlen2, decide_True, Assert_true, ok_bind, pure_ok, if_true,
        Bool.and_self, ge_iff_le, usub_ok _ _ e2]
      refine ⟨_, rfl, ?_, rfl, rfl, ?_, ?_⟩
      · simp only [Terminal.cursorState, hyc]
      · exact ⟨h1, h2, rfl, rfl, h5, h6, h7, h8, h9, h10, h11, hx, h13, rfl, rfl⟩
      · rw [hyc]
        exact getRowAndCell_page _ a x _ (by rw [h6]; exact hx) (by rw [h7]; omega)
          (by rw [h7]; exact h8) hlen2
  · rw [if_neg hyc]
    have hne : base + t.Screen.Cursor.Y ≠ base + y := by omega
    have hlen := h9 (base + y) (by omega)
    have hlen2 : x < (t.Screen.Pages.mem.rows ((t.Screen.Pages.mem.nodes a).Data.Rows
        (base + y))).Cells.len := by omega
    have hc := changePin_page styleHash
      { t.Screen with Cursor := { t.Screen.Cursor with X := x, Y := y, PendingWrap := false } }
      a t.Screen.Cursor.X (base + t.Screen.Cursor.Y) x (base + y) h14 hne
      (Nat.lt_of_lt_of_le (by omega : base + t.Screen.Cursor.Y < base + t.rows) h10)
      (Nat.lt_of_lt_of_le (by omega : base + y < base + t.rows) h10) h11
    have hS : ((dirtied (dirtied t.Screen.Pages.mem a (base + t.Screen.Cursor.Y)) a
        (base + y)).nodes a).Data.Size = (t.Screen.Pages.mem.nodes a).Data.Size := by
      rw [dirtied_size, dirtied_size]
    have hT : ((dirtied (dirtied t.Screen.Pages.mem a (base + t.Screen.Cursor.Y)) a
        (base + y)).nodes a).Data.Rows = (t.Screen.Pages.mem.nodes a).Data.Rows := by
      rw [(dirtied_rowTable _ _ _).1, (dirtied_rowTable _ _ _).1]
    have hL : ((dirtied (dirtied t.Screen.Pages.mem a (base + t.Screen.Cursor.Y)) a
        (base + y)).nodes a).Data.RowsLen = (t.Screen.Pages.mem.nodes a).Data.RowsLen := by
      rw [(dirtied_rowTable _ _ _).2, (dirtied_rowTable _ _ _).2]
    have hR : (dirtied (dirtied t.Screen.Pages.mem a (base + t.Screen.Cursor.Y)) a
        (base + y)).rows = t.Screen.Pages.mem.rows := rfl
    have hSl : (dirtied (dirtied t.Screen.Pages.mem a (base + t.Screen.Cursor.Y)) a
        (base + y)).slots = t.Screen.Pages.mem.slots := rfl
    have hD : ((dirtied (dirtied t.Screen.Pages.mem a (base + t.Screen.Cursor.Y)) a
        (base + y)).nodes a).Data.Dirty
        = markRow (markRow (t.Screen.Pages.mem.nodes a).Data.Dirty (base + t.Screen.Cursor.Y))
            (base + y) := by
      rw [dirtied_dirty, dirtied_dirty]
    have hg := getRowAndCell_page
      (dirtied (dirtied t.Screen.Pages.mem a (base + t.Screen.Cursor.Y)) a (base + y)) a x (base + y)
      (by rw [hS, h6]; exact hx) (by rw [hS, h7]; omega) (by rw [hS, hL, h7]; exact h8)
      (by rw [hT, hR]; exact hlen2)
    rw [hT, hR, hSl] at hg
    have hr : pagelist.Pin.RowAndCell { Node := some a, X := x, Y := base + y }
        (dirtied (dirtied t.Screen.Pages.mem a (base + t.Screen.Cursor.Y)) a (base + y))
        = Except.ok ((t.Screen.Pages.mem.nodes a).Data.Rows (base + y),
            t.Screen.Pages.mem.slots ((t.Screen.Pages.mem.rows
              ((t.Screen.Pages.mem.nodes a).Data.Rows (base + y))).Cells.base + x)) := by
      unfold pagelist.Pin.RowAndCell
      simp only [Heap.node, ok_bind, pure_ok, hg]
    have hup := up_page t.Screen.Pages.mem a t.Screen.Cursor.X (base + t.Screen.Cursor.Y)
      (t.Screen.Cursor.Y - y)
    have hdown := down_page t.Screen.Pages.mem a t.Screen.Cursor.X (base + t.Screen.Cursor.Y)
      (y - t.Screen.Cursor.Y)
    rw [h7] at hdown
    have hfin : ∃ t', (Except.ok ({ t with Screen :=
        { Cursor :=
            { X := x, Y := y, PendingWrap := false,
              PageCell := t.Screen.Pages.mem.slots ((t.Screen.Pages.mem.rows
                ((t.Screen.Pages.mem.nodes a).Data.Rows (base + y))).Cells.base + x),
              PageRow := (t.Screen.Pages.mem.nodes a).Data.Rows (base + y),
              PagePin := { Node := some a, X := x, Y := base + y },
              Style := t.Screen.Cursor.Style, StyleID := t.Screen.Cursor.StyleID },
          Pages :=
            { t.Screen.Pages with
              mem := dirtied (dirtied t.Screen.Pages.mem a (base + t.Screen.Cursor.Y)) a (base + y) },
          rows := t.rows, cols := t.cols, NoScrollback := t.Screen.NoScrollback } } : Terminal)
        : Run Terminal) = Except.ok t' ∧
        t'.cursorState = (x, y, false) ∧ t'.cols = t.cols ∧ t'.rows = t.rows ∧
        t'.ActiveInPage a base ∧
        (t'.Screen.Pages.mem.nodes a).Data.GetRowAndCell t'.Screen.Pages.mem x (base + y)
          = Except.ok (t'.Screen.Cursor.PageRow, t'.Screen.Cursor.PageCell) := by
      refine ⟨_, rfl, rfl, rfl, rfl, ?_, hg⟩
      refine ⟨h1, h2, rfl, rfl, h5, ?_, ?_, ?_, ?_, ?_, ?_, hx, hy, rfl, ?_⟩
      · show ((dirtied _ a _).nodes a).Data.Size.Cols = t.cols
        rw [hS]; exact h6
      · show ((dirtied _ a _).nodes a).Data.Size.Rows = base + t.rows
        rw [hS]; exact h7
      · show base + t.rows ≤ ((dirtied _ a _).nodes a).Data.RowsLen
        rw [hL]; exact h8
      · intro y' hy'
        show t.cols ≤ ((dirtied _ a _).rows (((dirtied _ a _).nodes a).Data.Rows y')).Cells.len
        rw [hT, hR]; exact h9 y' hy'
      · show base + t.rows ≤ ((dirtied _ a _).nodes a).Data.Dirty.size
        rw [hD, (markRow_size _ _).1, (markRow_size _ _).1]; exact h10
      · show ((dirtied _ a _).nodes a).Data.Dirty.size
          ≤ 64 * ((dirtied _ a _).nodes a).Data.Dirty.bits.length
        rw [hD, (markRow_size _ _).1, (markRow_size _ _).1, (markRow_size _ _).2,
          (markRow_size _ _).2]; exact h11
      · show (t.Screen.Pages.mem.nodes a).Data.Rows (base + y)
          = ((dirtied _ a _).nodes a).Data.Rows (base + y)
        rw [hT]
    unfold screen.Screen.SetCursorAbs screen.Screen.cacheRowAndCell screen.Screen.AssertIntegrity
    simp only [screen.Screen.setCursor, screen.Screen.setMem, screen.Screen.mem, h3, h4, h14, hx, hy,
      decide_True, Bool.and_self, Assert_true, ok_bind, pure_ok] at hc ⊢
    by_cases hlt : y < t.Screen.Cursor.Y
    · have e : base + t.Screen.Cursor.Y - (t.Screen.Cursor.Y - y) = base + y := by omega
      simp only [hlt, if_true, hup (by omega), e, orPanic_some, ok_bind, hc, hr, hx, hy,
        decide_True, Bool.and_self, Assert_true]
      exact hfin
    · have hgt : y > t.Screen.Cursor.Y := by omega
      have e : base + t.Screen.Cursor.Y + (y - t.Screen.Cursor.Y) = base + y := by omega
      simp only [hlt, hgt, if_true, if_false, hdown (by omega), e, orPanic_some, ok_bind, hc, hr,
        hx, hy, decide_True, Bool.and_self, Assert_true]
      exact hfin

/-- C27 at a fresh terminal of 5 columns and 5 rows, row 3 and column 4. -/
theorem C27_set_cursor_position_witness :
    (freshOr 5 5).ActiveInPage 0 0 ∧
    (freshOr 5 5).mode core.ModeOrigin = Except.ok false ∧
    ∃ t', (freshOr 5 5).SetCursorPosition (fun _ => 0) 3 4 = Except.ok t' ∧
      t'.cursorState = (min (max 4 1) (freshOr 5 5).cols - 1,
        min (max 3 1) (freshOr 5 5).rows - 1, false) ∧
      t'.cols = (freshOr 5 5).cols ∧ t'.rows = (freshOr 5 5).rows ∧ t'.ActiveInPage 0 0 ∧
      (t'.Screen.Pages.mem.nodes 0).Data.GetRowAndCell t'.Screen.Pages.mem
          (min (max 4 1) (freshOr 5 5).cols - 1) (0 + (min (max 3 1) (freshOr 5 5).rows - 1))
        = Except.ok (t'.Screen.Cursor.PageRow, t'.Screen.Cursor.PageCell) := by
  have hA : (freshOr 5 5).ActiveInPage 0 0 :=
    ⟨by decide!, by decide!, by decide!, by decide!, by decide!, by decide!, by decide!,
      by decide!, by decide!, by decide!, by decide!, by decide!, by decide!, by decide!,
      by decide!⟩
  have hB : (freshOr 5 5).mode core.ModeOrigin = Except.ok false := by decide!
  exact ⟨hA, hB, C27_set_cursor_position (fun _ => 0) (freshOr 5 5) 0 0 3 4 hA hB⟩

end terminal

/-! ## C23, C24, C25, C26: the stream and `TerminalIO` -/

namespace stream

/-- C26: for every parameter `n`, `csiDispatch` sends a CSI command with final
byte `C` and no intermediates to `SetCursorLeft(n)` (`SetCursorLeft(1)`
without parameter) and one with final byte `D` or `j` to `SetCursorRight(n)`
(`SetCursorRight(1)` without parameter), the reverse of what the claim and the
comments `CUF - Cursor Forward` and `CUB - Cursor Backward` of the two cases
say; so the bytes `ESC [ 3 C` fed to `Next` reach the handler as
`SetCursorLeft(3)` and `ESC [ D` as `SetCursorRight(1)`. -/
theorem C26_cursor_forward_and_backward_are_swapped :
    (∀ (n : Nat) (ps : StaticBitSet) (s : Stream (List Call)),
      (s.csiDispatch recorder
          (some { Final := 0x43, Intermediates := [], Params := [n], ParamsSet := ps })).map
          (fun r => r.handler) = Except.ok (s.handler ++ [Call.SetCursorLeft n])
      ∧ (s.csiDispatch recorder
          (some { Final := 0x43, Intermediates := [], Params := [], ParamsSet := ps })).map
          (fun r => r.handler) = Except.ok (s.handler ++ [Call.SetCursorLeft 1])
      ∧ (s.csiDispatch recorder
          (some { Final := 0x44, Intermediates := [], Params := [n], ParamsSet := ps })).map
          (fun r => r.handler) = Except.ok (s.handler ++ [Call.SetCursorRight n])
      ∧ (s.csiDispatch recorder
          (some { Final := 0x44, Intermediates := [], Params := [], ParamsSet := ps })).map
          (fun r => r.handler) = Except.ok (s.handler ++ [Call.SetCursorRight 1])
      ∧ (s.csiDispatch recorder
          (some { Final := 0x6A, Intermediates := [], Params := [n], ParamsSet := ps })).map
          (fun r => r.handler) = Except.ok (s.handler ++ [Call.SetCursorRight n])
      ∧ (s.csiDispatch recorder
          (some { Final := 0x6A, Intermediates := [], Params := [], ParamsSet := ps })).map
          (fun r => r.handler) = Except.ok (s.handler ++ [Call.SetCursorRight 1]))
    ∧ (Stream.nextEach recorder [0x1B, 0x5B, 0x33, 0x43] (NewStream [] (some ()))).map
        (fun r => r.handler) = Except.ok [Call.SetCursorLeft 3]
    ∧ (Stream.nextEach recorder [0x1B, 0x5B, 0x44] (NewStream [] (some ()))).map
        (fun r => r.handler) = Except.ok [Call.SetCursorRight 1] := by
  refine ⟨fun n ps s => ⟨rfl, rfl, rfl, rfl, rfl, rfl⟩, by decide!, by decide!⟩

end stream

namespace stream

theorem next_a_recorded (h : List Call) :
    Stream.Next recorder
        { handler := h, parser := NewParser, utf8Decoder := NewUTF8Decoder, logger := some () }
        0x61
      = Except.ok { handler := h ++ [Call.Print 0x61], parser := NewParser,
                    utf8Decoder := NewUTF8Decoder, logger := some () } := rfl

theorem nextEach_a_recorded (n : Nat) : ∀ h : List Call,
    Stream.nextEach recorder (List.replicate n 0x61)
        { handler := h, parser := NewParser, utf8Decoder := NewUTF8Decoder, logger := some () }
      = Except.ok { handler := h ++ List.replicate n (Call.Print 0x61), parser := NewParser,
                    utf8Decoder := NewUTF8Decoder, logger := some () } := by
  induction n with
  | zero => intro h; simp [Stream.nextEach]; rfl
  | succ k ih =>
    intro h
    rw [List.replicate_succ, Stream.nextEach, next_a_recorded]
    show Stream.nextEach recorder (List.replicate k 0x61) _ = _
    rw [ih, List.append_assoc]
    rfl

theorem nextSlice_long {σ : Type} (H : Handler σ) (s : Stream σ) (input : List Nat)
    (hlen : MaxCodePoints ≤ input.length) :
    s.NextSlice H input
      = (Stream.nextEach H input s).bind (fun _ => Except.error Fault.panic) := by
  unfold Stream.NextSlice
  simp only [debug, ↓reduceIte]
  cases h : Stream.nextEach H input s with
  | error e => rfl
  | ok s1 =>
    show Stream.chunkLoop H _ _ s1 0 _ = Except.error Fault.panic
    unfold Stream.chunkLoop
    unfold Stream.nextSliceCapped
    have hl : decide ((List.take (min (List.replicate MaxCodePoints 0).length
        (input.length - 0)) (List.drop 0 input)).length
        < (List.replicate MaxCodePoints 0).length) = false := by
      simp only [List.length_replicate, List.length_take, List.length_drop, Nat.sub_zero,
        decide_eq_false_iff_not, not_lt]
      omega
    simp only [hl]
    rfl

/-- C25: for every handler, every stream state and every input of 4096 bytes
or more (written as the first `MaxCodePoints + n` values of an arbitrary
function), `NextSlice` does not return: once the byte loop of the `debug`
branch is through, the first chunk handed to `nextSliceCapped` has
`min(len(cpBuf), len(input)) = 4096` bytes and fails the assertion
`len(input) < len(cpBuf)`.  With a recording handler and 4096 bytes `a` the
byte loop passes (4096 calls of `Print`) and `NextSlice` panics. -/
theorem C25_chunk_of_4096_bytes_fails_the_assertion :
    (∀ (σ : Type) (H : Handler σ) (s : Stream σ) (f : Nat → Nat) (n : Nat),
      s.NextSlice H ((List.range (MaxCodePoints + n)).map f)
        = (Stream.nextEach H ((List.range (MaxCodePoints + n)).map f) s).bind
            (fun _ => Except.error Fault.panic))
    ∧ (Stream.nextEach recorder (List.replicate 4096 0x61) (NewStream [] (some ()))).map
        (fun r => r.handler) = Except.ok (List.replicate 4096 (Call.Print 0x61))
    ∧ recorded (List.replicate 4096 0x61) = Except.error Fault.panic := by
  have h2 : Stream.nextEach recorder (List.replicate 4096 0x61) (NewStream [] (some ()))
      = Except.ok { handler := List.replicate 4096 (Call.Print 0x61), parser := NewParser,
                    utf8Decoder := NewUTF8Decoder, logger := some () } := by
    exact nextEach_a_recorded 4096 []
  refine ⟨fun σ H s f n => nextSlice_long H s _ (by simp), ?_, ?_⟩
  · rw [h2]; rfl
  · unfold recorded
    rw [nextSlice_long recorder _ _ (by rw [List.length_replicate]; decide), h2]
    rfl

end stream

namespace termio

/-- C23: on a 40x40 `TerminalIO` (default modes, a logger given) one call
`ProcessOutput("hello")` returns a nil error with the cursor at (10, 0) and
`DumpString()` equal to `hellohello`, not (5, 0) and `hello`: with
`debug = true` `NextSlice` feeds every byte to `Next` and then goes on to the
chunk loop, which processes the same bytes again.  A recording handler
receives `Print` twice for each byte of `hi`. -/
theorem C23_every_byte_is_processed_twice :
    session { Rows := 40, Cols := 40, Logger := some () } [0x68, 0x65, 0x6C, 0x6C, 0x6F]
      = Except.ok (false, some ((10, 0, false),
          [0x68, 0x65, 0x6C, 0x6C, 0x6F, 0x68, 0x65, 0x6C, 0x6C, 0x6F]))
    ∧ stream.recorded [0x68, 0x69]
      = Except.ok [stream.Call.Print 0x68, stream.Call.Print 0x69,
          stream.Call.Print 0x68, stream.Call.Print 0x69] := by
  refine ⟨by decide!, by decide!⟩

/-- C24: `NewTerminalIO` leaves the field `logger` of the `TerminalIO` nil,
for all options that it accepts; a `TerminalIO` with a nil `logger` never
returns an error that is not nil from `ProcessOutput`, whatever the state of
its stream and the input: a panic of `NextSlice` is recovered and then raised
again by `t.logger.Error`.  On a 40x40 `TerminalIO` with a logger given in the
options the input `ESC c` (full reset, which is `panic("unimplemented")`)
makes `ProcessOutput` panic. -/
theorem C24_recovered_panic_is_raised_again :
    (∀ opts : Options,
      ( NewTerminalIO opts).map (fun t => t.logger) = Except.ok none
        ∨ ∃ e, NewTerminalIO opts = Except.error e)
    ∧ (∀ (RuneWidth : Nat → Nat) (styleHash : style.Style → Nat)
        (s : stream.Stream StreamHandler) (buf : List Nat),
      ( TerminalIO.ProcessOutput RuneWidth styleHash { terminalStream := s, logger := none }
          buf).map Prod.snd = Except.ok false
        ∨ ∃ e, TerminalIO.ProcessOutput RuneWidth styleHash
            { terminalStream := s, logger := none } buf = Except.error e)
    ∧ ( NewTerminalIO { Rows := 40, Cols := 40, Logger := some () }).map (fun t => t.logger)
        = Except.ok none
    ∧ session { Rows := 40, Cols := 40, Logger := some () } [0x1B, 0x63]
        = Except.error Fault.panic := by
  refine ⟨?_, ?_, by decide!, by decide!⟩
  · intro opts
    unfold NewTerminalIO
    cases h : terminal.NewTerminal core.initStore
        { Rows := opts.Rows, Cols := opts.Cols, Modes := some core.ModePacked,
          Logger := opts.Logger } with
    | error e => exact Or.inr ⟨e, rfl⟩
    | ok term => exact Or.inl rfl
  · intro RuneWidth styleHash s buf
    unfold TerminalIO.ProcessOutput
    cases h : stream.Stream.NextSlice (streamHandler RuneWidth styleHash) s buf with
    | ok s1 => exact Or.inl rfl
    | error e =>
      cases e with
      | panic => exact Or.inr ⟨Fault.panic, rfl⟩
      | outside => exact Or.inr ⟨Fault.outside, rfl⟩

end termio

/-! ## C31, C33 to C39: lines, cleared cells, pages and the cursor cache -/

namespace terminal

/-- C31: on a fresh terminal of 80 columns and 24 rows (full-screen scrolling
region, cursor at the origin) `InsertLines(1)` panics: it asks the cursor pin
for `Down(rows - y)`, one row more than lie below the cursor.  `DeleteLines(1)`
panics as well, at the origin in `Page.MoveCells` (its margin test compares
`right` with `cols`, so it always takes the margin path) and on the last row
in `Down(1)`.  With `repeated = 0` both return at once. -/
theorem C31_insert_and_delete_lines_panic :
    ((freshTerminal 80 24).bind (fun t => Terminal.InsertLines (fun _ => 0) t 1)).map
        Terminal.cursorState = Except.error Fault.panic
    ∧ ((freshTerminal 80 24).bind (fun t => Terminal.DeleteLines (fun _ => 0) t 1)).map
        Terminal.cursorState = Except.error Fault.panic
    ∧ (((freshTerminal 80 24).bind (fun t => Terminal.SetCursorPosition (fun _ => 0) t 24 1)).bind
        (fun t => Terminal.DeleteLines (fun _ => 0) t 1)).map
        Terminal.cursorState = Except.error Fault.panic
    ∧ (((freshTerminal 80 24).bind (fun t => Terminal.InsertLines (fun _ => 0) t 0)).bind
        (fun t => Terminal.DeleteLines (fun _ => 0) t 0)).map
        Terminal.cursorState = Except.ok (0, 0, false) := by
  refine ⟨by decide!, by decide!, by decide!, by decide!⟩

/-- C37: on a terminal of 500 columns and 100 rows (pages of 92 and 8 rows)
with `a` in the last row of the first page and `b` in the first row of the
second, `PageList.EncodeUtf8` of these two rows writes `ab`; the same two rows
in one page (500 columns, 2 rows) are written as `a`, newline, `b`.  Every
chunk is encoded with `Preceding` zero, so the newline pending at the end of
the first page is lost. -/
theorem C37_newline_lost_at_page_boundary :
    twoRowsEncoded 500 100 91 0 91 1 0 = Except.ok [0x61, 0x62]
    ∧ twoRowsEncoded 500 2 0 0 0 0 1 = Except.ok [0x61, 0x0A, 0x62] := by
  refine ⟨by decide!, by decide!⟩

/-- C38: after `SetAttribute` of a direct background colour, `Print('a')` and
`EraseInLine(Right)` with the cursor in column 1, row 0 has `Styled = false`
although its cell in column 0 has `StyleID = 1`; before the erase the row was
`Styled`.  `ClearCells` resets the flag when `toX - fromX + 1 == cols`, that
is when all columns but one are cleared.  The same happens with Bold. -/
theorem C38_styled_flag_false_negative :
    (styledPrint [{ Typ := sgr.AttributeType.AttributeTypeDirectColorBg,
                    DirectColorBg := { R := 1, G := 2, B := 3 } }] [0x61]).bind
        (fun t => t.styledAt 0 [0]) = Except.ok (true, [1])
    ∧ ((styledPrint [{ Typ := sgr.AttributeType.AttributeTypeDirectColorBg,
                       DirectColorBg := { R := 1, G := 2, B := 3 } }] [0x61]).bind
        (fun t => t.EraseInLine csi.ELModeRight)).bind
        (fun t => t.styledAt 0 [0]) = Except.ok (false, [1])
    ∧ ((styledPrint [{ Typ := sgr.AttributeType.AttributeTypeBold }] [0x61]).bind
        (fun t => t.EraseInLine csi.ELModeRight)).bind
        (fun t => t.styledAt 0 [0]) = Except.ok (false, [1]) := by
  refine ⟨by decide!, by decide!, by decide!⟩

/-- C39: on a fresh terminal of 80 columns and 24 rows, after `Print` of `ab`
and `EraseInLine(Right)` the cursor's cached cell is the cell 2 of the first
page while column 2 of its row holds a new cell (`ClearCells` stores new
pointers in the row and leaves the cursor as it is); `Print('c')` then writes
to the old cell: the cursor moves to (3, 0), column 2 of row 0 stays empty and
`PlainString()` is `ab`, not `abc`. -/
theorem C39_cursor_cell_stale_after_erase :
    (((freshTerminal 80 24).bind
        (fun t => Terminal.printAll (fun _ => 1) (fun _ => 0) t [0x61, 0x62])).bind
        (fun t => t.EraseInLine csi.ELModeRight)).bind Terminal.cachedCell
      = Except.ok (some 46160, some 2)
    ∧ ((((freshTerminal 80 24).bind
        (fun t => Terminal.printAll (fun _ => 1) (fun _ => 0) t [0x61, 0x62])).bind
        (fun t => t.EraseInLine csi.ELModeRight)).bind
        (fun t => Terminal.printAll (fun _ => 1) (fun _ => 0) t [0x63])).bind
        Terminal.cursorAndDump = Except.ok ((3, 0, false), [0x61, 0x62])
    ∧ (((((freshTerminal 80 24).bind
        (fun t => Terminal.printAll (fun _ => 1) (fun _ => 0) t [0x61, 0x62])).bind
        (fun t => t.EraseInLine csi.ELModeRight)).bind
        (fun t => Terminal.printAll (fun _ => 1) (fun _ => 0) t [0x63])).bind
        (fun t => t.cellAt 2 0)).map (fun c => c.ContentCP) = Except.ok 0
    ∧ ((freshTerminal 80 24).bind
        (fun t => Terminal.printAll (fun _ => 1) (fun _ => 0) t [0x61, 0x62, 0x63])).bind
        Terminal.cursorAndDump = Except.ok ((3, 0, false), [0x61, 0x62, 0x63]) := by
  refine ⟨by decide!, by decide!, by decide!, by decide!⟩

end terminal

namespace screen

/-- C33: on a fresh screen of 80 columns and 24 rows with the cursor style set
to Bold (no background colour), `ClearCells` of the columns 0 to 2 of the
cursor row stores nil pointers there (`blankCell` returns the nil result of
`BGCell`), and `DumpString` then panics on them.  With the default style the
cleared cells are zero cells, with a direct background colour they are the
background cells of the style. -/
theorem C33_cleared_cells_are_nil_for_bold :
    clearedCells [{ Typ := sgr.AttributeType.AttributeTypeBold }] 0 3 [0, 1, 2, 3]
      = Except.ok [none, none, none, some {}]
    ∧ clearedDump [{ Typ := sgr.AttributeType.AttributeTypeBold }] 0 3
      = Except.error Fault.panic
    ∧ clearedCells [] 0 3 [0, 1, 2, 3] = Except.ok [some {}, some {}, some {}, some {}]
    ∧ clearedCells [{ Typ := sgr.AttributeType.AttributeTypeDirectColorBg,
                      DirectColorBg := { R := 1, G := 2, B := 3 } }] 0 3 [0, 3]
      = Except.ok [some { ContentTag := page.ContentTagBGColorRGB,
                          ContentColorRGB := { R := 1, G := 2, B := 3 } }, some {}] := by
  refine ⟨by decide!, by decide!, by decide!, by decide!⟩

end screen

namespace pagelist

/-- C34: the list built by `NewPageList(500, 100)` has pages of 92 and 8 rows;
84 calls of `Grow` fill the second page, and the next call prunes: it returns
the first node, but `InsertAfter(last, first)` is called without taking the
first node out of the list, so `First` still is that node, now with `Next`
nil and one row.  The pages reachable from `First` then hold 1 row, fewer than
`Rows = 100`, and the former second page is not `First`. -/
theorem C34_prune_keeps_the_head :
    ((PageList.NewPageList 500 100).bind PageList.reach) = Except.ok [(0, 92), (1, 8)]
    ∧ (((PageList.NewPageList 500 100).bind (PageList.growTimes 84)).bind PageList.reach)
        = Except.ok [(0, 92), (1, 92)]
    ∧ (((PageList.NewPageList 500 100).bind (PageList.growTimes 84)).bind
        (fun p => p.Grow)).map (fun r => (r.2, r.1.Pages, r.1.Rows))
        = Except.ok (some 0, some { First := some 0, Last := some 0 }, 100)
    ∧ (((PageList.NewPageList 500 100).bind (PageList.growTimes 85)).bind PageList.reach)
        = Except.ok [(0, 1)] := by
  refine ⟨by decide!, by decide!, by decide!, by decide!⟩

/-- C35: for the list built by `NewPageList(500, 100)`, whose 100 rows span two
pages (92 and 8 rows), `GetTopLeft(TagActive)` is nil, not the pin
`(First, 0, 0)`: the loop starts at `First` and walks `Prev`.  For the one-page
list of `NewPageList(80, 24)` it is the pin `(First, 0, 0)`. -/
theorem C35_active_top_left_nil_on_two_pages :
    ((PageList.NewPageList 500 100).bind (fun p => p.GetTopLeft point.Tag.TagActive))
        = Except.ok none
    ∧ ((PageList.NewPageList 500 100).map (fun p => p.Pages))
        = Except.ok (some { First := some 0, Last := some 1 })
    ∧ ((PageList.NewPageList 80 24).bind (fun p => p.GetTopLeft point.Tag.TagActive))
        = Except.ok (some { Node := some 0, X := 0, Y := 0 }) := by
  refine ⟨by decide!, by decide!, by decide!⟩

/-- C36: on the two-page list of `NewPageList(500, 100)`, `EraseRow` of the
first row of the screen panics: the loop over the following pages never
advances `next`, so its second round reads `node.Next.Data` with `node` the
last page.  On the one-page list of `NewPageList(80, 24)` with a tracked pin
at row 5, `EraseRow` of row 2 rotates the row pointers 2 to 23 and returns,
but the tracked pin stays at row 5 (`TrackedPins.All()` yields nothing). -/
theorem C36_erase_row_panics_on_two_pages :
    ((PageList.NewPageList 500 100).bind
        (fun p => p.EraseRow { Tag := point.Tag.TagScreen, X := 0, Y := 0 })).map
        (fun p => p.TrackedPins) = Except.error Fault.panic
    ∧ ((PageList.NewPageList 80 24).bind
        (fun p => (p.TrackPin { Node := some 0, X := 0, Y := 5 }).1.EraseRow
          { Tag := point.Tag.TagScreen, X := 0, Y := 2 })).map
        (fun p => (p.TrackedPins, (List.range 5).map (p.mem.nodes 0).Data.Rows,
          (p.mem.nodes 0).Data.Rows 23, (p.mem.nodes 0).Data.Size.Rows))
        = Except.ok ([{ Node := some 0, X := 0, Y := 5 }], [0, 1, 3, 4, 5], 2, 24) := by
  refine ⟨by decide!, by decide!⟩

end pagelist

/-! ## C40: `Pin.Down` followed by `Pin.Up` -/

namespace pagelist

theorem length_le_of_nodup_lt (l : List Nat) (n : Nat) (hd : l.Nodup)
    (hl : ∀ c ∈ l, c < n) : l.length ≤ n := by
  have h1 : l.toFinset ⊆ Finset.range n := by
    intro c hc
    exact Finset.mem_range.mpr (hl c (List.mem_toFinset.mp hc))
  have h2 := Finset.card_le_card h1
  rw [List.toFinset_card_of_nodup hd, Finset.card_range] at h2
  exact h2

theorem rowsOf_cons (h : Heap) (a : Nat) (ns : List Nat) :
    rowsOf h (a :: ns) = (h.nodes a).Data.Size.Rows + rowsOf h ns := by
  simp [rowsOf]

theorem rowsOf_append (h : Heap) (l1 l2 : List Nat) :
    rowsOf h (l1 ++ l2) = rowsOf h l1 + rowsOf h l2 := by
  simp [rowsOf]

theorem linked_cons_cons (h : Heap) (a b : Nat) (rest : List Nat) :
    linked h (a :: b :: rest) = true ↔
      (h.nodes a).Next = some b ∧ (h.nodes b).Prev = some a ∧ linked h (b :: rest) = true := by
  simp [linked, and_assoc]

theorem linked_init (h : Heap) : ∀ (l1 l2 : List Nat),
    linked h (l1 ++ l2) = true → linked h l1 = true
  | [], _, _ => rfl
  | [_], _, _ => rfl
  | a :: b :: rest, l2, hl => by
    rw [List.cons_append, List.cons_append, linked_cons_cons] at hl
    rw [linked_cons_cons]
    exact ⟨hl.1, hl.2.1, linked_init h (b :: rest) l2 hl.2.2⟩

theorem linked_last (h : Heap) : ∀ (l : List Nat) (a c : Nat),
    linked h (a :: l ++ [c]) = true → (h.nodes c).Prev = some ((a :: l).getLast (by simp))
  | [], a, c, hl => by
    rw [List.cons_append, List.nil_append, linked_cons_cons] at hl
    simpa using hl.2.1
  | b :: l, a, c, hl => by
    rw [List.cons_append, List.cons_append, linked_cons_cons] at hl
    have := linked_last h l b c hl.2.2
    simpa using this

/-- The loop of `Down` on a chain of pages: it stops in the page that holds
the row counted by `rem`. -/
theorem downLoop_linked (h : Heap) : ∀ (ns : List Nat) (a fuel rem : Nat),
    linked h (a :: ns) = true → ns.length < fuel → 1 ≤ rem → rem ≤ rowsOf h (a :: ns) →
    ∃ mids b post r, a :: ns = mids ++ b :: post ∧ rem = rowsOf h mids + r ∧ 1 ≤ r ∧
      r ≤ (h.nodes b).Data.Size.Rows ∧
      Pin.downLoop h fuel (some a) rem = Except.ok (some (some b, r))
  | ns, a, 0, rem, _, hf, _, _ => absurd hf (Nat.not_lt_zero _)
  | ns, a, fuel + 1, rem, hl, hf, h1, h2 => by
    by_cases hgt : rem > (h.nodes a).Data.Size.Rows
    · cases ns with
      | nil =>
        rw [rowsOf_cons] at h2
        simp [rowsOf] at h2
        omega
      | cons b ns =>
        rw [linked_cons_cons] at hl
        rw [rowsOf_cons] at h2
        have hf2 : ns.length < fuel := by simp at hf; omega
        obtain ⟨mids, c, post, r, e1, e2, e3, e4, e5⟩ :=
          downLoop_linked h ns b fuel (rem - (h.nodes a).Data.Size.Rows) hl.2.2 hf2
            (by omega) (by omega)
        refine ⟨a :: mids, c, post, r, by rw [e1]; rfl, ?_, e3, e4, ?_⟩
        · rw [rowsOf_cons]; omega
        · unfold Pin.downLoop
          simp only [Heap.node, terminal.pure_ok, terminal.ok_bind, hgt, ↓reduceIte, hl.1]
          exact e5
    · refine ⟨[], a, ns, rem, rfl, by simp [rowsOf], h1, by omega, ?_⟩
      unfold Pin.downLoop
      simp only [Heap.node, terminal.pure_ok, terminal.ok_bind, hgt, ↓reduceIte]

/-- The loop of `Up` on a chain of pages walked backwards: it passes the pages
`mids` and stops in the page before them. -/
theorem upLoop_linked (h : Heap) (a : Nat) (k : Nat) (hk1 : 1 ≤ k)
    (hk2 : k ≤ (h.nodes a).Data.Size.Rows) : ∀ (mids : List Nat) (fuel : Nat),
    linked h (a :: mids) = true → mids.length < fuel →
    Pin.upLoop h fuel (some ((a :: mids).getLast (by simp))) (k + rowsOf h mids)
      = Except.ok (some (some a, k)) := by
  intro mids
  induction mids using List.reverseRecOn with
  | nil =>
    intro fuel _ hf
    cases fuel with
    | zero => exact absurd hf (Nat.not_lt_zero _)
    | succ fuel =>
      have hle : ¬ (k + rowsOf h [] > (h.nodes a).Data.Size.Rows) := by
        simp [rowsOf]; omega
      unfold Pin.upLoop
      simp only [List.getLast_singleton, Heap.node, terminal.pure_ok, terminal.ok_bind, hle,
        ↓reduceIte]
      simp [rowsOf]
  | append_singleton mids c ih =>
    intro fuel hl hf
    cases fuel with
    | zero => exact absurd hf (Nat.not_lt_zero _)
    | succ fuel =>
      have hprev := linked_last h mids a c (by simpa using hl)
      have hpre : linked h (a :: mids) = true :=
        linked_init h (a :: mids) [c] (by simpa using hl)
      have hf2 : mids.length < fuel := by simp at hf; omega
      have hlast : (a :: (mids ++ [c])).getLast (by simp) = c := by
        simp [List.getLast_cons]
      have hgt : k + rowsOf h (mids ++ [c]) > (h.nodes c).Data.Size.Rows := by
        rw [rowsOf_append]; simp [rowsOf]; omega
      have hsub : k + rowsOf h (mids ++ [c]) - (h.nodes c).Data.Size.Rows
          = k + rowsOf h mids := by
        rw [rowsOf_append]; simp [rowsOf]; omega
      unfold Pin.upLoop
      simp only [hlast, Heap.node, terminal.pure_ok, terminal.ok_bind, hgt, ↓reduceIte, hprev,
        hsub]
      exact ih fuel hpre hf2

/-- C40: let `a :: rest` be the node of a pin `p` and the nodes after it in a
page list held in the memory `h` (linked by `Next` and `Prev`, allocated,
without repetition), each page with `Size.Rows >= 1`, let `p` be on a valid
row (`y < Size.Rows` of its page) and let at least `n` rows lie below `p` in
these pages.  Then `p.Down(n)` returns a pin `q` on a valid row of one of the
pages, with the column of `p`, and `q.Up(n)` returns `p`. -/
theorem C40_down_then_up (h : Heap) (a : Nat) (rest : List Nat) (x y n : Nat)
    (hl : linked h (a :: rest) = true)
    (hd : (a :: rest).Nodup) (ha : ∀ c ∈ a :: rest, c < h.nextNode)
    (hy : y < (h.nodes a).Data.Size.Rows)
    (hn : n + y + 1 ≤ rowsOf h (a :: rest)) :
    ∃ q c, Pin.Down { Node := some a, X := x, Y := y } h n = Except.ok (some q) ∧
      q.Node = some c ∧ c ∈ a :: rest ∧ q.X = x ∧ q.Y < (h.nodes c).Data.Size.Rows ∧
      q.Up h n = Except.ok (some { Node := some a, X := x, Y := y }) := by
  have hlen := length_le_of_nodup_lt (a :: rest) h.nextNode hd ha
  have hsub : usub (h.nodes a).Data.Size.Rows (y + 1)
      = Except.ok ((h.nodes a).Data.Size.Rows - (y + 1)) := terminal.usub_ok _ _ (by omega)
  by_cases hsame : n ≤ (h.nodes a).Data.Size.Rows - (y + 1)
  · refine ⟨{ Node := some a, X := x, Y := y + n }, a, ?_, rfl, by simp, rfl, by
      show y + n < _; omega, ?_⟩
    · unfold Pin.Down
      simp only [Heap.node, terminal.pure_ok, terminal.ok_bind, hsub, hsame, ↓reduceIte]
    · unfold Pin.Up
      have : n ≤ y + n := by omega
      simp only [this, ↓reduceIte, terminal.pure_ok, Nat.add_sub_cancel]
  · rw [rowsOf_cons] at hn
    cases rest with
    | nil => simp [rowsOf] at hn; omega
    | cons b rest =>
      have hl2 := (linked_cons_cons h a b rest).mp hl
      have hf : rest.length < h.nextNode + 1 := by simp at hlen; omega
      obtain ⟨mids, c, post, r, e1, e2, e3, e4, e5⟩ :=
        downLoop_linked h rest b (h.nextNode + 1)
          (n - ((h.nodes a).Data.Size.Rows - (y + 1))) hl2.2.2 hf (by omega) (by omega)
      have hmem : c ∈ a :: b :: rest := by
        rw [e1]; simp
      refine ⟨{ Node := some c, X := x, Y := r - 1 }, c, ?_, rfl, hmem, rfl, by
        show r - 1 < _; omega, ?_⟩
      · unfold Pin.Down
        simp only [Heap.node, terminal.pure_ok, terminal.ok_bind, hsub, hsame, ↓reduceIte,
          hl2.1, e5]
      · have hchain : linked h (a :: mids ++ [c]) = true := by
          apply linked_init h (a :: mids ++ [c]) post
          rw [← hl]
          congr 1
          simp [e1]
        have hprev := linked_last h mids a c hchain
        have hpre : linked h (a :: mids) = true :=
          linked_init h (a :: mids) [c] (by simpa using hchain)
        have hml : mids.length < h.nextNode + 1 := by
          have : mids.length ≤ (b :: rest).length := by rw [e1]; simp
          simp at this hlen; omega
        have hup := upLoop_linked h a ((h.nodes a).Data.Size.Rows - y) (by omega) (by omega)
          mids (h.nextNode + 1) hpre hml
        have hnot : ¬ (n ≤ r - 1) := by omega
        have hrem : n - (r - 1) = (h.nodes a).Data.Size.Rows - y + rowsOf h mids := by omega
        have hback : usub (h.nodes a).Data.Size.Rows ((h.nodes a).Data.Size.Rows - y)
            = Except.ok y := by
          rw [terminal.usub_ok _ _ (by omega)]
          congr 1
          omega
        unfold Pin.Up
        simp only [hnot, ↓reduceIte, Heap.node, terminal.pure_ok, terminal.ok_bind, hprev, hrem,
          hup, hback]

/-- C40 at the list of `NewPageList(500, 100)` (pages of 92 and 8 rows): from
row 90 of the first page, column 3, five rows down and back. -/
theorem C40_down_then_up_witness :
    linked (memOf 500 100) [0, 1] = true ∧ [0, 1].Nodup ∧
    (∀ c ∈ [0, 1], c < (memOf 500 100).nextNode) ∧
    90 < ((memOf 500 100).nodes 0).Data.Size.Rows ∧
    5 + 90 + 1 ≤ rowsOf (memOf 500 100) [0, 1] ∧
    ∃ q c, Pin.Down { Node := some 0, X := 3, Y := 90 } (memOf 500 100) 5 = Except.ok (some q) ∧
      q.Node = some c ∧ c ∈ [0, 1] ∧ q.X = 3 ∧
      q.Y < ((memOf 500 100).nodes c).Data.Size.Rows ∧
      q.Up (memOf 500 100) 5 = Except.ok (some { Node := some 0, X := 3, Y := 90 }) :=
  ⟨by decide!, by decide, by decide!, by decide!, by decide!,
    C40_down_then_up (memOf 500 100) 0 [1] 3 90 5 (by decide!) (by decide) (by decide!)
      (by decide!) (by decide!)⟩

end pagelist

namespace RefCountedSet

variable {α : Type}

theorem Release_single (S : RefCountedSet α) (e : elem α) (hS : S.Single (some e))
    (hr : e.meta.ref = 1) :
    ∃ S', S.Release 1 = some S' ∧
      S'.Single (some { e with meta := { e.meta with ref := 0 } }) := by
  obtain ⟨items, table, maxPSL, pslStats, nextID, living⟩ := S
  obtain ⟨h1, h2, h3, h4, h5, h6, h7, h8, h9⟩ := hS
  simp only at h1 h2 h3 h4 h5 h6
  subst h1 h3 h4 h5 h6
  refine ⟨{ items := none :: some { e with meta := { e.meta with ref := 0 } } ::
              List.replicate 126 none,
            table := table, maxPSL := 0, pslStats := 1 :: List.replicate 31 0, nextID := 2,
            living := 0 }, ?_, ?_⟩
  · simp [Release, item, setItem, hr]
  · constructor <;> simp_all

theorem Add_empty [Hashable α] (S : RefCountedSet α) (hS : S.Single none) (v : α) :
    ∃ S', S.Add v = some (S', 1) ∧ ∃ e, S'.Single (some e) ∧ e.meta.ref = 1 := by
  obtain ⟨items, table, maxPSL, pslStats, nextID, living⟩ := S
  obtain ⟨h1, h2, h3, h4, h5, h6, h7, h8, h9⟩ := hS
  simp only at h1 h2 h3 h4 h5 h6
  subst h1 h3 h4 h5 h6
  have hb : (Hashable.Hash v + 0) % word64 % 128 < 128 := Nat.mod_lt _ (by decide)
  refine ⟨{ items := none :: some { data := some v, meta :=
              { bucketID := (Hashable.Hash v + 0) % word64 % 128, psl := 0, ref := 1 } } ::
              List.replicate 126 none,
            table := Function.update (Function.update table
              ((Hashable.Hash v + 0) % word64 % 128) 1) ((Hashable.Hash v + 0) % word64 % 128) 1,
            maxPSL := 0, pslStats := 1 :: List.replicate 31 0, nextID := 2,
            living := 1 }, ?_,
          { data := some v, meta :=
              { bucketID := (Hashable.Hash v + 0) % word64 % 128, psl := 0, ref := 1 } },
          ?_, rfl⟩
  · simp [Add, trimLoop, Lookup, lookupLoop, probe, Insert, insertLoop, InsertState.held,
      InsertState.setHeldMeta, addStat, setTable, setItem, item, h2]
  · constructor <;> simp_all [Function.update]

theorem trimLoop_dead (S : RefCountedSet α) (e : elem α) (hS : S.Single (some e))
    (hr : e.meta.ref = 0) :
    ∃ S', trimLoop S.nextID S = some S' ∧ S'.Single none := by
  obtain ⟨items, table, maxPSL, pslStats, nextID, living⟩ := S
  obtain ⟨h1, h2, h3, h4, h5, h6, h7, h8, h9⟩ := hS
  simp only at h1 h2 h3 h4 h5 h6
  subst h1 h3 h4 h5 h6
  have hp := h7 e rfl
  have hb := h8 e rfl
  refine ⟨{ items := none :: none :: List.replicate 126 none,
            table := Function.update (Function.update table e.meta.bucketID 0)
              e.meta.bucketID 0,
            maxPSL := 0, pslStats := 0 :: List.replicate 31 0, nextID := 1,
            living := e.meta.ref }, ?_, ?_⟩
  · simp [trimLoop, DeleteItem, shiftLoop, shrinkLoop, pslSum, addStat, setTable, setItem, item,
      h2, hr, hp, Function.update]
  · constructor <;> simp_all [Function.update]

theorem trimLoop_empty (S : RefCountedSet α) (hS : S.Single none) :
    trimLoop S.nextID S = some S := by
  have h5 := hS.nextID
  simp only at h5
  rw [h5]
  simp [trimLoop, h5]

theorem Add_dead [Hashable α] (S : RefCountedSet α) (e : elem α) (hS : S.Single (some e))
    (hr : e.meta.ref = 0) (v : α) :
    ∃ S', S.Add v = some (S', 1) ∧ ∃ e', S'.Single (some e') ∧ e'.meta.ref = 1 := by
  obtain ⟨S1, t1, s1⟩ := trimLoop_dead S e hS hr
  obtain ⟨S2, a2, s2⟩ := Add_empty S1 s1 v
  refine ⟨S2, ?_, s2⟩
  have t2 := trimLoop_empty S1 s1
  unfold Add at a2 ⊢
  rw [t2] at a2
  rw [t1]
  exact a2

end RefCountedSet

namespace RefCountedSet

theorem Add_ready {α : Type} [Hashable α] (S : RefCountedSet α) (cell : Option (elem α))
    (hS : S.Single cell) (hr : ∀ e, cell = some e → e.meta.ref = 0) (v : α) :
    ∃ S', S.Add v = some (S', 1) ∧ ∃ e', S'.Single (some e') ∧ e'.meta.ref = 1 := by
  cases cell with
  | none => exact Add_empty S hS v
  | some e => exact Add_dead S e hS (hr e rfl) v

end RefCountedSet

namespace screen

namespace Screen

theorem styles_setPage (s : Screen) (a : Nat) (S : RefCountedSet style.Style) :
    (((s.setMem (s.mem.setPage a { (s.mem.nodes a).Data with Styles := S })).mem.nodes a).Data.Styles)
      = S := by
  simp [Screen.setMem, Screen.mem, Heap.setPage, Heap.setNode]

/-- With `StyleID = 0` nothing is released. -/
theorem ManualStyleUpdate_zero (styleHash : style.Style → Nat) (s : Screen) (a : Nat)
    (hn : s.Cursor.PagePin.Node = some a) (hx : s.Cursor.X < s.cols) (hy : s.Cursor.Y < s.rows)
    (h0 : s.Cursor.StyleID = 0) (cell : Option (elem style.Style))
    (hc : (s.mem.nodes a).Data.Styles.Single cell) (hr : ∀ e, cell = some e → e.meta.ref = 0) :
    ∃ s', ManualStyleUpdate styleHash s = Except.ok s' ∧ s'.StylesSingle a ∧
      s'.Cursor.Style = s.Cursor.Style ∧ s'.cols = s.cols ∧ s'.rows = s.rows ∧
      (s'.Cursor.StyleID = 0 ↔ s.Cursor.Style.IsDefault = true) := by
  by_cases hd : s.Cursor.Style.IsDefault = true
  · refine ⟨s.setCursor { s.Cursor with StyleID := 0 }, ?_, ?_, rfl, rfl, rfl, ?_⟩
    · unfold ManualStyleUpdate
      simp only [hn, terminal.orPanic_some, terminal.ok_bind, h0, ne_eq, not_true_eq_false,
        ↓reduceIte, terminal.pure_ok, hd]
    · exact ⟨hn, hx, hy, Or.inl ⟨rfl, cell, hc, hr⟩⟩
    · simp [Screen.setCursor, hd]
  · obtain ⟨S', a1, e', a2, a3⟩ :=
      @RefCountedSet.Add_ready _ (style.hashable styleHash) _ cell hc hr s.Cursor.Style
    refine ⟨(((s.setCursor { s.Cursor with StyleID := 0 }).setMem
        (s.mem.setPage a { (s.mem.nodes a).Data with Styles := S' })).setCursor
          { s.Cursor with StyleID := 1 }), ?_, ?_, rfl, rfl, rfl, ?_⟩
    · have hA : Assert (decide (s.Cursor.X < s.cols) && decide (s.Cursor.Y < s.rows))
          = Except.ok () := by simp [hx, hy, Assert]; rfl
      simp only [Screen.mem] at a1
      unfold ManualStyleUpdate
      simp only [hn, terminal.orPanic_some, terminal.ok_bind, h0, ne_eq, not_true_eq_false,
        ↓reduceIte, terminal.pure_ok, hd, Bool.false_eq_true, Screen.setCursor, Screen.mem,
        Screen.setMem, a1, AssertIntegrity, hA]
    · refine ⟨hn, hx, hy, Or.inr ⟨rfl, e', ?_, a3⟩⟩
      have := styles_setPage s a S'
      simp only [Screen.setCursor, Screen.setMem, Screen.mem] at this ⊢
      rw [this]
      exact a2
    · simp [Screen.setCursor, Screen.setMem, hd]

/-- With a style to release, the method goes on as from `StyleID = 0` in the
memory after the release. -/
theorem ManualStyleUpdate_release (styleHash : style.Style → Nat) (s : Screen) (a : Nat)
    (hn : s.Cursor.PagePin.Node = some a) (h1 : s.Cursor.StyleID ≠ 0)
    (S' : RefCountedSet style.Style)
    (hrel : (s.mem.nodes a).Data.Styles.Release s.Cursor.StyleID = some S') :
    ManualStyleUpdate styleHash s = ManualStyleUpdate styleHash
      ((s.setMem (s.mem.setPage a { (s.mem.nodes a).Data with Styles := S' })).setCursor
        { s.Cursor with StyleID := 0 }) := by
  simp only [Screen.mem] at hrel
  unfold ManualStyleUpdate
  simp only [hn, terminal.orPanic_some, terminal.ok_bind, h1, ne_eq, not_false_eq_true,
    not_true_eq_false, ↓reduceIte, terminal.pure_ok, hrel, Screen.setCursor, Screen.mem,
    Screen.setMem]

/-- The method `ManualStyleUpdate` keeps the shape of the style set, and leaves
`StyleID = 0` exactly for the default style. -/
theorem ManualStyleUpdate_single (styleHash : style.Style → Nat) (s : Screen) (a : Nat)
    (hs : s.StylesSingle a) :
    ∃ s', ManualStyleUpdate styleHash s = Except.ok s' ∧ s'.StylesSingle a ∧
      s'.Cursor.Style = s.Cursor.Style ∧ s'.cols = s.cols ∧ s'.rows = s.rows ∧
      (s'.Cursor.StyleID = 0 ↔ s.Cursor.Style.IsDefault = true) := by
  obtain ⟨hn, hx, hy, hsh⟩ := hs
  rcases hsh with ⟨h0, cell, hc, hr⟩ | ⟨h1, e, he, hr⟩
  · exact ManualStyleUpdate_zero styleHash s a hn hx hy h0 cell hc hr
  · obtain ⟨S', r1, r2⟩ := RefCountedSet.Release_single _ e he hr
    have hne : s.Cursor.StyleID ≠ 0 := by rw [h1]; decide
    rw [ManualStyleUpdate_release styleHash s a hn hne S' (by rw [h1]; exact r1)]
    have hst := styles_setPage s a S'
    exact ManualStyleUpdate_zero styleHash _ a hn hx hy rfl _
      (by
        simp only [Screen.setCursor, Screen.setMem, Screen.mem] at hst ⊢
        rw [hst]
        exact r2)
      (by
        intro e' he'
        cases he'
        rfl)

end Screen

end screen

namespace screen

namespace Screen

/-- One call of `ManualStyleUpdate` after the cursor style has been replaced. -/
theorem update_single (styleHash : style.Style → Nat) (s : Screen) (a : Nat)
    (hs : s.StylesSingle a) (st : style.Style) :
    ∃ s', ManualStyleUpdate styleHash (s.setCursor { s.Cursor with Style := st })
        = Except.ok s' ∧ s'.StylesSingle a ∧
      (s'.Cursor.StyleID = 0 ↔ s'.Cursor.Style.IsDefault = true) := by
  have hs2 : (s.setCursor { s.Cursor with Style := st }).StylesSingle a :=
    ⟨hs.node, hs.x, hs.y, hs.shape⟩
  obtain ⟨s', e1, e2, e3, _, _, e4⟩ := ManualStyleUpdate_single styleHash _ a hs2
  refine ⟨s', e1, e2, ?_⟩
  rw [e3]
  exact e4

/-- One call of `SetAttribute` keeps the shape of the style set and the link
between `StyleID` and the style. -/
theorem SetAttribute_single (styleHash : style.Style → Nat) (s : Screen) (a : Nat)
    (hs : s.StylesSingle a) (hi : s.Cursor.StyleID = 0 ↔ s.Cursor.Style.IsDefault = true)
    (attr : sgr.Attribute) :
    ∃ s', SetAttribute styleHash s attr = Except.ok s' ∧ s'.StylesSingle a ∧
      (s'.Cursor.StyleID = 0 ↔ s'.Cursor.Style.IsDefault = true) := by
  unfold SetAttribute
  cases attr.Typ <;> simp only [] <;>
    first
    | exact update_single styleHash s a hs _
    | exact ⟨s, rfl, hs, hi⟩

/-- A sequence of `SetAttribute` calls keeps them as well. -/
theorem setAttributes_single (styleHash : style.Style → Nat) (a : Nat) :
    ∀ (attrs : List sgr.Attribute) (s : Screen), s.StylesSingle a →
      (s.Cursor.StyleID = 0 ↔ s.Cursor.Style.IsDefault = true) →
      ∃ s', setAttributes styleHash s attrs = Except.ok s' ∧ s'.StylesSingle a ∧
        (s'.Cursor.StyleID = 0 ↔ s'.Cursor.Style.IsDefault = true)
  | [], s, hs, hi => ⟨s, rfl, hs, hi⟩
  | attr :: rest, s, hs, hi => by
    obtain ⟨s1, e1, h1, i1⟩ := SetAttribute_single styleHash s a hs hi attr
    obtain ⟨s2, e2, h2, i2⟩ := setAttributes_single styleHash a rest s1 h1 i1
    refine ⟨s2, ?_, h2, i2⟩
    unfold setAttributes
    rw [e1]
    exact e2

/-- The number of live styles under the shape: 0 with `StyleID = 0`, else 1. -/
theorem count_single (s : Screen) (a : Nat) (hs : s.StylesSingle a) :
    (s.mem.nodes a).Data.Styles.Count = if s.Cursor.StyleID = 0 then 0 else 1 := by
  rcases hs.shape with ⟨h0, cell, hc, hr⟩ | ⟨h1, e, he, hr⟩
  · have hl := hc.living
    cases cell with
    | none => simp [RefCountedSet.Count, hl, h0]
    | some e => simp [RefCountedSet.Count, hl, h0, hr e rfl]
  · have hl := he.living
    simp [RefCountedSet.Count, hl, h1, hr]

end Screen

end screen

namespace datastruct

namespace IntrusiveLinkedList

theorem InsertAfter_keeps (l : IntrusiveLinkedList) (h : Heap) (node newNode : Nat) :
    (l.InsertAfter h node newNode).1.nextNode = h.nextNode ∧
    (∀ c, ((l.InsertAfter h node newNode).1.nodes c).Data = (h.nodes c).Data) ∧
    ((l.InsertAfter h node newNode).2.First = l.First) := by
  unfold InsertAfter
  dsimp only
  split <;> refine ⟨rfl, ?_, rfl⟩ <;> intro c <;>
    simp only [Heap.setNode, Function.update] <;> split_ifs <;> simp_all

theorem InsertBefore_keeps (l : IntrusiveLinkedList) (h : Heap) (node newNode : Nat) :
    (l.InsertBefore h node newNode).1.nextNode = h.nextNode ∧
    (∀ c, ((l.InsertBefore h node newNode).1.nodes c).Data = (h.nodes c).Data) ∧
    ((l.InsertBefore h node newNode).2.First = l.First ∨
      (l.InsertBefore h node newNode).2.First = some newNode) := by
  unfold InsertBefore
  dsimp only
  split
  · refine ⟨rfl, ?_, Or.inl rfl⟩
    intro c
    simp only [Heap.setNode, Function.update]
    split_ifs <;> simp_all
  · refine ⟨rfl, ?_, Or.inr rfl⟩
    intro c
    simp only [Heap.setNode, Function.update]
    split_ifs <;> simp_all

theorem Append_keeps (l : IntrusiveLinkedList) (h : Heap) (newNode : Nat) :
    (l.Append h newNode).1.nextNode = h.nextNode ∧
    (∀ c, ((l.Append h newNode).1.nodes c).Data = (h.nodes c).Data) ∧
    ((l.Append h newNode).2.First = l.First ∨ (l.Append h newNode).2.First = some newNode) := by
  unfold Append
  split
  · have := InsertAfter_keeps l h ‹Nat› newNode
    exact ⟨this.1, this.2.1, Or.inl this.2.2⟩
  · unfold Prepend
    dsimp only
    split
    · exact InsertBefore_keeps l h _ newNode
    · refine ⟨rfl, ?_, Or.inr rfl⟩
      intro c
      simp only [Heap.setNode, Function.update]
      split_ifs <;> simp_all

end IntrusiveLinkedList

end datastruct

namespace pagelist

namespace PageList

/-- Every page made by `InitPages` has a new style set, and `First` is one of
the nodes made. -/
theorem initPagesLoop_fresh (cap : page.Capacity) : ∀ (fuel rem : Nat) (h : Heap)
    (l : datastruct.IntrusiveLinkedList) (h' : Heap) (l' : datastruct.IntrusiveLinkedList),
    initPagesLoop cap fuel rem (h, l) = Except.ok (h', l') →
    (∀ c, c < h.nextNode → (h.nodes c).Data.Styles = NewRefCountedSet style.Style cap.Styles) →
    (∀ a, l.First = some a → a < h.nextNode) →
    (∀ c, c < h'.nextNode → (h'.nodes c).Data.Styles = NewRefCountedSet style.Style cap.Styles) ∧
    (∀ a, l'.First = some a → a < h'.nextNode) ∧ (rem = 0 → l' = l) := by
  intro fuel
  induction fuel with
  | zero =>
    intro rem h l h' l' he hs hf
    unfold initPagesLoop at he
    by_cases hpos : rem > 0
    · simp only [hpos, ↓reduceIte] at he
      cases he
    · simp only [hpos, ↓reduceIte, terminal.pure_ok, Except.ok.injEq, Prod.mk.injEq] at he
      obtain ⟨e1, e2⟩ := he
      subst e1 e2
      exact ⟨hs, hf, fun _ => rfl⟩
  | succ fuel ih =>
    intro rem h l h' l' he hs hf
    unfold initPagesLoop at he
    by_cases hpos : rem > 0
    · simp only [hpos, ↓reduceIte] at he
      have hk := datastruct.IntrusiveLinkedList.Append_keeps l
        (((page.InitPage h cap).1.newNode (page.InitPage h cap).2).1.setPage
          ((page.InitPage h cap).1.newNode (page.InitPage h cap).2).2
          { (page.InitPage h cap).2 with
            Size := { (page.InitPage h cap).2.Size with
              Rows := min rem (page.InitPage h cap).2.Capacity.Rows } })
        ((page.InitPage h cap).1.newNode (page.InitPage h cap).2).2
      obtain ⟨k1, k2, k3⟩ := hk
      have r := ih _ _ _ h' l' he
        (by
          intro c hc
          have hc2 : c < h.nextNode + 1 := lt_of_lt_of_eq hc k1
          refine Eq.trans (congrArg page.Page.Styles (k2 c)) ?_
          by_cases hceq : c = h.nextNode
          · subst hceq
            simp [Heap.setPage, Heap.setNode, Heap.newNode, page.InitPage]
          · have hlt : c < h.nextNode := by omega
            have hcc : ¬ (c = (page.InitPage h cap).1.nextNode) := hceq
            simp only [Heap.setPage, Heap.setNode, Heap.newNode, Function.update, hcc,
              ↓reduceDIte]
            exact hs c hlt)
        (by
          intro a ha
          have hn : ∀ X : Heap, X.nextNode = h.nextNode + 1 → a < X.nextNode := by
            intro X hX
            rw [hX]
            rcases k3 with k3 | k3
            · have := hf a (k3 ▸ ha)
              omega
            · have h2 := k3 ▸ ha
              have h3 : h.nextNode = a := Option.some.inj h2
              omega
          exact hn _ k1)
      exact ⟨r.1, r.2.1, fun h0 => absurd hpos (by omega)⟩
    · simp only [hpos, ↓reduceIte, terminal.pure_ok, Except.ok.injEq, Prod.mk.injEq] at he
      obtain ⟨e1, e2⟩ := he
      subst e1 e2
      exact ⟨hs, hf, fun _ => rfl⟩

end PageList

end pagelist

namespace pagelist

namespace PageList

theorem Adjust_styles (cols : Nat) (cap : page.Capacity)
    (h : page.StandardCapacity.Adjust { Cols := cols } = some cap) : cap.Styles = 128 := by
  unfold page.Capacity.Adjust at h
  dsimp only at h
  split at h
  · split at h
    · cases h
    · cases h
      rfl
  · cases h
    rfl

/-- The list built by `NewPageList`: `First` is an allocated node, every
allocated node has a new style set of capacity 128, and there are rows. -/
theorem NewPageList_fresh (cols rows : Nat) (p : PageList)
    (hp : NewPageList cols rows = Except.ok p) :
    ∃ l a, p.Pages = some l ∧ l.First = some a ∧ a < p.mem.nextNode ∧
      (∀ c, c < p.mem.nextNode →
        (p.mem.nodes c).Data.Styles = NewRefCountedSet style.Style 128) ∧
      0 < rows ∧ p.Cols = cols := by
  unfold NewPageList InitPages at hp
  cases hadj : page.StandardCapacity.Adjust { Cols := cols } with
  | none =>
    simp [hadj, pages, orPanic, terminal.pure_ok, terminal.ok_bind] at hp
    cases hp
  | some cap =>
    have hst := Adjust_styles cols cap hadj
    cases hloop : initPagesLoop cap rows rows (({} : PageList).mem, {}) with
    | error e =>
      simp only [hadj, hloop] at hp
      cases hp
    | ok r =>
      obtain ⟨h, l⟩ := r
      have hfresh := initPagesLoop_fresh cap rows rows _ _ h l hloop
        (by intro c hc; exact absurd hc (Nat.not_lt_zero _))
        (by intro a ha; cases ha)
      rw [hst] at hfresh
      cases hf : l.First with
      | none =>
        simp [hadj, hloop, hf, Assert, terminal.ok_bind] at hp
        cases hp
      | some a =>
        simp [hadj, hloop, hf, Assert, terminal.ok_bind, terminal.pure_ok, pages, orPanic] at hp
        subst hp
        refine ⟨l, a, rfl, hf, hfresh.2.1 a hf, hfresh.1, ?_, rfl⟩
        by_contra h0
        have hl := hfresh.2.2 (by omega)
        rw [hl] at hf
        cases hf

end PageList

end pagelist

namespace screen

namespace Screen

theorem single_new : (NewRefCountedSet style.Style 128).Single none :=
  ⟨rfl, fun _ => rfl, rfl, rfl, rfl, rfl, fun _ h => (by cases h), fun _ h => (by cases h),
    fun _ h => (by cases h)⟩

/-- The screen built by `NewScreen` with at least one column: default style,
`StyleID = 0`, and a new style set on the page of the cursor. -/
theorem NewScreen_fresh (cols rows : Nat) (s : Screen)
    (hs : NewScreen cols rows = Except.ok s) (hc : 0 < cols) :
    ∃ a, s.StylesSingle a ∧ s.Cursor.StyleID = 0 ∧ s.Cursor.Style = {} := by
  unfold NewScreen at hs
  cases hp : pagelist.PageList.NewPageList cols rows with
  | error e =>
    simp only [hp] at hs
    cases hs
  | ok p =>
    obtain ⟨l, a, h1, h2, h3, h4, h5, h6⟩ := pagelist.PageList.NewPageList_fresh cols rows p hp
    simp only [hp, terminal.ok_bind, pagelist.PageList.pages, h1, terminal.orPanic_some,
      pagelist.PageList.TrackPin, h2] at hs
    cases hr : pagelist.Pin.RowAndCell { Node := some a, X := 0, Y := 0 } p.mem with
    | error e =>
      simp only [hr] at hs
      cases hs
    | ok rc =>
      simp only [hr, terminal.ok_bind, terminal.pure_ok] at hs
      cases hs
      refine ⟨a, ⟨rfl, hc, h5, Or.inl ⟨rfl, none, ?_, fun _ h => by cases h⟩⟩, rfl, rfl⟩
      show RefCountedSet.Single ((p.mem.nodes a).Data.Styles) none
      rw [h4 a h3]
      exact single_new

end Screen

end screen

namespace screen

theorem ok_screenOf (cols rows : Nat) (h : (Screen.NewScreen cols rows).toBool = true) :
    Screen.NewScreen cols rows = Except.ok (screenOf cols rows) := by
  unfold screenOf
  cases hr : Screen.NewScreen cols rows with
  | ok s => rfl
  | error e =>
    rw [hr] at h
    cases h

/-- C32: for the screen `s` built by `NewScreen(cols, rows)` with at least one
column, every hash function of styles and every list of attributes, the
`SetAttribute` calls for the list all return; afterwards the cursor's `StyleID`
is 0 exactly when the cursor style is the default style, and `Count()` of the
style set of the cursor's page is 0 for the default style and 1 otherwise. -/
theorem C32_style_id_and_count (styleHash : style.Style → Nat) (cols rows : Nat) (s : Screen)
    (attrs : List sgr.Attribute) (hs : Screen.NewScreen cols rows = Except.ok s)
    (hc : 0 < cols) :
    ∃ s' a, Screen.setAttributes styleHash s attrs = Except.ok s' ∧
      s'.Cursor.PagePin.Node = some a ∧
      (s'.Cursor.StyleID = 0 ↔ s'.Cursor.Style.IsDefault = true) ∧
      (s'.mem.nodes a).Data.Styles.Count = if s'.Cursor.Style.IsDefault = true then 0 else 1 := by
  obtain ⟨a, h1, h2, h3⟩ := Screen.NewScreen_fresh cols rows s hs hc
  have hi : s.Cursor.StyleID = 0 ↔ s.Cursor.Style.IsDefault = true := by
    rw [h2, h3]
    exact ⟨fun _ => by decide, fun _ => rfl⟩
  obtain ⟨s', e1, e2, e3⟩ := Screen.setAttributes_single styleHash a attrs s h1 hi
  refine ⟨s', a, e1, e2.node, e3, ?_⟩
  rw [Screen.count_single s' a e2]
  by_cases h0 : s'.Cursor.StyleID = 0
  · rw [if_pos h0, if_pos (e3.mp h0)]
  · rw [if_neg h0, if_neg (fun h => h0 (e3.mpr h))]

/-- C32 at the screen of the tests, `NewScreen(80, 24)`, with the attributes
Bold and Italic. -/
theorem C32_style_id_and_count_witness :
    Screen.NewScreen 80 24 = Except.ok (screenOf 80 24) ∧ 0 < 80 ∧
    ∃ s' a, Screen.setAttributes (fun _ => 0) (screenOf 80 24)
        [{ Typ := sgr.AttributeType.AttributeTypeBold },
         { Typ := sgr.AttributeType.AttributeTypeItalic }] = Except.ok s' ∧
      s'.Cursor.PagePin.Node = some a ∧
      (s'.Cursor.StyleID = 0 ↔ s'.Cursor.Style.IsDefault = true) ∧
      (s'.mem.nodes a).Data.Styles.Count = if s'.Cursor.Style.IsDefault = true then 0 else 1 :=
  ⟨ok_screenOf 80 24 (by decide!), by decide,
    C32_style_id_and_count (fun _ => 0) 80 24 (screenOf 80 24) _
      (ok_screenOf 80 24 (by decide!)) (by decide)⟩

end screen

end Termio
